import Mathlib

/-!
# PNA (Passive Network Analyzer): a shallow embedding of the kernel module

The development follows the C sources under `src/module`:

* `pna_hashmap.c`: the two-choice bucketed hash map (`hashmap_reset`,
  `hashmap_hashit`, `hashmap_get`, `hashmap_put`, `hashmap_create` with the
  pool it takes its maps from, `hashmap_destroy`);
* `pna_main.c`: `pna_localize`, the performance sampler `pna_perflog`, the
  packet hook `pna_hook`, and the calls of `pna_init` and `pna_cleanup`;
* `pna_rtmon.c`: the registry `monitors` and the inline loop of `rtmon_hook`;
* `hooks.c`: the three-level flow table (`do_lip_entry`, `do_rip_entry`,
  `do_port_entry`), the direction classification and the table-update /
  threshold sequence of `nf_ses_watch_hook`, and `nf_ses_watch_hook` as
  written.

Conventions of the embedding.

* C arrays are total functions from indices to cells; a pointer into an array
  is the index of the cell; `NULL` is `none`. A block of bytes passed by
  pointer (a key, a value) is the list of its bytes; `memcpy` stores the list
  and `memcmp` compares two lists.
* State is passed explicitly: every operation returns its result together with
  the successor state. The per-CPU table `utab_info[get_cpu_var(utab_index)]`
  is the one table passed in.
* The loops are recursive functions: the probe loops run on the number of
  iterations left (`PROBE_LIMIT` at the start), the bucket loops on the list of
  slot numbers `0 .. BKT_SIZE - 1`, the sizing loop on a bound it cannot reach
  unless the C loop runs for ever.
* `uint32_t` arithmetic of `pna_hashmap.c` is arithmetic on `Nat`, reduced
  modulo `2 ^ 32` where the C expression can wrap.
* The headers `pna.h` and `pna_hashmap.h` are not among the sources. What the
  functions need from them and from the kernel (the table sizes,
  `BITMAP_BITS`, `DIRECTIONS`, the direction codes, `hash_long`, the
  MurmurHash3 routine) is a parameter of the embedding; the record layouts,
  `BKT_SIZE` and the alert kinds are taken from the specification and marked
  so. A bitmap word holds `BITMAP_BITS` bits; the shift
  `1 << hash % BITMAP_BITS` is the shift of an `int` (`slot_bit`), which is
  the single bit `hash % BITMAP_BITS` where `BITMAP_BITS` is at most 32
  (`bitmap_fits_int`). The counter fields of the flow table records are
  natural numbers: their C types are declared in `pna.h`, and the theorems
  about them hold as long as the C fields do not wrap.
* The theorems about the hash map hold for every hash routine. The
  evaluations that depend on the values of the hash use
  `MurmurHash3_x64_128`, written after the published algorithm.

Part I holds the definitions, Part II the theorems.
-/

namespace PNA

/-! ## Part I. Definitions -/

/-! ### pna_hashmap.c -/

/-- A block of bytes handed over by pointer (a key or a value). -/
abbrev Bytes := List Nat

/-- The modulus of `uint32_t` arithmetic. -/
def U32 : Nat := 2 ^ 32

/-- Modelled from the spec: the macro `BKT_SIZE` of `pna_hashmap.h`, which is
not among the sources; the specification fixes `BKT_SIZE = 4`. -/
def BKT_SIZE : Nat := 4

/-- The 128-bit hash routine `MurmurHash3_x64_128(key, len, seed, out)`, of
which `pna_hashmap.c` has only the prototype: it maps the key bytes, the
length and the seed to the two 64-bit words `(out[0], out[1])`. -/
abbrev HashFn := Bytes → Nat → Nat → Nat × Nat

/-- Seed `C0` of `hashmap_hashit`. -/
def C0 : Nat := 0xa96347c5

/-- Seed `C1` of `hashmap_hashit`. -/
def C1 : Nat := 0xe65ac2d3

/-- Modelled from the spec: `struct pna_hashmap` of `pna_hashmap.h` (not among
the sources), with the fields `pna_hashmap.c` reads and writes.  `buckets b i`
is slot `i` of bucket `b`; `pairs x` is the key block and the value block of
pair number `x` (the macro `MAP_PAIR`). -/
structure pna_hashmap where
  n_pairs : Nat
  key_size : Nat
  value_size : Nat
  n_buckets : Nat
  bkt_mask : Nat
  kvx_mask : Nat
  fp_mask : Nat
  next_idx : Nat
  buckets : Nat → Nat → Nat
  pairs : Nat → Bytes × Bytes

/-- The all-zero hash map record (a free entry of the static pool). -/
def pna_hashmap.zero : pna_hashmap :=
  { n_pairs := 0, key_size := 0, value_size := 0, n_buckets := 0, bkt_mask := 0,
    kvx_mask := 0, fp_mask := 0, next_idx := 0,
    buckets := fun _ _ => 0, pairs := fun _ => ([], []) }

/-- Source `hashmap_reset`: both arrays are zeroed and `next_idx` is reset. -/
def hashmap_reset (map : pna_hashmap) : pna_hashmap :=
  { map with
    buckets := fun _ _ => 0
    pairs := fun _ => (List.replicate map.key_size 0, List.replicate map.value_size 0)
    next_idx := 0 }

/-- The doubling loop of `hashmap_create`,
`while (8*map->n_buckets <= map->n_pairs) map->n_buckets <<= 1;`
in `uint32_t` arithmetic.  The first argument bounds the number of iterations;
`none` means the bound was reached. -/
def n_buckets_loop : Nat → Nat → Nat → Option Nat
  | 0, _, _ => none
  | fuel + 1, n_buckets, n_pairs =>
    if (8 * n_buckets) % U32 ≤ n_pairs then
      n_buckets_loop fuel ((n_buckets <<< 1) % U32) n_pairs
    else some n_buckets

/-- Source `hashmap_create`, lines 46 to 80: the initialisation of the pool
entry that was found free (both allocations succeeding).  The loop gets 64
iterations; `n_buckets` starts at `4` and is `0` after 30 doublings, from where
on the loop condition holds for ever, so `none` stands for a loop that does not
end. -/
def hashmap_create_entry (n_pairs key_size value_size : Nat) : Option pna_hashmap :=
  match n_buckets_loop 64 4 n_pairs with
  | none => none
  | some n_buckets =>
    let kvx_mask := ((8 * n_buckets) % U32 + U32 - 1) % U32
    some (hashmap_reset
      { n_pairs := n_pairs, key_size := key_size, value_size := value_size,
        n_buckets := n_buckets,
        bkt_mask := (n_buckets + U32 - 1) % U32,
        kvx_mask := kvx_mask,
        fp_mask := (U32 - 1) ^^^ kvx_mask,
        next_idx := 0,
        buckets := fun _ _ => 0,
        pairs := fun _ => ([], []) })

/-- Source `hashmap_hashit`: the bucket and the fingerprint of a key for hash
function number `func` (seed `C0` when `func` is nonzero, else `C1`). -/
def hashmap_hashit (H : HashFn) (map : pna_hashmap) (key : Bytes) (func : Nat) : Nat × Nat :=
  let out := H key map.key_size (if func ≠ 0 then C0 else C1)
  (out.1 &&& map.bkt_mask, out.2 &&& map.fp_mask)

/-- One of the two scan loops of `hashmap_get` over the slots listed: the pair
index of the first slot whose fingerprint is `fp` and whose pair has the key. -/
def hashmap_scan (map : pna_hashmap) (key : Bytes) (bkt fp : Nat) : List Nat → Option Nat
  | [] => none
  | i :: rest =>
    if (map.buckets bkt i &&& map.fp_mask) = fp ∧
        (map.pairs (map.buckets bkt i &&& map.kvx_mask)).1 = key then
      some (map.buckets bkt i &&& map.kvx_mask)
    else hashmap_scan map key bkt fp rest

/-- Source `hashmap_get`: the index of the pair found (the pointer
`&MAP_PAIR(map, kvx)`), or `none` for `NULL`. -/
def hashmap_get (H : HashFn) (map : pna_hashmap) (key : Bytes) : Option Nat :=
  match hashmap_scan map key (hashmap_hashit H map key 0).1 (hashmap_hashit H map key 0).2
      (List.range BKT_SIZE) with
  | some kvx => some kvx
  | none =>
    hashmap_scan map key (((hashmap_hashit H map key 1).1 + map.n_buckets) % U32)
      (hashmap_hashit H map key 1).2 (List.range BKT_SIZE)

/-- One of the two counting loops of `hashmap_put`: starting from `(n, i0)`,
the number of zero slot words of bucket `b` among the slots listed and the
last such slot. -/
def count_free (map : pna_hashmap) (b : Nat) : List Nat → Nat × Nat → Nat × Nat
  | [], acc => acc
  | i :: rest, acc =>
    count_free map b rest (if map.buckets b i = 0 then (acc.1 + 1, i) else acc)

/-- Source `hashmap_put`: the index of the pair written (the returned pointer
`pair`) or `none` for `NULL`, and the map afterwards.  `next_idx` is below
`n_pairs` where it is incremented, so the increment does not wrap. -/
def hashmap_put (H : HashFn) (map : pna_hashmap) (key value : Bytes) :
    Option Nat × pna_hashmap :=
  if map.next_idx ≥ map.n_pairs then (none, map)
  else
    let b0 := (hashmap_hashit H map key 0).1
    let fp0 := (hashmap_hashit H map key 0).2
    let c0 := count_free map b0 (List.range BKT_SIZE) (0, 0)
    let b1 := ((hashmap_hashit H map key 1).1 + map.n_buckets) % U32
    let fp1 := (hashmap_hashit H map key 1).2
    let c1 := count_free map b1 (List.range BKT_SIZE) (0, 0)
    if c0.1 + c1.1 = 0 then (none, map)
    else
      let idx := map.next_idx
      let pairs := fun x => if x = idx then (key, value) else map.pairs x
      if c0.1 ≥ c1.1 then
        (some idx,
          { map with
            next_idx := idx + 1
            pairs := pairs
            buckets := fun b i =>
              if b = b0 ∧ i = c0.2 then fp0 ||| (idx &&& map.kvx_mask) else map.buckets b i })
      else
        (some idx,
          { map with
            next_idx := idx + 1
            pairs := pairs
            buckets := fun b i =>
              if b = b1 ∧ i = c1.2 then fp1 ||| (idx &&& map.kvx_mask) else map.buckets b i })

/-- The maps reachable from a created or reset map by `hashmap_put` calls. -/
inductive Reachable (H : HashFn) : pna_hashmap → Prop
  | create (n_pairs key_size value_size : Nat) (m : pna_hashmap) :
      hashmap_create_entry n_pairs key_size value_size = some m → Reachable H m
  | reset (m : pna_hashmap) : Reachable H m → Reachable H (hashmap_reset m)
  | put (m : pna_hashmap) (key value : Bytes) :
      Reachable H m → Reachable H (hashmap_put H m key value).2

/-- The map after a list of `hashmap_put` calls. -/
def hashmap_puts (H : HashFn) (map : pna_hashmap) : List (Bytes × Bytes) → pna_hashmap
  | [] => map
  | kv :: rest => hashmap_puts H (hashmap_put H map kv.1 kv.2).2 rest

/-- The number of calls in a list of `hashmap_put` calls that return non-NULL. -/
def hashmap_puts_ok (H : HashFn) (map : pna_hashmap) : List (Bytes × Bytes) → Nat
  | [] => 0
  | kv :: rest =>
    (if (hashmap_put H map kv.1 kv.2).1 = none then 0 else 1) +
      hashmap_puts_ok H (hashmap_put H map kv.1 kv.2).2 rest

/-- Well-formedness of the size fields and of the slot words of a map. -/
structure hashmap_inv (m : pna_hashmap) : Prop where
  masks : ∃ j, j ≤ 32 ∧ m.kvx_mask = 2 ^ j - 1 ∧ m.fp_mask = (U32 - 1) ^^^ m.kvx_mask
  cap : m.n_pairs ≤ m.kvx_mask
  idx_le : m.next_idx ≤ m.n_pairs
  words : ∀ b i, m.buckets b i ≠ 0 → m.buckets b i &&& m.kvx_mask < m.next_idx

/-! ### pna_main.c -/

/-- Modelled from the spec: `struct pna_flowkey` of `pna.h` (not among the
sources), the canonical flow identity. -/
structure pna_flowkey where
  l3_protocol : Nat
  l4_protocol : Nat
  local_ip : Nat
  remote_ip : Nat
  local_port : Nat
  remote_port : Nat
deriving DecidableEq, Repr

/-- What the functions take from `pna.h` and from the kernel, neither of which
is among the sources: the kernel's `hash_long(val, bits)`, the table sizes, the
width `BITMAP_BITS` of a bitmap word, the number `DIRECTIONS` of directions and
the two direction codes. -/
structure pna_consts where
  hash_long : Nat → Nat → Nat
  PNA_LIP_BITS : Nat
  PNA_LIP_ENTRIES : Nat
  PNA_RIP_BITS : Nat
  PNA_RIP_ENTRIES : Nat
  PNA_PORT_BITS : Nat
  PNA_PORT_ENTRIES : Nat
  BITMAP_BITS : Nat
  DIRECTIONS : Nat
  PNA_DIR_OUTBOUND : Nat
  PNA_DIR_INBOUND : Nat

/-- Source `pna_localize`: the return value, the key afterwards and the value
of `*direction` afterwards (`direction` is its value before the call). -/
def pna_localize (P : pna_consts) ( pna_prefix pna_mask : Nat) (key : pna_flowkey)
    (direction : Nat) : Nat × pna_flowkey × Nat :=
  if key.local_ip &&& pna_mask = ( pna_prefix &&& pna_mask) then
    (1, key, P.PNA_DIR_OUTBOUND)
  else if key.remote_ip &&& pna_mask = ( pna_prefix &&& pna_mask) then
    (1,
      { key with
        local_ip := key.remote_ip
        remote_ip := key.local_ip
        local_port := key.remote_port
        remote_port := key.local_port },
      P.PNA_DIR_INBOUND)
  else (0, key, direction)

/-! ### hooks.c -/

/-- Source `PROBE_LIMIT`. -/
def PROBE_LIMIT : Nat := 128

/-- Overwrite cell `i` of an array. -/
def upd {α : Type} (f : Nat → α) (i : Nat) (x : α) : Nat → α :=
  fun j => if j = i then x else f j

/-- Overwrite cell `[i][j]` of a two-dimensional array. -/
def upd2 {α : Type} (f : Nat → Nat → α) (i j : Nat) (x : α) : Nat → Nat → α :=
  fun a b => if a = i ∧ b = j then x else f a b

/-- Modelled from the spec: `struct lip_entry` of `pna.h` (not among the
sources). `dsts` is the bitmap over the RIP table, one word per index. -/
structure lip_entry where
  local_ip : Nat
  ndsts : Nat → Nat
  nsess : Nat → Nat
  dsts : Nat → Nat

/-- Modelled from the spec: `struct rip_entry` of `pna.h` (not among the
sources). The counters are indexed `[direction][proto]`, the bitmap
`prts[proto][word]`. -/
structure rip_entry where
  remote_ip : Nat
  info_bits : Nat
  nprts : Nat → Nat → Nat
  nbytes : Nat → Nat → Nat
  npkts : Nat → Nat → Nat
  prts : Nat → Nat → Nat

/-- Modelled from the spec: `struct port_entry` of `pna.h` (not among the
sources). -/
structure port_entry where
  local_port : Nat
  remote_port : Nat
  info_bits : Nat
  nbytes : Nat → Nat
  npkts : Nat → Nat
  timestamp : Nat

/-- Modelled from the spec: `struct utab_info` of `pna.h` (not among the
sources), the table of the current CPU. `ports` is indexed `[proto][slot]`. -/
structure utab_info where
  lips : Nat → lip_entry
  rips : Nat → rip_entry
  ports : Nat → Nat → port_entry
  nlips : Nat
  nrips : Nat
  nports : Nat
  nlips_missed : Nat
  nrips_missed : Nat
  nports_missed : Nat

/-- The empty table: every cell and every counter is zero. -/
def utab_empty : utab_info :=
  { lips := fun _ =>
      { local_ip := 0, ndsts := fun _ => 0, nsess := fun _ => 0, dsts := fun _ => 0 }
    rips := fun _ =>
      { remote_ip := 0, info_bits := 0, nprts := fun _ _ => 0, nbytes := fun _ _ => 0,
        npkts := fun _ _ => 0, prts := fun _ _ => 0 }
    ports := fun _ _ =>
      { local_port := 0, remote_port := 0, info_bits := 0, nbytes := fun _ => 0,
        npkts := fun _ => 0, timestamp := 0 }
    nlips := 0, nrips := 0, nports := 0
    nlips_missed := 0, nrips_missed := 0, nports_missed := 0 }

/-- Source `do_lip_entry`, lines 94 and 95: the free slot `hash` is claimed
for `local_ip`. -/
def lip_claimed (info : utab_info) (hash local_ip : Nat) : utab_info :=
  { info with
    lips := upd info.lips hash { info.lips hash with local_ip := local_ip }
    nlips := info.nlips + 1 }

/-- Source `do_lip_entry`, line 102: the probe limit was reached. -/
def lip_missed (info : utab_info) : utab_info :=
  { info with nlips_missed := info.nlips_missed + 1 }

/-- The probe loop of `do_lip_entry` with `n` iterations left, at slot `hash`. -/
def lip_probe (P : pna_consts) (info : utab_info) (local_ip : Nat) :
    Nat → Nat → Option Nat × utab_info
  | 0, _ => (none, lip_missed info)
  | n + 1, hash =>
    if local_ip = (info.lips hash).local_ip then (some hash, info)
    else if 0 = (info.lips hash).local_ip then (some hash, lip_claimed info hash local_ip)
    else lip_probe P info local_ip n ((hash + 1) % P.PNA_LIP_ENTRIES)

/-- Source `do_lip_entry`: the index of the level-1 slot returned (`none` for
`NULL`) and the table afterwards. -/
def do_lip_entry (P : pna_consts) (info : utab_info) (local_ip direction : Nat) :
    Option Nat × utab_info :=
  let _ := direction
  lip_probe P info local_ip PROBE_LIMIT (P.hash_long local_ip P.PNA_LIP_BITS)

/-- The value of the C expression `1 << hash % BITMAP_BITS` as a bitmap word.
The literal `1` is an `int` of 32 bits, so the shift is a 32-bit shift: a
count of 32 or more, which occurs when a bitmap word has more than 32 bits,
is undefined in C and is taken modulo 32 by the x86 processor; and `1 << 31`
is the negative `int`, whose conversion to a wider word sets every bit from
31 up. Where `0 < BITMAP_BITS <= 32` the value is the single bit
`hash % BITMAP_BITS`. -/
def slot_bit (P : pna_consts) (hash : Nat) : Nat :=
  if (hash % P.BITMAP_BITS) % 32 = 31 then 2 ^ (max P.BITMAP_BITS 32) - 2 ^ 31
  else 1 <<< ((hash % P.BITMAP_BITS) % 32)

/-- A bitmap word is no wider than an `int`, so that `1 << hash % BITMAP_BITS`
is computed without loss. -/
def bitmap_fits_int (P : pna_consts) : Prop := 0 < P.BITMAP_BITS ∧ P.BITMAP_BITS ≤ 32

instance (P : pna_consts) : Decidable (bitmap_fits_int P) := by
  unfold bitmap_fits_int
  infer_instance

/-- The match test of `do_rip_entry` at slot `hash` (lines 127 and 128): the
slot holds `remote_ip` and its bit is set in the bitmap of the LIP entry. -/
def rip_match (P : pna_consts) (info : utab_info) (lip remote_ip hash : Nat) : Prop :=
  remote_ip = (info.rips hash).remote_ip ∧
    0 ≠ ((info.lips lip).dsts (hash / P.BITMAP_BITS) &&& slot_bit P hash)

instance (P : pna_consts) (info : utab_info) (lip remote_ip hash : Nat) :
    Decidable (rip_match P info lip remote_ip hash) := by
  unfold rip_match
  infer_instance

/-- Source `do_rip_entry`, lines 130 to 136: the matching slot `hash` is
returned; a direction not seen before is counted and recorded. -/
def rip_matched (info : utab_info) (lip hash direction : Nat) : utab_info :=
  if 0 = ((info.rips hash).info_bits &&& (1 <<< direction)) then
    { info with
      lips := upd info.lips lip
        { info.lips lip with
          ndsts := upd (info.lips lip).ndsts direction ((info.lips lip).ndsts direction + 1) }
      rips := upd info.rips hash
        { info.rips hash with info_bits := (info.rips hash).info_bits ||| (1 <<< direction) } }
  else info

/-- Source `do_rip_entry`, lines 143 to 154: the free slot `hash` is claimed
for `remote_ip` by the LIP entry. -/
def rip_claimed (P : pna_consts) (info : utab_info) (lip remote_ip hash direction : Nat) :
    utab_info :=
  { info with
    lips := upd info.lips lip
      { info.lips lip with
        dsts := upd (info.lips lip).dsts (hash / P.BITMAP_BITS)
          ((info.lips lip).dsts (hash / P.BITMAP_BITS) ||| slot_bit P hash)
        ndsts := upd (info.lips lip).ndsts direction ((info.lips lip).ndsts direction + 1) }
    rips := upd info.rips hash
      { info.rips hash with
        remote_ip := remote_ip
        info_bits :=
          ((info.rips hash).info_bits ||| (1 <<< direction)) |||
            (1 <<< (direction + P.DIRECTIONS)) }
    nrips := info.nrips + 1 }

/-- Source `do_rip_entry`, line 162: the probe limit was reached. -/
def rip_missed (info : utab_info) : utab_info :=
  { info with nrips_missed := info.nrips_missed + 1 }

/-- The probe loop of `do_rip_entry` with `n` iterations left, at slot `hash`;
`lip` is the index of the level-1 entry passed in. -/
def rip_probe (P : pna_consts) (info : utab_info) (lip remote_ip direction : Nat) :
    Nat → Nat → Option Nat × utab_info
  | 0, _ => (none, rip_missed info)
  | n + 1, hash =>
    if rip_match P info lip remote_ip hash then (some hash, rip_matched info lip hash direction)
    else if 0 = (info.rips hash).remote_ip then
      (some hash, rip_claimed P info lip remote_ip hash direction)
    else rip_probe P info lip remote_ip direction n ((hash + 1) % P.PNA_RIP_ENTRIES)

/-- Source `do_rip_entry`: the index of the level-2 slot returned (`none` for
`NULL`) and the table afterwards. `lip` is the index of `lip_entry`. -/
def do_rip_entry (P : pna_consts) (info : utab_info) (lip remote_ip direction : Nat) :
    Option Nat × utab_info :=
  rip_probe P info lip remote_ip direction PROBE_LIMIT
    (P.hash_long ((info.lips lip).local_ip ^^^ remote_ip) P.PNA_RIP_BITS)

/-- The match test of `do_port_entry` at slot `hash` (lines 192 to 194): the
slot holds both ports and its bit is set in the `proto` bitmap of the RIP
entry. -/
def port_match (P : pna_consts) (info : utab_info) (rip proto local_port remote_port hash : Nat) :
    Prop :=
  local_port = (info.ports proto hash).local_port ∧
    remote_port = (info.ports proto hash).remote_port ∧
    0 ≠ ((info.rips rip).prts proto (hash / P.BITMAP_BITS) &&& slot_bit P hash)

instance (P : pna_consts) (info : utab_info) (rip proto local_port remote_port hash : Nat) :
    Decidable (port_match P info rip proto local_port remote_port hash) := by
  unfold port_match
  infer_instance

/-- Source `do_port_entry`, lines 196 to 207: the matching slot `hash` is
returned; the byte and packet counters of the RIP entry and of the port entry
are advanced, and a direction not seen before is counted and recorded. -/
def port_matched (info : utab_info) (rip proto hash length direction : Nat) : utab_info :=
  let rip_entry := info.rips rip
  let prt_entry := info.ports proto hash
  let rip1 : PNA.rip_entry :=
    { rip_entry with
      nbytes := upd2 rip_entry.nbytes direction proto (rip_entry.nbytes direction proto + length)
      npkts := upd2 rip_entry.npkts direction proto (rip_entry.npkts direction proto + 1) }
  let prt1 : PNA.port_entry :=
    { prt_entry with
      nbytes := upd prt_entry.nbytes direction (prt_entry.nbytes direction + length)
      npkts := upd prt_entry.npkts direction (prt_entry.npkts direction + 1) }
  if 0 = (prt_entry.info_bits &&& (1 <<< direction)) then
    { info with
      rips := upd info.rips rip
        { rip1 with nprts := upd2 rip1.nprts direction proto (rip1.nprts direction proto + 1) }
      ports := upd2 info.ports proto hash
        { prt1 with info_bits := prt1.info_bits ||| (1 <<< direction) } }
  else
    { info with
      rips := upd info.rips rip rip1
      ports := upd2 info.ports proto hash prt1 }

/-- Source `do_port_entry`, lines 214 to 237: the free slot `hash` is claimed
for the port pair by the RIP entry; `now` is the `tv_sec` that
`do_gettimeofday` returns. -/
def port_claimed (P : pna_consts) (info : utab_info)
    (lip rip proto local_port remote_port hash length direction now : Nat) : utab_info :=
  let rip_entry := info.rips rip
  let prt_entry := info.ports proto hash
  let lip_entry := info.lips lip
  { info with
    lips := upd info.lips lip
      { lip_entry with nsess := upd lip_entry.nsess direction (lip_entry.nsess direction + 1) }
    rips := upd info.rips rip
      { rip_entry with
        prts := upd2 rip_entry.prts proto (hash / P.BITMAP_BITS)
          (rip_entry.prts proto (hash / P.BITMAP_BITS) ||| slot_bit P hash)
        nbytes := upd2 rip_entry.nbytes direction proto
          (rip_entry.nbytes direction proto + length)
        npkts := upd2 rip_entry.npkts direction proto (rip_entry.npkts direction proto + 1)
        nprts := upd2 rip_entry.nprts direction proto (rip_entry.nprts direction proto + 1) }
    ports := upd2 info.ports proto hash
      { prt_entry with
        local_port := local_port
        remote_port := remote_port
        nbytes := upd prt_entry.nbytes direction (prt_entry.nbytes direction + length)
        npkts := upd prt_entry.npkts direction (prt_entry.npkts direction + 1)
        timestamp := now
        info_bits :=
          (prt_entry.info_bits ||| (1 <<< direction)) ||| (1 <<< (direction + P.DIRECTIONS)) }
    nports := info.nports + 1 }

/-- Source `do_port_entry`, line 245: the probe limit was reached. -/
def port_missed (info : utab_info) : utab_info :=
  { info with nports_missed := info.nports_missed + 1 }

/-- The probe loop of `do_port_entry` with `n` iterations left, at slot `hash`;
`lip` and `rip` are the indices of the entries passed in. -/
def port_probe (P : pna_consts) (info : utab_info)
    (lip rip proto local_port remote_port length direction now : Nat) :
    Nat → Nat → Option Nat × utab_info
  | 0, _ => (none, port_missed info)
  | n + 1, hash =>
    if port_match P info rip proto local_port remote_port hash then
      (some hash, port_matched info rip proto hash length direction)
    else if 0 = ((info.ports proto hash).local_port ||| (info.ports proto hash).remote_port) then
      (some hash,
        port_claimed P info lip rip proto local_port remote_port hash length direction now)
    else
      port_probe P info lip rip proto local_port remote_port length direction now n
        ((hash + 1) % P.PNA_PORT_ENTRIES)

/-- Source `do_port_entry`: the index of the level-3 slot returned (in the
table of `proto`; `none` for `NULL`) and the table afterwards. The ports are
16-bit values, so `(remote_port << 16) | local_port` fits the `u32`. -/
def do_port_entry (P : pna_consts) (info : utab_info)
    (lip rip proto local_port remote_port length direction now : Nat) :
    Option Nat × utab_info :=
  port_probe P info lip rip proto local_port remote_port length direction now PROBE_LIMIT
    (P.hash_long ((info.rips rip).remote_ip ^^^ ((remote_port <<< 16) ||| local_port))
      P.PNA_PORT_BITS)

/-- The slot the probe loops look at after `j` steps from `hash` in a table of
`entries` slots: `hash = (hash + 1) % entries`, `j` times. -/
def probe_slot (entries hash : Nat) : Nat → Nat
  | 0 => hash
  | j + 1 => probe_slot entries ((hash + 1) % entries) j

/-- An instance of the hash parameter for the concrete evaluations below: every
key goes to bucket `0` on both sides (`out[0] = 0`) and `out[1]` is `32` times
the first key byte, whatever the seed. -/
def example_hash : HashFn := fun key _ _ => (0, 32 * key.headD 0)

/-- The map `hashmap_create(4, 1, 1)` builds: `n_buckets = 4`, masks `3`, `31`
and `0xffffffe0`. -/
def example_map : pna_hashmap :=
  hashmap_reset
    { n_pairs := 4, key_size := 1, value_size := 1, n_buckets := 4, bkt_mask := 3,
      kvx_mask := 31, fp_mask := 0xffffffe0, next_idx := 0,
      buckets := fun _ _ => 0, pairs := fun _ => ([], []) }

/-- The map `hashmap_create(16, 1, 1)` builds: `n_buckets = 4`, masks `3`,
`31` and `0xffffffe0`. -/
def example_map16 : pna_hashmap :=
  hashmap_reset
    { n_pairs := 16, key_size := 1, value_size := 1, n_buckets := 4, bkt_mask := 3,
      kvx_mask := 31, fp_mask := 0xffffffe0, next_idx := 0,
      buckets := fun _ _ => 0, pairs := fun _ => ([], []) }

/-- The map after key `[0]` (whose fingerprint under `example_hash` is `0`) was
put first and the keys `[1]` to `[7]` after it, each with value `[9]`. -/
def example_map16_filled : pna_hashmap :=
  hashmap_puts example_hash example_map16
    [([0], [9]), ([1], [9]), ([2], [9]), ([3], [9]), ([4], [9]), ([5], [9]), ([6], [9]),
     ([7], [9])]

/-- Whether a `do_lip_entry` call finds an existing entry: it returns a slot
that held `local_ip` already before the call. -/
def lip_found (P : pna_consts) (info : utab_info) (local_ip direction : Nat) : Bool :=
  match (do_lip_entry P info local_ip direction).1 with
  | some h => decide ((info.lips h).local_ip = local_ip)
  | none => false

/-- The table after a list of `do_lip_entry(local_ip, direction)` calls. -/
def do_lip_entries (P : pna_consts) (info : utab_info) : List (Nat × Nat) → utab_info
  | [] => info
  | c :: rest => do_lip_entries P (do_lip_entry P info c.1 c.2).2 rest

/-- The number of insertion attempts in a list of `do_lip_entry` calls: the
calls that did not find an existing entry. -/
def lip_insert_attempts (P : pna_consts) (info : utab_info) : List (Nat × Nat) → Nat
  | [] => 0
  | c :: rest =>
    (if lip_found P info c.1 c.2 then 0 else 1) +
      lip_insert_attempts P (do_lip_entry P info c.1 c.2).2 rest

/-- The number of occupied slots (`local_ip != 0`) of the level-1 table. -/
def lip_occupied (P : pna_consts) (info : utab_info) : Nat :=
  ((Finset.range P.PNA_LIP_ENTRIES).filter (fun h => (info.lips h).local_ip ≠ 0)).card

/-- An instance of the constants for the concrete evaluations below:
`hash_long` is the kernel's 32-bit `hash_32` (multiplication by
`GOLDEN_RATIO_PRIME_32 = 0x9e370001` modulo `2 ^ 32`, of which the top `bits`
bits are kept), every table has `2 ^ 4` slots, a bitmap word has 32 bits, and
the directions are coded `OUTBOUND = 0`, `INBOUND = 1`. -/
def example_consts : pna_consts :=
  { hash_long := fun val bits => ((val * 0x9e370001) % 2 ^ 32) >>> (32 - bits)
    PNA_LIP_BITS := 4, PNA_LIP_ENTRIES := 16
    PNA_RIP_BITS := 4, PNA_RIP_ENTRIES := 16
    PNA_PORT_BITS := 4, PNA_PORT_ENTRIES := 16
    BITMAP_BITS := 32, DIRECTIONS := 2
    PNA_DIR_OUTBOUND := 0, PNA_DIR_INBOUND := 1 }

/-- A call of one of the three table functions of `hooks.c`, with its
arguments (entry pointers are slot indices). -/
inductive utab_call where
  | lip (local_ip direction : Nat)
  | rip (lip remote_ip direction : Nat)
  | port (lip rip proto local_port remote_port length direction now : Nat)

/-- The slot returned by a call and the table after it. -/
def utab_step (P : pna_consts) (info : utab_info) : utab_call → Option Nat × utab_info
  | .lip local_ip direction => do_lip_entry P info local_ip direction
  | .rip lip remote_ip direction => do_rip_entry P info lip remote_ip direction
  | .port lip rip proto local_port remote_port length direction now =>
    do_port_entry P info lip rip proto local_port remote_port length direction now

/-- The table after a list of calls. -/
def utab_run (P : pna_consts) (info : utab_info) : List utab_call → utab_info
  | [] => info
  | c :: rest => utab_run P (utab_step P info c).2 rest

/-- Book-keeping of who claimed a RIP slot: a `do_rip_entry` call on the LIP
entry `lip` that returns a slot whose `remote_ip` was `0` before the call
makes `lip` the claimer of that slot. -/
def rip_claim_step (P : pna_consts) (info : utab_info) (c : utab_call)
    (claimer : Nat → Option Nat) : Nat → Option Nat :=
  match c with
  | .rip lip remote_ip direction =>
    match (do_rip_entry P info lip remote_ip direction).1 with
    | some h => if (info.rips h).remote_ip = 0 then upd claimer h (some lip) else claimer
    | none => claimer
  | _ => claimer

/-- The claimer of every RIP slot after a list of calls. -/
def rip_claimers (P : pna_consts) (info : utab_info) (claimer : Nat → Option Nat) :
    List utab_call → Nat → Option Nat
  | [] => claimer
  | c :: rest => rip_claimers P (utab_step P info c).2 (rip_claim_step P info c claimer) rest

/-- Every occupied RIP slot has a claimer whose bitmap has the bit of the slot. -/
def rip_owned (P : pna_consts) (info : utab_info) (claimer : Nat → Option Nat) : Prop :=
  ∀ h, (info.rips h).remote_ip ≠ 0 →
    ∃ L, claimer h = some L ∧ 0 ≠ ((info.lips L).dsts (h / P.BITMAP_BITS) &&& slot_bit P h)

/-- The ownership test of `do_port_entry`: the bit of port slot `h` is set in
the `proto` bitmap of RIP entry `rip`. -/
def port_bit (P : pna_consts) (info : utab_info) (rip proto h : Nat) : Prop :=
  0 ≠ ((info.rips rip).prts proto (h / P.BITMAP_BITS) &&& slot_bit P h)

instance (P : pna_consts) (info : utab_info) (rip proto h : Nat) :
    Decidable (port_bit P info rip proto h) := by
  unfold port_bit
  infer_instance

/-- The free test of `do_port_entry`: both ports of the slot are zero. -/
def port_free (info : utab_info) (proto h : Nat) : Prop :=
  (info.ports proto h).local_port = 0 ∧ (info.ports proto h).remote_port = 0

/-- The sum of `npkts[d]` over the slots of port table `proto` whose ownership
bit is set in `rip.prts[proto]`. -/
def port_npkts_sum (P : pna_consts) (info : utab_info) (rip proto d : Nat) : Nat :=
  ∑ h ∈ Finset.range P.PNA_PORT_ENTRIES,
    if port_bit P info rip proto h then (info.ports proto h).npkts d else 0

/-- The sum of `nbytes[d]` over the slots of port table `proto` whose ownership
bit is set in `rip.prts[proto]`. -/
def port_nbytes_sum (P : pna_consts) (info : utab_info) (rip proto d : Nat) : Nat :=
  ∑ h ∈ Finset.range P.PNA_PORT_ENTRIES,
    if port_bit P info rip proto h then (info.ports proto h).nbytes d else 0

/-- A call that is not a `do_port_entry` call with both ports zero. -/
def utab_call.ports_nonzero : utab_call → Prop
  | .port _ _ _ local_port remote_port _ _ _ => ¬ (local_port = 0 ∧ remote_port = 0)
  | _ => True

instance (c : utab_call) : Decidable c.ports_nonzero := by
  cases c <;> unfold utab_call.ports_nonzero <;> infer_instance

/-- The invariant behind the conservation of the packet and byte counters:
free port slots are unowned and have zero counters, an owned slot has one
owner and lies inside the table, and the counters of every RIP entry are the
sums over the slots it owns. -/
structure port_inv (P : pna_consts) (info : utab_info) : Prop where
  free_unowned : ∀ p h R, port_free info p h → ¬ port_bit P info R p h
  free_zero : ∀ p h d, port_free info p h →
    (info.ports p h).npkts d = 0 ∧ (info.ports p h).nbytes d = 0
  excl : ∀ p h R R', port_bit P info R p h → port_bit P info R' p h → R = R'
  range : ∀ p h R, port_bit P info R p h → h < P.PNA_PORT_ENTRIES
  pkts : ∀ R p d, port_npkts_sum P info R p d = (info.rips R).npkts d p
  bytes : ∀ R p d, port_nbytes_sum P info R p d = (info.rips R).nbytes d p

/-- Two local hosts `10.0.0.1` and `10.0.0.2` (LIP slots 10 and 4 under
`example_consts`) each send a packet with both ports zero to `8.8.8.8` (RIP
slots 4 and 14): the calls `nf_ses_watch_hook` would make for the two packets. -/
def zero_port_calls : List utab_call :=
  [.lip 0x0a000001 0, .rip 10 0x08080808 0, .port 10 4 0 0 0 100 0 1000,
   .lip 0x0a000002 0, .rip 4 0x08080808 0, .port 4 14 0 0 0 60 0 1000]

/-- One local host sends two packets with ports `1000` and `443` and one with
ports `1001` and `443` to `8.8.8.8`. -/
def nonzero_port_calls : List utab_call :=
  [.lip 0x0a000001 0, .rip 10 0x08080808 0, .port 10 4 0 1000 443 100 0 1000,
   .lip 0x0a000001 0, .rip 10 0x08080808 0, .port 10 4 0 1000 443 60 0 1001,
   .lip 0x0a000001 0, .rip 10 0x08080808 0, .port 10 4 0 1001 443 40 0 1002]

/-- The table after a list of `do_rip_entry(lip, remote_ip, direction)` calls
on the LIP entry `lip`; a call is the pair `(remote_ip, direction)`. -/
def do_rip_entries (P : pna_consts) (info : utab_info) (lip : Nat) :
    List (Nat × Nat) → utab_info
  | [] => info
  | c :: rest => do_rip_entries P (do_rip_entry P info lip c.1 c.2).2 lip rest

/-- Whether none of the `do_rip_entry` calls of the list returns `NULL`. -/
def rip_entries_ok (P : pna_consts) (info : utab_info) (lip : Nat) : List (Nat × Nat) → Bool
  | [] => true
  | c :: rest =>
    (do_rip_entry P info lip c.1 c.2).1.isSome &&
      rip_entries_ok P (do_rip_entry P info lip c.1 c.2).2 lip rest

/-- The set of remote IPs passed with direction `d` in a list of calls. -/
def dsts_seen (calls : List (Nat × Nat)) (d : Nat) : Finset Nat :=
  ((calls.filter (fun c => c.2 = d)).map Prod.fst).toFinset

/-- The invariant of a run of `do_rip_entry` calls on the LIP entry `lip`
whose address is `ip`, after the calls `seen`: free slots carry no direction
bits; an occupied slot is owned by `lip`, sits on the probe path of its
address behind occupied slots of other addresses, and records exactly the
directions its address was passed with; every address passed has a slot; and
`ndsts[d]` counts the addresses passed with direction `d`. -/
structure rip_inv (P : pna_consts) (info : utab_info) (lip ip : Nat)
    (seen : List (Nat × Nat)) : Prop where
  addr : (info.lips lip).local_ip = ip
  free_clean : ∀ h, (info.rips h).remote_ip = 0 → (info.rips h).info_bits = 0
  occ_bit : ∀ h, (info.rips h).remote_ip ≠ 0 →
    0 ≠ ((info.lips lip).dsts (h / P.BITMAP_BITS) &&& slot_bit P h)
  path : ∀ h, (info.rips h).remote_ip ≠ 0 →
    ∃ j, j < PROBE_LIMIT ∧
      h = probe_slot P.PNA_RIP_ENTRIES
        (P.hash_long (ip ^^^ (info.rips h).remote_ip) P.PNA_RIP_BITS) j ∧
      ∀ i, i < j →
        (info.rips (probe_slot P.PNA_RIP_ENTRIES
          (P.hash_long (ip ^^^ (info.rips h).remote_ip) P.PNA_RIP_BITS) i)).remote_ip ≠ 0 ∧
        (info.rips (probe_slot P.PNA_RIP_ENTRIES
          (P.hash_long (ip ^^^ (info.rips h).remote_ip) P.PNA_RIP_BITS) i)).remote_ip ≠
          (info.rips h).remote_ip
  dirs : ∀ h d, (info.rips h).remote_ip ≠ 0 → d < P.DIRECTIONS →
    ((info.rips h).info_bits.testBit d = true ↔ ((info.rips h).remote_ip, d) ∈ seen)
  present : ∀ c ∈ seen, c.1 ≠ 0 ∧ ∃ h, (info.rips h).remote_ip = c.1
  count : ∀ d, d < P.DIRECTIONS → (info.lips lip).ndsts d = (dsts_seen seen d).card

/-- Modelled from the spec: the alert kinds `PNA_MSG_BLOCK` and
`PNA_MSG_WHITELIST` of `pna.h` (not among the sources). -/
inductive pna_msg where
  | PNA_MSG_BLOCK
  | PNA_MSG_WHITELIST
deriving DecidableEq, Repr

/-- One call `session_action(kind, ip, reason)` as the alert sink receives it. -/
structure pna_alert where
  kind : pna_msg
  ip : Nat
  reason : String
deriving DecidableEq, Repr

/-- The configuration settings of `hooks.c` the threshold chain reads. -/
structure pna_settings where
  pna_connections : Nat
  pna_sessions : Nat
  pna_ports : Nat
  pna_bytes : Nat
  pna_packets : Nat

/-- The collaborator `session_action` (not among the sources): the alert sink,
which records every call in order. -/
def session_action (log : List pna_alert) (kind : pna_msg) (ip : Nat) (reason : String) :
    List pna_alert :=
  log ++ [{ kind := kind, ip := ip, reason := reason }]

/-- Source `nf_ses_watch_hook`, lines 420 to 483: the table-update and
threshold sequence, from the LIP lookup onward. It returns the table and the
alert log afterwards (the return value is `NF_DROP` on every path); `now` is
the time `do_port_entry` reads. -/
def nf_ses_watch_chain (P : pna_consts) (S : pna_settings) (info : utab_info)
    (log : List pna_alert)
    (local_ip remote_ip proto local_port remote_port pkt_len direction now : Nat) :
    utab_info × List pna_alert :=
  match do_lip_entry P info local_ip direction with
  | (none, info1) => (info1, log)
  | (some lip, info1) =>
    if (info1.lips lip).ndsts P.PNA_DIR_OUTBOUND ≥ S.pna_connections then
      (info1, session_action log .PNA_MSG_BLOCK local_ip "too many connections")
    else
      match do_rip_entry P info1 lip remote_ip direction with
      | (none, info2) => (info2, log)
      | (some rip, info2) =>
        if (info2.rips rip).nprts P.PNA_DIR_OUTBOUND proto ≥ S.pna_ports then
          (info2, session_action log .PNA_MSG_BLOCK local_ip "too many ports")
        else if (info2.rips rip).nbytes P.PNA_DIR_OUTBOUND proto ≥ S.pna_bytes then
          (info2, session_action log .PNA_MSG_BLOCK local_ip "too many bytes")
        else if (info2.rips rip).npkts P.PNA_DIR_OUTBOUND proto ≥ S.pna_packets then
          (info2, session_action log .PNA_MSG_BLOCK local_ip "too many packets")
        else
          match do_port_entry P info2 lip rip proto local_port remote_port pkt_len direction
              now with
          | (none, info3) => (info3, log)
          | (some _, info3) =>
            if (info3.lips lip).nsess P.PNA_DIR_OUTBOUND ≥ S.pna_sessions then
              (info3, session_action log .PNA_MSG_BLOCK local_ip "too many sessions")
            else if (info3.lips lip).nsess P.PNA_DIR_INBOUND ≥ S.pna_sessions then
              (info3, session_action log .PNA_MSG_WHITELIST local_ip "external scan")
            else (info3, log)

/-- The map `hashmap_create(1024, 8, 8)` builds: `n_buckets = 256`, masks
`255`, `2047` and `0xfffff800`. -/
def example_map1024 : pna_hashmap :=
  hashmap_reset
    { n_pairs := 1024, key_size := 8, value_size := 8, n_buckets := 256, bkt_mask := 255,
      kvx_mask := 2047, fp_mask := 0xfffff800, next_idx := 0,
      buckets := fun _ _ => 0, pairs := fun _ => ([], []) }

/-- The three table calls `nf_ses_watch_hook` makes for one packet (lines 420,
432 and 458), in order and without the threshold tests between them: the
slots returned by `do_lip_entry`, `do_rip_entry` and `do_port_entry` (`none`
as soon as one of them returns `NULL`) and the table afterwards. -/
def do_flow_entries (P : pna_consts) (info : utab_info)
    (local_ip remote_ip proto local_port remote_port length direction now : Nat) :
    Option (Nat × Nat × Nat) × utab_info :=
  match do_lip_entry P info local_ip direction with
  | (none, info1) => (none, info1)
  | (some lip, info1) =>
    match do_rip_entry P info1 lip remote_ip direction with
    | (none, info2) => (none, info2)
    | (some rip, info2) =>
      match do_port_entry P info2 lip rip proto local_port remote_port length direction
          now with
      | (none, info3) => (none, info3)
      | (some prt, info3) => (some (lip, rip, prt), info3)

/-- The values returned by a list of `do_lip_entry(local_ip, direction)` calls,
in order. -/
def do_lip_results (P : pna_consts) (info : utab_info) : List (Nat × Nat) → List (Option Nat)
  | [] => []
  | c :: rest =>
    (do_lip_entry P info c.1 c.2).1 :: do_lip_results P (do_lip_entry P info c.1 c.2).2 rest

/-- The first `k` slots of the probe path from `h0` are occupied by addresses
of `pre`, and every slot off that stretch is free. -/
structure lip_filled (P : pna_consts) (info : utab_info) (h0 k : Nat) (pre : List Nat) :
    Prop where
  occ : ∀ j, j < k →
    (info.lips (probe_slot P.PNA_LIP_ENTRIES h0 j)).local_ip ≠ 0 ∧
      (info.lips (probe_slot P.PNA_LIP_ENTRIES h0 j)).local_ip ∈ pre
  free : ∀ x, (∀ j, j < k → x ≠ probe_slot P.PNA_LIP_ENTRIES h0 j) → (info.lips x).local_ip = 0

/-- An instance of the constants with a level-1 table of `2 ^ 8` slots; the
rest is as in `example_consts`. -/
def example_consts_lip256 : pna_consts :=
  { hash_long := fun val bits => ((val * 0x9e370001) % 2 ^ 32) >>> (32 - bits)
    PNA_LIP_BITS := 8, PNA_LIP_ENTRIES := 256
    PNA_RIP_BITS := 4, PNA_RIP_ENTRIES := 16
    PNA_PORT_BITS := 4, PNA_PORT_ENTRIES := 16
    BITMAP_BITS := 32, DIRECTIONS := 2
    PNA_DIR_OUTBOUND := 0, PNA_DIR_INBOUND := 1 }

/-- Outbound calls for 130 distinct nonzero local addresses that `hash_32`
sends to slot 0 of a table of `2 ^ 8` slots: address number `i` is
`(i + 1) * 0x61c90001 mod 2 ^ 32`, and `0x61c90001 * 0x9e370001 = 1` modulo
`2 ^ 32`, so its product with `0x9e370001` is `i + 1`. -/
def example_lip_calls : List (Nat × Nat) :=
  (List.range 130).map (fun i => (((i + 1) * 0x61c90001) % 2 ^ 32, 0))

/-- The table after the first packet of a flow on the empty table: outbound
TCP `10.0.0.1:1000` to `8.8.8.8:443`, 100 bytes, at time 1. -/
def example_flow_table : utab_info :=
  (do_flow_entries example_consts utab_empty 0x0a000001 0x08080808 6 1000 443 100 0 1).2

/-- A packet as the threshold chain of `nf_ses_watch_hook` sees it: the values
of the local variables at line 420, and the time `do_port_entry` reads. -/
structure chain_packet where
  local_ip : Nat
  remote_ip : Nat
  proto : Nat
  local_port : Nat
  remote_port : Nat
  pkt_len : Nat
  direction : Nat
  now : Nat

/-- The table and the alert log after the chain has run on a list of packets,
one call of the hook per packet. -/
def nf_ses_watch_packets (P : pna_consts) (S : pna_settings) :
    utab_info × List pna_alert → List chain_packet → utab_info × List pna_alert
  | st, [] => st
  | st, k :: rest =>
    nf_ses_watch_packets P S
      (nf_ses_watch_chain P S st.1 st.2 k.local_ip k.remote_ip k.proto k.local_port
        k.remote_port k.pkt_len k.direction k.now) rest

/-- The table after one inbound TCP packet whose two ports are 0, from remote
`9.179.11.224` to `10.0.0.1`, on the empty table. Its port entry sits in slot
13, the slot of the flow of `example_flow_table`, and still has both ports 0. -/
def example_zero_port_table : utab_info :=
  (do_flow_entries example_consts utab_empty 0x0a000001 0x09b30be0 6 0 0 40 1 1).2

/-- The table after the outbound TCP packet `10.0.0.1:1000` to `8.8.8.8:443`,
100 bytes, on `example_zero_port_table`. -/
def example_zero_port_flow : utab_info :=
  (do_flow_entries example_consts example_zero_port_table 0x0a000001 0x08080808 6 1000 443
    100 0 2).2

/-- The shape `hashmap_create` gives a map: `n_buckets` is a power of two from
4 to `2 ^ 28`, the masks are `n_buckets - 1`, `8 * n_buckets - 1` and the
32-bit complement of the latter, and `n_pairs` is below `8 * n_buckets`. -/
structure hashmap_geom (m : pna_hashmap) : Prop where
  shape : ∃ b, 2 ≤ b ∧ b < 29 ∧ m.n_buckets = 2 ^ b ∧ m.bkt_mask = 2 ^ b - 1 ∧
    m.kvx_mask = 2 ^ (b + 3) - 1 ∧ m.fp_mask = (U32 - 1) ^^^ (2 ^ (b + 3) - 1) ∧
    m.n_pairs < 2 ^ (b + 3)

/-- The pair indices `hashmap_get` passes to `memcmp` in one of its two scan
loops, in order: one for every slot whose fingerprint bits equal `fp`, up to
and including the first whose pair has the key. -/
def hashmap_scan_derefs (map : pna_hashmap) (key : Bytes) (bkt fp : Nat) : List Nat → List Nat
  | [] => []
  | i :: rest =>
    if (map.buckets bkt i &&& map.fp_mask) = fp then
      if (map.pairs (map.buckets bkt i &&& map.kvx_mask)).1 = key then
        [map.buckets bkt i &&& map.kvx_mask]
      else (map.buckets bkt i &&& map.kvx_mask) :: hashmap_scan_derefs map key bkt fp rest
    else hashmap_scan_derefs map key bkt fp rest

/-- The pair indices `hashmap_get` dereferences (`&MAP_PAIR(map, kvx)`), in
order: those of the scan of the left bucket, then, when that scan found
nothing, those of the scan of the right bucket. -/
def hashmap_get_derefs (H : HashFn) (map : pna_hashmap) (key : Bytes) : List Nat :=
  hashmap_scan_derefs map key (hashmap_hashit H map key 0).1 (hashmap_hashit H map key 0).2
      (List.range BKT_SIZE) ++
    match hashmap_scan map key (hashmap_hashit H map key 0).1 (hashmap_hashit H map key 0).2
        (List.range BKT_SIZE) with
    | some _ => []
    | none =>
      hashmap_scan_derefs map key (((hashmap_hashit H map key 1).1 + map.n_buckets) % U32)
        (hashmap_hashit H map key 1).2 (List.range BKT_SIZE)

/-- The bucket rows `hashmap_get` indexes `map->buckets` with: the left one,
and the right one when the left scan found nothing. -/
def hashmap_get_bkts (H : HashFn) (map : pna_hashmap) (key : Bytes) : List Nat :=
  (hashmap_hashit H map key 0).1 ::
    match hashmap_scan map key (hashmap_hashit H map key 0).1 (hashmap_hashit H map key 0).2
        (List.range BKT_SIZE) with
    | some _ => []
    | none => [((hashmap_hashit H map key 1).1 + map.n_buckets) % U32]

/-- The map `hashmap_create(16, 1, 1)` after the puts of key `[1]` and then of
key `[0]`, whose fingerprint under `example_hash` is `0`. -/
def example_map16_two : pna_hashmap :=
  hashmap_puts example_hash example_map16 [([1], [9]), ([0], [9])]

/-- The search loop of `hashmap_create` (lines 36 to 40) with `k` entries
left to look at, at entry `i`: the entry it breaks at, or the index after the
last entry. -/
def hashmap_find_free (pool : Nat → pna_hashmap) : Nat → Nat → Nat
  | 0, i => i
  | k + 1, i => if (pool i).n_pairs = 0 then i else hashmap_find_free pool k (i + 1)

/-- Source `hashmap_create` on the pool `hashmaps[PNA_NHASHMAPS]` (the size
`PNA_NHASHMAPS` is declared in `pna_hashmap.h`, which is not among the
sources, and is a parameter). `buckets_ok` and `pairs_ok` tell whether
`vmalloc` and `vmalloc_user` return memory. The result is `none` when the
sizing loop does not end; otherwise the index of the entry returned (`none`
for `NULL`) and the pool afterwards. A `NULL` from an allocation leaves the
entry with the fields already written. -/
def hashmap_create (PNA_NHASHMAPS : Nat) (pool : Nat → pna_hashmap)
    (n_pairs key_size value_size : Nat) (buckets_ok pairs_ok : Bool) :
    Option (Option Nat × (Nat → pna_hashmap)) :=
  let i := hashmap_find_free pool PNA_NHASHMAPS 0
  if i = PNA_NHASHMAPS then some (none, pool)
  else
    match n_buckets_loop 64 4 n_pairs with
    | none => none
    | some n_buckets =>
      let kvx_mask := ((8 * n_buckets) % U32 + U32 - 1) % U32
      let map : pna_hashmap :=
        { pool i with
          n_pairs := n_pairs, key_size := key_size, value_size := value_size,
          n_buckets := n_buckets,
          bkt_mask := (n_buckets + U32 - 1) % U32,
          kvx_mask := kvx_mask,
          fp_mask := (U32 - 1) ^^^ kvx_mask }
      if buckets_ok = false then some (none, upd pool i map)
      else if pairs_ok = false then some (none, upd pool i map)
      else some (some i, upd pool i (hashmap_reset { map with next_idx := 0 }))

/-- Source `hashmap_destroy`, on entry `i` of the pool. -/
def hashmap_destroy (pool : Nat → pna_hashmap) (i : Nat) : Nat → pna_hashmap :=
  upd pool i
    { hashmap_reset (pool i) with
      fp_mask := 0, kvx_mask := 0, bkt_mask := 0, n_buckets := 0,
      key_size := 0, value_size := 0, n_pairs := 0 }

/-- A list of `hashmap_create(n_pairs, key_size, value_size)` calls, one after
the other, every allocation succeeding: the values returned and the pool
afterwards (`none` when one of the calls does not return). -/
def hashmap_creates (PNA_NHASHMAPS : Nat) :
    (Nat → pna_hashmap) → List (Nat × Nat × Nat) → Option (List (Option Nat) × (Nat → pna_hashmap))
  | pool, [] => some ([], pool)
  | pool, r :: rest =>
    match hashmap_create PNA_NHASHMAPS pool r.1 r.2.1 r.2.2 true true with
    | none => none
    | some (res, pool1) =>
      match hashmap_creates PNA_NHASHMAPS pool1 rest with
      | none => none
      | some (l, pool2) => some (res :: l, pool2)

/-- The pool at module load: static storage, every field zero. -/
def hashmap_pool_zero : Nat → pna_hashmap := fun _ => pna_hashmap.zero

/-- The entries of the pool that are in use (`n_pairs != 0`). -/
def hashmap_pool_used (PNA_NHASHMAPS : Nat) (pool : Nat → pna_hashmap) : Finset Nat :=
  (Finset.range PNA_NHASHMAPS).filter (fun i => (pool i).n_pairs ≠ 0)

/-! ### pna_main.c: the performance sampler -/

/-- The kernel's `struct timeval` as far as the sampler uses it. -/
structure timeval where
  tv_sec : Int
  tv_usec : Int
deriving DecidableEq, Repr

/-- Source `struct pna_perf`, the per-CPU `perf_data`. The two counter arrays
have `PNA_DIRECTIONS` cells and are indexed by the direction code. -/
structure pna_perf where
  t_jiffies : Nat
  currtime : timeval
  prevtime : timeval
  p_interval : Nat → Nat
  B_interval : Nat → Nat
  dev_last_rx : Nat
  dev_last_fifo : Nat

/-- What `pna_perflog` takes from the kernel, which is not among the sources:
`MSEC_PER_SEC`, the routine `msecs_to_jiffies`, the number of values of an
`unsigned long`, and whether `LINUX_VERSION_CODE >= KERNEL_VERSION(2,6,37)`
holds (the per-device statistics are compiled in). -/
structure perf_kernel where
  MSEC_PER_SEC : Nat
  msecs_to_jiffies : Nat → Nat
  ULONG_SIZE : Nat
  stats64 : Bool

/-- What one call of `pna_perflog` reads from the kernel: `get_jiffies_64()`
at line 234, `do_gettimeofday` at line 237, the device statistics
`dev_get_stats` returns at line 272 and `get_jiffies_64()` at line 287. -/
structure perf_reading where
  jiffies_test : Nat
  now : timeval
  rx_packets : Nat
  rx_fifo_errors : Nat
  jiffies_set : Nat

/-- The lines `pna_perflog` prints, with the values of their format arguments
(the processor number apart). -/
inductive perf_line where
  | throughput (fps_in Mbps_in avg_in fps_out Mbps_out avg_out : Nat)
  | rx_stats (packets fifo_errors : Nat)
deriving DecidableEq, Repr

/-- Number of values of a `__u64`. -/
def U64 : Nat := 2 ^ 64

/-- Source `time_after_eq64(a, b)`: `(__s64)(a) - (__s64)(b) >= 0`, the
difference taken modulo `2 ^ 64` and read as a signed number. -/
def time_after_eq64 (a b : Nat) : Bool :=
  decide ((a % U64 + U64 - b % U64) % U64 < 2 ^ 63)

/-- Source `ETH_INTERFRAME_GAP`. -/
def ETH_INTERFRAME_GAP : Nat := 12

/-- Source `ETH_PREAMBLE`. -/
def ETH_PREAMBLE : Nat := 8

/-- Source `ETH_OVERHEAD`. -/
def ETH_OVERHEAD : Nat := ETH_INTERFRAME_GAP + ETH_PREAMBLE

/-- Source `PERF_INTERVAL`. -/
def PERF_INTERVAL : Nat := 10

/-- Source `pna_perflog`, lines 246 to 251 (and 256 to 261): the average frame
size of a direction with packet counter `p` and byte counter `B`, in `__u32`
arithmetic. -/
def perf_avg (p B : Nat) : Nat :=
  if p ≠ 0 then (B / p + U32 - ETH_OVERHEAD) % U32 else 0

/-- Source `pna_perflog`, lines 234 to 288: the sampling block, entered when
the test of line 234 holds. The result is `none` when a division of lines 243
to 255 has divisor 0 (the processor traps), else the record and the lines
printed. -/
def perf_sample (P : pna_consts) (K : perf_kernel) (perf : pna_perf) (R : perf_reading) :
    Option (pna_perf × List perf_line) :=
  let t_interval := ((R.now.tv_sec - perf.prevtime.tv_sec) % (U32 : Int)).toNat
  if t_interval = 0 then none
  else
    let fps_in := perf.p_interval P.PNA_DIR_INBOUND / t_interval
    let Mbps_in := perf.B_interval P.PNA_DIR_INBOUND / 125000 / t_interval
    let avg_in := perf_avg (perf.p_interval P.PNA_DIR_INBOUND) (perf.B_interval P.PNA_DIR_INBOUND)
    let fps_out := perf.p_interval P.PNA_DIR_OUTBOUND / t_interval
    let Mbps_out := perf.B_interval P.PNA_DIR_OUTBOUND / 125000 / t_interval
    let avg_out :=
      perf_avg (perf.p_interval P.PNA_DIR_OUTBOUND) (perf.B_interval P.PNA_DIR_OUTBOUND)
    let report : Bool := decide ((fps_in + fps_out) % U32 > 1000)
    let stats : Bool := report && K.stats64
    some
      ({ t_jiffies := (K.msecs_to_jiffies (PERF_INTERVAL * K.MSEC_PER_SEC) + R.jiffies_set) % U64
         currtime := R.now
         prevtime := R.now
         p_interval := upd (upd perf.p_interval P.PNA_DIR_INBOUND 0) P.PNA_DIR_OUTBOUND 0
         B_interval := upd (upd perf.B_interval P.PNA_DIR_INBOUND 0) P.PNA_DIR_OUTBOUND 0
         dev_last_rx := if stats then R.rx_packets % K.ULONG_SIZE else perf.dev_last_rx
         dev_last_fifo := if stats then R.rx_fifo_errors % K.ULONG_SIZE else perf.dev_last_fifo },
        (if report then [perf_line.throughput fps_in Mbps_in avg_in fps_out Mbps_out avg_out]
          else []) ++
        (if stats then
          [perf_line.rx_stats ((R.rx_packets % U64 + U64 - perf.dev_last_rx % U64) % U64)
            ((R.rx_fifo_errors % U64 + U64 - perf.dev_last_fifo % U64) % U64)]
          else []))

/-- Source `pna_perflog`, lines 290 to 292: the packet of direction `dir` and
frame length `L = skb->tail - skb->mac_header` is counted. -/
def perf_count (perf : pna_perf) (dir L : Nat) : pna_perf :=
  { perf with
    p_interval := upd perf.p_interval dir ((perf.p_interval dir + 1) % U32)
    B_interval := upd perf.B_interval dir ((perf.B_interval dir + (L + ETH_OVERHEAD)) % U32) }

/-- Source `pna_perflog` on the record `perf` of the current CPU, for a packet
of direction `dir` and frame length `L`: the record afterwards and the lines
printed, or `none` when the call traps on a division by zero. -/
def pna_perflog (P : pna_consts) (K : perf_kernel) (perf : pna_perf) (dir L : Nat)
    (R : perf_reading) : Option (pna_perf × List perf_line) :=
  if time_after_eq64 R.jiffies_test perf.t_jiffies then
    match perf_sample P K perf R with
    | none => none
    | some (perf1, lines) => some (perf_count perf1 dir L, lines)
  else some (perf_count perf dir L, [])

/-- The kernel parameters of the concrete evaluations: `HZ = 1000`, so that
`msecs_to_jiffies` is the identity, a 64-bit `unsigned long` and a kernel with
the per-device statistics. -/
def example_perf_kernel : perf_kernel :=
  { MSEC_PER_SEC := 1000, msecs_to_jiffies := fun m => m, ULONG_SIZE := 2 ^ 64, stats64 := true }

/-- The record of a CPU ten seconds after a sample taken at second 1000 of
the wall clock, jiffy 5000: the deadline is jiffy 15000, and 30000 inbound and
20000 outbound frames of 80 bytes have been counted since. -/
def example_perf : pna_perf :=
  { t_jiffies := 15000
    currtime := { tv_sec := 1000, tv_usec := 0 }
    prevtime := { tv_sec := 1000, tv_usec := 0 }
    p_interval := fun d => if d = 1 then 30000 else if d = 0 then 20000 else 0
    B_interval := fun d => if d = 1 then 3000000 else if d = 0 then 2000000 else 0
    dev_last_rx := 0
    dev_last_fifo := 0 }

/-- A reading at jiffy 15000 with the wall clock at second 1010. -/
def example_reading : perf_reading :=
  { jiffies_test := 15000, now := { tv_sec := 1010, tv_usec := 0 }
    rx_packets := 50000, rx_fifo_errors := 0, jiffies_set := 15000 }

/-- A reading at jiffy 15000 with the wall clock set back to second 1000, the
second of the previous sample. -/
def example_reading_clock_set_back : perf_reading :=
  { jiffies_test := 15000, now := { tv_sec := 1000, tv_usec := 0 }
    rx_packets := 50000, rx_fifo_errors := 0, jiffies_set := 15000 }

/-! ### pna_main.c: the packet hook -/

/-- What `pna_hook` takes from the kernel headers, which are not among the
sources: the packet types, the protocol numbers it switches on and the value
it returns. -/
structure net_consts where
  PACKET_OUTGOING : Nat
  PACKET_OTHERHOST : Nat
  ETH_P_IP : Nat
  IPPROTO_TCP : Nat
  IPPROTO_UDP : Nat
  NET_RX_DROP : Int

/-- What `pna_hook` reads of the `sk_buff` it is given: the packet type,
whether `skb_share_check` can hand out an exclusive buffer, the fields of
the Ethernet, IP and TCP or UDP headers in host byte order (the two port
fields sit at the same place in both transport headers), and the frame length
`skb->tail - skb->mac_header`. -/
structure pna_packet where
  pkt_type : Nat
  share_check_ok : Bool
  h_proto : Nat
  saddr : Nat
  daddr : Nat
  protocol : Nat
  source : Nat
  dest : Nat
  frame_len : Nat
deriving DecidableEq, Repr

/-- The calls `pna_hook` makes, in order, with the arguments that matter:
`pna_perflog` (with the lines it printed), `flowmon_hook` (with its return
value), `rtmon_hook` (with the `data` argument) and `kfree_skb`. -/
inductive hook_call where
  | pna_perflog (direction : Nat) (lines : List perf_line)
  | flowmon_hook (key : pna_flowkey) (direction : Nat) (ret : Int)
  | rtmon_hook (key : pna_flowkey) (direction : Nat) (data : Nat)
  | kfree_skb
deriving DecidableEq, Repr

/-- Source `pna_hook`, lines 146 to 181: the key decoded from the headers, or
`none` where the switch leaves through `pna_done`. -/
def pna_decode (N : net_consts) (skb : pna_packet) : Option pna_flowkey :=
  let key : pna_flowkey :=
    { l3_protocol := skb.h_proto, l4_protocol := 0, local_ip := 0, remote_ip := 0,
      local_port := 0, remote_port := 0 }
  if key.l3_protocol = N.ETH_P_IP then
    let key := { key with local_ip := skb.saddr, remote_ip := skb.daddr,
                          l4_protocol := skb.protocol }
    if key.l4_protocol = N.IPPROTO_TCP then
      some { key with local_port := skb.source, remote_port := skb.dest }
    else if key.l4_protocol = N.IPPROTO_UDP then
      some { key with local_port := skb.source, remote_port := skb.dest }
    else none
  else none

/-- The per-packet state `pna_hook` works on: the record of the performance
sampler and the memory `tables` of the flow monitor and the real-time
monitors. -/
structure hook_state (σ : Type) where
  perf : pna_perf
  tables : σ

/-- Source `pna_hook`, lines 189 to 192: the performance sampler, if switched
on. The result is the record afterwards and the call made, or `none` when
`pna_perflog` traps. -/
def pna_hook_perf (P : pna_consts) (K : perf_kernel) (pna_perfmon : Bool) (perf : pna_perf)
    (direction L : Nat) (R : perf_reading) : Option (pna_perf × List hook_call) :=
  if pna_perfmon then
    match pna_perflog P K perf direction L R with
    | none => none
    | some (perf1, lines) => some (perf1, [.pna_perflog direction lines])
  else some (perf, [])

/-- Source `pna_hook`, lines 197 to 216: the flow monitor and the real-time
monitors. The collaborators `flowmon_hook` (not among the sources) and
`rtmon_hook` are parameters acting on the memory `σ` of the monitors. The
result is that memory afterwards and the calls made; the value returned is
`NET_RX_DROP` on every path. -/
def pna_hook_monitors {σ : Type} (pna_flowmon pna_rtmon PIPELINE_MODE : Bool)
    (flowmon_hook : σ → pna_flowkey → Nat → pna_packet → Int × σ)
    (rtmon_hook : σ → pna_flowkey → Nat → pna_packet → Nat → Int × σ)
    (tables : σ) (key : pna_flowkey) (direction : Nat) (skb : pna_packet) :
    σ × List hook_call :=
  let done : List hook_call := if PIPELINE_MODE then [] else [.kfree_skb]
  if pna_flowmon = true then
    let r := flowmon_hook tables key direction skb
    if r.1 < 0 then (r.2, [.flowmon_hook key direction r.1, .kfree_skb])
    else if pna_rtmon = true then
      let q := rtmon_hook r.2 key direction skb r.1.toNat
      (q.2, [.flowmon_hook key direction r.1, .rtmon_hook key direction r.1.toNat] ++ done)
    else (r.2, [.flowmon_hook key direction r.1] ++ done)
  else (tables, done)

/-- Source `pna_hook`. The three switches `pna_perfmon`, `pna_flowmon`,
`pna_rtmon` and the compile-time `PIPELINE_MODE` are booleans. The result is
the value returned (`none` when `pna_perflog` traps), the state afterwards and
the calls made. -/
def pna_hook {σ : Type} (P : pna_consts) (N : net_consts) (K : perf_kernel)
    ( pna_prefix pna_mask : Nat) (pna_perfmon pna_flowmon pna_rtmon PIPELINE_MODE : Bool)
    (flowmon_hook : σ → pna_flowkey → Nat → pna_packet → Int × σ)
    (rtmon_hook : σ → pna_flowkey → Nat → pna_packet → Nat → Int × σ)
    (st : hook_state σ) (skb : pna_packet) (R : perf_reading) :
    Option Int × hook_state σ × List hook_call :=
  if skb.pkt_type = N.PACKET_OUTGOING then (some N.NET_RX_DROP, st, [.kfree_skb])
  else
    let skb := { skb with pkt_type := N.PACKET_OTHERHOST }
    if skb.share_check_ok = false then (some N.NET_RX_DROP, st, [])
    else
      match pna_decode N skb with
      | none => (some N.NET_RX_DROP, st, [.kfree_skb])
      | some key0 =>
        let loc := pna_localize P pna_prefix pna_mask key0 0
        if loc.1 = 0 then (some N.NET_RX_DROP, st, [.kfree_skb])
        else
          let key := loc.2.1
          let direction := loc.2.2
          match pna_hook_perf P K pna_perfmon st.perf direction skb.frame_len R with
          | none => (none, st, [])
          | some (perf1, calls1) =>
            let m := pna_hook_monitors pna_flowmon pna_rtmon PIPELINE_MODE flowmon_hook
              rtmon_hook st.tables key direction skb
            (some N.NET_RX_DROP, { perf := perf1, tables := m.1 }, calls1 ++ m.2)

/-- The values of the kernel headers: `PACKET_OUTGOING = 4`,
`PACKET_OTHERHOST = 3`, `ETH_P_IP = 0x0800`, `IPPROTO_TCP = 6`,
`IPPROTO_UDP = 17`, `NET_RX_DROP = 1`. -/
def example_net : net_consts :=
  { PACKET_OUTGOING := 4, PACKET_OTHERHOST := 3, ETH_P_IP := 0x0800, IPPROTO_TCP := 6,
    IPPROTO_UDP := 17, NET_RX_DROP := 1 }

/-- A TCP segment from `8.8.8.8:443` to `10.0.0.1:1000`, 60 bytes on the
wire, received for this host. -/
def example_packet : pna_packet :=
  { pkt_type := 0, share_check_ok := true, h_proto := 0x0800, saddr := 0x08080808,
    daddr := 0x0a000001, protocol := 6, source := 443, dest := 1000, frame_len := 60 }

/-! ### hooks.c: the Netfilter hook as written, and the slots the probe loops read -/

/-- Source `nf_ses_watch_hook` as written. Line 276 sets `ret = NF_DROP`,
line 278 prints `pna_prefix`, `pna_mask` and `pna_connections`, and line 279
returns `ret`: control never reaches lines 281 to 484, whose table part is
`nf_ses_watch_chain`. The arguments `hooknum`, `skb`, `in`, `out`, `okfn` are
not read on the way; `args` stands for them. The result is the value
returned, the table, the alert log and the lines printed. -/
def nf_ses_watch_hook {α : Type} (NF_DROP : Nat) (S : pna_settings)
    ( pna_prefix pna_mask : Nat) (info : utab_info) (log : List pna_alert) (args : α) :
    Nat × utab_info × List pna_alert × List (Nat × Nat × Nat) :=
  let _ := args
  let ret := NF_DROP
  (ret, info, log, [( pna_prefix, pna_mask, S.pna_connections)])

/-- The slots of `info->lips` the probe loop of `do_lip_entry` reads, in the
order it reads them, with `n` iterations left at slot `hash`. -/
def lip_probe_slots (P : pna_consts) (info : utab_info) (local_ip : Nat) :
    Nat → Nat → List Nat
  | 0, _ => []
  | n + 1, hash =>
    if local_ip = (info.lips hash).local_ip then [hash]
    else if 0 = (info.lips hash).local_ip then [hash]
    else hash :: lip_probe_slots P info local_ip n ((hash + 1) % P.PNA_LIP_ENTRIES)

/-- The slots of `info->rips` the probe loop of `do_rip_entry` reads, in the
order it reads them. -/
def rip_probe_slots (P : pna_consts) (info : utab_info) (lip remote_ip : Nat) :
    Nat → Nat → List Nat
  | 0, _ => []
  | n + 1, hash =>
    if rip_match P info lip remote_ip hash then [hash]
    else if 0 = (info.rips hash).remote_ip then [hash]
    else hash :: rip_probe_slots P info lip remote_ip n ((hash + 1) % P.PNA_RIP_ENTRIES)

/-- The slots of `info->ports[proto]` the probe loop of `do_port_entry` reads,
in the order it reads them. -/
def port_probe_slots (P : pna_consts) (info : utab_info)
    (rip proto local_port remote_port : Nat) : Nat → Nat → List Nat
  | 0, _ => []
  | n + 1, hash =>
    if port_match P info rip proto local_port remote_port hash then [hash]
    else if 0 = ((info.ports proto hash).local_port ||| (info.ports proto hash).remote_port) then
      [hash]
    else
      hash :: port_probe_slots P info rip proto local_port remote_port n
        ((hash + 1) % P.PNA_PORT_ENTRIES)

/-- The slots one call of `do_lip_entry` reads. -/
def do_lip_entry_slots (P : pna_consts) (info : utab_info) (local_ip : Nat) : List Nat :=
  lip_probe_slots P info local_ip PROBE_LIMIT (P.hash_long local_ip P.PNA_LIP_BITS)

/-- The slots one call of `do_rip_entry` reads. -/
def do_rip_entry_slots (P : pna_consts) (info : utab_info) (lip remote_ip : Nat) : List Nat :=
  rip_probe_slots P info lip remote_ip PROBE_LIMIT
    (P.hash_long ((info.lips lip).local_ip ^^^ remote_ip) P.PNA_RIP_BITS)

/-- The slots one call of `do_port_entry` reads. -/
def do_port_entry_slots (P : pna_consts) (info : utab_info)
    (rip proto local_port remote_port : Nat) : List Nat :=
  port_probe_slots P info rip proto local_port remote_port PROBE_LIMIT
    (P.hash_long ((info.rips rip).remote_ip ^^^ ((remote_port <<< 16) ||| local_port))
      P.PNA_PORT_BITS)

/-- A probe of at most `limit` slots from `hash` in a table of `entries`
slots, where `stop` holds of a slot that matches or is free: `slots` is the
path `probe_slot entries hash 0, 1, ..` up to and including the first slot
with `stop`, which is the result; with no such slot among the first `limit`
the path has `limit` slots and the result is `none`. -/
def probe_window (entries hash limit : Nat) (stop : Nat → Prop) (slots : List Nat)
    (result : Option Nat) : Prop :=
  ∃ k, k ≤ limit ∧ slots = (List.range k).map (probe_slot entries hash) ∧
    (∀ j, j + 1 < k → ¬ stop (probe_slot entries hash j)) ∧
    ((k = limit ∧ (∀ j, j < limit → ¬ stop (probe_slot entries hash j)) ∧ result = none) ∨
      (0 < k ∧ stop (probe_slot entries hash (k - 1)) ∧
        result = some (probe_slot entries hash (k - 1))))

/-- The constants of `example_consts_lip256` with a hash that sends every
value to slot 0. -/
def example_consts_window : pna_consts :=
  { example_consts_lip256 with hash_long := fun _ _ => 0 }

/-- A level-1 table of `2 ^ 8` slots in which slot `s` holds the address
`s + 1` for `s = 0 .. 128` and the other slots are free. -/
def example_window_table : utab_info :=
  { utab_empty with
    lips := fun s =>
      { local_ip := if s ≤ 128 then s + 1 else 0, ndsts := fun _ => 0, nsess := fun _ => 0,
        dsts := fun _ => 0 } }

/-! ### pna_main.c: module initialisation -/

/-- The calls `pna_init` and `pna_cleanup` make to the subsystems, by the
name of the function called. -/
inductive init_call where
  | flowmon_init
  | pna_alert_init
  | rtmon_init
  | dev_get_by_name
  | dev_add_pack
  | dev_remove_pack
  | rtmon_release
  | pna_alert_cleanup
  | flowmon_cleanup
deriving DecidableEq, Repr

/-- Source `pna_cleanup`: the calls it makes, in order. -/
def pna_cleanup : List init_call :=
  [.dev_remove_pack, .rtmon_release, .pna_alert_cleanup, .flowmon_cleanup]

/-- Source `pna_init`: the value returned and the calls made, in order, where
`r_flowmon`, `r_alert` and `r_rtmon` are the values `flowmon_init()`,
`pna_alert_init()` and `rtmon_init()` return when called. -/
def pna_init (r_flowmon r_alert r_rtmon : Int) : Int × List init_call :=
  let ret := r_flowmon
  if ret < 0 then (ret, [.flowmon_init])
  else if r_alert < 0 then (-1, [.flowmon_init, .pna_alert_init] ++ pna_cleanup)
  else if r_rtmon < 0 then
    (-1, [.flowmon_init, .pna_alert_init, .rtmon_init] ++ [.pna_alert_cleanup] ++ pna_cleanup)
  else (ret, [.flowmon_init, .pna_alert_init, .rtmon_init, .dev_get_by_name, .dev_add_pack])

/-! ### pna_rtmon.c: the inline monitor loop -/

/-- Source `struct pna_rtmon`, the fields `rtmon_hook` uses: the name and
the hook, `none` for `NULL`. A hook gets the key, the direction, the buffer
and the cell `data`; it returns an `int` and leaves a value in `data`. The
key and the buffer are passed by pointer: `κ` and `β` are the types of these
pointers, and `σ` is the memory the hooks work on. -/
structure pna_rtmon (σ κ β : Type) where
  name : String
  hook : Option (σ → κ → Nat → β → Nat → Int × Nat × σ)

/-- Source `monitors[]`: the connection monitor, the local IP monitor and the
entry with the `NULL` hook that ends the list. The hooks `conmon_hook` and
`lipmon_hook` are not among the sources and are parameters. -/
def monitors {σ κ β : Type} (conmon_hook lipmon_hook : σ → κ → Nat → β → Nat → Int × Nat × σ) :
    List (pna_rtmon σ κ β) :=
  [{ name := "conmon", hook := some conmon_hook },
   { name := "lipmon", hook := some lipmon_hook },
   { name := "null", hook := none }]

/-- One call of a monitor hook as `rtmon_hook` makes it: the monitor and the
arguments, `data` being the value of the cell at the call. -/
structure rtmon_call (κ β : Type) where
  name : String
  key : κ
  direction : Nat
  skb : β
  data : Nat
deriving DecidableEq, Repr

/-- Source `rtmon_hook` without `PIPELINE_MODE`, the loop of lines 210 to 212
from the entry `monitor` points at: the last value of `ret` (`none` while it
is not assigned), the memory, the cell `data` and the calls made. The result
is `none` if the loop walks off the array without meeting a `NULL` hook. -/
def rtmon_loop {σ κ β : Type} (key : κ) (direction : Nat) (skb : β) :
    List (pna_rtmon σ κ β) → Option Int → σ → Nat → List (rtmon_call κ β) →
      Option (Option Int × σ × Nat × List (rtmon_call κ β))
  | [], _, _, _, _ => none
  | monitor :: rest, ret, s, data, calls =>
    match monitor.hook with
    | none => some (ret, s, data, calls)
    | some hook =>
      let r := hook s key direction skb data
      rtmon_loop key direction skb rest (some r.1) r.2.2 r.2.1
        (calls ++ [{ name := monitor.name, key := key, direction := direction, skb := skb,
                     data := data }])

/-- Source `rtmon_hook` without `PIPELINE_MODE`, on the registry `mons`: the
value returned, the memory afterwards and the calls made. -/
def rtmon_hook {σ κ β : Type} (mons : List (pna_rtmon σ κ β)) (s : σ) (key : κ)
    (direction : Nat) (skb : β) (data : Nat) : Option (Int × σ × List (rtmon_call κ β)) :=
  match rtmon_loop key direction skb mons none s data [] with
  | none => none
  | some (_, s1, _, calls) => some (0, s1, calls)

/-! ### hooks.c: the direction classification of the Netfilter hook -/

/-- The local variables `local_ip`, `remote_ip`, `local_port`, `remote_port`
and `direction` of `nf_ses_watch_hook`. -/
structure nf_flow where
  local_ip : Nat
  remote_ip : Nat
  local_port : Nat
  remote_port : Nat
  direction : Nat
deriving DecidableEq, Repr

/-- Source `nf_ses_watch_hook`, lines 314 to 337: the source address is taken
as local; if it is not in the monitored network the addresses and the ports
(read at lines 300 to 306 as `source` and `dest`) are swapped. -/
def nf_ses_watch_direction (P : pna_consts) ( pna_prefix pna_mask : Nat)
    (saddr daddr source dest : Nat) : nf_flow :=
  let local_ip := saddr
  let temp := local_ip &&& pna_mask
  if temp = pna_prefix then
    { local_ip := local_ip, remote_ip := daddr, local_port := source, remote_port := dest,
      direction := P.PNA_DIR_OUTBOUND }
  else
    { local_ip := daddr, remote_ip := local_ip, local_port := dest, remote_port := source,
      direction := P.PNA_DIR_INBOUND }

/-- Source `nf_ses_watch_hook`, lines 314 to 337 followed by the test of lines
412 to 418: the classified flow, or `none` where the hook returns `NF_DROP`
because the local address is not in the monitored network. -/
def nf_ses_watch_localize (P : pna_consts) ( pna_prefix pna_mask : Nat)
    (saddr daddr source dest : Nat) : Option nf_flow :=
  let f := nf_ses_watch_direction P pna_prefix pna_mask saddr daddr source dest
  let temp := f.local_ip &&& pna_mask
  if temp ≠ pna_prefix then none else some f

/-- The record after `pna_perflog` has counted a list of packets, each given
by its direction and frame length, in calls that do not sample (lines 290 to
292 once per packet). -/
def perf_counts (perf : pna_perf) : List (Nat × Nat) → pna_perf
  | [] => perf
  | c :: rest => perf_counts (perf_count perf c.1 c.2) rest

/-- The frame lengths of the packets of direction `d` in a list of packets. -/
def perf_lengths (d : Nat) (calls : List (Nat × Nat)) : List Nat :=
  (calls.filter (fun c => decide (c.1 = d))).map (fun c => c.2)

/-- A run of `pna_perflog` calls, each given by the direction and frame length
of its packet and by what it reads from the kernel: the record afterwards and
all lines printed, or `none` when a call traps. -/
def pna_perflog_run (P : pna_consts) (K : perf_kernel) :
    pna_perf → List (Nat × Nat × perf_reading) → Option (pna_perf × List perf_line)
  | perf, [] => some (perf, [])
  | perf, c :: rest =>
    match pna_perflog P K perf c.1 c.2.1 c.2.2 with
    | none => none
    | some (perf1, lines) =>
      match pna_perflog_run P K perf1 rest with
      | none => none
      | some (perf2, more) => some (perf2, lines ++ more)

/-- A reading before the deadline 25000: jiffy 16000, with the wall clock at
second 1011. -/
def example_reading_quiet : perf_reading :=
  { jiffies_test := 16000, now := { tv_sec := 1011, tv_usec := 0 }
    rx_packets := 50001, rx_fifo_errors := 0, jiffies_set := 16000 }

/-- Three calls of `pna_perflog` on `example_perf`: an inbound frame of 60
bytes at the deadline, then an inbound frame of 101 bytes and an outbound
frame of 1500 bytes before the next deadline. -/
def example_perf_calls : List (Nat × Nat × perf_reading) :=
  [(1, 60, example_reading), (1, 101, example_reading_quiet), (0, 1500, example_reading_quiet)]

/-! ### hooks.c: exclusive ownership of RIP slots -/

/-- Exclusive ownership of the RIP slots, with `claimer` the book-keeping of
who claimed a slot: the bit of slot `h` is set in the `dsts` bitmap of LIP
entry `L` exactly when `L` is the claimer of `h`, and a slot is occupied
exactly when it has a claimer. -/
structure rip_exclusive (P : pna_consts) (info : utab_info) (claimer : Nat → Option Nat) :
    Prop where
  bits : ∀ L h, 0 ≠ ((info.lips L).dsts (h / P.BITMAP_BITS) &&& slot_bit P h) ↔
    claimer h = some L
  occupied : ∀ h, (info.rips h).remote_ip ≠ 0 ↔ claimer h ≠ none

/-- The IP address a call passes is not 0 (a `do_port_entry` call passes
none). -/
def ip_nonzero : utab_call → Prop
  | .lip local_ip _ => local_ip ≠ 0
  | .rip _ remote_ip _ => remote_ip ≠ 0
  | .port _ _ _ _ _ _ _ _ => True

instance (c : utab_call) : Decidable (ip_nonzero c) := by
  cases c <;> unfold ip_nonzero <;> infer_instance

/-- Calls for two local addresses and their destinations: `10.0.0.1` (LIP
slot 10) goes to `8.8.8.8` (RIP slot 4) and to `8.8.4.4`, `10.0.0.2` (LIP
slot 4) goes to `8.8.8.8` too (RIP slot 14), and `10.0.0.1` to `8.8.8.8`
again, the other way round. -/
def example_rip_calls : List utab_call :=
  [.lip 0x0a000001 0, .rip 10 0x08080808 0, .rip 10 0x08080404 0,
   .lip 0x0a000002 0, .rip 4 0x08080808 0, .rip 10 0x08080808 1]

/-! ### MurmurHash3 -/

/-- The macro `ROTL64(x, r)` of MurmurHash3 on 64-bit words, for `0 < r < 64`. -/
def ROTL64 (x r : Nat) : Nat := ((x <<< r) % U64) ||| (x >>> (64 - r))

/-- The finalization mix `fmix64` of MurmurHash3. -/
def fmix64 (k : Nat) : Nat :=
  let k1 := k ^^^ (k >>> 33)
  let k2 := (k1 * 0xff51afd7ed558ccd) % U64
  let k3 := k2 ^^^ (k2 >>> 33)
  let k4 := (k3 * 0xc4ceb9fe1a85ec53) % U64
  k4 ^^^ (k4 >>> 33)

/-- The 64-bit word a list of at most 8 bytes stands for, least significant
byte first. -/
def le_word : List Nat → Nat
  | [] => 0
  | b :: rest => b % 256 + 256 * le_word rest

/-- The mixing of a key word `k1` in MurmurHash3:
`k1 *= c1; k1 = ROTL64(k1, 31); k1 *= c2`. -/
def murmur_k1 (k1 : Nat) : Nat :=
  (ROTL64 ((k1 * 0x87c37b91114253d5) % U64) 31 * 0x4cf5ad432745937f) % U64

/-- The mixing of a key word `k2` in MurmurHash3:
`k2 *= c2; k2 = ROTL64(k2, 33); k2 *= c1`. -/
def murmur_k2 (k2 : Nat) : Nat :=
  (ROTL64 ((k2 * 0x4cf5ad432745937f) % U64) 33 * 0x87c37b91114253d5) % U64

/-- One round of the body of MurmurHash3 on a block of two key words. -/
def murmur_round (h : Nat × Nat) (k1 k2 : Nat) : Nat × Nat :=
  let h1 := (((ROTL64 (h.1 ^^^ murmur_k1 k1) 27) + h.2) % U64 * 5 + 0x52dce729) % U64
  let h2 := (((ROTL64 (h.2 ^^^ murmur_k2 k2) 31) + h1) % U64 * 5 + 0x38495ab5) % U64
  (h1, h2)

/-- The body loop of MurmurHash3 over `n` blocks of 16 bytes. -/
def murmur_body : Nat → List Nat → Nat × Nat → Nat × Nat
  | 0, _, h => h
  | n + 1, data, h =>
    murmur_body n (data.drop 16)
      (murmur_round h (le_word (data.take 8)) (le_word ((data.drop 8).take 8)))

/-- The tail and the finalization of MurmurHash3: `tail` holds the `len & 15`
bytes after the last block. -/
def murmur_final (h : Nat × Nat) (tail : List Nat) (len : Nat) : Nat × Nat :=
  let t := len % 16
  let a2 := if 9 ≤ t then h.2 ^^^ murmur_k2 (le_word ((tail.drop 8).take 7)) else h.2
  let a1 := if 1 ≤ t then h.1 ^^^ murmur_k1 (le_word (tail.take 8)) else h.1
  let b1 := a1 ^^^ len
  let b2 := a2 ^^^ len
  let c1 := (b1 + b2) % U64
  let c2 := (b2 + c1) % U64
  let d1 := fmix64 c1
  let d2 := fmix64 c2
  let e1 := (d1 + d2) % U64
  (e1, (d2 + e1) % U64)

/-- Modelled from the spec: the routine `MurmurHash3_x64_128(key, len, seed,
out)` that the specification names and `pna_hashmap.c` declares; its source
file is not among the sources. This is the published MurmurHash3 algorithm
for 128-bit output on 64-bit words: the result is `(out[0], out[1])` for the
first `len` bytes of the key. -/
def MurmurHash3_x64_128 : HashFn := fun key len seed =>
  let data := key.take len
  murmur_final (murmur_body (len / 16) data (seed, seed)) (data.drop (len / 16 * 16)) len

/-! ### Concrete evaluations with MurmurHash3 -/

/-- The 43 ASCII bytes of the sentence The quick brown fox jumps over the
lazy dog, a customary test input of hash routines. -/
def example_murmur_text : Bytes :=
  [84, 104, 101, 32, 113, 117, 105, 99, 107, 32, 98, 114, 111, 119, 110, 32, 102, 111, 120, 32,
   106, 117, 109, 112, 115, 32, 111, 118, 101, 114, 32, 116, 104, 101, 32, 108, 97, 122, 121,
   32, 100, 111, 103]

/-- The map `hashmap_create(16, 4, 4)` builds: `n_buckets = 4`, masks `3`,
`31` and `0xffffffe0`. -/
def example_murmur_map : pna_hashmap :=
  hashmap_reset
    { n_pairs := 16, key_size := 4, value_size := 4, n_buckets := 4, bkt_mask := 3,
      kvx_mask := 31, fp_mask := 0xffffffe0, next_idx := 0,
      buckets := fun _ _ => 0, pairs := fun _ => ([], []) }

/-- The four bytes of the `uint32_t` key `0x01b0a058` on a little-endian
machine. With seed `C1` MurmurHash3 gives it `out[0] & 3 = 1` and
`out[1] & 0xffffffe0 = 0`: its first bucket on `example_murmur_map` is 1 and
its first fingerprint is 0. -/
def example_murmur_key : Bytes := [88, 160, 176, 1]

/-- Seven puts on `example_murmur_map`: `example_murmur_key` first, then the
`uint32_t` keys 2, 8, 12, 30, 52 and 77, each with the value 9. All seven keys
have the first bucket 1 and the second bucket 2. -/
def example_murmur_puts : List (Bytes × Bytes) :=
  [(example_murmur_key, [9, 0, 0, 0]), ([2, 0, 0, 0], [9, 0, 0, 0]),
   ([8, 0, 0, 0], [9, 0, 0, 0]), ([12, 0, 0, 0], [9, 0, 0, 0]), ([30, 0, 0, 0], [9, 0, 0, 0]),
   ([52, 0, 0, 0], [9, 0, 0, 0]), ([77, 0, 0, 0], [9, 0, 0, 0])]

/-- The map after the seven puts of `example_murmur_puts`. -/
def example_murmur_filled : pna_hashmap :=
  hashmap_puts MurmurHash3_x64_128 example_murmur_map example_murmur_puts

/-- The map `hashmap_create(1048576, 404, 8)` builds: `n_buckets = 2 ^ 18`,
masks `0x3ffff`, `0x1fffff` and `0xffe00000`. -/
def example_murmur_wide : pna_hashmap :=
  hashmap_reset
    { n_pairs := 1048576, key_size := 404, value_size := 8, n_buckets := 262144,
      bkt_mask := 262143, kvx_mask := 2097151, fp_mask := 0xffe00000, next_idx := 0,
      buckets := fun _ _ => 0, pairs := fun _ => ([], []) }

/-! ### hooks.c: a bitmap word of 64 bits -/

/-- Constants of a build for a 64-bit kernel: `hash_long` is `hash_64`, the
multiplication by `GOLDEN_RATIO_PRIME_64 = 0x9e37fffffffc0001` modulo `2 ^ 64`
of which the `bits` high bits are kept; a bitmap word is an `unsigned long` of
64 bits; the tables have `2 ^ 8` slots. -/
def example_consts64 : pna_consts :=
  { hash_long := fun val bits => ((val * 0x9e37fffffffc0001) % 2 ^ 64) >>> (64 - bits)
    PNA_LIP_BITS := 8, PNA_LIP_ENTRIES := 256
    PNA_RIP_BITS := 8, PNA_RIP_ENTRIES := 256
    PNA_PORT_BITS := 8, PNA_PORT_ENTRIES := 256
    BITMAP_BITS := 64, DIRECTIONS := 2
    PNA_DIR_OUTBOUND := 0, PNA_DIR_INBOUND := 1 }

/-- Calls under `example_consts64`: `10.0.0.201` (LIP slot 57) goes to
`8.8.8.8` (RIP slot 8), then `10.0.0.57` (LIP slot 58) goes to `8.8.0.38`
(RIP slot 40). -/
def example_wide_calls : List utab_call :=
  [.lip 0x0a0000c9 0, .rip 57 0x08080808 0, .lip 0x0a000039 0, .rip 58 0x08080026 0]

/-- Calls under `example_consts64`: the first outbound TCP packet of
`10.0.0.57:1000` to `8.8.0.38:443`, 100 bytes (LIP slot 58, RIP slot 40, port
slot 249). -/
def example_wide_port_calls : List utab_call :=
  [.lip 0x0a000039 0, .rip 58 0x08080026 0, .port 58 40 6 1000 443 100 0 1]

/-! ## Part II. Theorems -/

/-! ### The hash map -/

theorem count_free_fst (map : pna_hashmap) (b : Nat) (l : List Nat) (acc : Nat × Nat) :
    (count_free map b l acc).1 = acc.1 + l.countP (fun i => decide (map.buckets b i = 0)) := by
  induction l generalizing acc with
  | nil => simp [count_free]
  | cons i rest ih =>
    rw [count_free, ih]
    by_cases h : map.buckets b i = 0
    · simp [h, List.countP_cons]; omega
    · simp [h, List.countP_cons]

theorem count_free_zero_iff (map : pna_hashmap) (b : Nat) (l : List Nat) :
    (count_free map b l (0, 0)).1 = 0 ↔ ∀ i ∈ l, map.buckets b i ≠ 0 := by
  rw [count_free_fst]
  simp [List.countP_eq_zero]

theorem count_free_snd (map : pna_hashmap) (b : Nat) (l : List Nat) (acc : Nat × Nat)
    (h : acc.1 < (count_free map b l acc).1) :
    (count_free map b l acc).2 ∈ l ∧ map.buckets b (count_free map b l acc).2 = 0 := by
  induction l generalizing acc with
  | nil => simp [count_free] at h
  | cons i rest ih =>
    rw [count_free] at h ⊢
    by_cases hz : map.buckets b i = 0
    · simp only [hz, if_true] at h ⊢
      by_cases hlt : acc.1 + 1 < (count_free map b rest (acc.1 + 1, i)).1
      · have := ih (acc.1 + 1, i) hlt
        exact ⟨List.mem_cons_of_mem _ this.1, this.2⟩
      · have hc := count_free_fst map b rest (acc.1 + 1, i)
        have hrest : rest.countP (fun i => decide (map.buckets b i = 0)) = 0 := by
          simp only at hc; omega
        have hsame : ∀ (l : List Nat) (a : Nat × Nat),
            l.countP (fun i => decide (map.buckets b i = 0)) = 0 →
            count_free map b l a = a := by
          intro l
          induction l with
          | nil => intro a _; simp [count_free]
          | cons j r ihr =>
            intro a ha
            have hj : map.buckets b j ≠ 0 := by
              intro hj0
              simp [List.countP_cons, hj0] at ha
            have hr : r.countP (fun i => decide (map.buckets b i = 0)) = 0 := by
              simpa [List.countP_cons, hj] using ha
            rw [count_free]
            simp only [hj, if_false]
            exact ihr a hr
        rw [hsame rest _ hrest]
        exact ⟨List.mem_cons_self _ _, hz⟩
    · simp only [hz, if_false] at h ⊢
      have := ih acc h
      exact ⟨List.mem_cons_of_mem _ this.1, this.2⟩

/-- C8. `hashmap_put` returns `NULL` exactly when the table is full
(`next_idx >= n_pairs`) or neither candidate bucket (the left one `b0`, the
right one `b1`) has a zero slot word; and a put that returns `NULL` leaves the
whole map unchanged. -/
theorem hashmap_put_null_iff (H : HashFn) (map : pna_hashmap) (key value : Bytes) :
    ((hashmap_put H map key value).1 = none ↔
      (map.next_idx ≥ map.n_pairs ∨
        ((∀ i, i < BKT_SIZE → map.buckets (hashmap_hashit H map key 0).1 i ≠ 0) ∧
         (∀ i, i < BKT_SIZE →
            map.buckets (((hashmap_hashit H map key 1).1 + map.n_buckets) % U32) i ≠ 0)))) ∧
    ((hashmap_put H map key value).1 = none → (hashmap_put H map key value).2 = map) := by
  have h0 := count_free_zero_iff map (hashmap_hashit H map key 0).1 (List.range BKT_SIZE)
  have h1 := count_free_zero_iff map
    (((hashmap_hashit H map key 1).1 + map.n_buckets) % U32) (List.range BKT_SIZE)
  simp only [List.mem_range] at h0 h1
  unfold hashmap_put
  by_cases hfull : map.next_idx ≥ map.n_pairs
  · simp [hfull]
  · simp only [hfull, if_false, false_or]
    by_cases hz : (count_free map (hashmap_hashit H map key 0).1 (List.range BKT_SIZE) (0, 0)).1 +
        (count_free map (((hashmap_hashit H map key 1).1 + map.n_buckets) % U32)
          (List.range BKT_SIZE) (0, 0)).1 = 0
    · simp only [hz, if_true, true_iff, implies_true, and_true]
      exact ⟨h0.1 (by omega), h1.1 (by omega)⟩
    · simp only [hz, if_false]
      have hne : ¬ ((∀ i, i < BKT_SIZE → map.buckets (hashmap_hashit H map key 0).1 i ≠ 0) ∧
         (∀ i, i < BKT_SIZE →
            map.buckets (((hashmap_hashit H map key 1).1 + map.n_buckets) % U32) i ≠ 0)) := by
        rintro ⟨a, b⟩
        exact hz (by rw [h0.2 a, h1.2 b])
      split <;> simp [hne]

theorem hashmap_put_null_of_full (H : HashFn) (map : pna_hashmap) (key value : Bytes)
    (h : map.next_idx ≥ map.n_pairs) : (hashmap_put H map key value).1 = none := by
  unfold hashmap_put
  simp [h]

theorem hashmap_put_n_pairs (H : HashFn) (map : pna_hashmap) (key value : Bytes) :
    (hashmap_put H map key value).2.n_pairs = map.n_pairs := by
  unfold hashmap_put
  split
  · rfl
  · dsimp only
    split
    · rfl
    · split <;> rfl

theorem hashmap_put_next_idx (H : HashFn) (map : pna_hashmap) (key value : Bytes) :
    (hashmap_put H map key value).2.next_idx =
      map.next_idx + (if (hashmap_put H map key value).1 = none then 0 else 1) := by
  unfold hashmap_put
  split
  · simp
  · dsimp only
    split
    · simp
    · split <;> simp

theorem hashmap_put_next_idx_le (H : HashFn) (map : pna_hashmap) (key value : Bytes)
    (h : map.next_idx ≤ map.n_pairs) :
    (hashmap_put H map key value).2.next_idx ≤ map.n_pairs := by
  unfold hashmap_put
  split
  · exact h
  · dsimp only
    split
    · exact h
    · split <;> simp <;> omega

theorem hashmap_puts_n_pairs (H : HashFn) (map : pna_hashmap) (ops : List (Bytes × Bytes)) :
    (hashmap_puts H map ops).n_pairs = map.n_pairs := by
  induction ops generalizing map with
  | nil => rfl
  | cons kv rest ih => rw [hashmap_puts, ih, hashmap_put_n_pairs]

theorem hashmap_puts_next_idx (H : HashFn) (map : pna_hashmap) (ops : List (Bytes × Bytes)) :
    (hashmap_puts H map ops).next_idx = map.next_idx + hashmap_puts_ok H map ops := by
  induction ops generalizing map with
  | nil => rfl
  | cons kv rest ih =>
    rw [hashmap_puts, ih, hashmap_put_next_idx, hashmap_puts_ok]
    omega

theorem hashmap_puts_next_idx_le (H : HashFn) (map : pna_hashmap) (ops : List (Bytes × Bytes))
    (h : map.next_idx ≤ map.n_pairs) :
    (hashmap_puts H map ops).next_idx ≤ map.n_pairs := by
  induction ops generalizing map with
  | nil => exact h
  | cons kv rest ih =>
    rw [hashmap_puts]
    have := ih (hashmap_put H map kv.1 kv.2).2
      (by rw [hashmap_put_n_pairs]; exact hashmap_put_next_idx_le H map kv.1 kv.2 h)
    rwa [hashmap_put_n_pairs] at this

/-- C9. After any list of `hashmap_put` calls on a reset map (a created map is
one: `hashmap_create` ends with `hashmap_reset`), `next_idx` is the number of
calls that succeeded, it is at most `n_pairs`, and once `n_pairs` calls have
succeeded every further put returns `NULL`, whatever the key. -/
theorem hashmap_capacity_bound (H : HashFn) (map : pna_hashmap) (ops : List (Bytes × Bytes)) :
    (hashmap_puts H (hashmap_reset map) ops).next_idx =
        hashmap_puts_ok H (hashmap_reset map) ops ∧
    (hashmap_puts H (hashmap_reset map) ops).next_idx ≤ map.n_pairs ∧
    (hashmap_puts_ok H (hashmap_reset map) ops = map.n_pairs →
      ∀ key value : Bytes,
        (hashmap_put H (hashmap_puts H (hashmap_reset map) ops) key value).1 = none) := by
  have hidx := hashmap_puts_next_idx H (hashmap_reset map) ops
  have hn := hashmap_puts_n_pairs H (hashmap_reset map) ops
  have hle := hashmap_puts_next_idx_le H (hashmap_reset map) ops (Nat.zero_le _)
  have h0 : (hashmap_reset map).next_idx = 0 := rfl
  have hnp : (hashmap_reset map).n_pairs = map.n_pairs := rfl
  rw [h0, Nat.zero_add] at hidx
  refine ⟨hidx, hnp ▸ hle, ?_⟩
  intro hfull key value
  apply hashmap_put_null_of_full
  rw [hn, hidx, hfull, hnp]

/-! #### Slot words -/

theorem testBit_of_le_mask (x j i : Nat) (hx : x ≤ 2 ^ j - 1) (hi : j ≤ i) :
    x.testBit i = false := by
  apply Nat.testBit_lt_two_pow
  have h1 : 0 < 2 ^ j := Nat.pow_pos (by decide)
  have h2 : 2 ^ j ≤ 2 ^ i := Nat.pow_le_pow_right (by decide) hi
  omega

theorem slot_word_kvx (o x j : Nat) (hj : j ≤ 32) (hx : x ≤ 2 ^ j - 1) :
    ((o &&& ((U32 - 1) ^^^ (2 ^ j - 1))) ||| (x &&& (2 ^ j - 1))) &&& (2 ^ j - 1) = x := by
  apply Nat.eq_of_testBit_eq
  intro i
  have hU : U32 - 1 = 2 ^ 32 - 1 := rfl
  simp only [Nat.testBit_and, Nat.testBit_or, Nat.testBit_xor, hU, Nat.testBit_two_pow_sub_one]
  by_cases h : i < j
  · have h32 : i < 32 := by omega
    simp [h, h32]
  · have := testBit_of_le_mask x j i hx (by omega)
    simp [h, this]

theorem slot_word_fp (o x j : Nat) (hj : j ≤ 32) :
    ((o &&& ((U32 - 1) ^^^ (2 ^ j - 1))) ||| (x &&& (2 ^ j - 1))) &&&
      ((U32 - 1) ^^^ (2 ^ j - 1)) = o &&& ((U32 - 1) ^^^ (2 ^ j - 1)) := by
  apply Nat.eq_of_testBit_eq
  intro i
  have hU : U32 - 1 = 2 ^ 32 - 1 := rfl
  simp only [Nat.testBit_and, Nat.testBit_or, Nat.testBit_xor, hU, Nat.testBit_two_pow_sub_one]
  by_cases h : i < j
  · have h32 : i < 32 := by omega
    simp [h, h32]
  · simp [h]

/-! #### Bucket sizing -/

theorem n_buckets_loop_zero (fuel n_pairs : Nat) : n_buckets_loop fuel 0 n_pairs = none := by
  induction fuel with
  | zero => rfl
  | succ f ih =>
    rw [n_buckets_loop]
    simp [ih]

theorem n_buckets_loop_pow (fuel a n_pairs r : Nat)
    (h : n_buckets_loop fuel (2 ^ a) n_pairs = some r) :
    ∃ b, r = 2 ^ b ∧ n_pairs < (8 * r) % U32 := by
  induction fuel generalizing a with
  | zero => simp [n_buckets_loop] at h
  | succ f ih =>
    rw [n_buckets_loop] at h
    by_cases hc : (8 * 2 ^ a) % U32 ≤ n_pairs
    · simp only [hc, if_true] at h
      by_cases ha : a + 1 < 32
      · have hs : (2 ^ a <<< 1) % U32 = 2 ^ (a + 1) := by
          rw [Nat.shiftLeft_eq, pow_one, ← pow_succ]
          apply Nat.mod_eq_of_lt
          exact Nat.pow_lt_pow_right (by decide) ha
        rw [hs] at h
        exact ih (a + 1) h
      · have hs : (2 ^ a <<< 1) % U32 = 0 := by
          rw [Nat.shiftLeft_eq, pow_one, ← pow_succ]
          have : (2:Nat) ^ (a + 1) = 2 ^ 32 * 2 ^ (a + 1 - 32) := by
            rw [← pow_add]; congr 1; omega
          rw [this]
          exact Nat.mul_mod_right _ _
        rw [hs, n_buckets_loop_zero] at h
        exact absurd h (by simp)
    · simp only [hc, if_false, Option.some.injEq] at h
      exact ⟨a, h.symm, by rw [← h]; omega⟩

theorem hashmap_create_entry_inv (n_pairs key_size value_size : Nat) (m : pna_hashmap)
    (h : hashmap_create_entry n_pairs key_size value_size = some m) : hashmap_inv m := by
  unfold hashmap_create_entry at h
  cases hl : n_buckets_loop 64 4 n_pairs with
  | none => simp [hl] at h
  | some nb =>
    simp only [hl, Option.some.injEq] at h
    obtain ⟨b, hb, hlt⟩ := n_buckets_loop_pow 64 2 n_pairs nb (by simpa using hl)
    have h8 : 8 * nb = 2 ^ (b + 3) := by rw [hb, pow_add]; ring
    rw [h8] at hlt
    have hb32 : b + 3 < 32 := by
      by_contra hge
      have : (2:Nat) ^ (b + 3) = 2 ^ 32 * 2 ^ (b + 3 - 32) := by
        rw [← pow_add]; congr 1; omega
      rw [this, U32, Nat.mul_mod_right] at hlt
      omega
    have hlt32 : (2:Nat) ^ (b + 3) < U32 := Nat.pow_lt_pow_right (by decide) hb32
    have hpos : 0 < (2:Nat) ^ (b + 3) := Nat.pow_pos (by decide)
    have hk : ((8 * nb) % U32 + U32 - 1) % U32 = 2 ^ (b + 3) - 1 := by
      rw [h8, Nat.mod_eq_of_lt hlt32]
      have : 2 ^ (b + 3) + U32 - 1 = (2 ^ (b + 3) - 1) + U32 := by omega
      rw [this, Nat.add_mod_right]
      apply Nat.mod_eq_of_lt
      omega
    rw [Nat.mod_eq_of_lt hlt32] at hlt
    subst h
    refine ⟨⟨b + 3, by omega, ?_, ?_⟩, ?_, ?_, ?_⟩
    · simpa [hashmap_reset] using hk
    · simp [hashmap_reset]
    · simp only [hashmap_reset, hk]; omega
    · simp [hashmap_reset]
    · intro b i hne
      simp [hashmap_reset] at hne

theorem hashmap_reset_inv (m : pna_hashmap) (h : hashmap_inv m) : hashmap_inv (hashmap_reset m) := by
  refine ⟨h.masks, h.cap, ?_, ?_⟩
  · simp [hashmap_reset]
  · intro b i hne
    simp [hashmap_reset] at hne

theorem hashmap_put_inv (H : HashFn) (m : pna_hashmap) (key value : Bytes) (h : hashmap_inv m) :
    hashmap_inv (hashmap_put H m key value).2 := by
  obtain ⟨j, hj, hk, hf⟩ := h.masks
  unfold hashmap_put
  split
  · exact h
  · rename_i hfull
    dsimp only
    split
    · exact h
    · have hidx : m.next_idx ≤ 2 ^ j - 1 := by
        have := h.cap
        rw [hk] at this
        omega
      split
      · refine ⟨⟨j, hj, hk, hf⟩, h.cap, ?_, ?_⟩
        · simp only; omega
        · intro b i
          simp only
          split
          · intro _
            simp only [hashmap_hashit, hf, hk]
            rw [slot_word_kvx _ _ j hj hidx]
            omega
          · intro hne
            have := h.words b i hne
            omega
      · refine ⟨⟨j, hj, hk, hf⟩, h.cap, ?_, ?_⟩
        · simp only; omega
        · intro b i
          simp only
          split
          · intro _
            simp only [hashmap_hashit, hf, hk]
            rw [slot_word_kvx _ _ j hj hidx]
            omega
          · intro hne
            have := h.words b i hne
            omega

theorem Reachable.inv {H : HashFn} {m : pna_hashmap} (h : Reachable H m) : hashmap_inv m := by
  induction h with
  | create n k v m hc => exact hashmap_create_entry_inv n k v m hc
  | reset m _ ih => exact hashmap_reset_inv m ih
  | put m key value _ ih => exact hashmap_put_inv H m key value ih

/-! #### Lookup after insertion -/

theorem hashmap_scan_some (map : pna_hashmap) (key : Bytes) (bkt fp : Nat) (l : List Nat)
    (x : Nat) (h : hashmap_scan map key bkt fp l = some x) :
    (map.pairs x).1 = key ∧ ∃ i, i ∈ l ∧ x = map.buckets bkt i &&& map.kvx_mask ∧
      (map.buckets bkt i &&& map.fp_mask) = fp := by
  induction l with
  | nil => simp [hashmap_scan] at h
  | cons i rest ih =>
    rw [hashmap_scan] at h
    split at h
    · rename_i hm
      simp only [Option.some.injEq] at h
      subst h
      exact ⟨hm.2, i, List.mem_cons_self _ _, rfl, hm.1⟩
    · obtain ⟨h1, j, hj, h2⟩ := ih h
      exact ⟨h1, j, List.mem_cons_of_mem _ hj, h2⟩

theorem hashmap_scan_none (map : pna_hashmap) (key : Bytes) (bkt fp : Nat) (l : List Nat)
    (h : hashmap_scan map key bkt fp l = none) (i : Nat) (hi : i ∈ l) :
    ¬ ((map.buckets bkt i &&& map.fp_mask) = fp ∧
        (map.pairs (map.buckets bkt i &&& map.kvx_mask)).1 = key) := by
  induction l with
  | nil => simp at hi
  | cons j rest ih =>
    rw [hashmap_scan] at h
    split at h
    · simp at h
    · rename_i hm
      rcases List.mem_cons.1 hi with rfl | hr
      · exact hm
      · exact ih h hr

/-- What a successful `hashmap_put` leaves behind: the new pair, the size
fields, and a slot of one of the two candidate buckets holding the new word. -/
theorem hashmap_put_some (H : HashFn) (m : pna_hashmap) (key value : Bytes) (idx : Nat)
    (h : (hashmap_put H m key value).1 = some idx) :
    idx = m.next_idx ∧ m.next_idx < m.n_pairs ∧
    (hashmap_put H m key value).2.next_idx = m.next_idx + 1 ∧
    (hashmap_put H m key value).2.kvx_mask = m.kvx_mask ∧
    (hashmap_put H m key value).2.fp_mask = m.fp_mask ∧
    (hashmap_put H m key value).2.bkt_mask = m.bkt_mask ∧
    (hashmap_put H m key value).2.key_size = m.key_size ∧
    (hashmap_put H m key value).2.n_buckets = m.n_buckets ∧
    (hashmap_put H m key value).2.pairs =
      (fun x => if x = m.next_idx then (key, value) else m.pairs x) ∧
    ∃ i, i < BKT_SIZE ∧
      (((hashmap_put H m key value).2.buckets (hashmap_hashit H m key 0).1 i =
          (hashmap_hashit H m key 0).2 ||| (m.next_idx &&& m.kvx_mask)) ∨
       ((hashmap_put H m key value).2.buckets
            (((hashmap_hashit H m key 1).1 + m.n_buckets) % U32) i =
          (hashmap_hashit H m key 1).2 ||| (m.next_idx &&& m.kvx_mask))) := by
  unfold hashmap_put at h ⊢
  split at h
  · simp at h
  · rename_i hfull
    dsimp only at h ⊢
    split at h
    · simp at h
    · rename_i hz
      simp only [hfull, hz, if_false]
      have c0 := count_free_snd m (hashmap_hashit H m key 0).1 (List.range BKT_SIZE) (0, 0)
      have c1 := count_free_snd m (((hashmap_hashit H m key 1).1 + m.n_buckets) % U32)
        (List.range BKT_SIZE) (0, 0)
      simp only [List.mem_range] at c0 c1
      split at h
      · rename_i hge
        simp only [Option.some.injEq] at h
        simp only [hge, if_true]
        refine ⟨h.symm, by omega, ?_, ?_, ?_, ?_, ?_, ?_, ?_, ?_⟩
        iterate 7 first | rfl | trivial
        have := c0 (by omega)
        exact ⟨_, this.1, Or.inl (by simp)⟩
      · rename_i hlt
        simp only [Option.some.injEq] at h
        simp only [hlt, if_false]
        refine ⟨h.symm, by omega, ?_, ?_, ?_, ?_, ?_, ?_, ?_, ?_⟩
        iterate 7 first | rfl | trivial
        have := c1 (by omega)
        exact ⟨_, this.1, Or.inr (by simp)⟩

/-- C1 (amended). In every map reachable from a created or reset map by puts,
a successful `hashmap_put(map, k, v)` is followed by a `hashmap_get(map, k)`
that returns a pair whose key bytes are `k`; its value bytes are `v` (it is
the pair just written) provided no pair stored since the last reset already
holds the key `k`. -/
theorem hashmap_put_get (H : HashFn) (m : pna_hashmap) (k v : Bytes) (idx : Nat)
    (hr : Reachable H m) (hput : (hashmap_put H m k v).1 = some idx) :
    ∃ x, hashmap_get H (hashmap_put H m k v).2 k = some x ∧
      ((hashmap_put H m k v).2.pairs x).1 = k ∧
      ((∀ y, y < m.next_idx → (m.pairs y).1 ≠ k) →
        x = idx ∧ (hashmap_put H m k v).2.pairs x = (k, v)) := by
  have hinv := hr.inv
  have hinv' := hashmap_put_inv H m k v hinv
  obtain ⟨hidx, hlt, hnext, hkvx, hfp, hbkt, hks, hnb, hpairs, i, hi, hslot⟩ :=
    hashmap_put_some H m k v idx hput
  obtain ⟨j, hj, hk, hf⟩ := hinv.masks
  have hidxle : m.next_idx ≤ 2 ^ j - 1 := by
    have := hinv.cap
    rw [hk] at this
    omega
  -- the hash of the key is the same in the old and in the new map
  have hh : ∀ func, hashmap_hashit H (hashmap_put H m k v).2 k func = hashmap_hashit H m k func := by
    intro func
    simp only [hashmap_hashit, hks, hbkt, hfp]
  -- a lookup that succeeds returns a pair with the key
  have hfound : ∀ x, hashmap_get H (hashmap_put H m k v).2 k = some x →
      ((hashmap_put H m k v).2.pairs x).1 = k ∧
      ∃ b i, x = (hashmap_put H m k v).2.buckets b i &&& (hashmap_put H m k v).2.kvx_mask := by
    intro x hx
    unfold hashmap_get at hx
    split at hx
    · rename_i y hy
      simp only [Option.some.injEq] at hx
      subst hx
      obtain ⟨h1, i, _, h2, _⟩ := hashmap_scan_some _ _ _ _ _ _ hy
      exact ⟨h1, _, i, h2⟩
    · obtain ⟨h1, i, _, h2, _⟩ := hashmap_scan_some _ _ _ _ _ _ hx
      exact ⟨h1, _, i, h2⟩
  -- the lookup succeeds
  have hex : ∃ x, hashmap_get H (hashmap_put H m k v).2 k = some x := by
    unfold hashmap_get
    cases hl : hashmap_scan (hashmap_put H m k v).2 k
        (hashmap_hashit H (hashmap_put H m k v).2 k 0).1
        (hashmap_hashit H (hashmap_put H m k v).2 k 0).2 (List.range BKT_SIZE) with
    | some y => exact ⟨y, rfl⟩
    | none =>
      simp only
      cases hrr : hashmap_scan (hashmap_put H m k v).2 k
        (((hashmap_hashit H (hashmap_put H m k v).2 k 1).1 +
          (hashmap_put H m k v).2.n_buckets) % U32)
        (hashmap_hashit H (hashmap_put H m k v).2 k 1).2 (List.range BKT_SIZE) with
      | some y => exact ⟨y, rfl⟩
      | none =>
        exfalso
        have hL := hashmap_scan_none _ _ _ _ _ hl i (List.mem_range.2 hi)
        have hR := hashmap_scan_none _ _ _ _ _ hrr i (List.mem_range.2 hi)
        rw [hh] at hL hR
        rw [hnb] at hR
        rcases hslot with hs | hs
        · apply hL
          rw [hs, hfp, hkvx, hpairs]
          simp only [hashmap_hashit, hf, hk]
          rw [slot_word_fp _ _ j hj, slot_word_kvx _ _ j hj hidxle]
          simp
        · apply hR
          rw [hs, hfp, hkvx, hpairs]
          simp only [hashmap_hashit, hf, hk]
          rw [slot_word_fp _ _ j hj, slot_word_kvx _ _ j hj hidxle]
          simp
  obtain ⟨x, hx⟩ := hex
  obtain ⟨hkey, b, i', hxw⟩ := hfound x hx
  refine ⟨x, hx, hkey, ?_⟩
  intro hnew
  have hxlt : x < m.next_idx + 1 := by
    by_cases hw : (hashmap_put H m k v).2.buckets b i' = 0
    · rw [hxw, hw, Nat.zero_and]; omega
    · have := hinv'.words b i' hw
      rw [hnext] at this
      rw [hxw]; exact this
  have hxeq : x = m.next_idx := by
    by_contra hne
    have hlt' : x < m.next_idx := by omega
    apply hnew x hlt'
    rw [hpairs] at hkey
    simpa [hne] using hkey
  refine ⟨by rw [hxeq, hidx], ?_⟩
  rw [hpairs, hxeq]
  simp

theorem example_map_created : hashmap_create_entry 4 1 1 = some example_map := by
  rfl

/-- C1 (counterexample). On the map `hashmap_create(4, 1, 1)`, put key `[1]`
with value `[10]` and then key `[1]` again with value `[20]`: the second put
succeeds (pair 1), yet `hashmap_get` of `[1]` returns pair 0, whose value bytes
are still `[10]`. -/
theorem hashmap_put_get_duplicate_key :
    hashmap_create_entry 4 1 1 = some example_map ∧
    (hashmap_put example_hash example_map [1] [10]).1 = some 0 ∧
    (hashmap_put example_hash (hashmap_put example_hash example_map [1] [10]).2 [1] [20]).1
      = some 1 ∧
    hashmap_get example_hash
      (hashmap_put example_hash (hashmap_put example_hash example_map [1] [10]).2 [1] [20]).2 [1]
      = some 0 ∧
    (hashmap_put example_hash (hashmap_put example_hash example_map [1] [10]).2 [1] [20]).2.pairs 0
      = ([1], [10]) := by
  refine ⟨rfl, ?_, ?_, ?_, ?_⟩ <;> decide

theorem hashmap_put_get_witness :
    hashmap_get example_hash (hashmap_put example_hash example_map [1] [10]).2 [1] = some 0 ∧
      (hashmap_put example_hash example_map [1] [10]).2.pairs 0 = ([1], [10]) := by
  obtain ⟨x, hx, _, hnew⟩ := hashmap_put_get example_hash example_map [1] [10] 0
    (Reachable.create 4 1 1 example_map example_map_created) (by decide)
  obtain ⟨h0, hp⟩ := hnew (by intro y hy; exact absurd hy (Nat.not_lt_zero y))
  subst h0
  exact ⟨hx, hp⟩

/-! ### MurmurHash3: published values -/

/-- The routine gives the published values of MurmurHash3 (x64, 128 bits) with
seed 0 on the empty input, on the five bytes of hello and on the 43 bytes of
`example_murmur_text` (two blocks and a tail of 11 bytes), written as
`(out[0], out[1])`. -/
theorem MurmurHash3_x64_128_values :
    MurmurHash3_x64_128 [] 0 0 = (0, 0) ∧
    MurmurHash3_x64_128 [104, 101, 108, 108, 111] 5 0 =
      (0xcbd8a7b341bd9b02, 0x5b1e906a48ae1d19) ∧
    MurmurHash3_x64_128 example_murmur_text 43 0 =
      (0xe34bbc7bbc071b6c, 0x7a433ca9c49a9347) := by
  decide

/-- The two hashes `hashmap_hashit` takes of the one-byte key `[0]`, with the
seeds `C1` (function 0) and `C0` (function 1): on `hashmap_create(4, 1, 1)` and
on `hashmap_create(16, 1, 1)` its fingerprints are `0x9db2c2e0` and
`0x87511900`, neither of them 0. -/
theorem MurmurHash3_x64_128_zero_byte :
    MurmurHash3_x64_128 [0] 1 C1 = (0x5ffa233891d5e338, 0xa4fabb909db2c2ff) ∧
    MurmurHash3_x64_128 [0] 1 C0 = (0x07ff786bf9ef34db, 0xfa8ec3e187511912) ∧
    hashmap_hashit MurmurHash3_x64_128 example_map [0] 0 = (0, 0x9db2c2e0) ∧
    hashmap_hashit MurmurHash3_x64_128 example_map [0] 1 = (3, 0x87511900) := by
  decide

/-- C10 (the code at the failing input). On `hashmap_create(16, 4, 4)` with
MurmurHash3 the key `58 a0 b0 01` has the first bucket 1 and the first
fingerprint 0 (its second bucket is 2, at index 6 of the array, with
fingerprint `0x9669c3a0`). It is put first, so its slot word
`fp | (0 & kvx_mask)` is 0, in slot 3 of bucket 1. The keys 2, 8, 12, 30, 52
and 77 of the same two buckets are put after it (the put of key 2 takes slot 3
of bucket 1, whose word is 0): all seven puts succeed, and `hashmap_get` still
returns pair 0 for the first key, through the zero word of slot 0 of bucket 1.
The put of the different key 79 then succeeds and writes that slot, after
which `hashmap_get` of the first key returns `NULL`, while pair 0 still holds
its key and value bytes. -/
theorem hashmap_put_loses_zero_word_entry :
    hashmap_create_entry 16 4 4 = some example_murmur_map ∧
    hashmap_hashit MurmurHash3_x64_128 example_murmur_map example_murmur_key 0 = (1, 0) ∧
    hashmap_hashit MurmurHash3_x64_128 example_murmur_map example_murmur_key 1 =
      (2, 0x9669c3a0) ∧
    (hashmap_put MurmurHash3_x64_128 example_murmur_map example_murmur_key [9, 0, 0, 0]).1 =
      some 0 ∧
    (hashmap_put MurmurHash3_x64_128 example_murmur_map example_murmur_key
      [9, 0, 0, 0]).2.buckets 1 3 = 0 ∧
    hashmap_puts_ok MurmurHash3_x64_128 example_murmur_map example_murmur_puts = 7 ∧
    (List.range BKT_SIZE).map (example_murmur_filled.buckets 1) =
      [0, 0x5f6d51c5, 0xa3786e43, 0x19094e81] ∧
    (List.range BKT_SIZE).map (example_murmur_filled.buckets 6) =
      [0, 0xe772cee6, 0x229db1e4, 0xe9b50dc2] ∧
    hashmap_get MurmurHash3_x64_128 example_murmur_filled example_murmur_key = some 0 ∧
    example_murmur_filled.pairs 0 = (example_murmur_key, [9, 0, 0, 0]) ∧
    [79, 0, 0, 0] ≠ example_murmur_key ∧
    hashmap_hashit MurmurHash3_x64_128 example_murmur_filled [79, 0, 0, 0] 0 =
      (1, 0x72d2aac0) ∧
    (hashmap_put MurmurHash3_x64_128 example_murmur_filled [79, 0, 0, 0] [9, 0, 0, 0]).1 =
      some 7 ∧
    (hashmap_put MurmurHash3_x64_128 example_murmur_filled [79, 0, 0, 0]
      [9, 0, 0, 0]).2.buckets 1 0 = 0x72d2aac7 ∧
    (hashmap_put MurmurHash3_x64_128 example_murmur_filled [79, 0, 0, 0]
      [9, 0, 0, 0]).2.pairs 0 = (example_murmur_key, [9, 0, 0, 0]) ∧
    hashmap_get MurmurHash3_x64_128
      (hashmap_put MurmurHash3_x64_128 example_murmur_filled [79, 0, 0, 0] [9, 0, 0, 0]).2
      example_murmur_key = none := by
  refine ⟨rfl, ?_, ?_, ?_, ?_, ?_, ?_, ?_, ?_, ?_, ?_, ?_, ?_, ?_, ?_, ?_⟩ <;> decide

/-! #### Earlier entries under later insertions -/

/-- The bucket array after a successful `hashmap_put`: one slot whose word was
zero now holds the new word, which decodes to the old `next_idx`. -/
theorem hashmap_put_slot (H : HashFn) (m : pna_hashmap) (key value : Bytes) (idx : Nat)
    (hinv : hashmap_inv m) (h : (hashmap_put H m key value).1 = some idx) :
    ∃ b i w, m.buckets b i = 0 ∧ w &&& m.kvx_mask = m.next_idx ∧
      (hashmap_put H m key value).2.buckets =
        (fun b' i' => if b' = b ∧ i' = i then w else m.buckets b' i') := by
  obtain ⟨j, hj, hk, hf⟩ := hinv.masks
  have hidx : m.next_idx ≤ 2 ^ j - 1 := by
    have h1 := hinv.cap
    have h2 := hinv.idx_le
    rw [hk] at h1
    omega
  unfold hashmap_put at h ⊢
  split at h
  · simp at h
  · rename_i hfull
    dsimp only at h ⊢
    split at h
    · simp at h
    · rename_i hz
      simp only [hfull, hz, if_false]
      have c0 := count_free_snd m (hashmap_hashit H m key 0).1 (List.range BKT_SIZE) (0, 0)
      have c1 := count_free_snd m (((hashmap_hashit H m key 1).1 + m.n_buckets) % U32)
        (List.range BKT_SIZE) (0, 0)
      split at h
      · rename_i hge
        simp only [hge, if_true]
        refine ⟨_, _, _, (c0 (by omega)).2, ?_, rfl⟩
        simp only [hashmap_hashit, hf, hk]
        exact slot_word_kvx _ _ j hj hidx
      · rename_i hlt
        simp only [hlt, if_false]
        refine ⟨_, _, _, (c1 (by omega)).2, ?_, rfl⟩
        simp only [hashmap_hashit, hf, hk]
        exact slot_word_kvx _ _ j hj hidx

theorem hashmap_put_none_same (H : HashFn) (m : pna_hashmap) (key value : Bytes)
    (h : (hashmap_put H m key value).1 = none) : (hashmap_put H m key value).2 = m := by
  unfold hashmap_put at h ⊢
  split at h
  · rename_i hfull
    simp only [hfull, if_true]
  · rename_i hfull
    dsimp only at h ⊢
    simp only [hfull, if_false]
    split at h
    · rename_i hz
      simp only [hz, if_true]
    · split at h <;> simp at h

theorem hashmap_scan_congr (m m' : pna_hashmap) (key : Bytes) (bkt fp : Nat) (l : List Nat)
    (hfp : m'.fp_mask = m.fp_mask) (hkvx : m'.kvx_mask = m.kvx_mask)
    (hslot : ∀ i, i ∈ l →
      (((m'.buckets bkt i &&& m.fp_mask) = fp ∧
          (m'.pairs (m'.buckets bkt i &&& m.kvx_mask)).1 = key) ↔
        ((m.buckets bkt i &&& m.fp_mask) = fp ∧
          (m.pairs (m.buckets bkt i &&& m.kvx_mask)).1 = key)) ∧
      (((m.buckets bkt i &&& m.fp_mask) = fp ∧
          (m.pairs (m.buckets bkt i &&& m.kvx_mask)).1 = key) →
        m'.buckets bkt i = m.buckets bkt i)) :
    hashmap_scan m' key bkt fp l = hashmap_scan m key bkt fp l := by
  induction l with
  | nil => rfl
  | cons i rest ih =>
    rw [hashmap_scan, hashmap_scan, hfp, hkvx]
    obtain ⟨hiff, hsame⟩ := hslot i (List.mem_cons_self _ _)
    by_cases hm : (m.buckets bkt i &&& m.fp_mask) = fp ∧
        (m.pairs (m.buckets bkt i &&& m.kvx_mask)).1 = key
    · rw [if_pos (hiff.2 hm), if_pos hm, hsame hm]
    · rw [if_neg (fun h => hm (hiff.1 h)), if_neg hm]
      exact ih (fun x hx => hslot x (List.mem_cons_of_mem _ hx))

/-- Prior entries survive later puts of other keys as long as the key is not
found through a zero slot word: in every reachable map, for a key `k` whose
two fingerprints are nonzero, a `hashmap_put` of a different key (successful
or not) leaves `hashmap_get(k)` and the pair it returns unchanged. -/
theorem hashmap_put_keeps_get (H : HashFn) (m : pna_hashmap) (k k' v' : Bytes)
    (hr : Reachable H m) (hne : k' ≠ k)
    (hfp0 : (hashmap_hashit H m k 0).2 ≠ 0) (hfp1 : (hashmap_hashit H m k 1).2 ≠ 0) :
    hashmap_get H (hashmap_put H m k' v').2 k = hashmap_get H m k ∧
    ∀ x, hashmap_get H m k = some x → (hashmap_put H m k' v').2.pairs x = m.pairs x := by
  have hinv := hr.inv
  cases hput : (hashmap_put H m k' v').1 with
  | none =>
    rw [hashmap_put_none_same H m k' v' hput]
    exact ⟨rfl, fun _ _ => rfl⟩
  | some idx =>
    obtain ⟨_, _, _, hkvx, hfp, hbkt, hks, hnb, hpairs, _⟩ := hashmap_put_some H m k' v' idx hput
    obtain ⟨b, i, w, hzero, hw, hbuckets⟩ := hashmap_put_slot H m k' v' idx hinv hput
    have hh : ∀ func, hashmap_hashit H (hashmap_put H m k' v').2 k func =
        hashmap_hashit H m k func := by
      intro func
      simp only [hashmap_hashit, hks, hbkt, hfp]
    -- every slot answers a lookup of `k` as before
    have hslot : ∀ bkt fp, fp ≠ 0 → ∀ i', i' ∈ List.range BKT_SIZE →
      ((((hashmap_put H m k' v').2.buckets bkt i' &&& m.fp_mask) = fp ∧
          ((hashmap_put H m k' v').2.pairs
            ((hashmap_put H m k' v').2.buckets bkt i' &&& m.kvx_mask)).1 = k) ↔
        ((m.buckets bkt i' &&& m.fp_mask) = fp ∧
          (m.pairs (m.buckets bkt i' &&& m.kvx_mask)).1 = k)) ∧
      (((m.buckets bkt i' &&& m.fp_mask) = fp ∧
          (m.pairs (m.buckets bkt i' &&& m.kvx_mask)).1 = k) →
        (hashmap_put H m k' v').2.buckets bkt i' = m.buckets bkt i') := by
      intro bkt fp hfpne i' _
      rw [hbuckets, hpairs]
      by_cases hat : bkt = b ∧ i' = i
      · obtain ⟨e1, e2⟩ := hat
        subst e1; subst e2
        simp only [and_self, if_true, hw, hzero, Nat.zero_and]
        constructor
        · constructor
          · rintro ⟨_, hkey⟩
            exact absurd hkey hne
          · rintro ⟨h0, _⟩
            exact absurd h0.symm hfpne
        · rintro ⟨h0, _⟩
          exact absurd h0.symm hfpne
      · simp only [hat, if_false]
        refine ⟨?_, fun _ => trivial⟩
        by_cases hword : m.buckets bkt i' = 0
        · rw [hword, Nat.zero_and]
          constructor
          · rintro ⟨h0, _⟩; exact absurd h0.symm hfpne
          · rintro ⟨h0, _⟩; exact absurd h0.symm hfpne
        · have hlt := hinv.words bkt i' hword
          have hx : ¬ (m.buckets bkt i' &&& m.kvx_mask = m.next_idx) := by omega
          simp only [hx, if_false]
    have hL := hashmap_scan_congr m (hashmap_put H m k' v').2 k (hashmap_hashit H m k 0).1
      (hashmap_hashit H m k 0).2 (List.range BKT_SIZE) hfp hkvx
      (hslot _ _ hfp0)
    have hR := hashmap_scan_congr m (hashmap_put H m k' v').2 k
      (((hashmap_hashit H m k 1).1 + m.n_buckets) % U32)
      (hashmap_hashit H m k 1).2 (List.range BKT_SIZE) hfp hkvx
      (hslot _ _ hfp1)
    have hget : hashmap_get H (hashmap_put H m k' v').2 k = hashmap_get H m k := by
      unfold hashmap_get
      rw [hh, hh, hnb, hL, hR]
    refine ⟨hget, ?_⟩
    intro x hx
    -- the pair returned was found through a nonzero word, so it is an old pair
    have hold : ∃ bkt i' fp, fp ≠ 0 ∧ x = m.buckets bkt i' &&& m.kvx_mask ∧
        (m.buckets bkt i' &&& m.fp_mask) = fp := by
      unfold hashmap_get at hx
      split at hx
      · rename_i y hy
        simp only [Option.some.injEq] at hx
        subst hx
        obtain ⟨_, i', _, h2, h3⟩ := hashmap_scan_some _ _ _ _ _ _ hy
        exact ⟨_, i', _, hfp0, h2, h3⟩
      · obtain ⟨_, i', _, h2, h3⟩ := hashmap_scan_some _ _ _ _ _ _ hx
        exact ⟨_, i', _, hfp1, h2, h3⟩
    obtain ⟨bkt, i', fp, hfpne, hxw, hxfp⟩ := hold
    have hword : m.buckets bkt i' ≠ 0 := by
      intro e
      rw [e, Nat.zero_and] at hxfp
      exact hfpne hxfp.symm
    have hlt := hinv.words bkt i' hword
    rw [hpairs]
    have hxne : ¬ (x = m.next_idx) := by omega
    simp only [hxne, if_false]

theorem hashmap_put_keeps_get_example :
    hashmap_get example_hash
        (hashmap_put example_hash (hashmap_put example_hash example_map [1] [10]).2 [2] [20]).2 [1]
      = hashmap_get example_hash (hashmap_put example_hash example_map [1] [10]).2 [1] ∧
    hashmap_get example_hash (hashmap_put example_hash example_map [1] [10]).2 [1] = some 0 :=
  ⟨(hashmap_put_keeps_get example_hash (hashmap_put example_hash example_map [1] [10]).2
      [1] [2] [20]
      (Reachable.put _ _ _ (Reachable.create 4 1 1 example_map example_map_created))
      (by decide) (by decide) (by decide)).1, by decide⟩

/-! ### The localizer -/

/-- C2. `pna_localize`: (a) when `local_ip & mask == prefix & mask` it returns
1 with direction OUTBOUND and the key unchanged; (b) otherwise, when
`remote_ip & mask == prefix & mask`, it returns 1 with direction INBOUND and
the key with the two addresses and the two ports swapped, the protocol fields
unchanged; (c) otherwise it returns 0 with the key unchanged. Whenever it
returns 1 the resulting `local_ip` is inside the local network, and with mask
`0xffffffff` a key whose `local_ip` equals the (32-bit) prefix is local. -/
theorem pna_localize_spec (P : pna_consts) ( pna_prefix pna_mask : Nat) (key : pna_flowkey)
    (direction : Nat) :
    (key.local_ip &&& pna_mask = ( pna_prefix &&& pna_mask) →
      pna_localize P pna_prefix pna_mask key direction = (1, key, P.PNA_DIR_OUTBOUND)) ∧
    (key.local_ip &&& pna_mask ≠ ( pna_prefix &&& pna_mask) →
      key.remote_ip &&& pna_mask = ( pna_prefix &&& pna_mask) →
      pna_localize P pna_prefix pna_mask key direction =
        (1,
          { l3_protocol := key.l3_protocol, l4_protocol := key.l4_protocol,
            local_ip := key.remote_ip, remote_ip := key.local_ip,
            local_port := key.remote_port, remote_port := key.local_port },
          P.PNA_DIR_INBOUND)) ∧
    (key.local_ip &&& pna_mask ≠ ( pna_prefix &&& pna_mask) →
      key.remote_ip &&& pna_mask ≠ ( pna_prefix &&& pna_mask) →
      pna_localize P pna_prefix pna_mask key direction = (0, key, direction)) ∧
    ((pna_localize P pna_prefix pna_mask key direction).1 = 1 →
      (pna_localize P pna_prefix pna_mask key direction).2.1.local_ip &&& pna_mask =
        ( pna_prefix &&& pna_mask)) ∧
    (key.local_ip = pna_prefix →
      pna_localize P pna_prefix 0xffffffff key direction = (1, key, P.PNA_DIR_OUTBOUND)) := by
  refine ⟨?_, ?_, ?_, ?_, ?_⟩
  · intro h
    simp [pna_localize, h]
  · intro h1 h2
    simp [pna_localize, h1, h2]
  · intro h1 h2
    simp [pna_localize, h1, h2]
  · unfold pna_localize
    split
    · intro _; assumption
    · split
      · intro _; assumption
      · intro h; simp at h
  · intro h
    simp [pna_localize, h]

/-! ### Level 1: `do_lip_entry` -/

theorem upd_same {α : Type} (f : Nat → α) (i : Nat) (x : α) : upd f i x i = x := by
  simp [upd]

theorem upd_other {α : Type} (f : Nat → α) (i j : Nat) (x : α) (h : j ≠ i) :
    upd f i x j = f j := by
  simp [upd, h]

/-- The three outcomes of the level-1 probe loop. -/
theorem lip_probe_cases (P : pna_consts) (info : utab_info) (local_ip : Nat)
    (n hash : Nat) (hh : hash < P.PNA_LIP_ENTRIES) :
    (∃ h, h < P.PNA_LIP_ENTRIES ∧ (lip_probe P info local_ip n hash).1 = some h ∧
        (info.lips h).local_ip = local_ip ∧ (lip_probe P info local_ip n hash).2 = info) ∨
    (∃ h, h < P.PNA_LIP_ENTRIES ∧ (lip_probe P info local_ip n hash).1 = some h ∧
        (info.lips h).local_ip = 0 ∧
        (lip_probe P info local_ip n hash).2 = lip_claimed info h local_ip) ∨
    ((lip_probe P info local_ip n hash).1 = none ∧
        (lip_probe P info local_ip n hash).2 = lip_missed info) := by
  induction n generalizing hash with
  | zero => right; right; exact ⟨rfl, rfl⟩
  | succ n ih =>
    rw [lip_probe]
    by_cases h1 : local_ip = (info.lips hash).local_ip
    · left
      exact ⟨hash, hh, by simp [h1], h1.symm, by simp [h1]⟩
    · by_cases h2 : 0 = (info.lips hash).local_ip
      · right; left
        exact ⟨hash, hh, by simp [h1, h2], h2.symm, by simp [h1, h2, lip_claimed]⟩
      · simp only [h1, h2, if_false]
        exact ih _ (Nat.mod_lt _ (by omega))

theorem do_lip_entry_cases (P : pna_consts) (info : utab_info) (local_ip direction : Nat)
    (hhash : ∀ x, P.hash_long x P.PNA_LIP_BITS < P.PNA_LIP_ENTRIES) :
    (∃ h, h < P.PNA_LIP_ENTRIES ∧ (do_lip_entry P info local_ip direction).1 = some h ∧
        (info.lips h).local_ip = local_ip ∧ (do_lip_entry P info local_ip direction).2 = info) ∨
    (∃ h, h < P.PNA_LIP_ENTRIES ∧ (do_lip_entry P info local_ip direction).1 = some h ∧
        (info.lips h).local_ip = 0 ∧
        (do_lip_entry P info local_ip direction).2 = lip_claimed info h local_ip) ∨
    ((do_lip_entry P info local_ip direction).1 = none ∧
        (do_lip_entry P info local_ip direction).2 = lip_missed info) :=
  lip_probe_cases P info local_ip PROBE_LIMIT _ (hhash local_ip)

theorem lip_occupied_claimed (P : pna_consts) (info : utab_info) (h local_ip : Nat)
    (hh : h < P.PNA_LIP_ENTRIES) (hfree : (info.lips h).local_ip = 0) (hip : local_ip ≠ 0) :
    lip_occupied P (lip_claimed info h local_ip) = lip_occupied P info + 1 := by
  unfold lip_occupied
  have hset : (Finset.range P.PNA_LIP_ENTRIES).filter
        (fun x => ((lip_claimed info h local_ip).lips x).local_ip ≠ 0) =
      insert h ((Finset.range P.PNA_LIP_ENTRIES).filter (fun x => (info.lips x).local_ip ≠ 0)) := by
    ext x
    simp only [Finset.mem_filter, Finset.mem_range, Finset.mem_insert, lip_claimed]
    by_cases hx : x = h
    · subst hx
      simp [upd, hh, hip]
    · simp [upd, hx]
  rw [hset, Finset.card_insert_of_not_mem]
  simp [hfree]

/-- The step of the accounting: one call adds its insertion attempt to
`nlips + nlips_missed` and keeps `nlips` in step with the occupied slots. -/
theorem do_lip_entry_step (P : pna_consts) (info : utab_info) (local_ip direction : Nat)
    (hhash : ∀ x, P.hash_long x P.PNA_LIP_BITS < P.PNA_LIP_ENTRIES) (hip : local_ip ≠ 0) :
    (do_lip_entry P info local_ip direction).2.nlips +
        (do_lip_entry P info local_ip direction).2.nlips_missed =
      info.nlips + info.nlips_missed + (if lip_found P info local_ip direction then 0 else 1) ∧
    (do_lip_entry P info local_ip direction).2.nlips + lip_occupied P info =
      info.nlips + lip_occupied P (do_lip_entry P info local_ip direction).2 := by
  rcases do_lip_entry_cases P info local_ip direction hhash with
    ⟨h, hh, hr, hl, hs⟩ | ⟨h, hh, hr, hl, hs⟩ | ⟨hr, hs⟩
  · simp [lip_found, hr, hl, hs]
  · have hne : (info.lips h).local_ip ≠ local_ip := by rw [hl]; exact fun e => hip e.symm
    rw [hs, lip_occupied_claimed P info h local_ip hh hl hip]
    simp only [lip_found, hr, hne, decide_False]
    simp only [lip_claimed]
    constructor
    · simp; omega
    · omega
  · rw [hs]
    simp only [lip_found, hr, lip_missed, lip_occupied]
    simp
    omega

theorem do_lip_entries_account (P : pna_consts) (info : utab_info) (calls : List (Nat × Nat))
    (hhash : ∀ x, P.hash_long x P.PNA_LIP_BITS < P.PNA_LIP_ENTRIES)
    (hcalls : ∀ c ∈ calls, c.1 ≠ 0) :
    (do_lip_entries P info calls).nlips + (do_lip_entries P info calls).nlips_missed =
      info.nlips + info.nlips_missed + lip_insert_attempts P info calls ∧
    (do_lip_entries P info calls).nlips + lip_occupied P info =
      info.nlips + lip_occupied P (do_lip_entries P info calls) := by
  induction calls generalizing info with
  | nil => simp [do_lip_entries, lip_insert_attempts]
  | cons c rest ih =>
    have hc := do_lip_entry_step P info c.1 c.2 hhash (hcalls c (List.mem_cons_self _ _))
    have hr := ih (do_lip_entry P info c.1 c.2).2
      (fun d hd => hcalls d (List.mem_cons_of_mem _ hd))
    rw [do_lip_entries, lip_insert_attempts]
    constructor
    · omega
    · omega

/-- C3. For every table state and every nonzero `local_ip`, a call
`do_lip_entry(local_ip, dir)` does exactly one of: (found) it returns a slot
whose `local_ip` equals the argument and changes nothing; (claimed) it writes
`local_ip` into a slot that was free, increments `nlips` by one and returns
that slot; (overflow) it returns `NULL` and increments `nlips_missed` by one.
Hence after any list of such calls on the empty table `nlips + nlips_missed`
is the number of insertion attempts (the calls that did not find an existing
entry) and `nlips` is the number of occupied LIP slots. The initial hash is
an index of the table (`hash_long(x, PNA_LIP_BITS) < PNA_LIP_ENTRIES`). -/
theorem do_lip_entry_accounting (P : pna_consts)
    (hhash : ∀ x, P.hash_long x P.PNA_LIP_BITS < P.PNA_LIP_ENTRIES)
    (info : utab_info) (local_ip direction : Nat) (hip : local_ip ≠ 0)
    (calls : List (Nat × Nat)) (hcalls : ∀ c ∈ calls, c.1 ≠ 0) :
    (((∃ h, (do_lip_entry P info local_ip direction).1 = some h ∧
          (info.lips h).local_ip = local_ip ∧
          (do_lip_entry P info local_ip direction).2 = info) ∨
      (∃ h, (do_lip_entry P info local_ip direction).1 = some h ∧
          (info.lips h).local_ip = 0 ∧
          (do_lip_entry P info local_ip direction).2 =
            { info with
              lips := upd info.lips h { info.lips h with local_ip := local_ip }
              nlips := info.nlips + 1 }) ∨
      ((do_lip_entry P info local_ip direction).1 = none ∧
          (do_lip_entry P info local_ip direction).2 =
            { info with nlips_missed := info.nlips_missed + 1 })) ∧
     ¬ ((∃ h, (do_lip_entry P info local_ip direction).1 = some h ∧
            (info.lips h).local_ip = local_ip) ∧
        (∃ h, (do_lip_entry P info local_ip direction).1 = some h ∧
            (info.lips h).local_ip = 0)) ∧
     ¬ ((∃ h, (do_lip_entry P info local_ip direction).1 = some h) ∧
        (do_lip_entry P info local_ip direction).1 = none)) ∧
    ((do_lip_entries P utab_empty calls).nlips + (do_lip_entries P utab_empty calls).nlips_missed =
        lip_insert_attempts P utab_empty calls ∧
     (do_lip_entries P utab_empty calls).nlips =
        lip_occupied P (do_lip_entries P utab_empty calls)) := by
  refine ⟨⟨?_, ?_, ?_⟩, ?_⟩
  · rcases do_lip_entry_cases P info local_ip direction hhash with
      ⟨h, _, hr, hl, hs⟩ | ⟨h, _, hr, hl, hs⟩ | ⟨hr, hs⟩
    · exact Or.inl ⟨h, hr, hl, hs⟩
    · exact Or.inr (Or.inl ⟨h, hr, hl, hs⟩)
    · exact Or.inr (Or.inr ⟨hr, hs⟩)
  · rintro ⟨⟨h, hr, hl⟩, ⟨h', hr', hl'⟩⟩
    rw [hr] at hr'
    simp only [Option.some.injEq] at hr'
    subst hr'
    exact hip (hl.symm.trans hl')
  · rintro ⟨⟨h, hr⟩, hn⟩
    rw [hr] at hn
    exact absurd hn (by simp)
  · have hacc := do_lip_entries_account P utab_empty calls hhash hcalls
    have h0 : lip_occupied P utab_empty = 0 := by
      simp [lip_occupied, utab_empty]
    have hn : utab_empty.nlips = 0 := rfl
    have hm : utab_empty.nlips_missed = 0 := rfl
    rw [h0, hn, hm] at hacc
    constructor
    · omega
    · omega

theorem example_hash_long_lt (x : Nat) : example_consts.hash_long x 4 < 16 := by
  show ((x * 0x9e370001) % 2 ^ 32) >>> (32 - 4) < 16
  rw [Nat.shiftRight_eq_div_pow]
  have : (x * 0x9e370001) % 2 ^ 32 < 2 ^ 32 := Nat.mod_lt _ (by decide)
  omega

theorem do_lip_entry_accounting_witness :
    (do_lip_entries example_consts utab_empty
        [(0x0a000001, 0), (0x0a000002, 0), (0x0a000001, 1)]).nlips +
      (do_lip_entries example_consts utab_empty
        [(0x0a000001, 0), (0x0a000002, 0), (0x0a000001, 1)]).nlips_missed =
      lip_insert_attempts example_consts utab_empty
        [(0x0a000001, 0), (0x0a000002, 0), (0x0a000001, 1)] ∧
    (do_lip_entries example_consts utab_empty
        [(0x0a000001, 0), (0x0a000002, 0), (0x0a000001, 1)]).nlips =
      lip_occupied example_consts (do_lip_entries example_consts utab_empty
        [(0x0a000001, 0), (0x0a000002, 0), (0x0a000001, 1)]) ∧
    (do_lip_entries example_consts utab_empty
        [(0x0a000001, 0), (0x0a000002, 0), (0x0a000001, 1)]).nlips = 2 :=
  ⟨(do_lip_entry_accounting example_consts example_hash_long_lt utab_empty 0x0a000001 0
      (by decide) [(0x0a000001, 0), (0x0a000002, 0), (0x0a000001, 1)] (by decide)).2.1,
   (do_lip_entry_accounting example_consts example_hash_long_lt utab_empty 0x0a000001 0
      (by decide) [(0x0a000001, 0), (0x0a000002, 0), (0x0a000001, 1)] (by decide)).2.2,
   by decide⟩

/-! ### Level 2 and level 3: the probe loops -/

theorem probe_slot_succ (entries hash j : Nat) :
    probe_slot entries hash (j + 1) = (probe_slot entries hash j + 1) % entries := by
  induction j generalizing hash with
  | zero => rfl
  | succ j ih =>
    rw [probe_slot, ih]
    rfl

/-- The outcomes of the level-2 probe loop: it stops at the first slot on the
probe path that matches or is free, or gives up after `n` slots. -/
theorem rip_probe_cases (P : pna_consts) (info : utab_info) (lip remote_ip direction : Nat)
    (n hash : Nat) :
    (∃ j, j < n ∧
      (∀ i, i < j → ¬ rip_match P info lip remote_ip (probe_slot P.PNA_RIP_ENTRIES hash i) ∧
        (info.rips (probe_slot P.PNA_RIP_ENTRIES hash i)).remote_ip ≠ 0) ∧
      rip_match P info lip remote_ip (probe_slot P.PNA_RIP_ENTRIES hash j) ∧
      rip_probe P info lip remote_ip direction n hash =
        (some (probe_slot P.PNA_RIP_ENTRIES hash j),
          rip_matched info lip (probe_slot P.PNA_RIP_ENTRIES hash j) direction)) ∨
    (∃ j, j < n ∧
      (∀ i, i < j → ¬ rip_match P info lip remote_ip (probe_slot P.PNA_RIP_ENTRIES hash i) ∧
        (info.rips (probe_slot P.PNA_RIP_ENTRIES hash i)).remote_ip ≠ 0) ∧
      ¬ rip_match P info lip remote_ip (probe_slot P.PNA_RIP_ENTRIES hash j) ∧
      (info.rips (probe_slot P.PNA_RIP_ENTRIES hash j)).remote_ip = 0 ∧
      rip_probe P info lip remote_ip direction n hash =
        (some (probe_slot P.PNA_RIP_ENTRIES hash j),
          rip_claimed P info lip remote_ip (probe_slot P.PNA_RIP_ENTRIES hash j) direction)) ∨
    ((∀ i, i < n → ¬ rip_match P info lip remote_ip (probe_slot P.PNA_RIP_ENTRIES hash i) ∧
        (info.rips (probe_slot P.PNA_RIP_ENTRIES hash i)).remote_ip ≠ 0) ∧
      rip_probe P info lip remote_ip direction n hash = (none, rip_missed info)) := by
  induction n generalizing hash with
  | zero =>
    right; right
    exact ⟨fun i hi => absurd hi (Nat.not_lt_zero i), rfl⟩
  | succ n ih =>
    rw [rip_probe]
    by_cases hm : rip_match P info lip remote_ip hash
    · left
      exact ⟨0, Nat.succ_pos n, fun i hi => absurd hi (Nat.not_lt_zero i), hm, by simp [hm, probe_slot]⟩
    · by_cases hf : 0 = (info.rips hash).remote_ip
      · right; left
        exact ⟨0, Nat.succ_pos n, fun i hi => absurd hi (Nat.not_lt_zero i), hm, hf.symm,
          by simp [hm, hf, probe_slot]⟩
      · simp only [hm, hf, if_false]
        have hstep : ∀ i, i < 1 →
            ¬ rip_match P info lip remote_ip (probe_slot P.PNA_RIP_ENTRIES hash i) ∧
            (info.rips (probe_slot P.PNA_RIP_ENTRIES hash i)).remote_ip ≠ 0 := by
          intro i hi
          have : i = 0 := by omega
          subst this
          exact ⟨hm, fun e => hf e.symm⟩
        have hall : ∀ j, (∀ i, i < j →
            ¬ rip_match P info lip remote_ip
              (probe_slot P.PNA_RIP_ENTRIES ((hash + 1) % P.PNA_RIP_ENTRIES) i) ∧
            (info.rips (probe_slot P.PNA_RIP_ENTRIES ((hash + 1) % P.PNA_RIP_ENTRIES) i)).remote_ip
              ≠ 0) →
            ∀ i, i < j + 1 →
            ¬ rip_match P info lip remote_ip (probe_slot P.PNA_RIP_ENTRIES hash i) ∧
            (info.rips (probe_slot P.PNA_RIP_ENTRIES hash i)).remote_ip ≠ 0 := by
          intro j hj i hi
          cases i with
          | zero => exact hstep 0 Nat.one_pos
          | succ i => exact hj i (by omega)
        rcases ih ((hash + 1) % P.PNA_RIP_ENTRIES) with
          ⟨j, hj, hpre, hmj, hr⟩ | ⟨j, hj, hpre, hmj, hfj, hr⟩ | ⟨hpre, hr⟩
        · left
          exact ⟨j + 1, by omega, hall j hpre, hmj, hr⟩
        · right; left
          exact ⟨j + 1, by omega, hall j hpre, hmj, hfj, hr⟩
        · right; right
          exact ⟨hall n hpre, hr⟩

theorem lor_eq_zero (a b : Nat) (h : a ||| b = 0) : a = 0 ∧ b = 0 := by
  have hbit : ∀ i, (a.testBit i || b.testBit i) = false := by
    intro i
    rw [← Nat.testBit_or, h, Nat.zero_testBit]
  constructor
  · apply Nat.eq_of_testBit_eq
    intro i
    have := hbit i
    rw [Nat.zero_testBit]
    cases ha : a.testBit i <;> simp_all
  · apply Nat.eq_of_testBit_eq
    intro i
    have := hbit i
    rw [Nat.zero_testBit]
    cases hb : b.testBit i <;> simp_all

/-- The outcomes of the level-3 probe loop. -/
theorem port_probe_cases (P : pna_consts) (info : utab_info)
    (lip rip proto local_port remote_port length direction now : Nat) (n hash : Nat) :
    (∃ j, j < n ∧
      port_match P info rip proto local_port remote_port (probe_slot P.PNA_PORT_ENTRIES hash j) ∧
      port_probe P info lip rip proto local_port remote_port length direction now n hash =
        (some (probe_slot P.PNA_PORT_ENTRIES hash j),
          port_matched info rip proto (probe_slot P.PNA_PORT_ENTRIES hash j) length direction)) ∨
    (∃ j, j < n ∧
      ¬ port_match P info rip proto local_port remote_port
          (probe_slot P.PNA_PORT_ENTRIES hash j) ∧
      (info.ports proto (probe_slot P.PNA_PORT_ENTRIES hash j)).local_port = 0 ∧
      (info.ports proto (probe_slot P.PNA_PORT_ENTRIES hash j)).remote_port = 0 ∧
      port_probe P info lip rip proto local_port remote_port length direction now n hash =
        (some (probe_slot P.PNA_PORT_ENTRIES hash j),
          port_claimed P info lip rip proto local_port remote_port
            (probe_slot P.PNA_PORT_ENTRIES hash j) length direction now)) ∨
    (port_probe P info lip rip proto local_port remote_port length direction now n hash =
        (none, port_missed info)) := by
  induction n generalizing hash with
  | zero => right; right; rfl
  | succ n ih =>
    rw [port_probe]
    by_cases hm : port_match P info rip proto local_port remote_port hash
    · left
      exact ⟨0, Nat.succ_pos n, hm, by simp [hm, probe_slot]⟩
    · by_cases hf : 0 = ((info.ports proto hash).local_port ||| (info.ports proto hash).remote_port)
      · right; left
        have hz := lor_eq_zero _ _ hf.symm
        exact ⟨0, Nat.succ_pos n, hm, hz.1, hz.2, by simp [hm, hf, probe_slot]⟩
      · simp only [hm, hf, if_false]
        rcases ih ((hash + 1) % P.PNA_PORT_ENTRIES) with
          ⟨j, hj, hmj, hr⟩ | ⟨j, hj, hmj, hf1, hf2, hr⟩ | hr
        · left
          exact ⟨j + 1, by omega, hmj, hr⟩
        · right; left
          exact ⟨j + 1, by omega, hmj, hf1, hf2, hr⟩
        · right; right
          exact hr
/-! ### Ownership bits -/

theorem and_shift_ne_zero (w k : Nat) : 0 ≠ (w &&& (1 <<< k)) ↔ w.testBit k = true := by
  rw [Nat.one_shiftLeft, Nat.and_two_pow]
  have hpos : 0 < 2 ^ k := Nat.pow_pos (by decide)
  cases h : w.testBit k
  · simp
  · simp
    omega

theorem lor_land_self (w m : Nat) : (w ||| m) &&& m = m := by
  apply Nat.eq_of_testBit_eq
  intro i
  rw [Nat.testBit_and, Nat.testBit_or]
  cases w.testBit i <;> cases m.testBit i <;> rfl

theorem land_lor_ne_zero (w m m2 : Nat) (hb : 0 ≠ (w &&& m)) : 0 ≠ ((w ||| m2) &&& m) := by
  intro h0
  apply hb
  symm
  apply Nat.eq_of_testBit_eq
  intro i
  have hi : ((w ||| m2) &&& m).testBit i = false := by rw [← h0]; exact Nat.zero_testBit i
  rw [Nat.testBit_and, Nat.testBit_or] at hi
  rw [Nat.testBit_and, Nat.zero_testBit]
  cases hw : w.testBit i <;> cases hm : m.testBit i <;> simp_all

theorem slot_bit_ne_zero (P : pna_consts) (h : Nat) : slot_bit P h ≠ 0 := by
  unfold slot_bit
  split
  · have h1 : (2 : Nat) ^ 32 ≤ 2 ^ max P.BITMAP_BITS 32 :=
      Nat.pow_le_pow_right (by decide) (Nat.le_max_right _ _)
    have h2 : (2 : Nat) ^ 31 < 2 ^ 32 := by decide
    omega
  · rw [Nat.one_shiftLeft]
    exact Nat.pos_iff_ne_zero.mp (Nat.pow_pos (by decide))

/-- With a bitmap word no wider than an `int` the value of
`1 << hash % BITMAP_BITS` is the single bit `hash % BITMAP_BITS`. -/
theorem slot_bit_lossless (P : pna_consts) (h : Nat) (hB : bitmap_fits_int P) :
    slot_bit P h = 1 <<< (h % P.BITMAP_BITS) := by
  obtain ⟨h0, h32⟩ := hB
  have hlt : h % P.BITMAP_BITS < P.BITMAP_BITS := Nat.mod_lt _ h0
  have hc : h % P.BITMAP_BITS % 32 = h % P.BITMAP_BITS := Nat.mod_eq_of_lt (by omega)
  unfold slot_bit
  rw [hc]
  split
  · rename_i h31
    have hBB : P.BITMAP_BITS = 32 := by omega
    rw [h31, hBB]
    decide
  · rfl

theorem slot_bit_set (P : pna_consts) (w h : Nat) : 0 ≠ ((w ||| slot_bit P h) &&& slot_bit P h) := by
  rw [lor_land_self]
  exact fun e => slot_bit_ne_zero P h e.symm

theorem slot_bit_mono (P : pna_consts) (w h h' : Nat) (hb : 0 ≠ (w &&& slot_bit P h)) :
    0 ≠ ((w ||| slot_bit P h') &&& slot_bit P h) :=
  land_lor_ne_zero _ _ _ hb

theorem lip_probe_frame (P : pna_consts) (info : utab_info) (local_ip n hash : Nat) :
    (lip_probe P info local_ip n hash).2.rips = info.rips ∧
    (lip_probe P info local_ip n hash).2.ports = info.ports ∧
    ∀ x, ((lip_probe P info local_ip n hash).2.lips x).dsts = (info.lips x).dsts := by
  induction n generalizing hash with
  | zero => exact ⟨rfl, rfl, fun _ => rfl⟩
  | succ n ih =>
    rw [lip_probe]
    split
    · exact ⟨rfl, rfl, fun _ => rfl⟩
    · split
      · refine ⟨rfl, rfl, fun x => ?_⟩
        simp only [lip_claimed, upd]
        split
        · rename_i hx; subst hx; rfl
        · rfl
      · exact ih _

theorem rip_matched_remote_ip (info : utab_info) (lip h direction x : Nat) :
    ((rip_matched info lip h direction).rips x).remote_ip = (info.rips x).remote_ip := by
  unfold rip_matched
  split
  · simp only [upd]
    split
    · rename_i hx; subst hx; rfl
    · rfl
  · rfl

theorem rip_matched_dsts (info : utab_info) (lip h direction x : Nat) :
    ((rip_matched info lip h direction).lips x).dsts = (info.lips x).dsts := by
  unfold rip_matched
  split
  · simp only [upd]
    split
    · rename_i hx; subst hx; rfl
    · rfl
  · rfl

theorem rip_claimed_remote_ip (P : pna_consts) (info : utab_info)
    (lip remote_ip h direction x : Nat) :
    ((rip_claimed P info lip remote_ip h direction).rips x).remote_ip =
      if x = h then remote_ip else (info.rips x).remote_ip := by
  simp only [rip_claimed, upd]
  split <;> rfl

theorem rip_claimed_dsts (P : pna_consts) (info : utab_info)
    (lip remote_ip h direction x w : Nat) :
    ((rip_claimed P info lip remote_ip h direction).lips x).dsts w =
      if x = lip ∧ w = h / P.BITMAP_BITS then (info.lips lip).dsts w ||| slot_bit P h
      else (info.lips x).dsts w := by
  simp only [rip_claimed, upd]
  by_cases hx : x = lip
  · subst hx
    by_cases hw : w = h / P.BITMAP_BITS
    · subst hw; simp [upd]
    · simp [upd, hw]
  · simp [hx]

theorem port_probe_frame (P : pna_consts) (info : utab_info)
    (lip rip proto local_port remote_port length direction now n hash : Nat) :
    (∀ x, ((port_probe P info lip rip proto local_port remote_port length direction now n
        hash).2.rips x).remote_ip = (info.rips x).remote_ip) ∧
    (∀ x, ((port_probe P info lip rip proto local_port remote_port length direction now n
        hash).2.lips x).dsts = (info.lips x).dsts) := by
  rcases port_probe_cases P info lip rip proto local_port remote_port length direction now n hash
    with ⟨j, _, _, hr⟩ | ⟨j, _, _, _, _, hr⟩ | hr
  · rw [hr]
    constructor
    · intro x
      simp only [port_matched]
      split <;> (simp only [upd]; split <;> [(rename_i hx; subst hx; rfl); rfl])
    · intro x
      simp only [port_matched]
      split <;> rfl
  · rw [hr]
    constructor
    · intro x
      simp only [port_claimed, upd]
      split
      · rename_i hx; subst hx; rfl
      · rfl
    · intro x
      simp only [port_claimed, upd]
      split
      · rename_i hx; subst hx; rfl
      · rfl
  · rw [hr]
    exact ⟨fun _ => rfl, fun _ => rfl⟩

theorem rip_owned_step (P : pna_consts) (info : utab_info) (claimer : Nat → Option Nat)
    (c : utab_call) (hinv : rip_owned P info claimer) :
    rip_owned P (utab_step P info c).2 (rip_claim_step P info c claimer) := by
  cases c with
  | lip local_ip direction =>
    obtain ⟨hr, _, hd⟩ := lip_probe_frame P info local_ip PROBE_LIMIT
      (P.hash_long local_ip P.PNA_LIP_BITS)
    intro h hocc
    simp only [utab_step, do_lip_entry, rip_claim_step] at hocc ⊢
    rw [hr] at hocc
    obtain ⟨L, hL, hb⟩ := hinv h hocc
    exact ⟨L, hL, by rw [hd]; exact hb⟩
  | port lip rip proto local_port remote_port length direction now =>
    obtain ⟨hr, hd⟩ := port_probe_frame P info lip rip proto local_port remote_port length
      direction now PROBE_LIMIT
      (P.hash_long ((info.rips rip).remote_ip ^^^ ((remote_port <<< 16) ||| local_port))
        P.PNA_PORT_BITS)
    intro h hocc
    simp only [utab_step, do_port_entry, rip_claim_step] at hocc ⊢
    rw [hr] at hocc
    obtain ⟨L, hL, hb⟩ := hinv h hocc
    exact ⟨L, hL, by rw [hd]; exact hb⟩
  | rip lip remote_ip direction =>
    intro h hocc
    simp only [utab_step, rip_claim_step] at hocc ⊢
    unfold do_rip_entry at hocc ⊢
    rcases rip_probe_cases P info lip remote_ip direction PROBE_LIMIT
        (P.hash_long ((info.lips lip).local_ip ^^^ remote_ip) P.PNA_RIP_BITS)
      with ⟨j, _, _, hm, hr⟩ | ⟨j, _, _, _, hf, hr⟩ | ⟨_, hr⟩
    · rw [hr] at hocc ⊢
      simp only at hocc ⊢
      rw [rip_matched_remote_ip] at hocc
      obtain ⟨L, hL, hb⟩ := hinv h hocc
      refine ⟨L, ?_, by rw [rip_matched_dsts]; exact hb⟩
      split
      · rename_i hz
        rw [upd_other]
        · exact hL
        · intro e; rw [e] at hocc; exact hocc hz
      · exact hL
    · rw [hr] at hocc ⊢
      simp only at hocc ⊢
      rw [rip_claimed_remote_ip] at hocc
      simp only [hf, if_true]
      by_cases hx : h = probe_slot P.PNA_RIP_ENTRIES
          (P.hash_long ((info.lips lip).local_ip ^^^ remote_ip) P.PNA_RIP_BITS) j
      · rw [← hx]
        refine ⟨lip, upd_same _ _ _, ?_⟩
        rw [rip_claimed_dsts]
        simp only [and_self, if_true]
        exact slot_bit_set P _ h
      · rw [if_neg hx] at hocc
        obtain ⟨L, hL, hb⟩ := hinv h hocc
        refine ⟨L, by rw [upd_other _ _ _ _ hx]; exact hL, ?_⟩
        rw [rip_claimed_dsts]
        split
        · rename_i hc
          obtain ⟨hLl, hw⟩ := hc
          subst hLl
          exact slot_bit_mono P _ _ _ hb
        · exact hb
    · rw [hr] at hocc ⊢
      exact hinv h hocc

theorem rip_owned_run (P : pna_consts) (info : utab_info) (claimer : Nat → Option Nat)
    (calls : List utab_call) (hinv : rip_owned P info claimer) :
    rip_owned P (utab_run P info calls) (rip_claimers P info claimer calls) := by
  induction calls generalizing info claimer with
  | nil => exact hinv
  | cons c rest ih => exact ih _ _ (rip_owned_step P info claimer c hinv)

/-- The ownership test as the code computes it, for every table and every
setting of the constants: every RIP slot `h` returned by
`do_rip_entry(L, remote_ip, dir)` has `remote_ip` equal to the argument and
passes the test `L.dsts[h / BITMAP_BITS] & (1 << h % BITMAP_BITS) != 0`; in
every table state reached from the empty table by `do_lip_entry` /
`do_rip_entry` / `do_port_entry` calls every occupied RIP slot passes that
test in the bitmap of the LIP entry that claimed it; and every port slot
returned by `do_port_entry` passes the test in the `prts[proto]` bitmap of the
RIP entry passed in. Which bits `1 << h % BITMAP_BITS` stands for is the
matter of `slot_bit`. -/
theorem ownership_bit_invariant (P : pna_consts) :
    (∀ (info : utab_info) (lip remote_ip direction h : Nat),
      (do_rip_entry P info lip remote_ip direction).1 = some h →
      ((do_rip_entry P info lip remote_ip direction).2.rips h).remote_ip = remote_ip ∧
      0 ≠ (((do_rip_entry P info lip remote_ip direction).2.lips lip).dsts (h / P.BITMAP_BITS)
            &&& slot_bit P h)) ∧
    (∀ (calls : List utab_call) (h : Nat),
      ((utab_run P utab_empty calls).rips h).remote_ip ≠ 0 →
      ∃ L, rip_claimers P utab_empty (fun _ => none) calls h = some L ∧
        0 ≠ (((utab_run P utab_empty calls).lips L).dsts (h / P.BITMAP_BITS)
              &&& slot_bit P h)) ∧
    (∀ (info : utab_info) (lip rip proto local_port remote_port length direction now h : Nat),
      (do_port_entry P info lip rip proto local_port remote_port length direction now).1 = some h →
      0 ≠ (((do_port_entry P info lip rip proto local_port remote_port length direction
              now).2.rips rip).prts proto (h / P.BITMAP_BITS) &&& slot_bit P h)) := by
  refine ⟨?_, ?_, ?_⟩
  · intro info lip remote_ip direction h hret
    unfold do_rip_entry at hret ⊢
    rcases rip_probe_cases P info lip remote_ip direction PROBE_LIMIT
        (P.hash_long ((info.lips lip).local_ip ^^^ remote_ip) P.PNA_RIP_BITS)
      with ⟨j, _, _, hm, hr⟩ | ⟨j, _, _, _, hf, hr⟩ | ⟨_, hr⟩
    · rw [hr] at hret ⊢
      simp only [Option.some.injEq] at hret
      subst hret
      simp only
      rw [rip_matched_remote_ip, rip_matched_dsts]
      exact ⟨hm.1.symm, hm.2⟩
    · rw [hr] at hret ⊢
      simp only [Option.some.injEq] at hret
      subst hret
      simp only
      rw [rip_claimed_remote_ip, rip_claimed_dsts]
      simp only [and_self, if_true]
      exact ⟨trivial, slot_bit_set P _ _⟩
    · rw [hr] at hret
      simp at hret
  · intro calls h hocc
    have hinit : rip_owned P utab_empty (fun _ => none) := by
      intro x hx
      exact absurd rfl hx
    exact rip_owned_run P utab_empty (fun _ => none) calls hinit h hocc
  · intro info lip rip proto local_port remote_port length direction now h hret
    unfold do_port_entry at hret ⊢
    rcases port_probe_cases P info lip rip proto local_port remote_port length direction now
        PROBE_LIMIT
        (P.hash_long ((info.rips rip).remote_ip ^^^ ((remote_port <<< 16) ||| local_port))
          P.PNA_PORT_BITS)
      with ⟨j, _, hm, hr⟩ | ⟨j, _, _, _, _, hr⟩ | hr
    · rw [hr] at hret ⊢
      simp only [Option.some.injEq] at hret
      subst hret
      have hb := hm.2.2
      simp only [port_matched]
      split <;> (simp only [upd_same]; exact hb)
    · rw [hr] at hret ⊢
      simp only [Option.some.injEq] at hret
      subst hret
      simp only [port_claimed, upd_same, upd2]
      simp only [and_self, if_true]
      exact slot_bit_set P _ _
    · rw [hr] at hret
      simp at hret

/-! ### The ownership bit in a bitmap word of 64 bits -/

/-- C4 (the code at the failing input). A build whose bitmap word has 64 bits,
on the empty table: the first outbound packet of `10.0.0.57` to `8.8.0.38`.
`do_lip_entry` returns LIP slot 58 and `do_rip_entry` claims RIP slot 40 for
it and returns it. Bit `40 % 64` of word `40 / 64` of the `dsts` bitmap of LIP
entry 58 is not set afterwards: the word is `0x100`, because the `int` shift
`1 << 40` gives bit 8. RIP slot 8, whose bit that is, is free. -/
theorem ownership_bit_wide_word :
    ¬ bitmap_fits_int example_consts64 ∧
    (do_lip_entry example_consts64 utab_empty 0x0a000039 0).1 = some 58 ∧
    (do_rip_entry example_consts64 (do_lip_entry example_consts64 utab_empty 0x0a000039 0).2
      58 0x08080026 0).1 = some 40 ∧
    ((do_rip_entry example_consts64 (do_lip_entry example_consts64 utab_empty 0x0a000039 0).2
      58 0x08080026 0).2.rips 40).remote_ip = 0x08080026 ∧
    (((do_rip_entry example_consts64 (do_lip_entry example_consts64 utab_empty 0x0a000039 0).2
      58 0x08080026 0).2.lips 58).dsts (40 / example_consts64.BITMAP_BITS)).testBit
        (40 % example_consts64.BITMAP_BITS) = false ∧
    ((do_rip_entry example_consts64 (do_lip_entry example_consts64 utab_empty 0x0a000039 0).2
      58 0x08080026 0).2.lips 58).dsts 0 = 0x100 ∧
    slot_bit example_consts64 40 = 0x100 ∧
    ((do_rip_entry example_consts64 (do_lip_entry example_consts64 utab_empty 0x0a000039 0).2
      58 0x08080026 0).2.rips 8).remote_ip = 0 := by
  decide

/-! ### Conservation of the packet and byte counters -/

theorem sum_range_bump (E h0 delta : Nat) (f g : Nat → Nat) (hh : h0 < E)
    (hne : ∀ h, h ≠ h0 → g h = f h) (heq : g h0 = f h0 + delta) :
    ∑ h ∈ Finset.range E, g h = (∑ h ∈ Finset.range E, f h) + delta := by
  have hg : ∀ h ∈ Finset.range E, g h = f h + (if h = h0 then delta else 0) := by
    intro h _
    by_cases hx : h = h0
    · subst hx; simp [heq]
    · simp [hx, hne h hx]
  rw [Finset.sum_congr rfl hg, Finset.sum_add_distrib, Finset.sum_ite_eq']
  simp [hh]

theorem div_mod_inj (W h h' : Nat) (hd : h / W = h' / W) (hm : h % W = h' % W) : h = h' := by
  rw [← Nat.div_add_mod h W, ← Nat.div_add_mod h' W, hd, hm]

theorem slot_bit_other (P : pna_consts) (w h h' : Nat) (hB : bitmap_fits_int P)
    (hne : h % P.BITMAP_BITS ≠ h' % P.BITMAP_BITS) :
    (0 ≠ ((w ||| slot_bit P h') &&& slot_bit P h)) ↔ (0 ≠ (w &&& slot_bit P h)) := by
  rw [slot_bit_lossless P h hB, slot_bit_lossless P h' hB]
  rw [and_shift_ne_zero, and_shift_ne_zero, Nat.testBit_or, Nat.one_shiftLeft,
    Nat.testBit_two_pow]
  have : decide (h' % P.BITMAP_BITS = h % P.BITMAP_BITS) = false := by
    simp
    exact fun e => hne e.symm
  rw [this]
  simp

theorem rip_probe_frame (P : pna_consts) (info : utab_info) (lip remote_ip direction n hash : Nat) :
    (rip_probe P info lip remote_ip direction n hash).2.ports = info.ports ∧
    ∀ x, ((rip_probe P info lip remote_ip direction n hash).2.rips x).prts = (info.rips x).prts ∧
      ((rip_probe P info lip remote_ip direction n hash).2.rips x).npkts = (info.rips x).npkts ∧
      ((rip_probe P info lip remote_ip direction n hash).2.rips x).nbytes = (info.rips x).nbytes := by
  rcases rip_probe_cases P info lip remote_ip direction n hash
    with ⟨j, _, _, _, hr⟩ | ⟨j, _, _, _, _, hr⟩ | ⟨_, hr⟩
  · rw [hr]
    simp only [rip_matched]
    split
    · refine ⟨rfl, fun x => ?_⟩
      simp only [upd]
      split
      · rename_i hx; subst hx; exact ⟨rfl, rfl, rfl⟩
      · exact ⟨rfl, rfl, rfl⟩
    · exact ⟨rfl, fun _ => ⟨rfl, rfl, rfl⟩⟩
  · rw [hr]
    refine ⟨rfl, fun x => ?_⟩
    simp only [rip_claimed, upd]
    split
    · rename_i hx; subst hx; exact ⟨rfl, rfl, rfl⟩
    · exact ⟨rfl, rfl, rfl⟩
  · rw [hr]
    exact ⟨rfl, fun _ => ⟨rfl, rfl, rfl⟩⟩

/-- The part of the table the conservation invariant reads. -/
theorem port_inv_congr (P : pna_consts) (info info' : utab_info)
    (hp : info'.ports = info.ports)
    (hr : ∀ x, (info'.rips x).prts = (info.rips x).prts ∧
      (info'.rips x).npkts = (info.rips x).npkts ∧ (info'.rips x).nbytes = (info.rips x).nbytes)
    (hinv : port_inv P info) : port_inv P info' := by
  have hbit : ∀ R p h, port_bit P info' R p h ↔ port_bit P info R p h := by
    intro R p h
    simp only [port_bit, (hr R).1]
  have hfree : ∀ p h, port_free info' p h ↔ port_free info p h := by
    intro p h
    simp only [port_free, hp]
  refine ⟨?_, ?_, ?_, ?_, ?_, ?_⟩
  · intro p h R hf hb
    exact hinv.free_unowned p h R ((hfree p h).1 hf) ((hbit R p h).1 hb)
  · intro p h d hf
    rw [hp]
    exact hinv.free_zero p h d ((hfree p h).1 hf)
  · intro p h R R' hb hb'
    exact hinv.excl p h R R' ((hbit R p h).1 hb) ((hbit R' p h).1 hb')
  · intro p h R hb
    exact hinv.range p h R ((hbit R p h).1 hb)
  · intro R p d
    rw [(hr R).2.1, ← hinv.pkts R p d]
    simp only [port_npkts_sum, hbit, hp]
  · intro R p d
    rw [(hr R).2.2, ← hinv.bytes R p d]
    simp only [port_nbytes_sum, hbit, hp]

/-- One step of the conservation argument, for one kind of counter: `c` is the
counter of a port slot, `r` that of a RIP entry; the step adds `delta` to both
at slot `h0` of table `p`, which RIP entry `R` owns afterwards. -/
theorem port_sum_step (P : pna_consts) (info info' : utab_info) (R p h0 d delta : Nat)
    (c c' r r' : Nat → Nat → Nat → Nat)
    (hh0 : h0 < P.PNA_PORT_ENTRIES)
    (hbit : ∀ R' p' h', port_bit P info' R' p' h' ↔
      port_bit P info R' p' h' ∨ (R' = R ∧ p' = p ∧ h' = h0))
    (hown : port_bit P info R p h0 ∨ port_free info p h0)
    (hunowned : ∀ p h R, port_free info p h → ¬ port_bit P info R p h)
    (hexcl : ∀ p h R R', port_bit P info R p h → port_bit P info R' p h → R = R')
    (hzero : port_free info p h0 → ∀ d', c p h0 d' = 0)
    (hc : ∀ p' h' d', c' p' h' d' = c p' h' d' + if p' = p ∧ h' = h0 ∧ d' = d then delta else 0)
    (hr : ∀ x d' p', r' x d' p' = r x d' p' + if x = R ∧ d' = d ∧ p' = p then delta else 0)
    (hsum : ∀ R' p' d', (∑ h ∈ Finset.range P.PNA_PORT_ENTRIES,
      if port_bit P info R' p' h then c p' h d' else 0) = r R' d' p')
    (R' p' d' : Nat) :
    (∑ h ∈ Finset.range P.PNA_PORT_ENTRIES,
      if port_bit P info' R' p' h then c' p' h d' else 0) = r' R' d' p' := by
  -- the term of slot `h0` before the step, for the owner
  have hterm : ∀ d'', (if port_bit P info R p h0 then c p h0 d'' else 0) = c p h0 d'' := by
    intro d''
    by_cases hb : port_bit P info R p h0
    · simp [hb]
    · rcases hown with ho | hf
      · exact absurd ho hb
      · simp [hb, hzero hf d'']
  -- nobody else owns slot `h0`
  have hother : ∀ R'', R'' ≠ R → ¬ port_bit P info R'' p h0 := by
    intro R'' hne hb
    rcases hown with ho | hf
    · exact hne (hexcl p h0 R'' R hb ho)
    · exact hunowned p h0 R'' hf hb
  rw [hr, ← hsum R' p' d']
  by_cases hcase : R' = R ∧ d' = d ∧ p' = p
  · obtain ⟨hR, hd, hp⟩ := hcase
    subst hR; subst hd; subst hp
    simp only [and_self, if_true]
    apply sum_range_bump _ h0 delta _ _ hh0
    · intro h hne
      have hb : port_bit P info' R' p' h ↔ port_bit P info R' p' h := by
        rw [hbit]; simp [hne]
      simp only [hb, hc, hne, and_false, false_and, if_false, Nat.add_zero]
    · have hb : port_bit P info' R' p' h0 := by rw [hbit]; right; exact ⟨rfl, rfl, rfl⟩
      simp only [hb, if_true, hc, and_self, hterm]
  · rw [if_neg hcase, Nat.add_zero]
    apply Finset.sum_congr rfl
    intro h _
    by_cases hat : p' = p ∧ h = h0
    · obtain ⟨hp, hh⟩ := hat
      subst hp; subst hh
      by_cases hR : R' = R
      · subst hR
        have hd : d' ≠ d := by
          intro e; exact hcase ⟨rfl, e, rfl⟩
        have hb : port_bit P info' R' p' h := by rw [hbit]; right; exact ⟨rfl, rfl, rfl⟩
        simp only [hb, if_true, hc, hd, and_false, if_false, Nat.add_zero, hterm]
      · have hb : ¬ port_bit P info' R' p' h := by
          rw [hbit]
          rintro (hold | ⟨e, _⟩)
          · exact hother R' hR hold
          · exact hR e
        simp only [hb, if_false, hother R' hR]
    · have hb : port_bit P info' R' p' h ↔ port_bit P info R' p' h := by
        rw [hbit]
        constructor
        · rintro (hold | ⟨_, e1, e2⟩)
          · exact hold
          · exact absurd ⟨e1, e2⟩ hat
        · exact Or.inl
      have hcz : c' p' h d' = c p' h d' := by
        rw [hc]
        have : ¬ (p' = p ∧ h = h0 ∧ d' = d) := fun e => hat ⟨e.1, e.2.1⟩
        simp [this]
      simp only [hb, hcz]

/-- The conservation invariant survives a step that advances the counters of
slot `h0` of table `p` and of its owner `R`. -/
theorem port_inv_step (P : pna_consts) (info info' : utab_info) (R p h0 d length : Nat)
    (hinv : port_inv P info)
    (hh0 : h0 < P.PNA_PORT_ENTRIES)
    (hbit : ∀ R' p' h', port_bit P info' R' p' h' ↔
      port_bit P info R' p' h' ∨ (R' = R ∧ p' = p ∧ h' = h0))
    (hfree : ∀ p' h', port_free info' p' h' ↔ port_free info p' h' ∧ ¬ (p' = p ∧ h' = h0))
    (hown : port_bit P info R p h0 ∨ port_free info p h0)
    (hpk : ∀ p' h' d', (info'.ports p' h').npkts d' =
      (info.ports p' h').npkts d' + if p' = p ∧ h' = h0 ∧ d' = d then 1 else 0)
    (hby : ∀ p' h' d', (info'.ports p' h').nbytes d' =
      (info.ports p' h').nbytes d' + if p' = p ∧ h' = h0 ∧ d' = d then length else 0)
    (hrpk : ∀ x d' p', (info'.rips x).npkts d' p' =
      (info.rips x).npkts d' p' + if x = R ∧ d' = d ∧ p' = p then 1 else 0)
    (hrby : ∀ x d' p', (info'.rips x).nbytes d' p' =
      (info.rips x).nbytes d' p' + if x = R ∧ d' = d ∧ p' = p then length else 0) :
    port_inv P info' := by
  refine ⟨?_, ?_, ?_, ?_, ?_, ?_⟩
  · intro p' h' R' hf hb
    obtain ⟨hf0, hne⟩ := (hfree p' h').1 hf
    rcases (hbit R' p' h').1 hb with hold | ⟨_, e1, e2⟩
    · exact hinv.free_unowned p' h' R' hf0 hold
    · exact hne ⟨e1, e2⟩
  · intro p' h' d' hf
    obtain ⟨hf0, hne⟩ := (hfree p' h').1 hf
    have hn : ¬ (p' = p ∧ h' = h0 ∧ d' = d) := fun e => hne ⟨e.1, e.2.1⟩
    rw [hpk, hby]
    simp only [hn, if_false, Nat.add_zero]
    exact hinv.free_zero p' h' d' hf0
  · intro p' h' R1 R2 hb1 hb2
    rcases (hbit R1 p' h').1 hb1 with h1 | ⟨e1, ep, eh⟩
    · rcases (hbit R2 p' h').1 hb2 with h2 | ⟨e2, ep, eh⟩
      · exact hinv.excl p' h' R1 R2 h1 h2
      · subst ep; subst eh; subst e2
        rcases hown with ho | hf
        · exact hinv.excl _ _ R1 _ h1 ho
        · exact absurd h1 (hinv.free_unowned _ _ R1 hf)
    · rcases (hbit R2 p' h').1 hb2 with h2 | ⟨e2, _, _⟩
      · subst ep; subst eh; subst e1
        rcases hown with ho | hf
        · exact hinv.excl _ _ _ R2 ho h2
        · exact absurd h2 (hinv.free_unowned _ _ R2 hf)
      · rw [e1, e2]
  · intro p' h' R' hb
    rcases (hbit R' p' h').1 hb with hold | ⟨_, _, eh⟩
    · exact hinv.range p' h' R' hold
    · rw [eh]; exact hh0
  · intro R' p' d'
    exact port_sum_step P info info' R p h0 d 1
      (fun p h d => (info.ports p h).npkts d) (fun p h d => (info'.ports p h).npkts d)
      (fun x d p => (info.rips x).npkts d p) (fun x d p => (info'.rips x).npkts d p)
      hh0 hbit hown hinv.free_unowned hinv.excl
      (fun hf d'' => (hinv.free_zero p h0 d'' hf).1) hpk hrpk hinv.pkts R' p' d'
  · intro R' p' d'
    exact port_sum_step P info info' R p h0 d length
      (fun p h d => (info.ports p h).nbytes d) (fun p h d => (info'.ports p h).nbytes d)
      (fun x d p => (info.rips x).nbytes d p) (fun x d p => (info'.rips x).nbytes d p)
      hh0 hbit hown hinv.free_unowned hinv.excl
      (fun hf d'' => (hinv.free_zero p h0 d'' hf).2) hby hrby hinv.bytes R' p' d'

theorem probe_slot_lt (entries hash j : Nat) (h : hash < entries) :
    probe_slot entries hash j < entries := by
  induction j generalizing hash with
  | zero => exact h
  | succ j ih => exact ih _ (Nat.mod_lt _ (by omega))

theorem port_matched_prts (info : utab_info) (R p h0 length d x : Nat) :
    ((port_matched info R p h0 length d).rips x).prts = (info.rips x).prts := by
  simp only [port_matched]
  by_cases hx : x = R
  · subst hx; split <;> simp [upd]
  · split <;> simp [upd, hx]

theorem port_matched_ports (info : utab_info) (R p h0 length d p' h' : Nat) :
    ((port_matched info R p h0 length d).ports p' h').local_port =
        (info.ports p' h').local_port ∧
    ((port_matched info R p h0 length d).ports p' h').remote_port =
        (info.ports p' h').remote_port := by
  simp only [port_matched]
  by_cases hx : p' = p ∧ h' = h0
  · obtain ⟨e1, e2⟩ := hx
    subst e1; subst e2
    split <;> simp [upd2]
  · split <;> simp [upd2, hx]

theorem port_matched_npkts (info : utab_info) (R p h0 length d p' h' d' : Nat) :
    ((port_matched info R p h0 length d).ports p' h').npkts d' =
      (info.ports p' h').npkts d' + if p' = p ∧ h' = h0 ∧ d' = d then 1 else 0 := by
  simp only [port_matched]
  by_cases hx : p' = p ∧ h' = h0
  · obtain ⟨e1, e2⟩ := hx
    subst e1; subst e2
    by_cases hd : d' = d
    · subst hd; split <;> simp [upd2, upd]
    · split <;> simp [upd2, upd, hd]
  · have hx' : ¬ (p' = p ∧ h' = h0 ∧ d' = d) := fun e => hx ⟨e.1, e.2.1⟩
    split <;> simp [upd2, hx, hx']

theorem port_matched_nbytes (info : utab_info) (R p h0 length d p' h' d' : Nat) :
    ((port_matched info R p h0 length d).ports p' h').nbytes d' =
      (info.ports p' h').nbytes d' + if p' = p ∧ h' = h0 ∧ d' = d then length else 0 := by
  simp only [port_matched]
  by_cases hx : p' = p ∧ h' = h0
  · obtain ⟨e1, e2⟩ := hx
    subst e1; subst e2
    by_cases hd : d' = d
    · subst hd; split <;> simp [upd2, upd]
    · split <;> simp [upd2, upd, hd]
  · have hx' : ¬ (p' = p ∧ h' = h0 ∧ d' = d) := fun e => hx ⟨e.1, e.2.1⟩
    split <;> simp [upd2, hx, hx']

theorem port_matched_rip_npkts (info : utab_info) (R p h0 length d x d' p' : Nat) :
    ((port_matched info R p h0 length d).rips x).npkts d' p' =
      (info.rips x).npkts d' p' + if x = R ∧ d' = d ∧ p' = p then 1 else 0 := by
  simp only [port_matched]
  by_cases hx : x = R
  · subst hx
    by_cases hd : d' = d ∧ p' = p
    · obtain ⟨e1, e2⟩ := hd
      subst e1; subst e2
      split <;> simp [upd2, upd]
    · split <;> simp [upd2, upd, hd]
  · split <;> simp [upd, hx]

theorem port_matched_rip_nbytes (info : utab_info) (R p h0 length d x d' p' : Nat) :
    ((port_matched info R p h0 length d).rips x).nbytes d' p' =
      (info.rips x).nbytes d' p' + if x = R ∧ d' = d ∧ p' = p then length else 0 := by
  simp only [port_matched]
  by_cases hx : x = R
  · subst hx
    by_cases hd : d' = d ∧ p' = p
    · obtain ⟨e1, e2⟩ := hd
      subst e1; subst e2
      split <;> simp [upd2, upd]
    · split <;> simp [upd2, upd, hd]
  · split <;> simp [upd, hx]

theorem port_claimed_prts (P : pna_consts) (info : utab_info)
    (L R p lp rp h0 length d now x p' w : Nat) :
    ((port_claimed P info L R p lp rp h0 length d now).rips x).prts p' w =
      if x = R ∧ p' = p ∧ w = h0 / P.BITMAP_BITS then
        (info.rips R).prts p (h0 / P.BITMAP_BITS) ||| slot_bit P h0
      else (info.rips x).prts p' w := by
  simp only [port_claimed]
  by_cases hx : x = R
  · subst hx
    by_cases hd : p' = p ∧ w = h0 / P.BITMAP_BITS
    · obtain ⟨e1, e2⟩ := hd
      subst e1; subst e2
      simp [upd2, upd]
    · simp [upd2, upd, hd]
  · simp [upd, hx]

theorem port_claimed_ports (P : pna_consts) (info : utab_info)
    (L R p lp rp h0 length d now p' h' : Nat) :
    ((port_claimed P info L R p lp rp h0 length d now).ports p' h').local_port =
        (if p' = p ∧ h' = h0 then lp else (info.ports p' h').local_port) ∧
    ((port_claimed P info L R p lp rp h0 length d now).ports p' h').remote_port =
        (if p' = p ∧ h' = h0 then rp else (info.ports p' h').remote_port) := by
  simp only [port_claimed]
  by_cases hx : p' = p ∧ h' = h0
  · obtain ⟨e1, e2⟩ := hx
    subst e1; subst e2
    simp [upd2]
  · simp [upd2, hx]

theorem port_claimed_npkts (P : pna_consts) (info : utab_info)
    (L R p lp rp h0 length d now p' h' d' : Nat) :
    ((port_claimed P info L R p lp rp h0 length d now).ports p' h').npkts d' =
      (info.ports p' h').npkts d' + if p' = p ∧ h' = h0 ∧ d' = d then 1 else 0 := by
  simp only [port_claimed]
  by_cases hx : p' = p ∧ h' = h0
  · obtain ⟨e1, e2⟩ := hx
    subst e1; subst e2
    by_cases hd : d' = d
    · subst hd; simp [upd2, upd]
    · simp [upd2, upd, hd]
  · have hx' : ¬ (p' = p ∧ h' = h0 ∧ d' = d) := fun e => hx ⟨e.1, e.2.1⟩
    simp [upd2, hx, hx']

theorem port_claimed_nbytes (P : pna_consts) (info : utab_info)
    (L R p lp rp h0 length d now p' h' d' : Nat) :
    ((port_claimed P info L R p lp rp h0 length d now).ports p' h').nbytes d' =
      (info.ports p' h').nbytes d' + if p' = p ∧ h' = h0 ∧ d' = d then length else 0 := by
  simp only [port_claimed]
  by_cases hx : p' = p ∧ h' = h0
  · obtain ⟨e1, e2⟩ := hx
    subst e1; subst e2
    by_cases hd : d' = d
    · subst hd; simp [upd2, upd]
    · simp [upd2, upd, hd]
  · have hx' : ¬ (p' = p ∧ h' = h0 ∧ d' = d) := fun e => hx ⟨e.1, e.2.1⟩
    simp [upd2, hx, hx']

theorem port_claimed_rip_npkts (P : pna_consts) (info : utab_info)
    (L R p lp rp h0 length d now x d' p' : Nat) :
    ((port_claimed P info L R p lp rp h0 length d now).rips x).npkts d' p' =
      (info.rips x).npkts d' p' + if x = R ∧ d' = d ∧ p' = p then 1 else 0 := by
  simp only [port_claimed]
  by_cases hx : x = R
  · subst hx
    by_cases hd : d' = d ∧ p' = p
    · obtain ⟨e1, e2⟩ := hd
      subst e1; subst e2
      simp [upd2, upd]
    · simp [upd2, upd, hd]
  · simp [upd, hx]

theorem port_claimed_rip_nbytes (P : pna_consts) (info : utab_info)
    (L R p lp rp h0 length d now x d' p' : Nat) :
    ((port_claimed P info L R p lp rp h0 length d now).rips x).nbytes d' p' =
      (info.rips x).nbytes d' p' + if x = R ∧ d' = d ∧ p' = p then length else 0 := by
  simp only [port_claimed]
  by_cases hx : x = R
  · subst hx
    by_cases hd : d' = d ∧ p' = p
    · obtain ⟨e1, e2⟩ := hd
      subst e1; subst e2
      simp [upd2, upd]
    · simp [upd2, upd, hd]
  · simp [upd, hx]

theorem do_port_entry_inv (P : pna_consts) (hB : bitmap_fits_int P)
    (hhash : ∀ x, P.hash_long x P.PNA_PORT_BITS < P.PNA_PORT_ENTRIES)
    (info : utab_info) (L R p lp rp length d now : Nat) (hports : ¬ (lp = 0 ∧ rp = 0))
    (hinv : port_inv P info) :
    port_inv P (do_port_entry P info L R p lp rp length d now).2 := by
  unfold do_port_entry
  rcases port_probe_cases P info L R p lp rp length d now PROBE_LIMIT
      (P.hash_long ((info.rips R).remote_ip ^^^ ((rp <<< 16) ||| lp)) P.PNA_PORT_BITS)
    with ⟨j, _, hm, hr⟩ | ⟨j, _, _, hf1, hf2, hr⟩ | hr
  · rw [hr]
    have hh0 := probe_slot_lt P.PNA_PORT_ENTRIES _ j (hhash ((info.rips R).remote_ip ^^^ ((rp <<< 16) ||| lp)))
    obtain ⟨hlp, hrp, hb⟩ := hm
    apply port_inv_step P info _ R p _ d length hinv hh0
    · intro R' p' h'
      simp only [port_bit, port_matched_prts]
      constructor
      · exact Or.inl
      · rintro (hold | ⟨e1, e2, e3⟩)
        · exact hold
        · subst e1; subst e2; subst e3; exact hb
    · intro p' h'
      simp only [port_free, (port_matched_ports info R p _ length d p' h').1,
        (port_matched_ports info R p _ length d p' h').2]
      constructor
      · intro hf
        refine ⟨hf, ?_⟩
        rintro ⟨e1, e2⟩
        subst e1; subst e2
        exact hports ⟨hlp.trans hf.1, hrp.trans hf.2⟩
      · exact fun hf => hf.1
    · exact Or.inl hb
    · exact port_matched_npkts info R p _ length d
    · exact port_matched_nbytes info R p _ length d
    · exact port_matched_rip_npkts info R p _ length d
    · exact port_matched_rip_nbytes info R p _ length d
  · rw [hr]
    have hh0 := probe_slot_lt P.PNA_PORT_ENTRIES _ j (hhash ((info.rips R).remote_ip ^^^ ((rp <<< 16) ||| lp)))
    have hfree0 : port_free info p (probe_slot P.PNA_PORT_ENTRIES
        (P.hash_long ((info.rips R).remote_ip ^^^ ((rp <<< 16) ||| lp)) P.PNA_PORT_BITS) j) :=
      ⟨hf1, hf2⟩
    apply port_inv_step P info _ R p _ d length hinv hh0
    · intro R' p' h'
      simp only [port_bit, port_claimed_prts]
      by_cases hc : R' = R ∧ p' = p ∧ h' / P.BITMAP_BITS = probe_slot P.PNA_PORT_ENTRIES
          (P.hash_long ((info.rips R).remote_ip ^^^ ((rp <<< 16) ||| lp)) P.PNA_PORT_BITS) j /
            P.BITMAP_BITS
      · obtain ⟨e1, e2, e3⟩ := hc
        subst e1; subst e2
        simp only [e3, and_self, if_true, true_and]
        by_cases hmod : h' % P.BITMAP_BITS = probe_slot P.PNA_PORT_ENTRIES
            (P.hash_long ((info.rips R').remote_ip ^^^ ((rp <<< 16) ||| lp)) P.PNA_PORT_BITS) j %
              P.BITMAP_BITS
        · have heq := div_mod_inj _ _ _ e3 hmod
          rw [← heq]
          constructor
          · intro _; exact Or.inr rfl
          · intro _; rw [heq]; exact slot_bit_set P _ _
        · rw [slot_bit_other P _ _ _ hB hmod]
          have hne : h' ≠ probe_slot P.PNA_PORT_ENTRIES
            (P.hash_long ((info.rips R').remote_ip ^^^ ((rp <<< 16) ||| lp)) P.PNA_PORT_BITS) j :=
            fun e => hmod (by rw [e])
          rw [← e3]
          simp [hne]
      · rw [if_neg hc]
        constructor
        · exact Or.inl
        · rintro (hold | ⟨e1, e2, e3⟩)
          · exact hold
          · exact absurd ⟨e1, e2, by rw [e3]⟩ hc
    · intro p' h'
      simp only [port_free, (port_claimed_ports P info L R p lp rp _ length d now p' h').1,
        (port_claimed_ports P info L R p lp rp _ length d now p' h').2]
      by_cases hat : p' = p ∧ h' = probe_slot P.PNA_PORT_ENTRIES
          (P.hash_long ((info.rips R).remote_ip ^^^ ((rp <<< 16) ||| lp)) P.PNA_PORT_BITS) j
      · simp only [hat, and_self, if_true, not_true, and_false, iff_false]
        exact hports
      · simp [hat]
    · exact Or.inr hfree0
    · exact port_claimed_npkts P info L R p lp rp _ length d now
    · exact port_claimed_nbytes P info L R p lp rp _ length d now
    · exact port_claimed_rip_npkts P info L R p lp rp _ length d now
    · exact port_claimed_rip_nbytes P info L R p lp rp _ length d now
  · rw [hr]
    exact port_inv_congr P info _ rfl (fun _ => ⟨rfl, rfl, rfl⟩) hinv

theorem utab_step_port_inv (P : pna_consts) (hB : bitmap_fits_int P)
    (hhash : ∀ x, P.hash_long x P.PNA_PORT_BITS < P.PNA_PORT_ENTRIES)
    (info : utab_info) (c : utab_call) (hc : c.ports_nonzero) (hinv : port_inv P info) :
    port_inv P (utab_step P info c).2 := by
  cases c with
  | lip local_ip direction =>
    obtain ⟨hr, hp, _⟩ := lip_probe_frame P info local_ip PROBE_LIMIT
      (P.hash_long local_ip P.PNA_LIP_BITS)
    exact port_inv_congr P info _ hp
      (fun x => by
        have hx : (utab_step P info (utab_call.lip local_ip direction)).2.rips x = info.rips x :=
          congrFun hr x
        rw [hx]; exact ⟨rfl, rfl, rfl⟩) hinv
  | rip lip remote_ip direction =>
    obtain ⟨hp, hr⟩ := rip_probe_frame P info lip remote_ip direction PROBE_LIMIT
      (P.hash_long ((info.lips lip).local_ip ^^^ remote_ip) P.PNA_RIP_BITS)
    exact port_inv_congr P info _ hp hr hinv
  | port L R p lp rp length d now =>
    exact do_port_entry_inv P hB hhash info L R p lp rp length d now hc hinv

theorem utab_run_port_inv (P : pna_consts) (hB : bitmap_fits_int P)
    (hhash : ∀ x, P.hash_long x P.PNA_PORT_BITS < P.PNA_PORT_ENTRIES)
    (info : utab_info) (calls : List utab_call) (hc : ∀ c ∈ calls, c.ports_nonzero)
    (hinv : port_inv P info) : port_inv P (utab_run P info calls) := by
  induction calls generalizing info with
  | nil => exact hinv
  | cons c rest ih =>
    exact ih _ (fun c' hc' => hc c' (List.mem_cons_of_mem _ hc'))
      (utab_step_port_inv P hB hhash info c (hc c (List.mem_cons_self _ _)) hinv)

theorem utab_empty_port_inv (P : pna_consts) : port_inv P utab_empty := by
  have hb : ∀ R p h, ¬ port_bit P utab_empty R p h := by
    intro R p h hbit
    simp [port_bit, utab_empty] at hbit
  refine ⟨fun p h R _ => hb R p h, fun _ _ _ _ => ⟨rfl, rfl⟩,
    fun p h R _ hbit => absurd hbit (hb R p h), fun p h R hbit => absurd hbit (hb R p h), ?_, ?_⟩
  · intro R p d
    simp [port_npkts_sum, utab_empty]
  · intro R p d
    simp [port_nbytes_sum, utab_empty]

/-- C5 (amended). Where a bitmap word is no wider than an `int`
(`0 < BITMAP_BITS <= 32`): after any list of `do_lip_entry` / `do_rip_entry` /
`do_port_entry` calls on the empty table in which no `do_port_entry` call has
`local_port = remote_port = 0` (any LIP and RIP entries, any protocol,
direction and length), for every RIP entry `R`, protocol `p` and direction `d`
the sum of `npkts[d]` over the port slots of table `p` whose ownership bit is
set in `R.prts[p]` equals `R.npkts[d][p]`, and the sum of `nbytes[d]` equals
`R.nbytes[d][p]`. The initial hash is an index of the table
(`hash_long(x, PNA_PORT_BITS) < PNA_PORT_ENTRIES`). -/
theorem port_counter_conservation (P : pna_consts) (hB : bitmap_fits_int P)
    (hhash : ∀ x, P.hash_long x P.PNA_PORT_BITS < P.PNA_PORT_ENTRIES)
    (calls : List utab_call) (hcalls : ∀ c ∈ calls, c.ports_nonzero) (R p d : Nat) :
    (∑ h ∈ Finset.range P.PNA_PORT_ENTRIES,
      if (((utab_run P utab_empty calls).rips R).prts p (h / P.BITMAP_BITS)).testBit
          (h % P.BITMAP_BITS) = true
      then ((utab_run P utab_empty calls).ports p h).npkts d else 0) =
        ((utab_run P utab_empty calls).rips R).npkts d p ∧
    (∑ h ∈ Finset.range P.PNA_PORT_ENTRIES,
      if (((utab_run P utab_empty calls).rips R).prts p (h / P.BITMAP_BITS)).testBit
          (h % P.BITMAP_BITS) = true
      then ((utab_run P utab_empty calls).ports p h).nbytes d else 0) =
        ((utab_run P utab_empty calls).rips R).nbytes d p ∧
    (∀ h, (((utab_run P utab_empty calls).rips R).prts p (h / P.BITMAP_BITS)).testBit
        (h % P.BITMAP_BITS) = true ↔
      0 ≠ (((utab_run P utab_empty calls).rips R).prts p (h / P.BITMAP_BITS) &&&
        slot_bit P h)) := by
  have hinv := utab_run_port_inv P hB hhash utab_empty calls hcalls (utab_empty_port_inv P)
  have hbit : ∀ h, (((utab_run P utab_empty calls).rips R).prts p (h / P.BITMAP_BITS)).testBit
      (h % P.BITMAP_BITS) = true ↔
      0 ≠ (((utab_run P utab_empty calls).rips R).prts p (h / P.BITMAP_BITS) &&&
        slot_bit P h) := by
    intro h
    rw [slot_bit_lossless P h hB, and_shift_ne_zero]
  refine ⟨?_, ?_, hbit⟩
  · rw [← hinv.pkts R p d]
    unfold port_npkts_sum port_bit
    apply Finset.sum_congr rfl
    intro h _
    by_cases hb : (((utab_run P utab_empty calls).rips R).prts p (h / P.BITMAP_BITS)).testBit
        (h % P.BITMAP_BITS) = true
    · rw [if_pos hb, if_pos ((hbit h).mp hb)]
    · rw [if_neg hb, if_neg (fun c => hb ((hbit h).mpr c))]
  · rw [← hinv.bytes R p d]
    unfold port_nbytes_sum port_bit
    apply Finset.sum_congr rfl
    intro h _
    by_cases hb : (((utab_run P utab_empty calls).rips R).prts p (h / P.BITMAP_BITS)).testBit
        (h % P.BITMAP_BITS) = true
    · rw [if_pos hb, if_pos ((hbit h).mp hb)]
    · rw [if_neg hb, if_neg (fun c => hb ((hbit h).mpr c))]

/-- C5 (counterexample). Two packets with `local_port = remote_port = 0`, from
two local hosts to the same remote address: each host gets its own LIP and RIP
entry (the slots the earlier calls returned are the ones passed on), both
`do_port_entry` calls return port slot 11, which still looks free after the
first one, so the slot ends with `npkts[0] = 2` and its bit set in both RIP
entries, while each RIP entry has `npkts[0][0] = 1`: the sum over the slots
owned by RIP entry 4 is 2, not 1. -/
theorem port_counter_conservation_zero_ports :
    (utab_step example_consts utab_empty (.lip 0x0a000001 0)).1 = some 10 ∧
    (utab_step example_consts (utab_run example_consts utab_empty (zero_port_calls.take 1))
      (.rip 10 0x08080808 0)).1 = some 4 ∧
    (utab_step example_consts (utab_run example_consts utab_empty (zero_port_calls.take 2))
      (.port 10 4 0 0 0 100 0 1000)).1 = some 11 ∧
    (utab_step example_consts (utab_run example_consts utab_empty (zero_port_calls.take 3))
      (.lip 0x0a000002 0)).1 = some 4 ∧
    (utab_step example_consts (utab_run example_consts utab_empty (zero_port_calls.take 4))
      (.rip 4 0x08080808 0)).1 = some 14 ∧
    (utab_step example_consts (utab_run example_consts utab_empty (zero_port_calls.take 5))
      (.port 4 14 0 0 0 60 0 1000)).1 = some 11 ∧
    (∑ h ∈ Finset.range example_consts.PNA_PORT_ENTRIES,
      if 0 ≠ (((utab_run example_consts utab_empty zero_port_calls).rips 4).prts 0
            (h / example_consts.BITMAP_BITS) &&& (1 <<< (h % example_consts.BITMAP_BITS)))
      then ((utab_run example_consts utab_empty zero_port_calls).ports 0 h).npkts 0 else 0) = 2 ∧
    ((utab_run example_consts utab_empty zero_port_calls).rips 4).npkts 0 0 = 1 := by
  refine ⟨?_, ?_, ?_, ?_, ?_, ?_, ?_, ?_⟩ <;> decide

theorem port_counter_conservation_witness :
    (∑ h ∈ Finset.range example_consts.PNA_PORT_ENTRIES,
      if (((utab_run example_consts utab_empty nonzero_port_calls).rips 4).prts 0
            (h / example_consts.BITMAP_BITS)).testBit (h % example_consts.BITMAP_BITS) = true
      then ((utab_run example_consts utab_empty nonzero_port_calls).ports 0 h).npkts 0 else 0) =
        ((utab_run example_consts utab_empty nonzero_port_calls).rips 4).npkts 0 0 ∧
    ((utab_run example_consts utab_empty nonzero_port_calls).rips 4).npkts 0 0 = 3 ∧
    ((utab_run example_consts utab_empty nonzero_port_calls).rips 4).nbytes 0 0 = 200 :=
  ⟨(port_counter_conservation example_consts (by decide) example_hash_long_lt
      nonzero_port_calls (by decide) 4 0 0).1, by decide, by decide⟩

set_option maxRecDepth 100000 in
/-- The conservation of the packet counters in a build whose bitmap word has
64 bits: one outbound TCP packet on the empty table claims port slot 249 for
RIP entry 40, and the `int` shift `1 << 249 % 64` sets bit 25 of word 3 of
`prts[6]` instead of bit 57. The sum of `npkts[0]` over the slots whose bit
`h % 64` of word `h / 64` is set is 0 (the one such slot, 217, is free),
while `rip.npkts[0][6]` is 1. -/
theorem port_counter_wide_word :
    (utab_step example_consts64
      (utab_run example_consts64 utab_empty (example_wide_port_calls.take 2))
      (.port 58 40 6 1000 443 100 0 1)).1 = some 249 ∧
    ((utab_run example_consts64 utab_empty example_wide_port_calls).rips 40).prts 6 3 =
      2 ^ 25 ∧
    ((utab_run example_consts64 utab_empty example_wide_port_calls).ports 6 217).npkts 0 = 0 ∧
    (∑ h ∈ Finset.range example_consts64.PNA_PORT_ENTRIES,
      if (((utab_run example_consts64 utab_empty example_wide_port_calls).rips 40).prts 6
            (h / example_consts64.BITMAP_BITS)).testBit (h % example_consts64.BITMAP_BITS) = true
      then ((utab_run example_consts64 utab_empty example_wide_port_calls).ports 6 h).npkts 0
      else 0) = 0 ∧
    ((utab_run example_consts64 utab_empty example_wide_port_calls).rips 40).npkts 0 6 = 1 := by
  refine ⟨?_, ?_, ?_, ?_, ?_⟩ <;> decide

/-! ### Distinct destinations -/

theorem rip_matched_info_bits (info : utab_info) (L h d x : Nat) :
    ((rip_matched info L h d).rips x).info_bits =
      if x = h then (info.rips h).info_bits ||| (1 <<< d) else (info.rips x).info_bits := by
  unfold rip_matched
  by_cases hb : 0 = ((info.rips h).info_bits &&& (1 <<< d))
  · rw [if_pos hb]
    simp only [upd]
    split
    · rename_i hx; subst hx; simp
    · rfl
  · rw [if_neg hb]
    split
    · rename_i hx
      subst hx
      have ht : (info.rips x).info_bits.testBit d = true := (and_shift_ne_zero _ _).1 hb
      apply Nat.eq_of_testBit_eq
      intro i
      rw [Nat.testBit_or, Nat.one_shiftLeft, Nat.testBit_two_pow]
      by_cases hi : d = i
      · subst hi; simp [ht]
      · simp [hi]
    · rfl

theorem rip_matched_ndsts (info : utab_info) (L h d x d' : Nat) :
    ((rip_matched info L h d).lips x).ndsts d' =
      (info.lips x).ndsts d' +
        if x = L ∧ d' = d ∧ (info.rips h).info_bits.testBit d = false then 1 else 0 := by
  unfold rip_matched
  by_cases hb : 0 = ((info.rips h).info_bits &&& (1 <<< d))
  · have ht : (info.rips h).info_bits.testBit d = false := by
      by_contra hne
      have := (and_shift_ne_zero ((info.rips h).info_bits) d).2 (by simpa using hne)
      exact this hb
    rw [if_pos hb]
    simp only [ht, and_true]
    by_cases hx : x = L
    · subst hx
      by_cases hd : d' = d
      · subst hd; simp [upd]
      · simp [upd, hd]
    · simp [upd, hx]
  · have ht : (info.rips h).info_bits.testBit d = true := (and_shift_ne_zero _ _).1 hb
    rw [if_neg hb]
    simp [ht]

theorem rip_matched_local_ip (info : utab_info) (L h d x : Nat) :
    ((rip_matched info L h d).lips x).local_ip = (info.lips x).local_ip := by
  unfold rip_matched
  split
  · simp only [upd]
    split
    · rename_i hx; subst hx; rfl
    · rfl
  · rfl

theorem rip_claimed_info_bits (P : pna_consts) (info : utab_info) (L r h d x : Nat) :
    ((rip_claimed P info L r h d).rips x).info_bits =
      if x = h then ((info.rips h).info_bits ||| (1 <<< d)) ||| (1 <<< (d + P.DIRECTIONS))
      else (info.rips x).info_bits := by
  simp only [rip_claimed, upd]
  split
  · rename_i hx; subst hx; rfl
  · rfl

theorem rip_claimed_ndsts (P : pna_consts) (info : utab_info) (L r h d x d' : Nat) :
    ((rip_claimed P info L r h d).lips x).ndsts d' =
      (info.lips x).ndsts d' + if x = L ∧ d' = d then 1 else 0 := by
  simp only [rip_claimed]
  by_cases hx : x = L
  · subst hx
    by_cases hd : d' = d
    · subst hd; simp [upd]
    · simp [upd, hd]
  · simp [upd, hx]

theorem rip_claimed_local_ip (P : pna_consts) (info : utab_info) (L r h d x : Nat) :
    ((rip_claimed P info L r h d).lips x).local_ip = (info.lips x).local_ip := by
  simp only [rip_claimed, upd]
  split
  · rename_i hx; subst hx; rfl
  · rfl

theorem mem_dsts_seen (calls : List (Nat × Nat)) (d r : Nat) :
    r ∈ dsts_seen calls d ↔ (r, d) ∈ calls := by
  simp only [dsts_seen, List.mem_toFinset, List.mem_map, List.mem_filter, decide_eq_true_eq]
  constructor
  · rintro ⟨c, ⟨hc, hd⟩, hr⟩
    have : c = (r, d) := Prod.ext hr hd
    rw [← this]; exact hc
  · intro h
    exact ⟨(r, d), ⟨h, rfl⟩, rfl⟩

theorem dsts_seen_cons_card (seen : List (Nat × Nat)) (r d d' : Nat) :
    (dsts_seen ((r, d) :: seen) d').card =
      (dsts_seen seen d').card + if d' = d ∧ (r, d) ∉ seen then 1 else 0 := by
  by_cases hd : d' = d
  · subst hd
    by_cases hin : (r, d') ∈ seen
    · have : dsts_seen ((r, d') :: seen) d' = dsts_seen seen d' := by
        ext x
        simp only [mem_dsts_seen, List.mem_cons]
        constructor
        · rintro (e | e)
          · rw [e]; exact hin
          · exact e
        · exact Or.inr
      simp [this, hin]
    · have : dsts_seen ((r, d') :: seen) d' = insert r (dsts_seen seen d') := by
        ext x
        simp only [mem_dsts_seen, List.mem_cons, Finset.mem_insert, Prod.mk.injEq, and_true]
      rw [this, Finset.card_insert_of_not_mem (by rw [mem_dsts_seen]; exact hin)]
      simp [hin]
  · have : dsts_seen ((r, d) :: seen) d' = dsts_seen seen d' := by
      ext x
      simp only [mem_dsts_seen, List.mem_cons, Prod.mk.injEq]
      constructor
      · rintro (⟨_, e⟩ | e)
        · exact absurd e hd
        · exact e
      · exact Or.inr
    simp [this, hd]

theorem rip_inv_uniq (P : pna_consts) (info : utab_info) (L ip : Nat) (seen : List (Nat × Nat))
    (hinv : rip_inv P info L ip seen) (h1 h2 : Nat) (ho : (info.rips h1).remote_ip ≠ 0)
    (he : (info.rips h1).remote_ip = (info.rips h2).remote_ip) : h1 = h2 := by
  have ho2 : (info.rips h2).remote_ip ≠ 0 := by rw [← he]; exact ho
  obtain ⟨j1, _, hp1, hpre1⟩ := hinv.path h1 ho
  obtain ⟨j2, _, hp2, hpre2⟩ := hinv.path h2 ho2
  rw [he] at hp1 hpre1
  rcases Nat.lt_trichotomy j1 j2 with hlt | heq | hgt
  · have := (hpre2 j1 hlt).2
    rw [← hp1] at this
    exact absurd he this
  · subst heq
    exact hp1.trans hp2.symm
  · have := (hpre1 j2 hgt).2
    rw [← hp2] at this
    exact absurd rfl this

theorem rip_inv_match_iff (P : pna_consts) (info : utab_info) (L ip : Nat)
    (seen : List (Nat × Nat)) (hinv : rip_inv P info L ip seen) (r h : Nat) (hr : r ≠ 0) :
    rip_match P info L r h ↔ (info.rips h).remote_ip = r := by
  constructor
  · intro hm; exact hm.1.symm
  · intro he
    exact ⟨he.symm, hinv.occ_bit h (by rw [he]; exact hr)⟩

/-- What a call of `do_rip_entry` on a table satisfying the invariant does: it
returns the slot of `remote_ip` when the address has one, and claims a free
slot on its probe path when it has none. -/
theorem rip_inv_call (P : pna_consts) (info : utab_info) (L ip : Nat) (seen : List (Nat × Nat))
    (hinv : rip_inv P info L ip seen) (r d : Nat) (hr : r ≠ 0) :
    (∃ h, (info.rips h).remote_ip = r ∧
      do_rip_entry P info L r d = (some h, rip_matched info L h d)) ∨
    (∃ j h, j < PROBE_LIMIT ∧
      h = probe_slot P.PNA_RIP_ENTRIES (P.hash_long (ip ^^^ r) P.PNA_RIP_BITS) j ∧
      (∀ i, i < j →
        (info.rips (probe_slot P.PNA_RIP_ENTRIES
          (P.hash_long (ip ^^^ r) P.PNA_RIP_BITS) i)).remote_ip ≠ 0 ∧
        (info.rips (probe_slot P.PNA_RIP_ENTRIES
          (P.hash_long (ip ^^^ r) P.PNA_RIP_BITS) i)).remote_ip ≠ r) ∧
      (info.rips h).remote_ip = 0 ∧ (∀ x, (info.rips x).remote_ip ≠ r) ∧
      do_rip_entry P info L r d = (some h, rip_claimed P info L r h d)) ∨
    ((∀ x, (info.rips x).remote_ip ≠ r) ∧ do_rip_entry P info L r d = (none, rip_missed info)) := by
  unfold do_rip_entry
  rw [hinv.addr]
  rcases rip_probe_cases P info L r d PROBE_LIMIT (P.hash_long (ip ^^^ r) P.PNA_RIP_BITS)
    with ⟨j, _, _, hm, hres⟩ | ⟨j, hj, hpre, _, hf, hres⟩ | ⟨hpre, hres⟩
  · left
    exact ⟨_, ((rip_inv_match_iff P info L ip seen hinv r _ hr).1 hm), hres⟩
  · right; left
    have hpre' : ∀ i, i < j →
        (info.rips (probe_slot P.PNA_RIP_ENTRIES
          (P.hash_long (ip ^^^ r) P.PNA_RIP_BITS) i)).remote_ip ≠ 0 ∧
        (info.rips (probe_slot P.PNA_RIP_ENTRIES
          (P.hash_long (ip ^^^ r) P.PNA_RIP_BITS) i)).remote_ip ≠ r := by
      intro i hi
      refine ⟨(hpre i hi).2, fun e => (hpre i hi).1 ?_⟩
      exact (rip_inv_match_iff P info L ip seen hinv r _ hr).2 e
    refine ⟨j, _, hj, rfl, hpre', hf, ?_, hres⟩
    intro x hx
    have hox : (info.rips x).remote_ip ≠ 0 := by rw [hx]; exact hr
    obtain ⟨j', _, hp', hpath'⟩ := hinv.path x hox
    rw [hx] at hp' hpath'
    rcases Nat.lt_trichotomy j' j with hlt | heq | hgt
    · have := (hpre' j' hlt).2
      rw [← hp'] at this
      exact this hx
    · rw [heq] at hp'
      rw [← hp'] at hf
      exact hox hf
    · exact (hpath' j hgt).1 hf
  · right; right
    refine ⟨?_, hres⟩
    intro x hx
    have hox : (info.rips x).remote_ip ≠ 0 := by rw [hx]; exact hr
    obtain ⟨j', hj', hp', _⟩ := hinv.path x hox
    rw [hx] at hp'
    have := (hpre j' hj').1
    rw [← hp'] at this
    exact this ((rip_inv_match_iff P info L ip seen hinv r _ hr).2 hx)

theorem rip_inv_matched (P : pna_consts) (info : utab_info) (L ip : Nat)
    (seen : List (Nat × Nat)) (hinv : rip_inv P info L ip seen) (r d h : Nat) (hr : r ≠ 0)
    (hd : d < P.DIRECTIONS) (hh : (info.rips h).remote_ip = r) :
    rip_inv P (rip_matched info L h d) L ip ((r, d) :: seen) := by
  have hoh : (info.rips h).remote_ip ≠ 0 := by rw [hh]; exact hr
  have htb := hinv.dirs h d hoh hd
  rw [hh] at htb
  refine ⟨?_, ?_, ?_, ?_, ?_, ?_, ?_⟩
  · rw [rip_matched_local_ip]; exact hinv.addr
  · intro x hx
    rw [rip_matched_remote_ip] at hx
    rw [rip_matched_info_bits]
    have hne : x ≠ h := by
      intro e; rw [e] at hx; exact hoh hx
    rw [if_neg hne]
    exact hinv.free_clean x hx
  · intro x hx
    rw [rip_matched_remote_ip] at hx
    rw [rip_matched_dsts]
    exact hinv.occ_bit x hx
  · intro x hx
    simp only [rip_matched_remote_ip] at hx ⊢
    exact hinv.path x hx
  · intro x d' hx hd'
    simp only [rip_matched_remote_ip] at hx ⊢
    rw [rip_matched_info_bits]
    have hold := hinv.dirs x d' hx hd'
    by_cases hxh : x = h
    · subst hxh
      rw [if_pos rfl, Nat.testBit_or, Nat.one_shiftLeft, Nat.testBit_two_pow, hh]
      simp only [List.mem_cons, Prod.mk.injEq, true_and, Bool.or_eq_true, decide_eq_true_eq]
      rw [hh] at hold
      rw [hold]
      constructor
      · rintro (a | a)
        · exact Or.inr a
        · exact Or.inl a.symm
      · rintro (a | a)
        · exact Or.inr a.symm
        · exact Or.inl a
    · rw [if_neg hxh, hold]
      have hne : (info.rips x).remote_ip ≠ r := by
        intro e
        exact hxh (rip_inv_uniq P info L ip seen hinv x h hx (e.trans hh.symm))
      simp only [List.mem_cons, Prod.mk.injEq]
      constructor
      · exact Or.inr
      · rintro (⟨a, _⟩ | a)
        · exact absurd a hne
        · exact a
  · intro c hc
    rcases List.mem_cons.1 hc with e | hin
    · exact ⟨by rw [e]; exact hr, h, by rw [rip_matched_remote_ip, hh, e]⟩
    · obtain ⟨hc0, x, hx⟩ := hinv.present c hin
      exact ⟨hc0, x, by rw [rip_matched_remote_ip]; exact hx⟩
  · intro d' hd'
    rw [rip_matched_ndsts, dsts_seen_cons_card, hinv.count d' hd']
    congr 1
    by_cases hdd : d' = d
    · subst hdd
      by_cases hin : (r, d') ∈ seen
      · have : (info.rips h).info_bits.testBit d' = true := htb.2 hin
        simp [hin, this]
      · have : (info.rips h).info_bits.testBit d' = false := by
          by_contra hne
          exact hin (htb.1 (by simpa using hne))
        simp [hin, this]
    · simp [hdd]

theorem rip_inv_claimed (P : pna_consts) (info : utab_info) (L ip : Nat)
    (seen : List (Nat × Nat)) (hinv : rip_inv P info L ip seen) (r d j h : Nat) (hr : r ≠ 0)
    (hj : j < PROBE_LIMIT)
    (hh : h = probe_slot P.PNA_RIP_ENTRIES (P.hash_long (ip ^^^ r) P.PNA_RIP_BITS) j)
    (hpre : ∀ i, i < j →
        (info.rips (probe_slot P.PNA_RIP_ENTRIES
          (P.hash_long (ip ^^^ r) P.PNA_RIP_BITS) i)).remote_ip ≠ 0 ∧
        (info.rips (probe_slot P.PNA_RIP_ENTRIES
          (P.hash_long (ip ^^^ r) P.PNA_RIP_BITS) i)).remote_ip ≠ r)
    (hf : (info.rips h).remote_ip = 0) (habs : ∀ x, (info.rips x).remote_ip ≠ r) :
    rip_inv P (rip_claimed P info L r h d) L ip ((r, d) :: seen) := by
  have hnot : ∀ d', (r, d') ∉ seen := by
    intro d' hin
    obtain ⟨_, x, hx⟩ := hinv.present _ hin
    exact habs x hx
  -- an occupied slot of the old table is not the claimed slot
  have hocc_ne : ∀ x, (info.rips x).remote_ip ≠ 0 → x ≠ h := by
    intro x hx e
    rw [e] at hx
    exact hx hf
  refine ⟨?_, ?_, ?_, ?_, ?_, ?_, ?_⟩
  · rw [rip_claimed_local_ip]; exact hinv.addr
  · intro x hx
    rw [rip_claimed_remote_ip] at hx
    rw [rip_claimed_info_bits]
    by_cases hxh : x = h
    · rw [if_pos hxh] at hx
      exact absurd hx hr
    · rw [if_neg hxh] at hx ⊢
      exact hinv.free_clean x hx
  · intro x hx
    rw [rip_claimed_remote_ip] at hx
    rw [rip_claimed_dsts]
    by_cases hxh : x = h
    · subst hxh
      simp only [and_self, if_true]
      exact slot_bit_set P _ _
    · rw [if_neg hxh] at hx
      have hb := hinv.occ_bit x hx
      split
      · exact slot_bit_mono P _ _ _ hb
      · exact hb
  · intro x hx
    rw [rip_claimed_remote_ip] at hx
    by_cases hxh : x = h
    · rw [rip_claimed_remote_ip, if_pos hxh]
      refine ⟨j, hj, hxh.trans hh, ?_⟩
      intro i hi
      have hne := hocc_ne _ (hpre i hi).1
      rw [rip_claimed_remote_ip, if_neg hne]
      exact hpre i hi
    · rw [if_neg hxh] at hx
      rw [rip_claimed_remote_ip, if_neg hxh]
      obtain ⟨j', hj', hp', hpath'⟩ := hinv.path x hx
      refine ⟨j', hj', hp', ?_⟩
      intro i hi
      have hne := hocc_ne _ (hpath' i hi).1
      rw [rip_claimed_remote_ip, if_neg hne]
      exact hpath' i hi
  · intro x d' hx hd'
    rw [rip_claimed_remote_ip] at hx
    rw [rip_claimed_remote_ip, rip_claimed_info_bits]
    by_cases hxh : x = h
    · rw [if_pos hxh, if_pos hxh, hinv.free_clean h hf]
      rw [Nat.testBit_or, Nat.testBit_or, Nat.zero_testBit, Nat.one_shiftLeft, Nat.one_shiftLeft,
        Nat.testBit_two_pow, Nat.testBit_two_pow]
      have h2 : ¬ (d + P.DIRECTIONS = d') := by omega
      simp only [List.mem_cons, Prod.mk.injEq, true_and, Bool.false_or, Bool.or_eq_true,
        decide_eq_true_eq, h2, or_false]
      constructor
      · intro a; exact Or.inl a.symm
      · rintro (a | a)
        · exact a.symm
        · exact absurd a (hnot d')
    · rw [if_neg hxh] at hx
      rw [if_neg hxh, if_neg hxh, hinv.dirs x d' hx hd']
      simp only [List.mem_cons, Prod.mk.injEq]
      constructor
      · exact Or.inr
      · rintro (⟨a, _⟩ | a)
        · exact absurd a (habs x)
        · exact a
  · intro c hc
    rcases List.mem_cons.1 hc with e | hin
    · exact ⟨by rw [e]; exact hr, h, by rw [rip_claimed_remote_ip, if_pos rfl, e]⟩
    · obtain ⟨hc0, x, hx⟩ := hinv.present c hin
      have hne : x ≠ h := by
        intro e
        rw [e, hf] at hx
        exact hc0 hx.symm
      exact ⟨hc0, x, by rw [rip_claimed_remote_ip, if_neg hne]; exact hx⟩
  · intro d' hd'
    rw [rip_claimed_ndsts, dsts_seen_cons_card, hinv.count d' hd']
    congr 1
    simp [hnot d]

theorem rip_inv_step (P : pna_consts) (info : utab_info) (L ip : Nat) (seen : List (Nat × Nat))
    (hinv : rip_inv P info L ip seen) (r d : Nat) (hr : r ≠ 0) (hd : d < P.DIRECTIONS)
    (hok : (do_rip_entry P info L r d).1 ≠ none) :
    rip_inv P (do_rip_entry P info L r d).2 L ip ((r, d) :: seen) := by
  rcases rip_inv_call P info L ip seen hinv r d hr with
    ⟨h, hh, hres⟩ | ⟨j, h, hj, hh, hpre, hf, habs, hres⟩ | ⟨_, hres⟩
  · rw [hres]
    exact rip_inv_matched P info L ip seen hinv r d h hr hd hh
  · rw [hres]
    exact rip_inv_claimed P info L ip seen hinv r d j h hr hj hh hpre hf habs
  · rw [hres] at hok
    exact absurd rfl hok

theorem rip_inv_run (P : pna_consts) (info : utab_info) (L ip : Nat) (seen : List (Nat × Nat))
    (calls : List (Nat × Nat)) (hinv : rip_inv P info L ip seen)
    (hnz : ∀ c ∈ calls, c.1 ≠ 0) (hdir : ∀ c ∈ calls, c.2 < P.DIRECTIONS)
    (hok : rip_entries_ok P info L calls = true) :
    rip_inv P (do_rip_entries P info L calls) L ip (calls.reverse ++ seen) := by
  induction calls generalizing info seen with
  | nil => exact hinv
  | cons c rest ih =>
    rw [rip_entries_ok, Bool.and_eq_true] at hok
    have hsome : (do_rip_entry P info L c.1 c.2).1 ≠ none := by
      intro e
      rw [e] at hok
      exact absurd hok.1 (by simp)
    have hstep := rip_inv_step P info L ip seen hinv c.1 c.2
      (hnz c (List.mem_cons_self _ _)) (hdir c (List.mem_cons_self _ _)) hsome
    have := ih (do_rip_entry P info L c.1 c.2).2 ((c.1, c.2) :: seen) hstep
      (fun x hx => hnz x (List.mem_cons_of_mem _ hx))
      (fun x hx => hdir x (List.mem_cons_of_mem _ hx)) hok.2
    rw [do_rip_entries]
    simpa [List.reverse_cons, List.append_assoc] using this

theorem lip_probe_ndsts (P : pna_consts) (info : utab_info) (local_ip n hash x : Nat) :
    ((lip_probe P info local_ip n hash).2.lips x).ndsts = (info.lips x).ndsts := by
  induction n generalizing hash with
  | zero => rfl
  | succ n ih =>
    rw [lip_probe]
    split
    · rfl
    · split
      · simp only [lip_claimed, upd]
        split
        · rename_i hx; subst hx; rfl
        · rfl
      · exact ih _

theorem do_lip_entries_frame (P : pna_consts) (info : utab_info) (lcalls : List (Nat × Nat)) :
    (do_lip_entries P info lcalls).rips = info.rips ∧
    ∀ x, ((do_lip_entries P info lcalls).lips x).dsts = (info.lips x).dsts ∧
      ((do_lip_entries P info lcalls).lips x).ndsts = (info.lips x).ndsts := by
  induction lcalls generalizing info with
  | nil => exact ⟨rfl, fun _ => ⟨rfl, rfl⟩⟩
  | cons c rest ih =>
    rw [do_lip_entries]
    obtain ⟨h1, h2⟩ := ih (do_lip_entry P info c.1 c.2).2
    obtain ⟨f1, _, f3⟩ := lip_probe_frame P info c.1 PROBE_LIMIT (P.hash_long c.1 P.PNA_LIP_BITS)
    have f4 := lip_probe_ndsts P info c.1 PROBE_LIMIT (P.hash_long c.1 P.PNA_LIP_BITS)
    refine ⟨h1.trans f1, fun x => ⟨(h2 x).1.trans (f3 x), (h2 x).2.trans (f4 x)⟩⟩

theorem rip_inv_init (P : pna_consts) (lcalls : List (Nat × Nat)) (L : Nat) :
    rip_inv P (do_lip_entries P utab_empty lcalls) L
      ((do_lip_entries P utab_empty lcalls).lips L).local_ip [] := by
  obtain ⟨hr, hl⟩ := do_lip_entries_frame P utab_empty lcalls
  have hfree : ∀ h, ((do_lip_entries P utab_empty lcalls).rips h).remote_ip = 0 := by
    intro h; rw [hr]; rfl
  refine ⟨rfl, ?_, ?_, ?_, ?_, ?_, ?_⟩
  · intro h _; rw [hr]; rfl
  · intro h hne; exact absurd (hfree h) hne
  · intro h hne; exact absurd (hfree h) hne
  · intro h d hne; exact absurd (hfree h) hne
  · intro c hc; simp at hc
  · intro d _
    rw [(hl L).2]
    simp [dsts_seen, utab_empty]

/-- C6. After `do_lip_entry` calls on the empty table, for every list of
`do_rip_entry` calls on one LIP entry `L` with nonzero remote IPs (and
directions below `DIRECTIONS`) none of which returns `NULL`, `L.ndsts[d]` is
the number of distinct remote IPs that were passed with direction `d`; and
calling `do_rip_entry` once more with a pair `(remote_ip, d)` that was passed
before leaves `L.ndsts` unchanged. -/
theorem ndsts_counts_distinct (P : pna_consts) (lcalls : List (Nat × Nat)) (L : Nat)
    (calls : List (Nat × Nat)) (hnz : ∀ c ∈ calls, c.1 ≠ 0)
    (hdir : ∀ c ∈ calls, c.2 < P.DIRECTIONS)
    (hok : rip_entries_ok P (do_lip_entries P utab_empty lcalls) L calls = true) :
    (∀ d, d < P.DIRECTIONS →
      ((do_rip_entries P (do_lip_entries P utab_empty lcalls) L calls).lips L).ndsts d =
        (((calls.filter (fun c => c.2 = d)).map Prod.fst).toFinset).card) ∧
    (∀ c ∈ calls,
      ((do_rip_entry P (do_rip_entries P (do_lip_entries P utab_empty lcalls) L calls)
          L c.1 c.2).2.lips L).ndsts =
        ((do_rip_entries P (do_lip_entries P utab_empty lcalls) L calls).lips L).ndsts) := by
  have hinv := rip_inv_run P _ L _ [] calls (rip_inv_init P lcalls L) hnz hdir hok
  rw [List.append_nil] at hinv
  constructor
  · intro d hd
    rw [hinv.count d hd]
    congr 1
    ext r
    rw [mem_dsts_seen]
    simp only [List.mem_reverse, List.mem_toFinset, List.mem_map, List.mem_filter,
      decide_eq_true_eq]
    constructor
    · intro h
      exact ⟨(r, d), ⟨h, rfl⟩, rfl⟩
    · rintro ⟨c, ⟨hc, hd'⟩, hr⟩
      have : c = (r, d) := Prod.ext hr hd'
      rw [← this]; exact hc
  · intro c hc
    have hseen : (c.1, c.2) ∈ calls.reverse := List.mem_reverse.2 hc
    rcases rip_inv_call P _ L _ _ hinv c.1 c.2 (hnz c hc) with
      ⟨h, hh, hres⟩ | ⟨j, h, _, _, _, _, habs, _⟩ | ⟨habs, _⟩
    · rw [hres]
      funext d'
      rw [rip_matched_ndsts]
      have hoh : ((do_rip_entries P (do_lip_entries P utab_empty lcalls) L calls).rips h).remote_ip
          ≠ 0 := by rw [hh]; exact hnz c hc
      have htb := (hinv.dirs h c.2 hoh (hdir c hc)).2 (by rw [hh]; exact hseen)
      simp [htb]
    · obtain ⟨_, x, hx⟩ := hinv.present _ hseen
      exact absurd hx (habs x)
    · obtain ⟨_, x, hx⟩ := hinv.present _ hseen
      exact absurd hx (habs x)

theorem ndsts_counts_distinct_witness :
    ((do_rip_entries example_consts (do_lip_entries example_consts utab_empty [(0x0a000001, 0)])
        10 [(0x08080808, 0), (0x08080404, 0), (0x08080808, 1), (0x08080808, 0)]).lips 10).ndsts 0
      = ((([(0x08080808, 0), (0x08080404, 0), (0x08080808, 1), (0x08080808, 0)].filter
          (fun c => c.2 = 0)).map Prod.fst).toFinset).card ∧
    ((do_rip_entries example_consts (do_lip_entries example_consts utab_empty [(0x0a000001, 0)])
        10 [(0x08080808, 0), (0x08080404, 0), (0x08080808, 1), (0x08080808, 0)]).lips 10).ndsts 0
      = 2 ∧
    ((do_rip_entries example_consts (do_lip_entries example_consts utab_empty [(0x0a000001, 0)])
        10 [(0x08080808, 0), (0x08080404, 0), (0x08080808, 1), (0x08080808, 0)]).lips 10).ndsts 1
      = 1 :=
  ⟨(ndsts_counts_distinct example_consts [(0x0a000001, 0)] 10
      [(0x08080808, 0), (0x08080404, 0), (0x08080808, 1), (0x08080808, 0)]
      (by decide) (by decide) (by decide)).1 0 (by decide),
   by decide, by decide⟩

/-! ### The threshold chain -/

theorem nf_ses_watch_chain_log (P : pna_consts) (S : pna_settings) (info : utab_info)
    (log : List pna_alert)
    (local_ip remote_ip proto local_port remote_port pkt_len direction now : Nat) :
    ∃ new, (nf_ses_watch_chain P S info log local_ip remote_ip proto local_port remote_port
        pkt_len direction now).2 = log ++ new ∧ new.length ≤ 1 := by
  unfold nf_ses_watch_chain
  split
  · exact ⟨[], by simp, by simp⟩
  · split
    · exact ⟨_, rfl, by simp⟩
    · split
      · exact ⟨[], by simp, by simp⟩
      · split
        · exact ⟨_, rfl, by simp⟩
        · split
          · exact ⟨_, rfl, by simp⟩
          · split
            · exact ⟨_, rfl, by simp⟩
            · split
              · exact ⟨[], by simp, by simp⟩
              · split
                · exact ⟨_, rfl, by simp⟩
                · split
                  · exact ⟨_, rfl, by simp⟩
                  · exact ⟨[], by simp, by simp⟩

/-- C7. The table-update / threshold sequence of `nf_ses_watch_hook` (from the
LIP lookup onward) emits at most one `session_action` alert per packet and
stops at it (the table it leaves is the one of the last lookup made). The
checks come in the order connections (`lip.ndsts[OUT] >= pna_connections`,
BLOCK, "too many connections"), ports, bytes, packets (on the RIP entry,
BLOCK), sessions-out (`lip.nsess[OUT] >= pna_sessions`, BLOCK, "too many
sessions"), sessions-in (`lip.nsess[IN] >= pna_sessions`, WHITELIST,
"external scan"), each reached only when all earlier ones passed. When
`do_lip_entry`, `do_rip_entry` or `do_port_entry` returns `NULL` no alert is
emitted and the lower levels are not touched. -/
theorem nf_ses_watch_chain_spec (P : pna_consts) (S : pna_settings) (info : utab_info)
    (log : List pna_alert)
    (local_ip remote_ip proto local_port remote_port pkt_len direction now : Nat) :
    (∃ new, (nf_ses_watch_chain P S info log local_ip remote_ip proto local_port remote_port
        pkt_len direction now).2 = log ++ new ∧ new.length ≤ 1) ∧
    (∀ t1, do_lip_entry P info local_ip direction = (none, t1) →
      nf_ses_watch_chain P S info log local_ip remote_ip proto local_port remote_port
        pkt_len direction now = (t1, log) ∧ t1.rips = info.rips ∧ t1.ports = info.ports) ∧
    (∀ lip t1, do_lip_entry P info local_ip direction = (some lip, t1) →
      (S.pna_connections ≤ (t1.lips lip).ndsts P.PNA_DIR_OUTBOUND →
        nf_ses_watch_chain P S info log local_ip remote_ip proto local_port remote_port
          pkt_len direction now =
          (t1, log ++ [{ kind := .PNA_MSG_BLOCK, ip := local_ip,
                         reason := "too many connections" }]) ∧
        t1.rips = info.rips ∧ t1.ports = info.ports) ∧
      ((t1.lips lip).ndsts P.PNA_DIR_OUTBOUND < S.pna_connections →
        (∀ t2, do_rip_entry P t1 lip remote_ip direction = (none, t2) →
          nf_ses_watch_chain P S info log local_ip remote_ip proto local_port remote_port
            pkt_len direction now = (t2, log) ∧ t2.ports = info.ports) ∧
        (∀ rip t2, do_rip_entry P t1 lip remote_ip direction = (some rip, t2) →
          (S.pna_ports ≤ (t2.rips rip).nprts P.PNA_DIR_OUTBOUND proto →
            nf_ses_watch_chain P S info log local_ip remote_ip proto local_port remote_port
              pkt_len direction now =
              (t2, log ++ [{ kind := .PNA_MSG_BLOCK, ip := local_ip,
                             reason := "too many ports" }]) ∧
            t2.ports = info.ports) ∧
          ((t2.rips rip).nprts P.PNA_DIR_OUTBOUND proto < S.pna_ports →
            S.pna_bytes ≤ (t2.rips rip).nbytes P.PNA_DIR_OUTBOUND proto →
            nf_ses_watch_chain P S info log local_ip remote_ip proto local_port remote_port
              pkt_len direction now =
              (t2, log ++ [{ kind := .PNA_MSG_BLOCK, ip := local_ip,
                             reason := "too many bytes" }]) ∧
            t2.ports = info.ports) ∧
          ((t2.rips rip).nprts P.PNA_DIR_OUTBOUND proto < S.pna_ports →
            (t2.rips rip).nbytes P.PNA_DIR_OUTBOUND proto < S.pna_bytes →
            S.pna_packets ≤ (t2.rips rip).npkts P.PNA_DIR_OUTBOUND proto →
            nf_ses_watch_chain P S info log local_ip remote_ip proto local_port remote_port
              pkt_len direction now =
              (t2, log ++ [{ kind := .PNA_MSG_BLOCK, ip := local_ip,
                             reason := "too many packets" }]) ∧
            t2.ports = info.ports) ∧
          ((t2.rips rip).nprts P.PNA_DIR_OUTBOUND proto < S.pna_ports →
            (t2.rips rip).nbytes P.PNA_DIR_OUTBOUND proto < S.pna_bytes →
            (t2.rips rip).npkts P.PNA_DIR_OUTBOUND proto < S.pna_packets →
            (∀ t3, do_port_entry P t2 lip rip proto local_port remote_port pkt_len direction now
                = (none, t3) →
              nf_ses_watch_chain P S info log local_ip remote_ip proto local_port remote_port
                pkt_len direction now = (t3, log)) ∧
            (∀ prt t3, do_port_entry P t2 lip rip proto local_port remote_port pkt_len direction
                now = (some prt, t3) →
              (S.pna_sessions ≤ (t3.lips lip).nsess P.PNA_DIR_OUTBOUND →
                nf_ses_watch_chain P S info log local_ip remote_ip proto local_port remote_port
                  pkt_len direction now =
                  (t3, log ++ [{ kind := .PNA_MSG_BLOCK, ip := local_ip,
                                 reason := "too many sessions" }])) ∧
              ((t3.lips lip).nsess P.PNA_DIR_OUTBOUND < S.pna_sessions →
                S.pna_sessions ≤ (t3.lips lip).nsess P.PNA_DIR_INBOUND →
                nf_ses_watch_chain P S info log local_ip remote_ip proto local_port remote_port
                  pkt_len direction now =
                  (t3, log ++ [{ kind := .PNA_MSG_WHITELIST, ip := local_ip,
                                 reason := "external scan" }])) ∧
              ((t3.lips lip).nsess P.PNA_DIR_OUTBOUND < S.pna_sessions →
                (t3.lips lip).nsess P.PNA_DIR_INBOUND < S.pna_sessions →
                nf_ses_watch_chain P S info log local_ip remote_ip proto local_port remote_port
                  pkt_len direction now = (t3, log))))))) := by
  have hlipf := lip_probe_frame P info local_ip PROBE_LIMIT (P.hash_long local_ip P.PNA_LIP_BITS)
  have hlip : ∀ r t1, do_lip_entry P info local_ip direction = (r, t1) →
      t1.rips = info.rips ∧ t1.ports = info.ports := by
    intro r t1 h
    have : t1 = (do_lip_entry P info local_ip direction).2 := by rw [h]
    rw [this]
    exact ⟨hlipf.1, hlipf.2.1⟩
  have hrip : ∀ t1 lip r t2, do_rip_entry P t1 lip remote_ip direction = (r, t2) →
      t2.ports = t1.ports := by
    intro t1 lip r t2 h
    have : t2 = (do_rip_entry P t1 lip remote_ip direction).2 := by rw [h]
    rw [this]
    exact (rip_probe_frame P t1 lip remote_ip direction PROBE_LIMIT _).1
  refine ⟨nf_ses_watch_chain_log P S info log local_ip remote_ip proto local_port remote_port
    pkt_len direction now, ?_, ?_⟩
  · intro t1 h1
    refine ⟨?_, hlip _ _ h1⟩
    simp [nf_ses_watch_chain, h1]
  · intro lip t1 h1
    obtain ⟨hr1, hp1⟩ := hlip _ _ h1
    refine ⟨?_, ?_⟩
    · intro hc
      refine ⟨?_, hr1, hp1⟩
      simp [nf_ses_watch_chain, h1, hc, session_action]
    · intro hc
      have hc' : ¬ (S.pna_connections ≤ (t1.lips lip).ndsts P.PNA_DIR_OUTBOUND) := by omega
      refine ⟨?_, ?_⟩
      · intro t2 h2
        refine ⟨?_, (hrip _ _ _ _ h2).trans hp1⟩
        simp [nf_ses_watch_chain, h1, hc', h2]
      · intro rip t2 h2
        have hp2 := (hrip _ _ _ _ h2).trans hp1
        refine ⟨?_, ?_, ?_, ?_⟩
        · intro ha
          refine ⟨?_, hp2⟩
          simp [nf_ses_watch_chain, h1, hc', h2, ha, session_action]
        · intro ha hb
          have ha' : ¬ (S.pna_ports ≤ (t2.rips rip).nprts P.PNA_DIR_OUTBOUND proto) := by omega
          refine ⟨?_, hp2⟩
          simp [nf_ses_watch_chain, h1, hc', h2, ha', hb, session_action]
        · intro ha hb hd
          have ha' : ¬ (S.pna_ports ≤ (t2.rips rip).nprts P.PNA_DIR_OUTBOUND proto) := by omega
          have hb' : ¬ (S.pna_bytes ≤ (t2.rips rip).nbytes P.PNA_DIR_OUTBOUND proto) := by omega
          refine ⟨?_, hp2⟩
          simp [nf_ses_watch_chain, h1, hc', h2, ha', hb', hd, session_action]
        · intro ha hb hd
          have ha' : ¬ (S.pna_ports ≤ (t2.rips rip).nprts P.PNA_DIR_OUTBOUND proto) := by omega
          have hb' : ¬ (S.pna_bytes ≤ (t2.rips rip).nbytes P.PNA_DIR_OUTBOUND proto) := by omega
          have hd' : ¬ (S.pna_packets ≤ (t2.rips rip).npkts P.PNA_DIR_OUTBOUND proto) := by omega
          refine ⟨?_, ?_⟩
          · intro t3 h3
            simp [nf_ses_watch_chain, h1, hc', h2, ha', hb', hd', h3]
          · intro prt t3 h3
            refine ⟨?_, ?_, ?_⟩
            · intro he
              simp [nf_ses_watch_chain, h1, hc', h2, ha', hb', hd', h3, he, session_action]
            · intro he hf
              have he' : ¬ (S.pna_sessions ≤ (t3.lips lip).nsess P.PNA_DIR_OUTBOUND) := by omega
              simp [nf_ses_watch_chain, h1, hc', h2, ha', hb', hd', h3, he', hf, session_action]
            · intro he hf
              have he' : ¬ (S.pna_sessions ≤ (t3.lips lip).nsess P.PNA_DIR_OUTBOUND) := by omega
              have hf' : ¬ (S.pna_sessions ≤ (t3.lips lip).nsess P.PNA_DIR_INBOUND) := by omega
              simp [nf_ses_watch_chain, h1, hc', h2, ha', hb', hd', h3, he', hf']

/-- The chain on the first packet of a flow, `10.0.0.1:1000` to `8.8.8.8:443`,
100 bytes, outbound TCP, on the empty table: with every limit at 1000 no alert
is emitted and one entry is claimed at each level; with `pna_connections = 0`
the connections check fires right after the LIP lookup and neither the RIP nor
the port table is touched. -/
theorem nf_ses_watch_chain_example :
    (nf_ses_watch_chain example_consts
        { pna_connections := 1000, pna_sessions := 1000, pna_ports := 1000,
          pna_bytes := 1000, pna_packets := 1000 }
        utab_empty [] 0x0a000001 0x08080808 0 1000 443 100 0 1000).2 = [] ∧
    (nf_ses_watch_chain example_consts
        { pna_connections := 1000, pna_sessions := 1000, pna_ports := 1000,
          pna_bytes := 1000, pna_packets := 1000 }
        utab_empty [] 0x0a000001 0x08080808 0 1000 443 100 0 1000).1.nports = 1 ∧
    (nf_ses_watch_chain example_consts
        { pna_connections := 0, pna_sessions := 1000, pna_ports := 1000,
          pna_bytes := 1000, pna_packets := 1000 }
        utab_empty [] 0x0a000001 0x08080808 0 1000 443 100 0 1000).2 =
      [{ kind := .PNA_MSG_BLOCK, ip := 0x0a000001, reason := "too many connections" }] ∧
    (nf_ses_watch_chain example_consts
        { pna_connections := 0, pna_sessions := 1000, pna_ports := 1000,
          pna_bytes := 1000, pna_packets := 1000 }
        utab_empty [] 0x0a000001 0x08080808 0 1000 443 100 0 1000).1.nrips = 0 := by
  refine ⟨?_, ?_, ?_, ?_⟩ <;> decide

/-! ### The hash map: reset, sizing and placement -/

/-! #### Reset -/

/-- What `hashmap_reset` leaves: zero arrays, `next_idx = 0`, and the size
fields and masks as before. -/
theorem hashmap_reset_fields (map : pna_hashmap) :
    (∀ b i, (hashmap_reset map).buckets b i = 0) ∧
    (∀ x, (hashmap_reset map).pairs x =
      (List.replicate map.key_size 0, List.replicate map.value_size 0)) ∧
    (hashmap_reset map).next_idx = 0 ∧
    (hashmap_reset map).n_pairs = map.n_pairs ∧
    (hashmap_reset map).key_size = map.key_size ∧
    (hashmap_reset map).value_size = map.value_size ∧
    (hashmap_reset map).n_buckets = map.n_buckets ∧
    (hashmap_reset map).bkt_mask = map.bkt_mask ∧
    (hashmap_reset map).kvx_mask = map.kvx_mask ∧
    (hashmap_reset map).fp_mask = map.fp_mask :=
  ⟨fun _ _ => rfl, fun _ => rfl, rfl, rfl, rfl, rfl, rfl, rfl, rfl, rfl⟩

theorem hashmap_scan_reset (map : pna_hashmap) (key : Bytes) (bkt fp : Nat) (l : List Nat)
    (h : key ≠ List.replicate map.key_size 0 ∨ fp ≠ 0) :
    hashmap_scan (hashmap_reset map) key bkt fp l = none := by
  induction l with
  | nil => rfl
  | cons i rest ih =>
    rw [hashmap_scan]
    have hno : ¬ ((((hashmap_reset map).buckets bkt i &&& (hashmap_reset map).fp_mask) = fp) ∧
        ((hashmap_reset map).pairs
          ((hashmap_reset map).buckets bkt i &&& (hashmap_reset map).kvx_mask)).1 = key) := by
      rintro ⟨h1, h2⟩
      have hb : (hashmap_reset map).buckets bkt i = 0 := rfl
      rw [hb, Nat.zero_and] at h1
      rcases h with hk | hf
      · exact hk h2.symm
      · exact hf h1.symm
    rw [if_neg hno]
    exact ih

/-- On a reset map `hashmap_get` returns `NULL` for every key that is not the
all-zero key, and for the all-zero key when both its fingerprints are
nonzero. -/
theorem hashmap_reset_get_none (H : HashFn) (map : pna_hashmap) (key : Bytes)
    (h : key ≠ List.replicate map.key_size 0 ∨
      ((hashmap_hashit H map key 0).2 ≠ 0 ∧ (hashmap_hashit H map key 1).2 ≠ 0)) :
    hashmap_get H (hashmap_reset map) key = none := by
  have hh : ∀ func, hashmap_hashit H (hashmap_reset map) key func = hashmap_hashit H map key func :=
    fun _ => rfl
  unfold hashmap_get
  rw [hh, hh]
  rw [hashmap_scan_reset map key _ _ _ (h.imp id (fun x => x.1))]
  simp only
  exact hashmap_scan_reset map key _ _ _ (h.imp id (fun x => x.2))

theorem hashmap_reset_get_none_example :
    hashmap_get example_hash (hashmap_reset example_map) [1] = none ∧
    hashmap_get example_hash (hashmap_reset example_map) [0, 0] = none :=
  ⟨hashmap_reset_get_none example_hash example_map [1] (Or.inl (by decide)),
   hashmap_reset_get_none example_hash example_map [0, 0] (Or.inl (by decide))⟩

set_option maxRecDepth 100000 in
/-- C19 (the code at the failing input). The map `hashmap_create(1048576, 404,
8)` has `2 ^ 18` buckets on each side and the fingerprint mask `0xffe00000`.
It is reset: every slot word and every pair byte is zero and `next_idx = 0`.
With MurmurHash3 and the seed `C1` the key of 404 zero bytes has
`out[1] = 0x18659cf30009af0b`, so its first fingerprint is 0 (its first bucket
is 20415). The zero word of slot 0 of that bucket passes the fingerprint test
of `hashmap_get` and decodes to pair 0, whose zero key bytes equal the key:
`hashmap_get` returns pair 0 instead of `NULL`. -/
theorem hashmap_reset_get_zero_key :
    hashmap_create_entry 1048576 404 8 = some example_murmur_wide ∧
    (hashmap_reset example_murmur_wide).next_idx = 0 ∧
    (∀ b i, (hashmap_reset example_murmur_wide).buckets b i = 0) ∧
    (∀ x, (hashmap_reset example_murmur_wide).pairs x =
      (List.replicate 404 0, List.replicate 8 0)) ∧
    MurmurHash3_x64_128 (List.replicate 404 0) 404 C1 =
      (0x3e97833362bc4fbf, 0x18659cf30009af0b) ∧
    hashmap_hashit MurmurHash3_x64_128 (hashmap_reset example_murmur_wide)
      (List.replicate 404 0) 0 = (20415, 0) ∧
    hashmap_get MurmurHash3_x64_128 (hashmap_reset example_murmur_wide)
      (List.replicate 404 0) = some 0 := by
  refine ⟨rfl, rfl, fun _ _ => rfl, fun _ => rfl, ?_, ?_, ?_⟩ <;> decide

/-! #### Bucket sizing, exactly -/

theorem two_pow_mod_u32 (a : Nat) (h : 32 ≤ a) : (2 : Nat) ^ a % U32 = 0 := by
  have : (2 : Nat) ^ a = 2 ^ 32 * 2 ^ (a - 32) := by
    rw [← pow_add]; congr 1; omega
  rw [this, U32]
  exact Nat.mul_mod_right _ _

/-- From `2 ^ 29` buckets on the product `8 * n_buckets` is `0` modulo
`2 ^ 32` and the loop never leaves. -/
theorem n_buckets_loop_high (fuel a n_pairs : Nat) (ha : 29 ≤ a) :
    n_buckets_loop fuel (2 ^ a) n_pairs = none := by
  induction fuel generalizing a with
  | zero => rfl
  | succ f ih =>
    rw [n_buckets_loop]
    have h8 : (8 * 2 ^ a) % U32 = 0 := by
      have : 8 * 2 ^ a = 2 ^ (a + 3) := by rw [pow_add]; ring
      rw [this]
      exact two_pow_mod_u32 _ (by omega)
    rw [h8]
    simp only [Nat.zero_le, if_true]
    have hs : (2 ^ a <<< 1) = 2 ^ (a + 1) := by
      rw [Nat.shiftLeft_eq, pow_one, ← pow_succ]
    rw [hs]
    by_cases h32 : a + 1 < 32
    · rw [Nat.mod_eq_of_lt (show (2 : Nat) ^ (a + 1) < U32 from
        Nat.pow_lt_pow_right (by decide) h32)]
      exact ih (a + 1) (by omega)
    · rw [two_pow_mod_u32 _ (by omega)]
      exact n_buckets_loop_zero f n_pairs

/-- The doubling loop returns the first power of two from `2 ^ a` on whose
eightfold exceeds `n_pairs`, and only below `2 ^ 29`. -/
theorem n_buckets_loop_least (fuel a n_pairs r : Nat)
    (hprev : ∀ c, 2 ≤ c → c < a → 8 * 2 ^ c ≤ n_pairs)
    (h : n_buckets_loop fuel (2 ^ a) n_pairs = some r) :
    ∃ b, a ≤ b ∧ b < 29 ∧ r = 2 ^ b ∧ n_pairs < 8 * 2 ^ b ∧
      ∀ c, 2 ≤ c → c < b → 8 * 2 ^ c ≤ n_pairs := by
  induction fuel generalizing a with
  | zero => simp [n_buckets_loop] at h
  | succ f ih =>
    by_cases ha : a < 29
    · have h8 : 8 * 2 ^ a = 2 ^ (a + 3) := by rw [pow_add]; ring
      have hlt : (2 : Nat) ^ (a + 3) < U32 := Nat.pow_lt_pow_right (by decide) (by omega)
      rw [n_buckets_loop, h8, Nat.mod_eq_of_lt hlt] at h
      by_cases hc : 2 ^ (a + 3) ≤ n_pairs
      · simp only [hc, if_true] at h
        have hs : (2 ^ a <<< 1) % U32 = 2 ^ (a + 1) := by
          rw [Nat.shiftLeft_eq, pow_one, ← pow_succ]
          exact Nat.mod_eq_of_lt (Nat.pow_lt_pow_right (by decide) (by omega))
        rw [hs] at h
        have hprev' : ∀ c, 2 ≤ c → c < a + 1 → 8 * 2 ^ c ≤ n_pairs := by
          intro c hc2 hca
          by_cases hca' : c < a
          · exact hprev c hc2 hca'
          · have : c = a := by omega
            rw [this, h8]; exact hc
        obtain ⟨b, hab, hb, hr, hn, hl⟩ := ih (a + 1) hprev' h
        exact ⟨b, by omega, hb, hr, hn, hl⟩
      · simp only [hc, if_false, Option.some.injEq] at h
        exact ⟨a, le_refl a, ha, h.symm, by rw [h8]; omega, hprev⟩
    · rw [n_buckets_loop_high (f + 1) a n_pairs (by omega)] at h
      exact absurd h (by simp)

theorem not32_eq_sub (x : Nat) (h : x < 2 ^ 32) : (U32 - 1) ^^^ x = 2 ^ 32 - 1 - x := by
  have hU : U32 - 1 = 2 ^ 32 - 1 := rfl
  have hsub : 2 ^ 32 - 1 - x = 2 ^ 32 - (x + 1) := by omega
  rw [hU, hsub]
  apply Nat.eq_of_testBit_eq
  intro i
  rw [Nat.testBit_xor, Nat.testBit_two_pow_sub_one, Nat.testBit_two_pow_sub_succ h]
  by_cases hi : i < 32
  · simp [hi]
  · have : x.testBit i = false := by
      apply Nat.testBit_lt_two_pow
      have : (2 : Nat) ^ 32 ≤ 2 ^ i := Nat.pow_le_pow_right (by decide) (by omega)
      omega
    simp [hi, this]

/-- C20. For every `n_pairs` for which `hashmap_create` completes, `n_buckets`
is the least power of two that is at least 4 and satisfies
`8 * n_buckets > n_pairs`, with `bkt_mask = n_buckets - 1`,
`kvx_mask = 8 * n_buckets - 1` and `fp_mask` the 32-bit complement of
`kvx_mask` (`2 ^ 32 - 1 - kvx_mask`). -/
theorem hashmap_create_sizing (n_pairs key_size value_size : Nat) (m : pna_hashmap)
    (h : hashmap_create_entry n_pairs key_size value_size = some m) :
    (∃ b, 2 ≤ b ∧ m.n_buckets = 2 ^ b ∧
      ∀ c, 2 ≤ c → n_pairs < 8 * 2 ^ c → b ≤ c) ∧
    4 ≤ m.n_buckets ∧ n_pairs < 8 * m.n_buckets ∧
    m.bkt_mask = m.n_buckets - 1 ∧
    m.kvx_mask = 8 * m.n_buckets - 1 ∧
    m.fp_mask = 2 ^ 32 - 1 - m.kvx_mask ∧
    m.n_pairs = n_pairs ∧ m.key_size = key_size ∧ m.value_size = value_size := by
  unfold hashmap_create_entry at h
  cases hl : n_buckets_loop 64 4 n_pairs with
  | none => simp [hl] at h
  | some nb =>
    simp only [hl, Option.some.injEq] at h
    obtain ⟨b, hb2, hb29, hnb, hn, hleast⟩ := n_buckets_loop_least 64 2 n_pairs nb
      (fun c h1 h2 => absurd h2 (by omega)) (by simpa using hl)
    have h8 : 8 * nb = 2 ^ (b + 3) := by rw [hnb, pow_add]; ring
    have hlt32 : (2 : Nat) ^ (b + 3) < 2 ^ 32 := Nat.pow_lt_pow_right (by decide) (by omega)
    have hnblt : nb < 2 ^ 32 := by omega
    have hpos : 0 < nb := by rw [hnb]; exact Nat.pow_pos (by decide)
    have h4 : 4 ≤ nb := by
      rw [hnb]
      calc 4 = 2 ^ 2 := rfl
        _ ≤ 2 ^ b := Nat.pow_le_pow_right (by decide) hb2
    have hU : U32 = 2 ^ 32 := rfl
    have hk : ((8 * nb) % U32 + U32 - 1) % U32 = 8 * nb - 1 := by
      rw [hU, Nat.mod_eq_of_lt (show 8 * nb < 2 ^ 32 by omega)]
      have : 8 * nb + 2 ^ 32 - 1 = (8 * nb - 1) + 2 ^ 32 := by omega
      rw [this, Nat.add_mod_right]
      exact Nat.mod_eq_of_lt (by omega)
    have hbk : (nb + U32 - 1) % U32 = nb - 1 := by
      rw [hU]
      have : nb + 2 ^ 32 - 1 = (nb - 1) + 2 ^ 32 := by omega
      rw [this, Nat.add_mod_right]
      exact Nat.mod_eq_of_lt (by omega)
    subst h
    refine ⟨⟨b, hb2, hnb, ?_⟩, h4, (show n_pairs < 8 * nb by omega), hbk, hk, ?_, rfl, rfl, rfl⟩
    · intro c hc2 hcn
      by_contra hlt
      have := hleast c hc2 (by omega)
      omega
    · show (U32 - 1) ^^^ (((8 * nb) % U32 + U32 - 1) % U32) =
        2 ^ 32 - 1 - (((8 * nb) % U32 + U32 - 1) % U32)
      rw [hk]
      exact not32_eq_sub _ (by omega)

theorem hashmap_create_sizing_witness :
    hashmap_create_entry 1024 8 8 = some example_map1024 ∧
    ((∃ b, 2 ≤ b ∧ example_map1024.n_buckets = 2 ^ b ∧
      ∀ c, 2 ≤ c → 1024 < 8 * 2 ^ c → b ≤ c) ∧
    4 ≤ example_map1024.n_buckets ∧ 1024 < 8 * example_map1024.n_buckets ∧
    example_map1024.bkt_mask = example_map1024.n_buckets - 1 ∧
    example_map1024.kvx_mask = 8 * example_map1024.n_buckets - 1 ∧
    example_map1024.fp_mask = 2 ^ 32 - 1 - example_map1024.kvx_mask ∧
    example_map1024.n_pairs = 1024 ∧ example_map1024.key_size = 8 ∧
    example_map1024.value_size = 8) ∧
    example_map1024.n_buckets = 256 :=
  ⟨rfl, hashmap_create_sizing 1024 8 8 example_map1024 rfl, rfl⟩

/-! #### Placement -/

theorem count_free_snd_mem (map : pna_hashmap) (b : Nat) (l : List Nat) (acc : Nat × Nat) :
    (count_free map b l acc).2 = acc.2 ∨ (count_free map b l acc).2 ∈ l := by
  induction l generalizing acc with
  | nil => exact Or.inl rfl
  | cons i rest ih =>
    rw [count_free]
    by_cases hz : map.buckets b i = 0
    · rw [if_pos hz]
      rcases ih (acc.1 + 1, i) with h | h
      · exact Or.inr (by rw [h]; exact List.mem_cons_self _ _)
      · exact Or.inr (List.mem_cons_of_mem _ h)
    · rw [if_neg hz]
      rcases ih acc with h | h
      · exact Or.inl h
      · exact Or.inr (List.mem_cons_of_mem _ h)

/-- Over an increasing list of slots the counting loop of `hashmap_put` ends
with the highest listed slot whose word is zero. -/
theorem count_free_snd_max (map : pna_hashmap) (b : Nat) (l : List Nat) (acc : Nat × Nat)
    (hl : l.Pairwise (fun x y => x < y)) :
    ∀ i ∈ l, map.buckets b i = 0 → i ≤ (count_free map b l acc).2 := by
  induction l generalizing acc with
  | nil => intro i hi; simp at hi
  | cons j rest ih =>
    intro i hi hz
    rw [count_free]
    rw [List.pairwise_cons] at hl
    rcases List.mem_cons.mp hi with rfl | hi
    · rw [if_pos hz]
      rcases count_free_snd_mem map b rest (acc.1 + 1, i) with h | h
      · rw [h]
      · exact Nat.le_of_lt (hl.1 _ h)
    · exact ih _ hl.2 i hi hz

theorem range_pairwise_lt (n : Nat) : (List.range n).Pairwise (fun x y => x < y) := by
  simpa using List.pairwise_lt_range n

/-- C11. A `hashmap_put` that succeeds on a map reachable from a created or
reset map, with `n0` and `n1` zero-valued slots in the left bucket `b0` and the
right bucket `b1` of the key, returns pair number old `next_idx`, stores key
and value there, increments `next_idx`, and writes the word
`fingerprint | index` into bucket `b0` iff `n0 >= n1` (else `b1`), at the
highest-numbered slot of that bucket whose word was zero; every other bucket
slot, every other pair and every other field is unchanged, so every slot that
held a nonzero word keeps it. -/
theorem hashmap_put_placement (H : HashFn) (m : pna_hashmap) (key value : Bytes) (idx : Nat)
    (hr : Reachable H m) (h : (hashmap_put H m key value).1 = some idx) :
    ∃ b fp i,
      (b, fp) =
        (if (List.range BKT_SIZE).countP
              (fun s => decide (m.buckets (hashmap_hashit H m key 0).1 s = 0)) ≥
            (List.range BKT_SIZE).countP
              (fun s => decide
                (m.buckets (((hashmap_hashit H m key 1).1 + m.n_buckets) % U32) s = 0))
         then ((hashmap_hashit H m key 0).1, (hashmap_hashit H m key 0).2)
         else (((hashmap_hashit H m key 1).1 + m.n_buckets) % U32,
           (hashmap_hashit H m key 1).2)) ∧
      idx = m.next_idx ∧
      (hashmap_put H m key value).2.next_idx = m.next_idx + 1 ∧
      (hashmap_put H m key value).2.pairs idx = (key, value) ∧
      (∀ x, x ≠ idx → (hashmap_put H m key value).2.pairs x = m.pairs x) ∧
      i < BKT_SIZE ∧ m.buckets b i = 0 ∧
      (∀ s, s < BKT_SIZE → m.buckets b s = 0 → s ≤ i) ∧
      (hashmap_put H m key value).2.buckets b i = fp ||| idx ∧
      (∀ b' s, ¬ (b' = b ∧ s = i) →
        (hashmap_put H m key value).2.buckets b' s = m.buckets b' s) ∧
      (hashmap_put H m key value).2.n_pairs = m.n_pairs ∧
      (hashmap_put H m key value).2.key_size = m.key_size ∧
      (hashmap_put H m key value).2.value_size = m.value_size ∧
      (hashmap_put H m key value).2.n_buckets = m.n_buckets ∧
      (hashmap_put H m key value).2.bkt_mask = m.bkt_mask ∧
      (hashmap_put H m key value).2.kvx_mask = m.kvx_mask ∧
      (hashmap_put H m key value).2.fp_mask = m.fp_mask ∧
      (∀ b' s, m.buckets b' s ≠ 0 →
        (hashmap_put H m key value).2.buckets b' s = m.buckets b' s) := by
  have hinv := hr.inv
  obtain ⟨j, hj, hk, hf⟩ := hinv.masks
  have hidx : m.next_idx &&& m.kvx_mask = m.next_idx := by
    have h1 := hinv.cap
    have h2 := hinv.idx_le
    rw [hk] at h1 ⊢
    apply Nat.eq_of_testBit_eq
    intro t
    rw [Nat.testBit_and, Nat.testBit_two_pow_sub_one]
    by_cases ht : t < j
    · simp [ht]
    · have : m.next_idx.testBit t = false := by
        apply Nat.testBit_lt_two_pow
        have hp : (2 : Nat) ^ j ≤ 2 ^ t := Nat.pow_le_pow_right (by decide) (by omega)
        have hpos : 0 < 2 ^ j := Nat.pow_pos (by decide)
        omega
      simp [this]
  have f0 := count_free_fst m (hashmap_hashit H m key 0).1 (List.range BKT_SIZE) (0, 0)
  have f1 := count_free_fst m (((hashmap_hashit H m key 1).1 + m.n_buckets) % U32)
    (List.range BKT_SIZE) (0, 0)
  simp only [Nat.zero_add] at f0 f1
  rw [← f0, ← f1]
  have c0 := count_free_snd m (hashmap_hashit H m key 0).1 (List.range BKT_SIZE) (0, 0)
  have c1 := count_free_snd m (((hashmap_hashit H m key 1).1 + m.n_buckets) % U32)
    (List.range BKT_SIZE) (0, 0)
  have x0 := count_free_snd_max m (hashmap_hashit H m key 0).1 (List.range BKT_SIZE) (0, 0)
    (range_pairwise_lt _)
  have x1 := count_free_snd_max m (((hashmap_hashit H m key 1).1 + m.n_buckets) % U32)
    (List.range BKT_SIZE) (0, 0) (range_pairwise_lt _)
  simp only [List.mem_range] at c0 c1 x0 x1
  by_cases hfull : m.next_idx ≥ m.n_pairs
  · unfold hashmap_put at h
    rw [if_pos hfull] at h
    exact absurd h (by simp)
  by_cases hz : (count_free m (hashmap_hashit H m key 0).1 (List.range BKT_SIZE) (0, 0)).1 +
      (count_free m (((hashmap_hashit H m key 1).1 + m.n_buckets) % U32)
        (List.range BKT_SIZE) (0, 0)).1 = 0
  · unfold hashmap_put at h
    rw [if_neg hfull] at h
    dsimp only at h
    rw [if_pos hz] at h
    exact absurd h (by simp)
  by_cases hge : (count_free m (hashmap_hashit H m key 0).1 (List.range BKT_SIZE) (0, 0)).1 ≥
      (count_free m (((hashmap_hashit H m key 1).1 + m.n_buckets) % U32)
        (List.range BKT_SIZE) (0, 0)).1
  · have heq : hashmap_put H m key value =
        (some m.next_idx,
          { m with
            next_idx := m.next_idx + 1
            pairs := fun x => if x = m.next_idx then (key, value) else m.pairs x
            buckets := fun b i =>
              if b = (hashmap_hashit H m key 0).1 ∧
                  i = (count_free m (hashmap_hashit H m key 0).1
                    (List.range BKT_SIZE) (0, 0)).2 then
                (hashmap_hashit H m key 0).2 ||| (m.next_idx &&& m.kvx_mask)
              else m.buckets b i }) := by
      unfold hashmap_put
      rw [if_neg hfull]
      dsimp only
      rw [if_neg hz, if_pos hge]
    rw [heq] at h ⊢
    rw [if_pos hge]
    have hi : idx = m.next_idx := by simpa using h.symm
    subst hi
    have hc := c0 (by omega)
    refine ⟨_, _, _, rfl, rfl, rfl, by simp, fun x hx => by simp [hx], hc.1, hc.2,
      x0, by simp [hidx], ?_, rfl, rfl, rfl, rfl, rfl, rfl, rfl, ?_⟩
    · intro b' s hne
      dsimp only
      rw [if_neg hne]
    · intro b' s hnz
      dsimp only
      rw [if_neg]
      rintro ⟨rfl, rfl⟩
      exact hnz hc.2
  · have heq : hashmap_put H m key value =
        (some m.next_idx,
          { m with
            next_idx := m.next_idx + 1
            pairs := fun x => if x = m.next_idx then (key, value) else m.pairs x
            buckets := fun b i =>
              if b = ((hashmap_hashit H m key 1).1 + m.n_buckets) % U32 ∧
                  i = (count_free m (((hashmap_hashit H m key 1).1 + m.n_buckets) % U32)
                    (List.range BKT_SIZE) (0, 0)).2 then
                (hashmap_hashit H m key 1).2 ||| (m.next_idx &&& m.kvx_mask)
              else m.buckets b i }) := by
      unfold hashmap_put
      rw [if_neg hfull]
      dsimp only
      rw [if_neg hz, if_neg hge]
    rw [heq] at h ⊢
    rw [if_neg hge]
    have hi : idx = m.next_idx := by simpa using h.symm
    subst hi
    have hc := c1 (by omega)
    refine ⟨_, _, _, rfl, rfl, rfl, by simp, fun x hx => by simp [hx], hc.1, hc.2,
      x1, by simp [hidx], ?_, rfl, rfl, rfl, rfl, rfl, rfl, rfl, ?_⟩
    · intro b' s hne
      dsimp only
      rw [if_neg hne]
    · intro b' s hnz
      dsimp only
      rw [if_neg]
      rintro ⟨rfl, rfl⟩
      exact hnz hc.2

theorem hashmap_put_placement_witness :
    (hashmap_put example_hash example_map [1] [10]).1 = some 0 ∧
    ∃ i, i < BKT_SIZE ∧ example_map.buckets 0 i = 0 ∧
      (hashmap_put example_hash example_map [1] [10]).2.buckets 0 i = 32 ∧
      (hashmap_put example_hash example_map [1] [10]).2.pairs 0 = ([1], [10]) ∧
      (hashmap_put example_hash example_map [1] [10]).2.next_idx = 1 := by
  obtain ⟨b, fp, i, hb, _, hn, hp, _, hi, hz, _, hw, _⟩ :=
    hashmap_put_placement example_hash example_map [1] [10] 0
      (Reachable.create 4 1 1 example_map example_map_created) (by decide)
  have hb' : (b, fp) = (0, 32) := by rw [hb]; decide
  obtain ⟨rfl, rfl⟩ := Prod.mk.inj hb'
  exact ⟨by decide, i, hi, hz, hw, hp, hn⟩

/-! ### The localizer, applied twice -/

/-- C12. Whenever `pna_localize` returns 1 producing the key `k'`, applying
`pna_localize` to `k'` again (same prefix and mask, any direction value
before the call) returns 1, reports OUTBOUND and leaves `k'` unchanged. -/
theorem pna_localize_idempotent (P : pna_consts) ( pna_prefix pna_mask : Nat)
    (key : pna_flowkey) (direction direction2 : Nat)
    (h : (pna_localize P pna_prefix pna_mask key direction).1 = 1) :
    pna_localize P pna_prefix pna_mask
        (pna_localize P pna_prefix pna_mask key direction).2.1 direction2 =
      (1, (pna_localize P pna_prefix pna_mask key direction).2.1, P.PNA_DIR_OUTBOUND) := by
  unfold pna_localize at h ⊢
  by_cases h1 : key.local_ip &&& pna_mask = ( pna_prefix &&& pna_mask)
  · simp only [h1, if_true]
  · by_cases h2 : key.remote_ip &&& pna_mask = ( pna_prefix &&& pna_mask)
    · simp only [h1, h2, if_true, if_false]
    · simp only [h1, h2, if_false] at h
      exact absurd h (by decide)

theorem pna_localize_idempotent_witness :
    pna_localize example_consts 0x0a000000 0xff000000
        { l3_protocol := 0x0800, l4_protocol := 6, local_ip := 0x08080808,
          remote_ip := 0x0a000001, local_port := 443, remote_port := 1000 } 0 =
      (1, { l3_protocol := 0x0800, l4_protocol := 6, local_ip := 0x0a000001,
            remote_ip := 0x08080808, local_port := 1000, remote_port := 443 }, 1) ∧
    pna_localize example_consts 0x0a000000 0xff000000
        (pna_localize example_consts 0x0a000000 0xff000000
          { l3_protocol := 0x0800, l4_protocol := 6, local_ip := 0x08080808,
            remote_ip := 0x0a000001, local_port := 443, remote_port := 1000 } 0).2.1 7 =
      (1, (pna_localize example_consts 0x0a000000 0xff000000
          { l3_protocol := 0x0800, l4_protocol := 6, local_ip := 0x08080808,
            remote_ip := 0x0a000001, local_port := 443, remote_port := 1000 } 0).2.1,
        example_consts.PNA_DIR_OUTBOUND) :=
  ⟨by decide, pna_localize_idempotent example_consts 0x0a000000 0xff000000 _ 0 7 (by decide)⟩

/-! ### One packet through the three tables -/

theorem lip_probe_hit (P : pna_consts) (info : utab_info) (local_ip n hash : Nat)
    (h : local_ip = (info.lips hash).local_ip) :
    lip_probe P info local_ip (n + 1) hash = (some hash, info) := by
  rw [lip_probe, if_pos h]

theorem lip_probe_claim (P : pna_consts) (info : utab_info) (local_ip n hash : Nat)
    (h : local_ip ≠ (info.lips hash).local_ip) (hz : 0 = (info.lips hash).local_ip) :
    lip_probe P info local_ip (n + 1) hash = (some hash, lip_claimed info hash local_ip) := by
  rw [lip_probe, if_neg h, if_pos hz]

theorem rip_probe_hit (P : pna_consts) (info : utab_info) (lip remote_ip direction n hash : Nat)
    (h : rip_match P info lip remote_ip hash) :
    rip_probe P info lip remote_ip direction (n + 1) hash =
      (some hash, rip_matched info lip hash direction) := by
  rw [rip_probe, if_pos h]

theorem rip_probe_claim (P : pna_consts) (info : utab_info)
    (lip remote_ip direction n hash : Nat)
    (h : ¬ rip_match P info lip remote_ip hash) (hz : 0 = (info.rips hash).remote_ip) :
    rip_probe P info lip remote_ip direction (n + 1) hash =
      (some hash, rip_claimed P info lip remote_ip hash direction) := by
  rw [rip_probe, if_neg h, if_pos hz]

theorem port_probe_hit (P : pna_consts) (info : utab_info)
    (lip rip proto local_port remote_port length direction now n hash : Nat)
    (h : port_match P info rip proto local_port remote_port hash) :
    port_probe P info lip rip proto local_port remote_port length direction now (n + 1) hash =
      (some hash, port_matched info rip proto hash length direction) := by
  rw [port_probe, if_pos h]

theorem port_probe_claim (P : pna_consts) (info : utab_info)
    (lip rip proto local_port remote_port length direction now n hash : Nat)
    (h : ¬ port_match P info rip proto local_port remote_port hash)
    (hz : 0 = ((info.ports proto hash).local_port ||| (info.ports proto hash).remote_port)) :
    port_probe P info lip rip proto local_port remote_port length direction now (n + 1) hash =
      (some hash,
        port_claimed P info lip rip proto local_port remote_port hash length direction now) := by
  rw [port_probe, if_neg h, if_pos hz]

theorem testBit_shift_self (w k : Nat) : (w ||| (1 <<< k)).testBit k = true := by
  rw [Nat.testBit_or, Nat.one_shiftLeft, Nat.testBit_two_pow]
  simp

/-- The first packet on the empty table claims the first slot each of the
three probes looks at. -/
theorem do_flow_entries_empty (P : pna_consts)
    (local_ip remote_ip proto local_port remote_port length direction now : Nat)
    (hl : local_ip ≠ 0) (hr : remote_ip ≠ 0) :
    do_flow_entries P utab_empty local_ip remote_ip proto local_port remote_port length
        direction now =
      (some (P.hash_long local_ip P.PNA_LIP_BITS,
          P.hash_long (local_ip ^^^ remote_ip) P.PNA_RIP_BITS,
          P.hash_long (remote_ip ^^^ ((remote_port <<< 16) ||| local_port)) P.PNA_PORT_BITS),
        port_claimed P
          (rip_claimed P
            (lip_claimed utab_empty (P.hash_long local_ip P.PNA_LIP_BITS) local_ip)
            (P.hash_long local_ip P.PNA_LIP_BITS) remote_ip
            (P.hash_long (local_ip ^^^ remote_ip) P.PNA_RIP_BITS) direction)
          (P.hash_long local_ip P.PNA_LIP_BITS)
          (P.hash_long (local_ip ^^^ remote_ip) P.PNA_RIP_BITS) proto local_port remote_port
          (P.hash_long (remote_ip ^^^ ((remote_port <<< 16) ||| local_port)) P.PNA_PORT_BITS)
          length direction now) := by
  have h1 : do_lip_entry P utab_empty local_ip direction =
      (some (P.hash_long local_ip P.PNA_LIP_BITS),
        lip_claimed utab_empty (P.hash_long local_ip P.PNA_LIP_BITS) local_ip) :=
    lip_probe_claim P utab_empty local_ip 127 _ hl rfl
  have hip : ((lip_claimed utab_empty (P.hash_long local_ip P.PNA_LIP_BITS) local_ip).lips
      (P.hash_long local_ip P.PNA_LIP_BITS)).local_ip = local_ip := by
    simp [lip_claimed, upd]
  have h2 : do_rip_entry P
      (lip_claimed utab_empty (P.hash_long local_ip P.PNA_LIP_BITS) local_ip)
      (P.hash_long local_ip P.PNA_LIP_BITS) remote_ip direction =
      (some (P.hash_long (local_ip ^^^ remote_ip) P.PNA_RIP_BITS),
        rip_claimed P (lip_claimed utab_empty (P.hash_long local_ip P.PNA_LIP_BITS) local_ip)
          (P.hash_long local_ip P.PNA_LIP_BITS) remote_ip
          (P.hash_long (local_ip ^^^ remote_ip) P.PNA_RIP_BITS) direction) := by
    unfold do_rip_entry
    rw [hip]
    exact rip_probe_claim P _ _ remote_ip direction 127 _ (fun hm => hr hm.1) rfl
  have hrip : ((rip_claimed P
      (lip_claimed utab_empty (P.hash_long local_ip P.PNA_LIP_BITS) local_ip)
      (P.hash_long local_ip P.PNA_LIP_BITS) remote_ip
      (P.hash_long (local_ip ^^^ remote_ip) P.PNA_RIP_BITS) direction).rips
      (P.hash_long (local_ip ^^^ remote_ip) P.PNA_RIP_BITS)).remote_ip = remote_ip := by
    simp [rip_claimed, upd]
  have h3 : do_port_entry P
      (rip_claimed P (lip_claimed utab_empty (P.hash_long local_ip P.PNA_LIP_BITS) local_ip)
        (P.hash_long local_ip P.PNA_LIP_BITS) remote_ip
        (P.hash_long (local_ip ^^^ remote_ip) P.PNA_RIP_BITS) direction)
      (P.hash_long local_ip P.PNA_LIP_BITS)
      (P.hash_long (local_ip ^^^ remote_ip) P.PNA_RIP_BITS) proto local_port remote_port
      length direction now =
      (some (P.hash_long (remote_ip ^^^ ((remote_port <<< 16) ||| local_port))
          P.PNA_PORT_BITS),
        port_claimed P
          (rip_claimed P
            (lip_claimed utab_empty (P.hash_long local_ip P.PNA_LIP_BITS) local_ip)
            (P.hash_long local_ip P.PNA_LIP_BITS) remote_ip
            (P.hash_long (local_ip ^^^ remote_ip) P.PNA_RIP_BITS) direction)
          (P.hash_long local_ip P.PNA_LIP_BITS)
          (P.hash_long (local_ip ^^^ remote_ip) P.PNA_RIP_BITS) proto local_port remote_port
          (P.hash_long (remote_ip ^^^ ((remote_port <<< 16) ||| local_port)) P.PNA_PORT_BITS)
          length direction now) := by
    unfold do_port_entry
    rw [hrip]
    refine port_probe_claim P _ _ _ proto local_port remote_port length direction now 127 _
      ?_ ?_
    · intro hm
      apply hm.2.2
      simp [rip_claimed, lip_claimed, utab_empty, upd]
    · simp [rip_claimed, lip_claimed, utab_empty]
  unfold do_flow_entries
  rw [h1]
  dsimp only
  rw [h2]
  dsimp only
  rw [h3]

/-- C13. Starting from the empty table, one packet with nonzero `local_ip` and
`remote_ip` (protocol `p`, direction `d`, length `n`) gets three non-NULL
entries from `do_lip_entry`, `do_rip_entry` and `do_port_entry`, and leaves
`nlips = nrips = nports = 1`, every `*_missed = 0`, `lip.ndsts[d] = 1`,
`lip.nsess[d] = 1`, `rip.nprts[d][p] = 1`, `rip.npkts[d][p] = 1`,
`rip.nbytes[d][p] = n`, `port.npkts[d] = 1`, `port.nbytes[d] = n`, and the
RIP and port `info_bits` equal to `(1 << d) | (1 << (d + DIRECTIONS))`, so
that bit `d` and bit `d + DIRECTIONS` (bit `d + 2` for two directions) are
set. The ports may be any values. -/
theorem first_packet_new_flow (P : pna_consts)
    (local_ip remote_ip p local_port remote_port n d now : Nat)
    (hl : local_ip ≠ 0) (hr : remote_ip ≠ 0) :
    ∃ lip rip prt info,
      do_flow_entries P utab_empty local_ip remote_ip p local_port remote_port n d now =
        (some (lip, rip, prt), info) ∧
      info.nlips = 1 ∧ info.nrips = 1 ∧ info.nports = 1 ∧
      info.nlips_missed = 0 ∧ info.nrips_missed = 0 ∧ info.nports_missed = 0 ∧
      (info.lips lip).local_ip = local_ip ∧
      (info.lips lip).ndsts d = 1 ∧ (info.lips lip).nsess d = 1 ∧
      (info.rips rip).remote_ip = remote_ip ∧
      (info.rips rip).nprts d p = 1 ∧ (info.rips rip).npkts d p = 1 ∧
      (info.rips rip).nbytes d p = n ∧
      (info.ports p prt).local_port = local_port ∧
      (info.ports p prt).remote_port = remote_port ∧
      (info.ports p prt).npkts d = 1 ∧ (info.ports p prt).nbytes d = n ∧
      (info.ports p prt).timestamp = now ∧
      (info.rips rip).info_bits = ((1 <<< d) ||| (1 <<< (d + P.DIRECTIONS))) ∧
      (info.ports p prt).info_bits = ((1 <<< d) ||| (1 <<< (d + P.DIRECTIONS))) ∧
      (info.rips rip).info_bits.testBit d = true ∧
      (info.rips rip).info_bits.testBit (d + P.DIRECTIONS) = true ∧
      (info.ports p prt).info_bits.testBit d = true ∧
      (info.ports p prt).info_bits.testBit (d + P.DIRECTIONS) = true ∧
      (P.DIRECTIONS = 2 →
        (info.rips rip).info_bits.testBit (d + 2) = true ∧
        (info.ports p prt).info_bits.testBit (d + 2) = true) := by
  refine ⟨_, _, _, _,
    do_flow_entries_empty P local_ip remote_ip p local_port remote_port n d now hl hr, ?_⟩
  have hri : ((port_claimed P
      (rip_claimed P (lip_claimed utab_empty (P.hash_long local_ip P.PNA_LIP_BITS) local_ip)
        (P.hash_long local_ip P.PNA_LIP_BITS) remote_ip
        (P.hash_long (local_ip ^^^ remote_ip) P.PNA_RIP_BITS) d)
      (P.hash_long local_ip P.PNA_LIP_BITS)
      (P.hash_long (local_ip ^^^ remote_ip) P.PNA_RIP_BITS) p local_port remote_port
      (P.hash_long (remote_ip ^^^ ((remote_port <<< 16) ||| local_port)) P.PNA_PORT_BITS)
      n d now).rips (P.hash_long (local_ip ^^^ remote_ip) P.PNA_RIP_BITS)).info_bits =
      ((1 <<< d) ||| (1 <<< (d + P.DIRECTIONS))) := by
    simp [port_claimed, rip_claimed, lip_claimed, utab_empty, upd, upd2]
  have hpi : ((port_claimed P
      (rip_claimed P (lip_claimed utab_empty (P.hash_long local_ip P.PNA_LIP_BITS) local_ip)
        (P.hash_long local_ip P.PNA_LIP_BITS) remote_ip
        (P.hash_long (local_ip ^^^ remote_ip) P.PNA_RIP_BITS) d)
      (P.hash_long local_ip P.PNA_LIP_BITS)
      (P.hash_long (local_ip ^^^ remote_ip) P.PNA_RIP_BITS) p local_port remote_port
      (P.hash_long (remote_ip ^^^ ((remote_port <<< 16) ||| local_port)) P.PNA_PORT_BITS)
      n d now).ports p
      (P.hash_long (remote_ip ^^^ ((remote_port <<< 16) ||| local_port))
        P.PNA_PORT_BITS)).info_bits =
      ((1 <<< d) ||| (1 <<< (d + P.DIRECTIONS))) := by
    simp [port_claimed, rip_claimed, lip_claimed, utab_empty, upd, upd2]
  have hb1 : ((1 <<< d) ||| (1 <<< (d + P.DIRECTIONS))).testBit d = true := by
    rw [Nat.testBit_or, Nat.one_shiftLeft, Nat.testBit_two_pow]
    simp
  have hb2 : ((1 <<< d) ||| (1 <<< (d + P.DIRECTIONS))).testBit (d + P.DIRECTIONS) = true :=
    testBit_shift_self _ _
  rw [hri, hpi]
  refine ⟨?_, ?_, ?_, ?_, ?_, ?_, ?_, ?_, ?_, ?_, ?_, ?_, ?_, ?_, ?_, ?_, ?_, ?_, rfl, rfl,
    hb1, hb2, hb1, hb2, ?_⟩
  iterate 18 simp [port_claimed, rip_claimed, lip_claimed, utab_empty, upd, upd2]
  intro h2
  rw [← h2]
  exact ⟨hb2, hb2⟩

theorem first_packet_new_flow_witness :
    ∃ info,
      do_flow_entries example_consts utab_empty 0x0a000001 0x08080808 6 1000 443 100 0 1 =
        (some (10, 4, 13), info) ∧
      info.nlips = 1 ∧ info.nrips = 1 ∧ info.nports = 1 ∧
      (info.lips 10).ndsts 0 = 1 ∧ (info.lips 10).nsess 0 = 1 ∧
      (info.rips 4).npkts 0 6 = 1 ∧ (info.rips 4).nbytes 0 6 = 100 ∧
      (info.rips 4).info_bits = 5 ∧ (info.ports 6 13).info_bits = 5 := by
  obtain ⟨lip, rip, prt, info, h, h1, h2, h3, _, _, _, _, h4, h5, _, _, h6, h7, _, _, _, _, _,
      h8, h9, _⟩ :=
    first_packet_new_flow example_consts 0x0a000001 0x08080808 6 1000 443 100 0 1
      (by decide) (by decide)
  have hs : (do_flow_entries example_consts utab_empty 0x0a000001 0x08080808 6 1000 443 100
      0 1).1 = some (10, 4, 13) := by decide
  rw [h] at hs
  simp only [Option.some.injEq, Prod.mk.injEq] at hs
  obtain ⟨rfl, rfl, rfl⟩ := hs
  exact ⟨info, h, h1, h2, h3, h4, h5, h6, h7, h8, h9⟩

/-! ### Level 1: overflow -/

/-- A probe whose `n` slots are all occupied by other addresses gives up. -/
theorem lip_probe_full (P : pna_consts) (info : utab_info) (local_ip : Nat) :
    ∀ n hash,
      (∀ j, j < n →
        (info.lips (probe_slot P.PNA_LIP_ENTRIES hash j)).local_ip ≠ local_ip ∧
        (info.lips (probe_slot P.PNA_LIP_ENTRIES hash j)).local_ip ≠ 0) →
      lip_probe P info local_ip n hash = (none, lip_missed info) := by
  intro n
  induction n with
  | zero => intro hash _; rfl
  | succ n ih =>
    intro hash H
    have h0 := H 0 (Nat.succ_pos n)
    rw [lip_probe, if_neg (fun e => h0.1 e.symm), if_neg (fun e => h0.2 e.symm)]
    exact ih _ (fun j hj => H (j + 1) (Nat.succ_lt_succ hj))

/-- A probe that meets `k` slots occupied by other addresses and then a free
slot claims that slot. -/
theorem lip_probe_path (P : pna_consts) (info : utab_info) (local_ip : Nat)
    (hip : local_ip ≠ 0) :
    ∀ k n hash, k < n →
      (∀ j, j < k →
        (info.lips (probe_slot P.PNA_LIP_ENTRIES hash j)).local_ip ≠ local_ip ∧
        (info.lips (probe_slot P.PNA_LIP_ENTRIES hash j)).local_ip ≠ 0) →
      (info.lips (probe_slot P.PNA_LIP_ENTRIES hash k)).local_ip = 0 →
      lip_probe P info local_ip n hash =
        (some (probe_slot P.PNA_LIP_ENTRIES hash k),
          lip_claimed info (probe_slot P.PNA_LIP_ENTRIES hash k) local_ip) := by
  intro k
  induction k with
  | zero =>
    intro n hash hn _ hz
    obtain ⟨m, rfl⟩ : ∃ m, n = m + 1 := ⟨n - 1, by omega⟩
    have hz' : (info.lips hash).local_ip = 0 := hz
    rw [lip_probe, if_neg (fun e => hip (by rw [e, hz'])), if_pos hz'.symm]
    rfl
  | succ k ih =>
    intro n hash hn H hz
    obtain ⟨m, rfl⟩ : ∃ m, n = m + 1 := ⟨n - 1, by omega⟩
    have h0 := H 0 (Nat.succ_pos k)
    rw [lip_probe, if_neg (fun e => h0.1 e.symm), if_neg (fun e => h0.2 e.symm)]
    exact ih m _ (by omega) (fun j hj => H (j + 1) (Nat.succ_lt_succ hj)) hz

theorem probe_slot_eq (entries hash j : Nat) (h : hash < entries) :
    probe_slot entries hash j = (hash + j) % entries := by
  induction j with
  | zero => exact (Nat.mod_eq_of_lt h).symm
  | succ j ih => rw [probe_slot_succ, ih, Nat.mod_add_mod, Nat.add_assoc]

theorem probe_slot_inj (entries hash i j : Nat) (h : hash < entries) (hi : i < entries)
    (hj : j < entries) (e : probe_slot entries hash i = probe_slot entries hash j) : i = j := by
  rw [probe_slot_eq _ _ _ h, probe_slot_eq _ _ _ h] at e
  have e' : Nat.ModEq entries (hash + i) (hash + j) := e
  exact Nat.ModEq.eq_of_lt_of_lt (Nat.ModEq.add_left_cancel' hash e') hi hj

theorem lip_filled_claim (P : pna_consts) (info : utab_info) (h0 k : Nat) (pre : List Nat)
    (local_ip direction : Nat) (hf : lip_filled P info h0 k pre)
    (hE : PROBE_LIMIT ≤ P.PNA_LIP_ENTRIES) (hh : h0 < P.PNA_LIP_ENTRIES) (hk : k < PROBE_LIMIT)
    (hip : local_ip ≠ 0) (hnew : local_ip ∉ pre)
    (hhash : P.hash_long local_ip P.PNA_LIP_BITS = h0) :
    do_lip_entry P info local_ip direction =
      (some (probe_slot P.PNA_LIP_ENTRIES h0 k),
        lip_claimed info (probe_slot P.PNA_LIP_ENTRIES h0 k) local_ip) ∧
    lip_filled P (lip_claimed info (probe_slot P.PNA_LIP_ENTRIES h0 k) local_ip) h0 (k + 1)
      (local_ip :: pre) := by
  have hne : ∀ j, j < k →
      probe_slot P.PNA_LIP_ENTRIES h0 j ≠ probe_slot P.PNA_LIP_ENTRIES h0 k := by
    intro j hj e
    have := probe_slot_inj _ _ _ _ hh (by omega) (by omega) e
    omega
  have hfree : (info.lips (probe_slot P.PNA_LIP_ENTRIES h0 k)).local_ip = 0 :=
    hf.free _ (fun j hj e => hne j hj e.symm)
  constructor
  · unfold do_lip_entry
    rw [hhash]
    apply lip_probe_path P info local_ip hip k PROBE_LIMIT h0 hk _ hfree
    intro j hj
    refine ⟨?_, (hf.occ j hj).1⟩
    intro e
    exact hnew (e ▸ (hf.occ j hj).2)
  · constructor
    · intro j hj
      by_cases hjk : j = k
      · subst hjk
        simp [lip_claimed, upd, hip]
      · have hj' : j < k := by omega
        have hs := hne j hj'
        have := hf.occ j hj'
        simp only [lip_claimed, upd, if_neg hs]
        exact ⟨this.1, List.mem_cons_of_mem _ this.2⟩
    · intro x hx
      have hxk : x ≠ probe_slot P.PNA_LIP_ENTRIES h0 k := hx k (Nat.lt_succ_self k)
      simp only [lip_claimed, upd, if_neg hxk]
      exact hf.free x (fun j hj => hx j (Nat.lt_succ_of_lt hj))

theorem lip_filled_full (P : pna_consts) (info : utab_info) (h0 : Nat) (pre : List Nat)
    (local_ip direction : Nat) (hf : lip_filled P info h0 PROBE_LIMIT pre)
    (hnew : local_ip ∉ pre) (hhash : P.hash_long local_ip P.PNA_LIP_BITS = h0) :
    do_lip_entry P info local_ip direction = (none, lip_missed info) ∧
    lip_filled P (lip_missed info) h0 PROBE_LIMIT pre := by
  constructor
  · unfold do_lip_entry
    rw [hhash]
    apply lip_probe_full
    intro j hj
    refine ⟨?_, (hf.occ j hj).1⟩
    intro e
    exact hnew (e ▸ (hf.occ j hj).2)
  · exact ⟨hf.occ, hf.free⟩

/-- Distinct new addresses with the same initial slot fill the probe path one
slot per call until `PROBE_LIMIT` slots are taken; every later call fails. -/
theorem do_lip_results_fill (P : pna_consts) (h0 : Nat)
    (hE : PROBE_LIMIT ≤ P.PNA_LIP_ENTRIES) (hh : h0 < P.PNA_LIP_ENTRIES) :
    ∀ (calls : List (Nat × Nat)) (info : utab_info) (k : Nat) (pre : List Nat),
      lip_filled P info h0 k pre → k ≤ PROBE_LIMIT →
      (∀ c ∈ calls, P.hash_long c.1 P.PNA_LIP_BITS = h0 ∧ c.1 ≠ 0 ∧ c.1 ∉ pre) →
      (calls.map Prod.fst).Nodup →
      do_lip_results P info calls =
        (List.range' k (min calls.length (PROBE_LIMIT - k))).map
            (fun j => some (probe_slot P.PNA_LIP_ENTRIES h0 j)) ++
          List.replicate (calls.length - (PROBE_LIMIT - k)) none ∧
      (do_lip_entries P info calls).nlips = info.nlips + min calls.length (PROBE_LIMIT - k) ∧
      (do_lip_entries P info calls).nlips_missed =
        info.nlips_missed + (calls.length - (PROBE_LIMIT - k)) := by
  intro calls
  induction calls with
  | nil =>
    intro info k pre _ _ _ _
    simp [do_lip_results, do_lip_entries]
  | cons c rest ih =>
    intro info k pre hf hk hc hnd
    have hc0 := hc c (List.mem_cons_self _ _)
    rw [List.map_cons, List.nodup_cons] at hnd
    rw [do_lip_results, do_lip_entries]
    by_cases hlt : k < PROBE_LIMIT
    · obtain ⟨hres, hf'⟩ := lip_filled_claim P info h0 k pre c.1 c.2 hf hE hh hlt hc0.2.1
        hc0.2.2 hc0.1
      rw [hres]
      have hrest : ∀ c' ∈ rest, P.hash_long c'.1 P.PNA_LIP_BITS = h0 ∧ c'.1 ≠ 0 ∧
          c'.1 ∉ c.1 :: pre := by
        intro c' hc'
        have := hc c' (List.mem_cons_of_mem _ hc')
        refine ⟨this.1, this.2.1, ?_⟩
        intro hm
        rcases List.mem_cons.mp hm with e | hm
        · exact hnd.1 (e ▸ List.mem_map_of_mem Prod.fst hc')
        · exact this.2.2 hm
      obtain ⟨i1, i2, i3⟩ := ih (lip_claimed info (probe_slot P.PNA_LIP_ENTRIES h0 k) c.1)
        (k + 1) (c.1 :: pre) hf' hlt hrest hnd.2
      have e1 : min (rest.length + 1) (PROBE_LIMIT - k) =
          min rest.length (PROBE_LIMIT - (k + 1)) + 1 := by omega
      have e2 : rest.length + 1 - (PROBE_LIMIT - k) = rest.length - (PROBE_LIMIT - (k + 1)) := by
        omega
      rw [List.length_cons, e1, e2, List.range'_succ, List.map_cons, List.cons_append]
      refine ⟨by rw [i1], ?_, ?_⟩
      · rw [i2]
        simp only [lip_claimed]
        omega
      · rw [i3]
        rfl
    · have hk' : k = PROBE_LIMIT := by omega
      subst hk'
      obtain ⟨hres, hf'⟩ := lip_filled_full P info h0 pre c.1 c.2 hf hc0.2.2 hc0.1
      rw [hres]
      have hrest : ∀ c' ∈ rest, P.hash_long c'.1 P.PNA_LIP_BITS = h0 ∧ c'.1 ≠ 0 ∧
          c'.1 ∉ pre := fun c' hc' => hc c' (List.mem_cons_of_mem _ hc')
      obtain ⟨i1, i2, i3⟩ := ih (lip_missed info) PROBE_LIMIT pre hf' (le_refl _) hrest hnd.2
      simp only [Nat.sub_self, Nat.min_zero, Nat.sub_zero, List.range'_zero, List.map_nil,
        List.nil_append, List.length_cons, Nat.add_zero] at i1 i2 i3 ⊢
      refine ⟨?_, ?_, ?_⟩
      · rw [i1, List.replicate_succ]
      · rw [i2]
        rfl
      · rw [i3]
        simp only [lip_missed]
        omega

theorem lip_filled_empty (P : pna_consts) (h0 : Nat) : lip_filled P utab_empty h0 0 [] :=
  ⟨fun j hj => absurd hj (Nat.not_lt_zero j), fun _ _ => rfl⟩

/-- C15. 130 distinct nonzero local addresses whose `hash_long` slot is the
same `h0` are inserted once each into the empty table, whose LIP table has at
least `PROBE_LIMIT = 128` slots: the first 128 calls of `do_lip_entry` return
the 128 slots of the probe path from `h0`, the last two return `NULL`, and
afterwards `nlips = 128` and `nlips_missed = 2`. In every table, a call whose
128 probed slots are all occupied by other addresses returns `NULL`,
increments `nlips_missed` by one and changes nothing else. -/
theorem lip_overflow (P : pna_consts) (h0 : Nat) (calls : List (Nat × Nat))
    (hE : PROBE_LIMIT ≤ P.PNA_LIP_ENTRIES) (hh : h0 < P.PNA_LIP_ENTRIES)
    (hhash : ∀ c ∈ calls, P.hash_long c.1 P.PNA_LIP_BITS = h0)
    (hnz : ∀ c ∈ calls, c.1 ≠ 0)
    (hnd : (calls.map Prod.fst).Nodup)
    (hlen : calls.length = 130) :
    (do_lip_results P utab_empty calls =
        (List.range 128).map (fun j => some (probe_slot P.PNA_LIP_ENTRIES h0 j)) ++
          [none, none] ∧
      (do_lip_entries P utab_empty calls).nlips = 128 ∧
      (do_lip_entries P utab_empty calls).nlips_missed = 2) ∧
    (∀ (info : utab_info) (local_ip direction : Nat),
      (∀ j, j < PROBE_LIMIT →
        (info.lips (probe_slot P.PNA_LIP_ENTRIES
          (P.hash_long local_ip P.PNA_LIP_BITS) j)).local_ip ≠ local_ip ∧
        (info.lips (probe_slot P.PNA_LIP_ENTRIES
          (P.hash_long local_ip P.PNA_LIP_BITS) j)).local_ip ≠ 0) →
      do_lip_entry P info local_ip direction =
        (none, { info with nlips_missed := info.nlips_missed + 1 })) := by
  constructor
  · obtain ⟨i1, i2, i3⟩ := do_lip_results_fill P h0 hE hh calls utab_empty 0 []
      (lip_filled_empty P h0) (Nat.zero_le _)
      (fun c hc => ⟨hhash c hc, hnz c hc, List.not_mem_nil _⟩) hnd
    rw [hlen] at i1 i2 i3
    refine ⟨?_, ?_, ?_⟩
    · rw [i1, List.range_eq_range']
      rfl
    · rw [i2]
      rfl
    · rw [i3]
      rfl
  · intro info local_ip direction H
    exact lip_probe_full P info local_ip PROBE_LIMIT _ H

set_option maxRecDepth 100000 in
theorem lip_overflow_witness :
    do_lip_results example_consts_lip256 utab_empty example_lip_calls =
        (List.range 128).map (fun j => some (probe_slot 256 0 j)) ++ [none, none] ∧
      (do_lip_entries example_consts_lip256 utab_empty example_lip_calls).nlips = 128 ∧
      (do_lip_entries example_consts_lip256 utab_empty example_lip_calls).nlips_missed = 2 :=
  (lip_overflow example_consts_lip256 0 example_lip_calls (by decide) (by decide)
    (by decide) (by decide) (by decide) (by decide)).1

/-! ### The threshold chain, check by check -/

theorem lip_probe_nsess (P : pna_consts) (info : utab_info) (local_ip n hash x : Nat) :
    ((lip_probe P info local_ip n hash).2.lips x).nsess = (info.lips x).nsess := by
  induction n generalizing hash with
  | zero => rfl
  | succ n ih =>
    rw [lip_probe]
    split
    · rfl
    · split
      · simp only [lip_claimed, upd]
        split
        · rename_i hx; subst hx; rfl
        · rfl
      · exact ih _

theorem rip_matched_lip_frame (info : utab_info) (L h d x : Nat) :
    ((rip_matched info L h d).lips x).nsess = (info.lips x).nsess ∧
    (∀ y, ((rip_matched info L h d).rips y).nprts = (info.rips y).nprts) := by
  unfold rip_matched
  split
  · constructor
    · simp only [upd]
      split
      · rename_i hx; subst hx; rfl
      · rfl
    · intro y
      simp only [upd]
      split
      · rename_i hy; subst hy; rfl
      · rfl
  · exact ⟨rfl, fun _ => rfl⟩

theorem rip_claimed_lip_frame (P : pna_consts) (info : utab_info) (L r h d x : Nat) :
    ((rip_claimed P info L r h d).lips x).nsess = (info.lips x).nsess ∧
    (∀ y, ((rip_claimed P info L r h d).rips y).nprts = (info.rips y).nprts) := by
  constructor
  · simp only [rip_claimed, upd]
    split
    · rename_i hx; subst hx; rfl
    · rfl
  · intro y
    simp only [rip_claimed, upd]
    split
    · rename_i hy; subst hy; rfl
    · rfl

/-- What `do_rip_entry` leaves alone: the session counters and the address of
every LIP entry, and the port counters `nprts`, `nbytes`, `npkts` of every RIP
entry. -/
theorem rip_probe_keeps (P : pna_consts) (info : utab_info) (lip remote_ip direction n hash : Nat) :
    (∀ x, ((rip_probe P info lip remote_ip direction n hash).2.lips x).nsess =
        (info.lips x).nsess) ∧
    (∀ x, ((rip_probe P info lip remote_ip direction n hash).2.lips x).local_ip =
        (info.lips x).local_ip) ∧
    (∀ y, ((rip_probe P info lip remote_ip direction n hash).2.rips y).nprts =
        (info.rips y).nprts) := by
  rcases rip_probe_cases P info lip remote_ip direction n hash with
    ⟨j, _, _, _, hr⟩ | ⟨j, _, _, _, _, hr⟩ | ⟨_, hr⟩
  · rw [hr]
    exact ⟨fun x => (rip_matched_lip_frame info lip _ direction x).1,
      fun x => rip_matched_local_ip info lip _ direction x,
      fun y => (rip_matched_lip_frame info lip _ direction 0).2 y⟩
  · rw [hr]
    exact ⟨fun x => (rip_claimed_lip_frame P info lip remote_ip _ direction x).1,
      fun x => rip_claimed_local_ip P info lip remote_ip _ direction x,
      fun y => (rip_claimed_lip_frame P info lip remote_ip _ direction 0).2 y⟩
  · rw [hr]
    exact ⟨fun _ => rfl, fun _ => rfl, fun _ => rfl⟩

/-- What `do_port_entry` does to the LIP entries: the session counter of the
entry passed in grows by one in the packet's direction when the slot returned
is a new one, and nothing else changes. -/
theorem port_probe_lips (P : pna_consts) (info : utab_info)
    (lip rip proto local_port remote_port length direction now n hash : Nat) :
    (∀ x, ((port_probe P info lip rip proto local_port remote_port length direction now n
        hash).2.lips x).local_ip = (info.lips x).local_ip) ∧
    (∀ x, ((port_probe P info lip rip proto local_port remote_port length direction now n
        hash).2.lips x).ndsts = (info.lips x).ndsts) ∧
    (∀ prt, (port_probe P info lip rip proto local_port remote_port length direction now n
        hash).1 = some prt →
      ∀ x d2, ((port_probe P info lip rip proto local_port remote_port length direction now n
          hash).2.lips x).nsess d2 =
        (info.lips x).nsess d2 +
          if x = lip ∧ d2 = direction ∧
            ¬ port_match P info rip proto local_port remote_port prt then 1 else 0) := by
  rcases port_probe_cases P info lip rip proto local_port remote_port length direction now n
    hash with ⟨j, _, hm, hr⟩ | ⟨j, _, hm, _, _, hr⟩ | hr
  · rw [hr]
    have hl : (port_matched info rip proto (probe_slot P.PNA_PORT_ENTRIES hash j) length
        direction).lips = info.lips := by
      simp only [port_matched]
      split <;> rfl
    rw [hl]
    refine ⟨fun _ => rfl, fun _ => rfl, ?_⟩
    intro prt hp x d2
    have hp' : probe_slot P.PNA_PORT_ENTRIES hash j = prt := by simpa using hp
    rw [← hp']
    simp [hm]
  · rw [hr]
    refine ⟨?_, ?_, ?_⟩
    · intro x
      simp only [port_claimed, upd]
      split
      · rename_i hx; subst hx; rfl
      · rfl
    · intro x
      simp only [port_claimed, upd]
      split
      · rename_i hx; subst hx; rfl
      · rfl
    · intro prt hp x d2
      have hp' : probe_slot P.PNA_PORT_ENTRIES hash j = prt := by simpa using hp
      rw [← hp']
      simp only [port_claimed, upd]
      by_cases hx : x = lip
      · subst hx
        by_cases hd : d2 = direction
        · subst hd
          simp [hm, upd]
        · simp [hd, upd]
      · simp [hx]
  · rw [hr]
    refine ⟨fun _ => rfl, fun _ => rfl, ?_⟩
    intro prt hp
    simp at hp

theorem chain_lip_null (P : pna_consts) (S : pna_settings) (info : utab_info)
    (log : List pna_alert)
    (local_ip remote_ip proto local_port remote_port pkt_len direction now : Nat)
    (t1 : utab_info) (h1 : do_lip_entry P info local_ip direction = (none, t1)) :
    nf_ses_watch_chain P S info log local_ip remote_ip proto local_port remote_port pkt_len
      direction now = (t1, log) := by
  unfold nf_ses_watch_chain
  rw [h1]

theorem chain_connections (P : pna_consts) (S : pna_settings) (info : utab_info)
    (log : List pna_alert)
    (local_ip remote_ip proto local_port remote_port pkt_len direction now : Nat)
    (lip : Nat) (t1 : utab_info) (h1 : do_lip_entry P info local_ip direction = (some lip, t1))
    (hc : S.pna_connections ≤ (t1.lips lip).ndsts P.PNA_DIR_OUTBOUND) :
    nf_ses_watch_chain P S info log local_ip remote_ip proto local_port remote_port pkt_len
      direction now =
      (t1, log ++ [{ kind := .PNA_MSG_BLOCK, ip := local_ip,
                     reason := "too many connections" }]) := by
  unfold nf_ses_watch_chain
  rw [h1]
  dsimp only
  rw [if_pos hc]
  rfl

theorem chain_rip_null (P : pna_consts) (S : pna_settings) (info : utab_info)
    (log : List pna_alert)
    (local_ip remote_ip proto local_port remote_port pkt_len direction now : Nat)
    (lip : Nat) (t1 t2 : utab_info)
    (h1 : do_lip_entry P info local_ip direction = (some lip, t1))
    (hc : (t1.lips lip).ndsts P.PNA_DIR_OUTBOUND < S.pna_connections)
    (h2 : do_rip_entry P t1 lip remote_ip direction = (none, t2)) :
    nf_ses_watch_chain P S info log local_ip remote_ip proto local_port remote_port pkt_len
      direction now = (t2, log) := by
  unfold nf_ses_watch_chain
  rw [h1]
  dsimp only
  rw [if_neg (Nat.not_le.mpr hc), h2]

/-- The three tests on the RIP entry, in their order. -/
theorem chain_rip_tests (P : pna_consts) (S : pna_settings) (info : utab_info)
    (log : List pna_alert)
    (local_ip remote_ip proto local_port remote_port pkt_len direction now : Nat)
    (lip rip : Nat) (t1 t2 : utab_info)
    (h1 : do_lip_entry P info local_ip direction = (some lip, t1))
    (hc : (t1.lips lip).ndsts P.PNA_DIR_OUTBOUND < S.pna_connections)
    (h2 : do_rip_entry P t1 lip remote_ip direction = (some rip, t2)) :
    (S.pna_ports ≤ (t2.rips rip).nprts P.PNA_DIR_OUTBOUND proto →
      nf_ses_watch_chain P S info log local_ip remote_ip proto local_port remote_port pkt_len
        direction now =
        (t2, log ++ [{ kind := .PNA_MSG_BLOCK, ip := local_ip, reason := "too many ports" }])) ∧
    ((t2.rips rip).nprts P.PNA_DIR_OUTBOUND proto < S.pna_ports →
      S.pna_bytes ≤ (t2.rips rip).nbytes P.PNA_DIR_OUTBOUND proto →
      nf_ses_watch_chain P S info log local_ip remote_ip proto local_port remote_port pkt_len
        direction now =
        (t2, log ++ [{ kind := .PNA_MSG_BLOCK, ip := local_ip, reason := "too many bytes" }])) ∧
    ((t2.rips rip).nprts P.PNA_DIR_OUTBOUND proto < S.pna_ports →
      (t2.rips rip).nbytes P.PNA_DIR_OUTBOUND proto < S.pna_bytes →
      S.pna_packets ≤ (t2.rips rip).npkts P.PNA_DIR_OUTBOUND proto →
      nf_ses_watch_chain P S info log local_ip remote_ip proto local_port remote_port pkt_len
        direction now =
        (t2, log ++ [{ kind := .PNA_MSG_BLOCK, ip := local_ip,
                       reason := "too many packets" }])) := by
  refine ⟨?_, ?_, ?_⟩
  · intro hp
    unfold nf_ses_watch_chain
    rw [h1]
    dsimp only
    rw [if_neg (Nat.not_le.mpr hc), h2]
    dsimp only
    rw [if_pos hp]
    rfl
  · intro hp hb
    unfold nf_ses_watch_chain
    rw [h1]
    dsimp only
    rw [if_neg (Nat.not_le.mpr hc), h2]
    dsimp only
    rw [if_neg (Nat.not_le.mpr hp), if_pos hb]
    rfl
  · intro hp hb hk
    unfold nf_ses_watch_chain
    rw [h1]
    dsimp only
    rw [if_neg (Nat.not_le.mpr hc), h2]
    dsimp only
    rw [if_neg (Nat.not_le.mpr hp), if_neg (Nat.not_le.mpr hb), if_pos hk]
    rfl

/-- The chain after the RIP tests passed: the port lookup and the two session
tests. -/
theorem chain_port_tests (P : pna_consts) (S : pna_settings) (info : utab_info)
    (log : List pna_alert)
    (local_ip remote_ip proto local_port remote_port pkt_len direction now : Nat)
    (lip rip : Nat) (t1 t2 : utab_info)
    (h1 : do_lip_entry P info local_ip direction = (some lip, t1))
    (hc : (t1.lips lip).ndsts P.PNA_DIR_OUTBOUND < S.pna_connections)
    (h2 : do_rip_entry P t1 lip remote_ip direction = (some rip, t2))
    (hp : (t2.rips rip).nprts P.PNA_DIR_OUTBOUND proto < S.pna_ports)
    (hb : (t2.rips rip).nbytes P.PNA_DIR_OUTBOUND proto < S.pna_bytes)
    (hk : (t2.rips rip).npkts P.PNA_DIR_OUTBOUND proto < S.pna_packets) :
    (∀ t3, do_port_entry P t2 lip rip proto local_port remote_port pkt_len direction now =
        (none, t3) →
      nf_ses_watch_chain P S info log local_ip remote_ip proto local_port remote_port pkt_len
        direction now = (t3, log)) ∧
    (∀ prt t3, do_port_entry P t2 lip rip proto local_port remote_port pkt_len direction now =
        (some prt, t3) →
      (S.pna_sessions ≤ (t3.lips lip).nsess P.PNA_DIR_OUTBOUND →
        nf_ses_watch_chain P S info log local_ip remote_ip proto local_port remote_port pkt_len
          direction now =
          (t3, log ++ [{ kind := .PNA_MSG_BLOCK, ip := local_ip,
                         reason := "too many sessions" }])) ∧
      ((t3.lips lip).nsess P.PNA_DIR_OUTBOUND < S.pna_sessions →
        S.pna_sessions ≤ (t3.lips lip).nsess P.PNA_DIR_INBOUND →
        nf_ses_watch_chain P S info log local_ip remote_ip proto local_port remote_port pkt_len
          direction now =
          (t3, log ++ [{ kind := .PNA_MSG_WHITELIST, ip := local_ip,
                         reason := "external scan" }])) ∧
      ((t3.lips lip).nsess P.PNA_DIR_OUTBOUND < S.pna_sessions →
        (t3.lips lip).nsess P.PNA_DIR_INBOUND < S.pna_sessions →
        nf_ses_watch_chain P S info log local_ip remote_ip proto local_port remote_port pkt_len
          direction now = (t3, log))) := by
  have hpre : nf_ses_watch_chain P S info log local_ip remote_ip proto local_port remote_port
      pkt_len direction now =
      (match do_port_entry P t2 lip rip proto local_port remote_port pkt_len direction now with
        | (none, info3) => (info3, log)
        | (some _, info3) =>
          if (info3.lips lip).nsess P.PNA_DIR_OUTBOUND ≥ S.pna_sessions then
            (info3, session_action log .PNA_MSG_BLOCK local_ip "too many sessions")
          else if (info3.lips lip).nsess P.PNA_DIR_INBOUND ≥ S.pna_sessions then
            (info3, session_action log .PNA_MSG_WHITELIST local_ip "external scan")
          else (info3, log)) := by
    unfold nf_ses_watch_chain
    rw [h1]
    dsimp only
    rw [if_neg (Nat.not_le.mpr hc), h2]
    dsimp only
    rw [if_neg (Nat.not_le.mpr hp), if_neg (Nat.not_le.mpr hb), if_neg (Nat.not_le.mpr hk)]
  rw [hpre]
  refine ⟨?_, ?_⟩
  · intro t3 h3
    rw [h3]
  · intro prt t3 h3
    rw [h3]
    dsimp only
    refine ⟨?_, ?_, ?_⟩
    · intro hs
      rw [if_pos hs]
      rfl
    · intro hs hi
      rw [if_neg (Nat.not_le.mpr hs), if_pos hi]
      rfl
    · intro hs hi
      rw [if_neg (Nat.not_le.mpr hs), if_neg (Nat.not_le.mpr hi)]

/-- C18. When `lip.nsess[OUT] == pna_sessions` holds for the LIP entry of a
packet before the packet, and the packet passes the connections, ports, bytes
and packets tests and gets a port entry from `do_port_entry` (a new session
included), the chain emits `session_action(BLOCK, local_ip, "too many
sessions")` for that packet: the session counter only grows on the way. -/
theorem sessions_boundary (P : pna_consts) (S : pna_settings) (info : utab_info)
    (log : List pna_alert)
    (local_ip remote_ip proto local_port remote_port pkt_len direction now : Nat)
    (lip rip prt : Nat) (t1 t2 t3 : utab_info)
    (h1 : do_lip_entry P info local_ip direction = (some lip, t1))
    (hs : (info.lips lip).nsess P.PNA_DIR_OUTBOUND = S.pna_sessions)
    (hc : (t1.lips lip).ndsts P.PNA_DIR_OUTBOUND < S.pna_connections)
    (h2 : do_rip_entry P t1 lip remote_ip direction = (some rip, t2))
    (hp : (t2.rips rip).nprts P.PNA_DIR_OUTBOUND proto < S.pna_ports)
    (hb : (t2.rips rip).nbytes P.PNA_DIR_OUTBOUND proto < S.pna_bytes)
    (hk : (t2.rips rip).npkts P.PNA_DIR_OUTBOUND proto < S.pna_packets)
    (h3 : do_port_entry P t2 lip rip proto local_port remote_port pkt_len direction now =
      (some prt, t3)) :
    nf_ses_watch_chain P S info log local_ip remote_ip proto local_port remote_port pkt_len
        direction now =
      (t3, session_action log .PNA_MSG_BLOCK local_ip "too many sessions") ∧
    S.pna_sessions ≤ (t3.lips lip).nsess P.PNA_DIR_OUTBOUND := by
  have e1 : (t1.lips lip).nsess = (info.lips lip).nsess := by
    have := lip_probe_nsess P info local_ip PROBE_LIMIT (P.hash_long local_ip P.PNA_LIP_BITS) lip
    unfold do_lip_entry at h1
    rw [h1] at this
    exact this
  have e2 : (t2.lips lip).nsess = (t1.lips lip).nsess := by
    have := (rip_probe_keeps P t1 lip remote_ip direction PROBE_LIMIT
      (P.hash_long ((t1.lips lip).local_ip ^^^ remote_ip) P.PNA_RIP_BITS)).1 lip
    unfold do_rip_entry at h2
    rw [h2] at this
    exact this
  have e3 := (port_probe_lips P t2 lip rip proto local_port remote_port pkt_len direction now
    PROBE_LIMIT (P.hash_long ((t2.rips rip).remote_ip ^^^ ((remote_port <<< 16) ||| local_port))
      P.PNA_PORT_BITS)).2.2
  unfold do_port_entry at h3
  rw [h3] at e3
  have e4 := e3 prt rfl lip P.PNA_DIR_OUTBOUND
  have hge : S.pna_sessions ≤ (t3.lips lip).nsess P.PNA_DIR_OUTBOUND := by
    rw [e4, e2, e1, hs]
    exact Nat.le_add_right _ _
  exact ⟨((chain_port_tests P S info log local_ip remote_ip proto local_port remote_port pkt_len
    direction now lip rip t1 t2 h1 hc h2 hp hb hk).2 prt t3 h3).1 hge, hge⟩
theorem sessions_boundary_witness :
    (example_flow_table.lips 10).nsess 0 = 1 ∧
    (nf_ses_watch_chain example_consts
        { pna_connections := 10, pna_sessions := 1, pna_ports := 10, pna_bytes := 10000,
          pna_packets := 100 }
        example_flow_table [] 0x0a000001 0x08080808 6 1001 443 60 0 2).2 =
      [{ kind := .PNA_MSG_BLOCK, ip := 0x0a000001, reason := "too many sessions" }] := by
  have h := sessions_boundary example_consts
    { pna_connections := 10, pna_sessions := 1, pna_ports := 10, pna_bytes := 10000,
      pna_packets := 100 }
    example_flow_table [] 0x0a000001 0x08080808 6 1001 443 60 0 2 10 4 7 _ _ _
    (Prod.ext (by decide) rfl) (by decide) (by decide) (Prod.ext (by decide) rfl)
    (by decide) (by decide) (by decide) (Prod.ext (by decide) rfl)
  refine ⟨by decide, ?_⟩
  rw [h.1]
  rfl

/-- What a `do_port_entry` that returns an entry adds to the byte and packet
counters of the RIP entries: the packet, on the entry passed in. -/
theorem port_probe_rip_counters (P : pna_consts) (info : utab_info)
    (lip rip proto local_port remote_port length direction now n hash prt : Nat)
    (h : (port_probe P info lip rip proto local_port remote_port length direction now n
      hash).1 = some prt) (x d2 p2 : Nat) :
    ((port_probe P info lip rip proto local_port remote_port length direction now n
        hash).2.rips x).nbytes d2 p2 =
      (info.rips x).nbytes d2 p2 +
        (if x = rip ∧ d2 = direction ∧ p2 = proto then length else 0) ∧
    ((port_probe P info lip rip proto local_port remote_port length direction now n
        hash).2.rips x).npkts d2 p2 =
      (info.rips x).npkts d2 p2 + (if x = rip ∧ d2 = direction ∧ p2 = proto then 1 else 0) := by
  rcases port_probe_cases P info lip rip proto local_port remote_port length direction now n
    hash with ⟨j, _, _, hr⟩ | ⟨j, _, _, _, _, hr⟩ | hr
  · rw [hr]
    exact ⟨port_matched_rip_nbytes _ _ _ _ _ _ _ _ _, port_matched_rip_npkts _ _ _ _ _ _ _ _ _⟩
  · rw [hr]
    exact ⟨port_claimed_rip_nbytes _ _ _ _ _ _ _ _ _ _ _ _ _ _,
      port_claimed_rip_npkts _ _ _ _ _ _ _ _ _ _ _ _ _ _⟩
  · rw [hr] at h
    simp at h

/-- The destination counter after a `do_rip_entry` that returns a slot it did
not match: one more in the packet's direction. -/
theorem rip_probe_new_ndsts (P : pna_consts) (info : utab_info)
    (lip remote_ip direction n hash r : Nat)
    (h : (rip_probe P info lip remote_ip direction n hash).1 = some r)
    (hnew : ¬ rip_match P info lip remote_ip r) :
    ((rip_probe P info lip remote_ip direction n hash).2.lips lip).ndsts direction =
      (info.lips lip).ndsts direction + 1 := by
  rcases rip_probe_cases P info lip remote_ip direction n hash with
    ⟨j, _, _, hm, hr⟩ | ⟨j, _, _, _, _, hr⟩ | ⟨_, hr⟩
  · rw [hr] at h
    have : probe_slot P.PNA_RIP_ENTRIES hash j = r := by simpa using h
    rw [this] at hm
    exact absurd hm hnew
  · rw [hr, rip_claimed_ndsts]
    simp
  · rw [hr] at h
    simp at h

/-- C17 (amended). In the chain of `nf_ses_watch_hook` only the two session
tests compare a counter that already includes the current packet: they come
after `do_port_entry`, which adds one to `lip.nsess[direction]` for a new port
entry. The connections test comes before `do_rip_entry` and compares
`lip.ndsts[OUT]` as it was before the packet; the ports, bytes and packets
tests come before `do_port_entry` and compare `rip.nprts`, `rip.nbytes` and
`rip.npkts` as they were before the packet. The packet's own update of these
four counters is made after the test (`ndsts` by `do_rip_entry`, the RIP
counters by `do_port_entry`), so on them the first packet that alerts is the
one after the packet that brought the counter to the limit. -/
theorem threshold_compare_order (P : pna_consts) (S : pna_settings) (info : utab_info)
    (log : List pna_alert)
    (local_ip remote_ip proto local_port remote_port pkt_len direction now : Nat)
    (lip : Nat) (t1 : utab_info)
    (h1 : do_lip_entry P info local_ip direction = (some lip, t1)) :
    (t1.lips lip).ndsts = (info.lips lip).ndsts ∧
    (S.pna_connections ≤ (info.lips lip).ndsts P.PNA_DIR_OUTBOUND →
      nf_ses_watch_chain P S info log local_ip remote_ip proto local_port remote_port pkt_len
        direction now =
        (t1, log ++ [{ kind := .PNA_MSG_BLOCK, ip := local_ip,
                       reason := "too many connections" }])) ∧
    (∀ rip t2, (info.lips lip).ndsts P.PNA_DIR_OUTBOUND < S.pna_connections →
      do_rip_entry P t1 lip remote_ip direction = (some rip, t2) →
      (¬ rip_match P t1 lip remote_ip rip →
        (t2.lips lip).ndsts direction = (info.lips lip).ndsts direction + 1) ∧
      (t2.rips rip).nprts = (info.rips rip).nprts ∧
      (t2.rips rip).nbytes = (info.rips rip).nbytes ∧
      (t2.rips rip).npkts = (info.rips rip).npkts ∧
      (S.pna_ports ≤ (info.rips rip).nprts P.PNA_DIR_OUTBOUND proto →
        nf_ses_watch_chain P S info log local_ip remote_ip proto local_port remote_port pkt_len
          direction now =
          (t2, log ++ [{ kind := .PNA_MSG_BLOCK, ip := local_ip,
                         reason := "too many ports" }])) ∧
      ((info.rips rip).nprts P.PNA_DIR_OUTBOUND proto < S.pna_ports →
        S.pna_bytes ≤ (info.rips rip).nbytes P.PNA_DIR_OUTBOUND proto →
        nf_ses_watch_chain P S info log local_ip remote_ip proto local_port remote_port pkt_len
          direction now =
          (t2, log ++ [{ kind := .PNA_MSG_BLOCK, ip := local_ip,
                         reason := "too many bytes" }])) ∧
      ((info.rips rip).nprts P.PNA_DIR_OUTBOUND proto < S.pna_ports →
        (info.rips rip).nbytes P.PNA_DIR_OUTBOUND proto < S.pna_bytes →
        S.pna_packets ≤ (info.rips rip).npkts P.PNA_DIR_OUTBOUND proto →
        nf_ses_watch_chain P S info log local_ip remote_ip proto local_port remote_port pkt_len
          direction now =
          (t2, log ++ [{ kind := .PNA_MSG_BLOCK, ip := local_ip,
                         reason := "too many packets" }])) ∧
      (∀ prt t3, (info.rips rip).nprts P.PNA_DIR_OUTBOUND proto < S.pna_ports →
        (info.rips rip).nbytes P.PNA_DIR_OUTBOUND proto < S.pna_bytes →
        (info.rips rip).npkts P.PNA_DIR_OUTBOUND proto < S.pna_packets →
        do_port_entry P t2 lip rip proto local_port remote_port pkt_len direction now =
          (some prt, t3) →
        (t3.rips rip).nbytes direction proto = (info.rips rip).nbytes direction proto + pkt_len ∧
        (t3.rips rip).npkts direction proto = (info.rips rip).npkts direction proto + 1 ∧
        (∀ d2, (t3.lips lip).nsess d2 =
          (info.lips lip).nsess d2 +
            if d2 = direction ∧ ¬ port_match P t2 rip proto local_port remote_port prt
            then 1 else 0) ∧
        (S.pna_sessions ≤ (t3.lips lip).nsess P.PNA_DIR_OUTBOUND →
          nf_ses_watch_chain P S info log local_ip remote_ip proto local_port remote_port
            pkt_len direction now =
            (t3, log ++ [{ kind := .PNA_MSG_BLOCK, ip := local_ip,
                           reason := "too many sessions" }])) ∧
        ((t3.lips lip).nsess P.PNA_DIR_OUTBOUND < S.pna_sessions →
          S.pna_sessions ≤ (t3.lips lip).nsess P.PNA_DIR_INBOUND →
          nf_ses_watch_chain P S info log local_ip remote_ip proto local_port remote_port
            pkt_len direction now =
            (t3, log ++ [{ kind := .PNA_MSG_WHITELIST, ip := local_ip,
                           reason := "external scan" }])) ∧
        ((t3.lips lip).nsess P.PNA_DIR_OUTBOUND < S.pna_sessions →
          (t3.lips lip).nsess P.PNA_DIR_INBOUND < S.pna_sessions →
          nf_ses_watch_chain P S info log local_ip remote_ip proto local_port remote_port
            pkt_len direction now = (t3, log)))) := by
  have hl := lip_probe_frame P info local_ip PROBE_LIMIT (P.hash_long local_ip P.PNA_LIP_BITS)
  have hn := lip_probe_ndsts P info local_ip PROBE_LIMIT (P.hash_long local_ip P.PNA_LIP_BITS)
    lip
  have hs := lip_probe_nsess P info local_ip PROBE_LIMIT (P.hash_long local_ip P.PNA_LIP_BITS)
    lip
  have h1' := h1
  unfold do_lip_entry at h1'
  rw [h1'] at hl hn hs
  have hl1 : t1.rips = info.rips := hl.1
  have hn1 : (t1.lips lip).ndsts = (info.lips lip).ndsts := hn
  have hs1 : (t1.lips lip).nsess = (info.lips lip).nsess := hs
  refine ⟨hn1, ?_, ?_⟩
  · intro hc
    exact chain_connections P S info log local_ip remote_ip proto local_port remote_port pkt_len
      direction now lip t1 h1 (by rw [hn1]; exact hc)
  · intro rip t2 hc h2
    have hc1 : (t1.lips lip).ndsts P.PNA_DIR_OUTBOUND < S.pna_connections := by
      rw [hn1]; exact hc
    have hk := rip_probe_keeps P t1 lip remote_ip direction PROBE_LIMIT
      (P.hash_long ((t1.lips lip).local_ip ^^^ remote_ip) P.PNA_RIP_BITS)
    have hf := rip_probe_frame P t1 lip remote_ip direction PROBE_LIMIT
      (P.hash_long ((t1.lips lip).local_ip ^^^ remote_ip) P.PNA_RIP_BITS)
    have hnd := rip_probe_new_ndsts P t1 lip remote_ip direction PROBE_LIMIT
      (P.hash_long ((t1.lips lip).local_ip ^^^ remote_ip) P.PNA_RIP_BITS) rip
    have h2' := h2
    unfold do_rip_entry at h2'
    rw [h2'] at hk hf hnd
    have e_nprts : (t2.rips rip).nprts = (info.rips rip).nprts := by
      rw [← hl1]; exact hk.2.2 rip
    have e_nbytes : (t2.rips rip).nbytes = (info.rips rip).nbytes := by
      rw [← hl1]; exact ((hf.2 rip).2).2
    have e_npkts : (t2.rips rip).npkts = (info.rips rip).npkts := by
      rw [← hl1]; exact ((hf.2 rip).2).1
    have e_nsess : (t2.lips lip).nsess = (info.lips lip).nsess := by
      rw [← hs1]; exact hk.1 lip
    have ht := chain_rip_tests P S info log local_ip remote_ip proto local_port remote_port
      pkt_len direction now lip rip t1 t2 h1 hc1 h2
    rw [e_nprts, e_nbytes, e_npkts] at ht
    refine ⟨?_, e_nprts, e_nbytes, e_npkts, ht.1, ht.2.1, ht.2.2, ?_⟩
    · intro hnew
      have := hnd rfl hnew
      rw [this, hn1]
    · intro prt t3 hp hb hkk h3
      have hpt := (chain_port_tests P S info log local_ip remote_ip proto local_port remote_port
        pkt_len direction now lip rip t1 t2 h1 hc1 h2 (by rw [e_nprts]; exact hp)
        (by rw [e_nbytes]; exact hb) (by rw [e_npkts]; exact hkk)).2 prt t3 h3
      have hc3 := port_probe_rip_counters P t2 lip rip proto local_port remote_port pkt_len
        direction now PROBE_LIMIT
        (P.hash_long ((t2.rips rip).remote_ip ^^^ ((remote_port <<< 16) ||| local_port))
          P.PNA_PORT_BITS) prt
      have hl3 := (port_probe_lips P t2 lip rip proto local_port remote_port pkt_len direction
        now PROBE_LIMIT
        (P.hash_long ((t2.rips rip).remote_ip ^^^ ((remote_port <<< 16) ||| local_port))
          P.PNA_PORT_BITS)).2.2 prt
      have h3' := h3
      unfold do_port_entry at h3'
      rw [h3'] at hc3 hl3
      have hc3' := hc3 rfl rip direction proto
      refine ⟨?_, ?_, ?_, hpt.1, hpt.2.1, hpt.2.2⟩
      · rw [hc3'.1, e_nbytes]
        simp
      · rw [hc3'.2, e_npkts]
        simp
      · intro d2
        rw [hl3 rfl lip d2, e_nsess]
        simp

theorem threshold_compare_order_witness :
    (example_flow_table.lips 10).ndsts 0 = 1 ∧
    (nf_ses_watch_chain example_consts
        { pna_connections := 1, pna_sessions := 10, pna_ports := 10, pna_bytes := 10000,
          pna_packets := 100 }
        example_flow_table [] 0x0a000001 0x08080404 6 1000 443 100 0 2).2 =
      [{ kind := .PNA_MSG_BLOCK, ip := 0x0a000001, reason := "too many connections" }] := by
  have h := (threshold_compare_order example_consts
    { pna_connections := 1, pna_sessions := 10, pna_ports := 10, pna_bytes := 10000,
      pna_packets := 100 }
    example_flow_table [] 0x0a000001 0x08080404 6 1000 443 100 0 2 10 _
    (Prod.ext (by decide) rfl)).2.1 (by decide)
  refine ⟨by decide, ?_⟩
  rw [h]
  rfl

/-- C17 (counterexample). With `pna_connections = 1` the first packet of the
first flow on the empty table brings `lip.ndsts[OUT]` to the limit 1 and
raises no alert (the test saw 0); the alert comes with the next packet to
another remote, before that packet is counted. With `pna_bytes = 100` the
same 100-byte packet brings `rip.nbytes[OUT][TCP]` to the limit 100 and
raises no alert either. -/
theorem update_then_compare_fails :
    (nf_ses_watch_chain example_consts
        { pna_connections := 1, pna_sessions := 10, pna_ports := 10, pna_bytes := 10000,
          pna_packets := 100 }
        utab_empty [] 0x0a000001 0x08080808 6 1000 443 100 0 1).2 = [] ∧
    ((nf_ses_watch_chain example_consts
        { pna_connections := 1, pna_sessions := 10, pna_ports := 10, pna_bytes := 10000,
          pna_packets := 100 }
        utab_empty [] 0x0a000001 0x08080808 6 1000 443 100 0 1).1.lips 10).ndsts 0 = 1 ∧
    (nf_ses_watch_chain example_consts
        { pna_connections := 1, pna_sessions := 10, pna_ports := 10, pna_bytes := 10000,
          pna_packets := 100 }
        (nf_ses_watch_chain example_consts
          { pna_connections := 1, pna_sessions := 10, pna_ports := 10, pna_bytes := 10000,
            pna_packets := 100 }
          utab_empty [] 0x0a000001 0x08080808 6 1000 443 100 0 1).1
        [] 0x0a000001 0x08080404 6 1000 443 100 0 2).2 =
      [{ kind := .PNA_MSG_BLOCK, ip := 0x0a000001, reason := "too many connections" }] ∧
    (nf_ses_watch_chain example_consts
        { pna_connections := 10, pna_sessions := 10, pna_ports := 10, pna_bytes := 100,
          pna_packets := 100 }
        utab_empty [] 0x0a000001 0x08080808 6 1000 443 100 0 1).2 = [] ∧
    ((nf_ses_watch_chain example_consts
        { pna_connections := 10, pna_sessions := 10, pna_ports := 10, pna_bytes := 100,
          pna_packets := 100 }
        utab_empty [] 0x0a000001 0x08080808 6 1000 443 100 0 1).1.rips 4).nbytes 0 6 = 100 := by
  refine ⟨?_, ?_, ?_, ?_, ?_⟩ <;> decide

/-! ### The connections scenario -/

theorem rip_probe_skip (P : pna_consts) (info : utab_info) (lip remote_ip direction n hash : Nat)
    (h : ¬ rip_match P info lip remote_ip hash) (hz : 0 ≠ (info.rips hash).remote_ip) :
    rip_probe P info lip remote_ip direction (n + 1) hash =
      rip_probe P info lip remote_ip direction n ((hash + 1) % P.PNA_RIP_ENTRIES) := by
  rw [rip_probe, if_neg h, if_neg hz]

theorem port_probe_nrips (P : pna_consts) (info : utab_info)
    (lip rip proto local_port remote_port length direction now n hash : Nat) :
    (port_probe P info lip rip proto local_port remote_port length direction now n
      hash).2.nrips = info.nrips := by
  rcases port_probe_cases P info lip rip proto local_port remote_port length direction now n
    hash with ⟨j, _, _, hr⟩ | ⟨j, _, _, _, _, hr⟩ | hr
  · rw [hr]
    simp only [port_matched]
    split <;> rfl
  · rw [hr]
    rfl
  · rw [hr]
    rfl

/-- The first packet of the scenario: on the empty table it raises no alert
when every limit is positive and `pna_sessions` exceeds 1, and leaves one LIP
entry with one destination and one RIP entry. -/
theorem connections_first_packet (P : pna_consts) (S : pna_settings)
    (local_ip A proto local_port remote_port pkt_len now : Nat)
    (hc : 0 < S.pna_connections) (hp : 0 < S.pna_ports) (hb : 0 < S.pna_bytes)
    (hk : 0 < S.pna_packets) (hs : 1 < S.pna_sessions)
    (hl : local_ip ≠ 0) (hA : A ≠ 0) :
    ∃ s1, nf_ses_watch_chain P S utab_empty [] local_ip A proto local_port remote_port pkt_len
        P.PNA_DIR_OUTBOUND now = (s1, []) ∧
      (s1.lips (P.hash_long local_ip P.PNA_LIP_BITS)).local_ip = local_ip ∧
      (s1.lips (P.hash_long local_ip P.PNA_LIP_BITS)).ndsts P.PNA_DIR_OUTBOUND = 1 ∧
      (∀ d, (s1.lips (P.hash_long local_ip P.PNA_LIP_BITS)).nsess d ≤ 1) ∧
      (∀ x, (s1.rips x).remote_ip =
        if x = P.hash_long (local_ip ^^^ A) P.PNA_RIP_BITS then A else 0) ∧
      (∀ x, x ≠ P.hash_long (local_ip ^^^ A) P.PNA_RIP_BITS →
        (∀ d p, (s1.rips x).nprts d p = 0) ∧ (∀ d p, (s1.rips x).nbytes d p = 0) ∧
        (∀ d p, (s1.rips x).npkts d p = 0)) ∧
      s1.nrips = 1 := by
  have h1 : do_lip_entry P utab_empty local_ip P.PNA_DIR_OUTBOUND =
      (some (P.hash_long local_ip P.PNA_LIP_BITS),
        lip_claimed utab_empty (P.hash_long local_ip P.PNA_LIP_BITS) local_ip) :=
    lip_probe_claim P utab_empty local_ip 127 _ hl rfl
  have hip : ((lip_claimed utab_empty (P.hash_long local_ip P.PNA_LIP_BITS) local_ip).lips
      (P.hash_long local_ip P.PNA_LIP_BITS)).local_ip = local_ip := by
    simp [lip_claimed, upd]
  have h2 : do_rip_entry P
      (lip_claimed utab_empty (P.hash_long local_ip P.PNA_LIP_BITS) local_ip)
      (P.hash_long local_ip P.PNA_LIP_BITS) A P.PNA_DIR_OUTBOUND =
      (some (P.hash_long (local_ip ^^^ A) P.PNA_RIP_BITS),
        rip_claimed P (lip_claimed utab_empty (P.hash_long local_ip P.PNA_LIP_BITS) local_ip)
          (P.hash_long local_ip P.PNA_LIP_BITS) A
          (P.hash_long (local_ip ^^^ A) P.PNA_RIP_BITS) P.PNA_DIR_OUTBOUND) := by
    unfold do_rip_entry
    rw [hip]
    exact rip_probe_claim P _ _ A P.PNA_DIR_OUTBOUND 127 _ (fun hm => hA hm.1) rfl
  have hrip : ((rip_claimed P
      (lip_claimed utab_empty (P.hash_long local_ip P.PNA_LIP_BITS) local_ip)
      (P.hash_long local_ip P.PNA_LIP_BITS) A
      (P.hash_long (local_ip ^^^ A) P.PNA_RIP_BITS) P.PNA_DIR_OUTBOUND).rips
      (P.hash_long (local_ip ^^^ A) P.PNA_RIP_BITS)).remote_ip = A := by
    simp [rip_claimed, upd]
  have h3 : do_port_entry P
      (rip_claimed P (lip_claimed utab_empty (P.hash_long local_ip P.PNA_LIP_BITS) local_ip)
        (P.hash_long local_ip P.PNA_LIP_BITS) A
        (P.hash_long (local_ip ^^^ A) P.PNA_RIP_BITS) P.PNA_DIR_OUTBOUND)
      (P.hash_long local_ip P.PNA_LIP_BITS)
      (P.hash_long (local_ip ^^^ A) P.PNA_RIP_BITS) proto local_port remote_port
      pkt_len P.PNA_DIR_OUTBOUND now =
      (some (P.hash_long (A ^^^ ((remote_port <<< 16) ||| local_port)) P.PNA_PORT_BITS),
        port_claimed P
          (rip_claimed P
            (lip_claimed utab_empty (P.hash_long local_ip P.PNA_LIP_BITS) local_ip)
            (P.hash_long local_ip P.PNA_LIP_BITS) A
            (P.hash_long (local_ip ^^^ A) P.PNA_RIP_BITS) P.PNA_DIR_OUTBOUND)
          (P.hash_long local_ip P.PNA_LIP_BITS)
          (P.hash_long (local_ip ^^^ A) P.PNA_RIP_BITS) proto local_port remote_port
          (P.hash_long (A ^^^ ((remote_port <<< 16) ||| local_port)) P.PNA_PORT_BITS)
          pkt_len P.PNA_DIR_OUTBOUND now) := by
    unfold do_port_entry
    rw [hrip]
    refine port_probe_claim P _ _ _ proto local_port remote_port pkt_len P.PNA_DIR_OUTBOUND now
      127 _ ?_ ?_
    · intro hm
      apply hm.2.2
      simp [rip_claimed, lip_claimed, utab_empty, upd]
    · simp [rip_claimed, lip_claimed, utab_empty]
  have hnsess : ∀ d, ((port_claimed P
      (rip_claimed P (lip_claimed utab_empty (P.hash_long local_ip P.PNA_LIP_BITS) local_ip)
        (P.hash_long local_ip P.PNA_LIP_BITS) A
        (P.hash_long (local_ip ^^^ A) P.PNA_RIP_BITS) P.PNA_DIR_OUTBOUND)
      (P.hash_long local_ip P.PNA_LIP_BITS)
      (P.hash_long (local_ip ^^^ A) P.PNA_RIP_BITS) proto local_port remote_port
      (P.hash_long (A ^^^ ((remote_port <<< 16) ||| local_port)) P.PNA_PORT_BITS)
      pkt_len P.PNA_DIR_OUTBOUND now).lips (P.hash_long local_ip P.PNA_LIP_BITS)).nsess d ≤ 1 := by
    intro d
    simp only [port_claimed, rip_claimed, lip_claimed, utab_empty, upd, if_true]
    split <;> simp
  refine ⟨_, ?_, ?_, ?_, hnsess, ?_, ?_, ?_⟩
  · refine ((chain_port_tests P S utab_empty [] local_ip A proto local_port remote_port pkt_len
      P.PNA_DIR_OUTBOUND now _ _ _ _ h1 ?_ h2 ?_ ?_ ?_).2 _ _ h3).2.2 ?_ ?_
    · simpa [lip_claimed, utab_empty, upd] using hc
    · simpa [rip_claimed, lip_claimed, utab_empty, upd] using hp
    · simpa [rip_claimed, lip_claimed, utab_empty, upd] using hb
    · simpa [rip_claimed, lip_claimed, utab_empty, upd] using hk
    · exact Nat.lt_of_le_of_lt (hnsess _) hs
    · exact Nat.lt_of_le_of_lt (hnsess _) hs
  · simp [port_claimed, rip_claimed, lip_claimed, utab_empty, upd]
  · simp [port_claimed, rip_claimed, lip_claimed, utab_empty, upd]
  · intro x
    by_cases hx : x = P.hash_long (local_ip ^^^ A) P.PNA_RIP_BITS
    · subst hx
      simp [port_claimed, rip_claimed, lip_claimed, utab_empty, upd]
    · simp [port_claimed, rip_claimed, lip_claimed, utab_empty, upd, hx]
  · intro x hx
    simp [port_claimed, rip_claimed, lip_claimed, utab_empty, upd, hx]
  · simp [port_claimed, rip_claimed, lip_claimed, utab_empty]

/-- The second packet of the scenario, to another remote `B`: its RIP entry is
a new one (the slot after `A` when both hash to the same slot), so it raises
no alert and brings `lip.ndsts[OUT]` to 2. -/
theorem connections_second_packet (P : pna_consts) (S : pna_settings) (s1 : utab_info)
    (local_ip A B proto local_port remote_port pkt_len now : Nat)
    (hhash : ∀ x, P.hash_long x P.PNA_RIP_BITS < P.PNA_RIP_ENTRIES)
    (hE : 2 ≤ P.PNA_RIP_ENTRIES)
    (hc : 1 < S.pna_connections) (hp : 0 < S.pna_ports) (hb : 0 < S.pna_bytes)
    (hk : 0 < S.pna_packets) (hs : 2 < S.pna_sessions)
    (hA : A ≠ 0) (hB : B ≠ 0) (hAB : B ≠ A)
    (hlip : (s1.lips (P.hash_long local_ip P.PNA_LIP_BITS)).local_ip = local_ip)
    (hnd : (s1.lips (P.hash_long local_ip P.PNA_LIP_BITS)).ndsts P.PNA_DIR_OUTBOUND = 1)
    (hns : ∀ d, (s1.lips (P.hash_long local_ip P.PNA_LIP_BITS)).nsess d ≤ 1)
    (hrem : ∀ x, (s1.rips x).remote_ip =
      if x = P.hash_long (local_ip ^^^ A) P.PNA_RIP_BITS then A else 0)
    (hzero : ∀ x, x ≠ P.hash_long (local_ip ^^^ A) P.PNA_RIP_BITS →
      (∀ d p, (s1.rips x).nprts d p = 0) ∧ (∀ d p, (s1.rips x).nbytes d p = 0) ∧
      (∀ d p, (s1.rips x).npkts d p = 0))
    (hnr : s1.nrips = 1) :
    ∃ s2, nf_ses_watch_chain P S s1 [] local_ip B proto local_port remote_port pkt_len
        P.PNA_DIR_OUTBOUND now = (s2, []) ∧
      (s2.lips (P.hash_long local_ip P.PNA_LIP_BITS)).local_ip = local_ip ∧
      (s2.lips (P.hash_long local_ip P.PNA_LIP_BITS)).ndsts P.PNA_DIR_OUTBOUND = 2 ∧
      s2.nrips = 2 := by
  have h1 : do_lip_entry P s1 local_ip P.PNA_DIR_OUTBOUND =
      (some (P.hash_long local_ip P.PNA_LIP_BITS), s1) :=
    lip_probe_hit P s1 local_ip 127 _ hlip.symm
  have hnomatch : ∀ x, ¬ rip_match P s1 (P.hash_long local_ip P.PNA_LIP_BITS) B x := by
    intro x hm
    have h := hm.1
    rw [hrem x] at h
    split at h
    · exact hAB h
    · exact hB h
  have hfree : ∀ x, x ≠ P.hash_long (local_ip ^^^ A) P.PNA_RIP_BITS →
      0 = (s1.rips x).remote_ip := by
    intro x hx
    rw [hrem, if_neg hx]
  obtain ⟨r, hr, h2⟩ : ∃ r, r ≠ P.hash_long (local_ip ^^^ A) P.PNA_RIP_BITS ∧
      do_rip_entry P s1 (P.hash_long local_ip P.PNA_LIP_BITS) B P.PNA_DIR_OUTBOUND =
        (some r, rip_claimed P s1 (P.hash_long local_ip P.PNA_LIP_BITS) B r
          P.PNA_DIR_OUTBOUND) := by
    unfold do_rip_entry
    rw [hlip]
    by_cases hcol : P.hash_long (local_ip ^^^ B) P.PNA_RIP_BITS =
        P.hash_long (local_ip ^^^ A) P.PNA_RIP_BITS
    · have hlt := hhash (local_ip ^^^ A)
      have hnext : (P.hash_long (local_ip ^^^ B) P.PNA_RIP_BITS + 1) % P.PNA_RIP_ENTRIES ≠
          P.hash_long (local_ip ^^^ A) P.PNA_RIP_BITS := by
        rw [hcol]
        by_cases hw : P.hash_long (local_ip ^^^ A) P.PNA_RIP_BITS + 1 < P.PNA_RIP_ENTRIES
        · rw [Nat.mod_eq_of_lt hw]
          omega
        · have : P.hash_long (local_ip ^^^ A) P.PNA_RIP_BITS + 1 = P.PNA_RIP_ENTRIES := by
            omega
          rw [this, Nat.mod_self]
          omega
      refine ⟨_, hnext, ?_⟩
      have hocc : 0 ≠ (s1.rips (P.hash_long (local_ip ^^^ B) P.PNA_RIP_BITS)).remote_ip := by
        rw [hrem, if_pos hcol]
        exact fun e => hA e.symm
      have e1 := rip_probe_skip P s1 (P.hash_long local_ip P.PNA_LIP_BITS) B P.PNA_DIR_OUTBOUND
        127 _ (hnomatch _) hocc
      have e2 := rip_probe_claim P s1 (P.hash_long local_ip P.PNA_LIP_BITS) B
        P.PNA_DIR_OUTBOUND 126 _ (hnomatch _) (hfree _ hnext)
      exact e1.trans e2
    · exact ⟨_, hcol, rip_probe_claim P s1 (P.hash_long local_ip P.PNA_LIP_BITS) B
        P.PNA_DIR_OUTBOUND 127 _ (hnomatch _) (hfree _ hcol)⟩
  have hz := hzero r hr
  have t2_nd : ((rip_claimed P s1 (P.hash_long local_ip P.PNA_LIP_BITS) B r
      P.PNA_DIR_OUTBOUND).lips (P.hash_long local_ip P.PNA_LIP_BITS)).ndsts
      P.PNA_DIR_OUTBOUND = 2 := by
    rw [rip_claimed_ndsts, hnd]
    simp
  have t2_ip : ((rip_claimed P s1 (P.hash_long local_ip P.PNA_LIP_BITS) B r
      P.PNA_DIR_OUTBOUND).lips (P.hash_long local_ip P.PNA_LIP_BITS)).local_ip = local_ip := by
    rw [rip_claimed_local_ip, hlip]
  have t2_ns : ((rip_claimed P s1 (P.hash_long local_ip P.PNA_LIP_BITS) B r
      P.PNA_DIR_OUTBOUND).lips (P.hash_long local_ip P.PNA_LIP_BITS)).nsess =
      (s1.lips (P.hash_long local_ip P.PNA_LIP_BITS)).nsess :=
    (rip_claimed_lip_frame P s1 _ B r _ _).1
  have t2_nprts : ((rip_claimed P s1 (P.hash_long local_ip P.PNA_LIP_BITS) B r
      P.PNA_DIR_OUTBOUND).rips r).nprts P.PNA_DIR_OUTBOUND proto = 0 := by
    rw [(rip_claimed_lip_frame P s1 _ B r _ 0).2 r]
    exact hz.1 _ _
  have t2_nbytes : ((rip_claimed P s1 (P.hash_long local_ip P.PNA_LIP_BITS) B r
      P.PNA_DIR_OUTBOUND).rips r).nbytes P.PNA_DIR_OUTBOUND proto = 0 := by
    simp only [rip_claimed, upd, if_true]
    exact hz.2.1 _ _
  have t2_npkts : ((rip_claimed P s1 (P.hash_long local_ip P.PNA_LIP_BITS) B r
      P.PNA_DIR_OUTBOUND).rips r).npkts P.PNA_DIR_OUTBOUND proto = 0 := by
    simp only [rip_claimed, upd, if_true]
    exact hz.2.2 _ _
  have t2_nr : (rip_claimed P s1 (P.hash_long local_ip P.PNA_LIP_BITS) B r
      P.PNA_DIR_OUTBOUND).nrips = 2 := by
    simp only [rip_claimed]
    omega
  have hct := chain_port_tests P S s1 [] local_ip B proto local_port remote_port pkt_len
    P.PNA_DIR_OUTBOUND now _ r s1 _ h1 (by rw [hnd]; exact hc) h2
    (by rw [t2_nprts]; exact hp) (by rw [t2_nbytes]; exact hb) (by rw [t2_npkts]; exact hk)
  have hpl := port_probe_lips P (rip_claimed P s1 (P.hash_long local_ip P.PNA_LIP_BITS) B r
      P.PNA_DIR_OUTBOUND) (P.hash_long local_ip P.PNA_LIP_BITS) r proto local_port remote_port
      pkt_len P.PNA_DIR_OUTBOUND now PROBE_LIMIT
      (P.hash_long (((rip_claimed P s1 (P.hash_long local_ip P.PNA_LIP_BITS) B r
        P.PNA_DIR_OUTBOUND).rips r).remote_ip ^^^ ((remote_port <<< 16) ||| local_port))
        P.PNA_PORT_BITS)
  have hpn := port_probe_nrips P (rip_claimed P s1 (P.hash_long local_ip P.PNA_LIP_BITS) B r
      P.PNA_DIR_OUTBOUND) (P.hash_long local_ip P.PNA_LIP_BITS) r proto local_port remote_port
      pkt_len P.PNA_DIR_OUTBOUND now PROBE_LIMIT
      (P.hash_long (((rip_claimed P s1 (P.hash_long local_ip P.PNA_LIP_BITS) B r
        P.PNA_DIR_OUTBOUND).rips r).remote_ip ^^^ ((remote_port <<< 16) ||| local_port))
        P.PNA_PORT_BITS)
  cases h3 : do_port_entry P (rip_claimed P s1 (P.hash_long local_ip P.PNA_LIP_BITS) B r
      P.PNA_DIR_OUTBOUND) (P.hash_long local_ip P.PNA_LIP_BITS) r proto local_port remote_port
      pkt_len P.PNA_DIR_OUTBOUND now with
  | mk o t3 =>
    have h3' := h3
    unfold do_port_entry at h3'
    rw [h3'] at hpl hpn
    have t3_ip : (t3.lips (P.hash_long local_ip P.PNA_LIP_BITS)).local_ip = local_ip := by
      have := hpl.1 (P.hash_long local_ip P.PNA_LIP_BITS)
      simp only at this
      rw [this, t2_ip]
    have t3_nd : (t3.lips (P.hash_long local_ip P.PNA_LIP_BITS)).ndsts P.PNA_DIR_OUTBOUND =
        2 := by
      have := hpl.2.1 (P.hash_long local_ip P.PNA_LIP_BITS)
      simp only at this
      rw [this, t2_nd]
    have t3_nr : t3.nrips = 2 := by
      simp only at hpn
      rw [hpn, t2_nr]
    cases o with
    | none => exact ⟨t3, hct.1 t3 h3, t3_ip, t3_nd, t3_nr⟩
    | some prt =>
      have hb2 : ∀ d2, (t3.lips (P.hash_long local_ip P.PNA_LIP_BITS)).nsess d2 ≤ 2 := by
        intro d2
        have := hpl.2.2 prt rfl (P.hash_long local_ip P.PNA_LIP_BITS) d2
        simp only at this
        rw [this, t2_ns]
        have := hns d2
        split <;> omega
      exact ⟨t3, (hct.2 prt t3 h3).2.2 (Nat.lt_of_le_of_lt (hb2 _) hs)
        (Nat.lt_of_le_of_lt (hb2 _) hs), t3_ip, t3_nd, t3_nr⟩

/-- A packet of a local address whose LIP entry sits in its first slot and has
`ndsts[OUT]` at the limit is stopped by the connections test: the alert is
raised and `do_rip_entry` is not called, so the table stays as it is. -/
theorem connections_blocked (P : pna_consts) (S : pna_settings) (s : utab_info)
    (log : List pna_alert)
    (local_ip remote_ip proto local_port remote_port pkt_len direction now : Nat)
    (hlip : (s.lips (P.hash_long local_ip P.PNA_LIP_BITS)).local_ip = local_ip)
    (hnd : S.pna_connections ≤
      (s.lips (P.hash_long local_ip P.PNA_LIP_BITS)).ndsts P.PNA_DIR_OUTBOUND) :
    nf_ses_watch_chain P S s log local_ip remote_ip proto local_port remote_port pkt_len
        direction now =
      (s, log ++ [{ kind := .PNA_MSG_BLOCK, ip := local_ip,
                    reason := "too many connections" }]) :=
  chain_connections P S s log local_ip remote_ip proto local_port remote_port pkt_len direction
    now _ s (lip_probe_hit P s local_ip 127 _ hlip.symm) hnd

/-- C16 (amended). With `pna_connections = 2` (the other limits positive,
`pna_sessions` above 2) and the empty table, three outbound packets go from
one nonzero local address to the remotes `A`, `B`, `C`, where `A` and `B` are
distinct and nonzero. The first two raise no alert and leave `lip.ndsts[OUT] = 2` and
`nrips = 2`. The third sees `lip.ndsts[OUT] = 2`, which already meets the
limit: `BLOCK "too many connections"` is emitted on this third packet,
`do_rip_entry` is not called for it, and the table stays as the second packet
left it (`ndsts[OUT]` remains 2, `C` gets no RIP entry). The RIP table has at
least two slots and `hash_long` gives indices of it. -/
theorem connections_scenario (P : pna_consts) (S : pna_settings)
    (local_ip A B C : Nat) (ka kb kc : chain_packet)
    (hhash : ∀ x, P.hash_long x P.PNA_RIP_BITS < P.PNA_RIP_ENTRIES)
    (hE : 2 ≤ P.PNA_RIP_ENTRIES)
    (hc : S.pna_connections = 2) (hp : 0 < S.pna_ports) (hb : 0 < S.pna_bytes)
    (hk : 0 < S.pna_packets) (hs : 2 < S.pna_sessions)
    (hl : local_ip ≠ 0) (hA : A ≠ 0) (hB : B ≠ 0) (hAB : B ≠ A)
    (ha1 : ka.local_ip = local_ip) (ha2 : ka.remote_ip = A)
    (ha3 : ka.direction = P.PNA_DIR_OUTBOUND)
    (hb1 : kb.local_ip = local_ip) (hb2 : kb.remote_ip = B)
    (hb3 : kb.direction = P.PNA_DIR_OUTBOUND)
    (hc1 : kc.local_ip = local_ip) (hc2 : kc.remote_ip = C)
    (hc3 : kc.direction = P.PNA_DIR_OUTBOUND) :
    ∃ s2, nf_ses_watch_packets P S (utab_empty, []) [ka, kb] = (s2, []) ∧
      (s2.lips (P.hash_long local_ip P.PNA_LIP_BITS)).local_ip = local_ip ∧
      (s2.lips (P.hash_long local_ip P.PNA_LIP_BITS)).ndsts P.PNA_DIR_OUTBOUND = 2 ∧
      s2.nrips = 2 ∧
      nf_ses_watch_packets P S (utab_empty, []) [ka, kb, kc] =
        (s2, [{ kind := .PNA_MSG_BLOCK, ip := local_ip, reason := "too many connections" }]) := by
  obtain ⟨s1, e1, f1, f2, f3, f4, f5, f6⟩ := connections_first_packet P S local_ip A ka.proto
    ka.local_port ka.remote_port ka.pkt_len ka.now (by omega) hp hb hk (by omega) hl hA
  obtain ⟨s2, e2, g1, g2, g3⟩ := connections_second_packet P S s1 local_ip A B kb.proto
    kb.local_port kb.remote_port kb.pkt_len kb.now hhash hE (by omega) hp hb hk hs hA hB hAB
    f1 f2 f3 f4 f5 f6
  have e3 := connections_blocked P S s2 [] local_ip C kc.proto kc.local_port kc.remote_port
    kc.pkt_len P.PNA_DIR_OUTBOUND kc.now g1 (by omega)
  refine ⟨s2, ?_, g1, g2, g3, ?_⟩
  · simp only [nf_ses_watch_packets, ha1, ha2, ha3, hb1, hb2, hb3, e1, e2]
  · simp only [nf_ses_watch_packets, ha1, ha2, ha3, hb1, hb2, hb3, hc1, hc2, hc3, e1, e2, e3]
    rfl

theorem connections_scenario_witness :
    (nf_ses_watch_packets example_consts
        { pna_connections := 2, pna_sessions := 10, pna_ports := 10, pna_bytes := 10000,
          pna_packets := 100 }
        (utab_empty, [])
        [{ local_ip := 0x0a000001, remote_ip := 0x08080808, proto := 6, local_port := 1000,
           remote_port := 443, pkt_len := 100, direction := 0, now := 1 },
         { local_ip := 0x0a000001, remote_ip := 0x08080404, proto := 6, local_port := 1001,
           remote_port := 443, pkt_len := 100, direction := 0, now := 2 },
         { local_ip := 0x0a000001, remote_ip := 0x01010101, proto := 6, local_port := 1002,
           remote_port := 443, pkt_len := 100, direction := 0, now := 3 }]).2 =
      [{ kind := .PNA_MSG_BLOCK, ip := 0x0a000001, reason := "too many connections" }] := by
  obtain ⟨s2, _, _, _, _, h⟩ := connections_scenario example_consts
    { pna_connections := 2, pna_sessions := 10, pna_ports := 10, pna_bytes := 10000,
      pna_packets := 100 }
    0x0a000001 0x08080808 0x08080404 0x01010101
    { local_ip := 0x0a000001, remote_ip := 0x08080808, proto := 6, local_port := 1000,
      remote_port := 443, pkt_len := 100, direction := 0, now := 1 }
    { local_ip := 0x0a000001, remote_ip := 0x08080404, proto := 6, local_port := 1001,
      remote_port := 443, pkt_len := 100, direction := 0, now := 2 }
    { local_ip := 0x0a000001, remote_ip := 0x01010101, proto := 6, local_port := 1002,
      remote_port := 443, pkt_len := 100, direction := 0, now := 3 }
    example_hash_long_lt (by decide) rfl (by decide) (by decide) (by decide) (by decide)
    (by decide) (by decide) (by decide) (by decide) rfl rfl rfl rfl rfl rfl rfl rfl rfl
  rw [h]

/-- C16 (counterexample). `pna_connections = 2`, empty table, three outbound
TCP packets from `10.0.0.1` to `8.8.8.8`, `8.8.4.4` and `1.1.1.1`: after the
second packet the log is empty and `lip.ndsts[OUT] = 2`; the third packet
itself raises `BLOCK "too many connections"`, `ndsts[OUT]` is still 2 after it
and `nrips` is 2 (no RIP entry for `1.1.1.1`). -/
theorem connections_third_packet_blocked :
    (nf_ses_watch_packets example_consts
        { pna_connections := 2, pna_sessions := 10, pna_ports := 10, pna_bytes := 10000,
          pna_packets := 100 }
        (utab_empty, [])
        [{ local_ip := 0x0a000001, remote_ip := 0x08080808, proto := 6, local_port := 1000,
           remote_port := 443, pkt_len := 100, direction := 0, now := 1 },
         { local_ip := 0x0a000001, remote_ip := 0x08080404, proto := 6, local_port := 1001,
           remote_port := 443, pkt_len := 100, direction := 0, now := 2 }]).2 = [] ∧
    ((nf_ses_watch_packets example_consts
        { pna_connections := 2, pna_sessions := 10, pna_ports := 10, pna_bytes := 10000,
          pna_packets := 100 }
        (utab_empty, [])
        [{ local_ip := 0x0a000001, remote_ip := 0x08080808, proto := 6, local_port := 1000,
           remote_port := 443, pkt_len := 100, direction := 0, now := 1 },
         { local_ip := 0x0a000001, remote_ip := 0x08080404, proto := 6, local_port := 1001,
           remote_port := 443, pkt_len := 100, direction := 0, now := 2 }]).1.lips 10).ndsts 0
      = 2 ∧
    (nf_ses_watch_packets example_consts
        { pna_connections := 2, pna_sessions := 10, pna_ports := 10, pna_bytes := 10000,
          pna_packets := 100 }
        (utab_empty, [])
        [{ local_ip := 0x0a000001, remote_ip := 0x08080808, proto := 6, local_port := 1000,
           remote_port := 443, pkt_len := 100, direction := 0, now := 1 },
         { local_ip := 0x0a000001, remote_ip := 0x08080404, proto := 6, local_port := 1001,
           remote_port := 443, pkt_len := 100, direction := 0, now := 2 },
         { local_ip := 0x0a000001, remote_ip := 0x01010101, proto := 6, local_port := 1002,
           remote_port := 443, pkt_len := 100, direction := 0, now := 3 }]).2 =
      [{ kind := .PNA_MSG_BLOCK, ip := 0x0a000001, reason := "too many connections" }] ∧
    ((nf_ses_watch_packets example_consts
        { pna_connections := 2, pna_sessions := 10, pna_ports := 10, pna_bytes := 10000,
          pna_packets := 100 }
        (utab_empty, [])
        [{ local_ip := 0x0a000001, remote_ip := 0x08080808, proto := 6, local_port := 1000,
           remote_port := 443, pkt_len := 100, direction := 0, now := 1 },
         { local_ip := 0x0a000001, remote_ip := 0x08080404, proto := 6, local_port := 1001,
           remote_port := 443, pkt_len := 100, direction := 0, now := 2 },
         { local_ip := 0x0a000001, remote_ip := 0x01010101, proto := 6, local_port := 1002,
           remote_port := 443, pkt_len := 100, direction := 0, now := 3 }]).1.lips 10).ndsts 0
      = 2 ∧
    (nf_ses_watch_packets example_consts
        { pna_connections := 2, pna_sessions := 10, pna_ports := 10, pna_bytes := 10000,
          pna_packets := 100 }
        (utab_empty, [])
        [{ local_ip := 0x0a000001, remote_ip := 0x08080808, proto := 6, local_port := 1000,
           remote_port := 443, pkt_len := 100, direction := 0, now := 1 },
         { local_ip := 0x0a000001, remote_ip := 0x08080404, proto := 6, local_port := 1001,
           remote_port := 443, pkt_len := 100, direction := 0, now := 2 },
         { local_ip := 0x0a000001, remote_ip := 0x01010101, proto := 6, local_port := 1002,
           remote_port := 443, pkt_len := 100, direction := 0, now := 3 }]).1.nrips = 2 := by
  refine ⟨?_, ?_, ?_, ?_, ?_⟩ <;> decide

/-! ### A second packet on the same flow -/

theorem lip_probe_ret_slot (P : pna_consts) (info : utab_info) (local_ip : Nat) :
    ∀ n hash s, (lip_probe P info local_ip n hash).1 = some s →
      local_ip = (info.lips s).local_ip ∨ 0 = (info.lips s).local_ip := by
  intro n
  induction n with
  | zero => intro hash s h; simp [lip_probe] at h
  | succ n ih =>
    intro hash s h
    rw [lip_probe] at h
    by_cases c1 : local_ip = (info.lips hash).local_ip
    · rw [if_pos c1] at h
      have : hash = s := by simpa using h
      exact Or.inl (this ▸ c1)
    · rw [if_neg c1] at h
      by_cases c2 : 0 = (info.lips hash).local_ip
      · rw [if_pos c2] at h
        have : hash = s := by simpa using h
        exact Or.inr (this ▸ c2)
      · rw [if_neg c2] at h
        exact ih _ s h

/-- The address fields after a `do_lip_entry` probe that returns slot `s`. -/
theorem lip_probe_local_ip (P : pna_consts) (info : utab_info) (local_ip : Nat) :
    ∀ n hash s, (lip_probe P info local_ip n hash).1 = some s →
      ∀ x, ((lip_probe P info local_ip n hash).2.lips x).local_ip =
        if x = s then local_ip else (info.lips x).local_ip := by
  intro n
  induction n with
  | zero => intro hash s h; simp [lip_probe] at h
  | succ n ih =>
    intro hash s h x
    rw [lip_probe] at h ⊢
    by_cases c1 : local_ip = (info.lips hash).local_ip
    · rw [if_pos c1] at h ⊢
      have : hash = s := by simpa using h
      subst this
      by_cases hx : x = hash
      · rw [if_pos hx, hx]; exact c1.symm
      · rw [if_neg hx]
    · rw [if_neg c1] at h ⊢
      by_cases c2 : 0 = (info.lips hash).local_ip
      · rw [if_pos c2] at h ⊢
        have : hash = s := by simpa using h
        subst this
        simp only [lip_claimed, upd]
        by_cases hx : x = hash
        · rw [if_pos hx, if_pos hx]
        · rw [if_neg hx, if_neg hx]
      · rw [if_neg c2] at h ⊢
        exact ih _ s h x

/-- A probe that returned slot `s` returns `s` again, as a match, on every
table that has the address in `s` and the same addresses elsewhere. -/
theorem lip_probe_again (P : pna_consts) (info info2 : utab_info) (local_ip : Nat) :
    ∀ n hash s, (lip_probe P info local_ip n hash).1 = some s →
      (∀ x, x ≠ s → (info2.lips x).local_ip = (info.lips x).local_ip) →
      (info2.lips s).local_ip = local_ip →
      lip_probe P info2 local_ip n hash = (some s, info2) := by
  intro n
  induction n with
  | zero => intro hash s h; simp [lip_probe] at h
  | succ n ih =>
    intro hash s h hother hs
    by_cases c1 : local_ip = (info.lips hash).local_ip
    · rw [lip_probe, if_pos c1] at h
      have : hash = s := by simpa using h
      subst this
      exact lip_probe_hit P info2 local_ip n hash hs.symm
    · by_cases c2 : 0 = (info.lips hash).local_ip
      · rw [lip_probe, if_neg c1, if_pos c2] at h
        have : hash = s := by simpa using h
        subst this
        exact lip_probe_hit P info2 local_ip n hash hs.symm
      · rw [lip_probe, if_neg c1, if_neg c2] at h
        have hne : hash ≠ s := by
          intro e
          subst e
          rcases lip_probe_ret_slot P info local_ip n _ hash h with r | r
          · exact c1 r
          · exact c2 r
        have e := hother hash hne
        rw [lip_probe, if_neg (by rw [e]; exact c1), if_neg (by rw [e]; exact c2)]
        exact ih _ s h hother hs

theorem rip_probe_ret_slot (P : pna_consts) (info : utab_info) (lip remote_ip direction : Nat) :
    ∀ n hash s, (rip_probe P info lip remote_ip direction n hash).1 = some s →
      rip_match P info lip remote_ip s ∨ 0 = (info.rips s).remote_ip := by
  intro n
  induction n with
  | zero => intro hash s h; simp [rip_probe] at h
  | succ n ih =>
    intro hash s h
    rw [rip_probe] at h
    by_cases c1 : rip_match P info lip remote_ip hash
    · rw [if_pos c1] at h
      have : hash = s := by simpa using h
      exact Or.inl (this ▸ c1)
    · rw [if_neg c1] at h
      by_cases c2 : 0 = (info.rips hash).remote_ip
      · rw [if_pos c2] at h
        have : hash = s := by simpa using h
        exact Or.inr (this ▸ c2)
      · rw [if_neg c2] at h
        exact ih _ s h

/-- A `do_rip_entry` probe that returned slot `s` returns `s` again, as a
match, on every table in which `s` matches and the other slots test as
before. -/
theorem rip_probe_again (P : pna_consts) (info info2 : utab_info)
    (lip remote_ip direction direction2 : Nat) :
    ∀ n hash s, (rip_probe P info lip remote_ip direction n hash).1 = some s →
      (∀ x, x ≠ s →
        (rip_match P info2 lip remote_ip x ↔ rip_match P info lip remote_ip x) ∧
        (0 = (info2.rips x).remote_ip ↔ 0 = (info.rips x).remote_ip)) →
      rip_match P info2 lip remote_ip s →
      rip_probe P info2 lip remote_ip direction2 n hash =
        (some s, rip_matched info2 lip s direction2) := by
  intro n
  induction n with
  | zero => intro hash s h; simp [rip_probe] at h
  | succ n ih =>
    intro hash s h hother hs
    by_cases c1 : rip_match P info lip remote_ip hash
    · rw [rip_probe, if_pos c1] at h
      have : hash = s := by simpa using h
      subst this
      exact rip_probe_hit P info2 lip remote_ip direction2 n hash hs
    · by_cases c2 : 0 = (info.rips hash).remote_ip
      · rw [rip_probe, if_neg c1, if_pos c2] at h
        have : hash = s := by simpa using h
        subst this
        exact rip_probe_hit P info2 lip remote_ip direction2 n hash hs
      · rw [rip_probe, if_neg c1, if_neg c2] at h
        have hne : hash ≠ s := by
          intro e
          subst e
          rcases rip_probe_ret_slot P info lip remote_ip direction n _ hash h with r | r
          · exact c1 r
          · exact c2 r
        have e := hother hash hne
        rw [rip_probe, if_neg (fun m => c1 (e.1.mp m)), if_neg (fun m => c2 (e.2.mp m))]
        exact ih _ s h hother hs

theorem port_probe_ret_slot (P : pna_consts) (info : utab_info)
    (lip rip proto local_port remote_port length direction now : Nat) :
    ∀ n hash s,
      (port_probe P info lip rip proto local_port remote_port length direction now n
        hash).1 = some s →
      port_match P info rip proto local_port remote_port s ∨
        0 = ((info.ports proto s).local_port ||| (info.ports proto s).remote_port) := by
  intro n
  induction n with
  | zero => intro hash s h; simp [port_probe] at h
  | succ n ih =>
    intro hash s h
    rw [port_probe] at h
    by_cases c1 : port_match P info rip proto local_port remote_port hash
    · rw [if_pos c1] at h
      have : hash = s := by simpa using h
      exact Or.inl (this ▸ c1)
    · rw [if_neg c1] at h
      by_cases c2 : 0 = ((info.ports proto hash).local_port |||
          (info.ports proto hash).remote_port)
      · rw [if_pos c2] at h
        have : hash = s := by simpa using h
        exact Or.inr (this ▸ c2)
      · rw [if_neg c2] at h
        exact ih _ s h

/-- A `do_port_entry` probe that returned slot `s` returns `s` again, as a
match, on every table in which `s` matches and the other slots test as
before. -/
theorem port_probe_again (P : pna_consts) (info info2 : utab_info)
    (lip rip proto local_port remote_port length direction now length2 direction2 now2 : Nat) :
    ∀ n hash s,
      (port_probe P info lip rip proto local_port remote_port length direction now n
        hash).1 = some s →
      (∀ x, x ≠ s →
        (port_match P info2 rip proto local_port remote_port x ↔
          port_match P info rip proto local_port remote_port x) ∧
        (0 = ((info2.ports proto x).local_port ||| (info2.ports proto x).remote_port) ↔
          0 = ((info.ports proto x).local_port ||| (info.ports proto x).remote_port))) →
      port_match P info2 rip proto local_port remote_port s →
      port_probe P info2 lip rip proto local_port remote_port length2 direction2 now2 n hash =
        (some s, port_matched info2 rip proto s length2 direction2) := by
  intro n
  induction n with
  | zero => intro hash s h; simp [port_probe] at h
  | succ n ih =>
    intro hash s h hother hs
    by_cases c1 : port_match P info rip proto local_port remote_port hash
    · rw [port_probe, if_pos c1] at h
      have : hash = s := by simpa using h
      subst this
      exact port_probe_hit P info2 lip rip proto local_port remote_port length2 direction2 now2
        n hash hs
    · by_cases c2 : 0 = ((info.ports proto hash).local_port |||
          (info.ports proto hash).remote_port)
      · rw [port_probe, if_neg c1, if_pos c2] at h
        have : hash = s := by simpa using h
        subst this
        exact port_probe_hit P info2 lip rip proto local_port remote_port length2 direction2
          now2 n hash hs
      · rw [port_probe, if_neg c1, if_neg c2] at h
        have hne : hash ≠ s := by
          intro e
          subst e
          rcases port_probe_ret_slot P info lip rip proto local_port remote_port length
            direction now n _ hash h with r | r
          · exact c1 r
          · exact c2 r
        have e := hother hash hne
        rw [port_probe, if_neg (fun m => c1 (e.1.mp m)), if_neg (fun m => c2 (e.2.mp m))]
        exact ih _ s h hother hs

theorem rip_match_congr (P : pna_consts) (info info2 : utab_info) (lip remote_ip x : Nat)
    (hr : (info2.rips x).remote_ip = (info.rips x).remote_ip)
    (hd : (info2.lips lip).dsts = (info.lips lip).dsts) :
    rip_match P info2 lip remote_ip x ↔ rip_match P info lip remote_ip x := by
  unfold rip_match
  rw [hr, hd]

theorem port_match_congr (P : pna_consts) (info info2 : utab_info)
    (rip proto local_port remote_port x : Nat)
    (hp : info2.ports = info.ports) (hr : (info2.rips rip).prts = (info.rips rip).prts) :
    port_match P info2 rip proto local_port remote_port x ↔
      port_match P info rip proto local_port remote_port x := by
  unfold port_match
  rw [hp, hr]

/-- After a `do_rip_entry` probe returned slot `R`, that slot matches and the
other slots test as before. -/
theorem rip_probe_then (P : pna_consts) (hB : bitmap_fits_int P) (info t2 : utab_info)
    (lip remote_ip direction n hash R : Nat)
    (h : rip_probe P info lip remote_ip direction n hash = (some R, t2)) :
    rip_match P t2 lip remote_ip R ∧
    (∀ x, x ≠ R →
      (rip_match P t2 lip remote_ip x ↔ rip_match P info lip remote_ip x) ∧
      (0 = (t2.rips x).remote_ip ↔ 0 = (info.rips x).remote_ip)) := by
  rcases rip_probe_cases P info lip remote_ip direction n hash with
    ⟨j, _, _, hm, hr⟩ | ⟨j, _, _, _, _, hr⟩ | ⟨_, hr⟩
  · rw [hr] at h
    obtain ⟨h1, h2⟩ := Prod.mk.inj h
    have h1' : probe_slot P.PNA_RIP_ENTRIES hash j = R := by simpa using h1
    rw [h1'] at hm h2
    subst h2
    have hall : ∀ x, rip_match P (rip_matched info lip R direction) lip remote_ip x ↔
        rip_match P info lip remote_ip x := by
      intro x
      apply rip_match_congr
      · exact rip_matched_remote_ip info lip R direction x
      · exact rip_matched_dsts info lip R direction lip
    refine ⟨(hall R).mpr hm, fun x _ => ⟨hall x, ?_⟩⟩
    rw [rip_matched_remote_ip]
  · rw [hr] at h
    obtain ⟨h1, h2⟩ := Prod.mk.inj h
    have h1' : probe_slot P.PNA_RIP_ENTRIES hash j = R := by simpa using h1
    rw [h1'] at h2
    subst h2
    refine ⟨?_, ?_⟩
    · unfold rip_match
      rw [rip_claimed_remote_ip, if_pos rfl, rip_claimed_dsts, if_pos ⟨rfl, rfl⟩]
      exact ⟨rfl, slot_bit_set P _ R⟩
    · intro x hx
      refine ⟨?_, ?_⟩
      · unfold rip_match
        rw [rip_claimed_remote_ip, if_neg hx, rip_claimed_dsts]
        by_cases hw : x / P.BITMAP_BITS = R / P.BITMAP_BITS
        · rw [if_pos ⟨rfl, hw⟩]
          have hmod : x % P.BITMAP_BITS ≠ R % P.BITMAP_BITS :=
            fun e => hx (div_mod_inj _ _ _ hw e)
          rw [slot_bit_other P _ x R hB hmod, hw]
        · rw [if_neg (fun c => hw c.2)]
      · rw [rip_claimed_remote_ip, if_neg hx]
  · rw [hr] at h
    simp at h

/-- After `do_port_entry` claimed slot `Q`, that slot matches and the other
slots test as before. -/
theorem port_claimed_then (P : pna_consts) (hB : bitmap_fits_int P) (info : utab_info)
    (lip rip proto local_port remote_port Q length direction now : Nat) :
    port_match P
      (port_claimed P info lip rip proto local_port remote_port Q length direction now)
      rip proto local_port remote_port Q ∧
    (∀ x, x ≠ Q →
      (port_match P
          (port_claimed P info lip rip proto local_port remote_port Q length direction now)
          rip proto local_port remote_port x ↔
        port_match P info rip proto local_port remote_port x) ∧
      (0 = (((port_claimed P info lip rip proto local_port remote_port Q length direction
            now).ports proto x).local_port |||
          ((port_claimed P info lip rip proto local_port remote_port Q length direction
            now).ports proto x).remote_port) ↔
        0 = ((info.ports proto x).local_port ||| (info.ports proto x).remote_port))) := by
  refine ⟨?_, ?_⟩
  · unfold port_match
    rw [(port_claimed_ports P info lip rip proto local_port remote_port Q length direction now
        proto Q).1,
      (port_claimed_ports P info lip rip proto local_port remote_port Q length direction now
        proto Q).2, if_pos ⟨rfl, rfl⟩, if_pos ⟨rfl, rfl⟩, port_claimed_prts,
      if_pos ⟨rfl, rfl, rfl⟩]
    exact ⟨rfl, rfl, slot_bit_set P _ Q⟩
  · intro x hx
    have hp := port_claimed_ports P info lip rip proto local_port remote_port Q length direction
      now proto x
    rw [if_neg (fun c => hx c.2), if_neg (fun c => hx c.2)] at hp
    refine ⟨?_, ?_⟩
    · unfold port_match
      rw [hp.1, hp.2, port_claimed_prts]
      by_cases hw : x / P.BITMAP_BITS = Q / P.BITMAP_BITS
      · rw [if_pos ⟨rfl, rfl, hw⟩]
        have hmod : x % P.BITMAP_BITS ≠ Q % P.BITMAP_BITS :=
          fun e => hx (div_mod_inj _ _ _ hw e)
        rw [slot_bit_other P _ x Q hB hmod, hw]
      · rw [if_neg (fun c => hw c.2.2)]
    · rw [hp.1, hp.2]

theorem rip_matched_frame (info : utab_info) (L h d : Nat) :
    (rip_matched info L h d).ports = info.ports ∧
    (rip_matched info L h d).nlips = info.nlips ∧
    (rip_matched info L h d).nrips = info.nrips ∧
    (rip_matched info L h d).nports = info.nports ∧
    (∀ y, ((rip_matched info L h d).rips y).prts = (info.rips y).prts ∧
      ((rip_matched info L h d).rips y).nbytes = (info.rips y).nbytes ∧
      ((rip_matched info L h d).rips y).npkts = (info.rips y).npkts) := by
  unfold rip_matched
  split
  · refine ⟨rfl, rfl, rfl, rfl, ?_⟩
    intro y
    simp only [upd]
    split
    · rename_i hy; subst hy; exact ⟨rfl, rfl, rfl⟩
    · exact ⟨rfl, rfl, rfl⟩
  · exact ⟨rfl, rfl, rfl, rfl, fun _ => ⟨rfl, rfl, rfl⟩⟩

theorem lip_probe_counts (P : pna_consts) (info : utab_info) (local_ip n hash : Nat) :
    (lip_probe P info local_ip n hash).2.nrips = info.nrips ∧
    (lip_probe P info local_ip n hash).2.nports = info.nports := by
  induction n generalizing hash with
  | zero => exact ⟨rfl, rfl⟩
  | succ n ih =>
    rw [lip_probe]
    split
    · exact ⟨rfl, rfl⟩
    · split
      · exact ⟨rfl, rfl⟩
      · exact ih _

theorem rip_probe_nports (P : pna_consts) (info : utab_info)
    (lip remote_ip direction n hash : Nat) :
    (rip_probe P info lip remote_ip direction n hash).2.nports = info.nports := by
  rcases rip_probe_cases P info lip remote_ip direction n hash with
    ⟨j, _, _, _, hr⟩ | ⟨j, _, _, _, _, hr⟩ | ⟨_, hr⟩
  · rw [hr]
    exact (rip_matched_frame info lip _ direction).2.2.2.1
  · rw [hr]
    rfl
  · rw [hr]
    rfl

/-- The parts of a packet's three lookups, when all three return an entry. -/
theorem do_flow_entries_some (P : pna_consts) (info t3 : utab_info)
    (local_ip remote_ip proto local_port remote_port length direction now L R Q : Nat)
    (h : do_flow_entries P info local_ip remote_ip proto local_port remote_port length
      direction now = (some (L, R, Q), t3)) :
    ∃ t1 t2, do_lip_entry P info local_ip direction = (some L, t1) ∧
      do_rip_entry P t1 L remote_ip direction = (some R, t2) ∧
      do_port_entry P t2 L R proto local_port remote_port length direction now =
        (some Q, t3) := by
  unfold do_flow_entries at h
  cases h1 : do_lip_entry P info local_ip direction with
  | mk o1 t1 =>
    rw [h1] at h
    cases o1 with
    | none => simp at h
    | some l =>
      dsimp only at h
      cases h2 : do_rip_entry P t1 l remote_ip direction with
      | mk o2 t2 =>
        rw [h2] at h
        cases o2 with
        | none => simp at h
        | some r =>
          dsimp only at h
          cases h3 : do_port_entry P t2 l r proto local_port remote_port length direction
              now with
          | mk o3 t3x =>
            rw [h3] at h
            cases o3 with
            | none => simp at h
            | some q =>
              dsimp only at h
              obtain ⟨e1, e2⟩ := Prod.mk.inj h
              have e1' : (l, r, q) = (L, R, Q) := by simpa using e1
              obtain ⟨rfl, e3⟩ := Prod.mk.inj e1'
              obtain ⟨rfl, rfl⟩ := Prod.mk.inj e3
              subst e2
              exact ⟨t1, t2, rfl, h2, h3⟩

theorem do_flow_entries_of_steps (P : pna_consts) (info t1 t2 t3 : utab_info)
    (local_ip remote_ip proto local_port remote_port length direction now L R Q : Nat)
    (h1 : do_lip_entry P info local_ip direction = (some L, t1))
    (h2 : do_rip_entry P t1 L remote_ip direction = (some R, t2))
    (h3 : do_port_entry P t2 L R proto local_port remote_port length direction now =
      (some Q, t3)) :
    do_flow_entries P info local_ip remote_ip proto local_port remote_port length direction
      now = (some (L, R, Q), t3) := by
  unfold do_flow_entries
  rw [h1]
  dsimp only
  rw [h2]
  dsimp only
  rw [h3]

theorem testBit_or_shift_other (w k j : Nat) (h : j ≠ k) :
    (w ||| (1 <<< k)).testBit j = w.testBit j := by
  rw [Nat.testBit_or, Nat.one_shiftLeft, Nat.testBit_two_pow]
  have : decide (k = j) = false := by simp [Ne.symm h]
  rw [this, Bool.or_false]

theorem and_shift_eq_zero (w k : Nat) (h : w.testBit k = false) : 0 = (w &&& (1 <<< k)) := by
  by_contra hne
  have := (and_shift_ne_zero w k).mp hne
  rw [h] at this
  exact absurd this (by decide)

/-- What `port_matched` does on a slot that has not seen the direction. -/
theorem port_matched_new_dir (info : utab_info) (R p h length d : Nat)
    (hbit : 0 = ((info.ports p h).info_bits &&& (1 <<< d))) :
    (port_matched info R p h length d).lips = info.lips ∧
    (port_matched info R p h length d).nlips = info.nlips ∧
    (port_matched info R p h length d).nrips = info.nrips ∧
    (port_matched info R p h length d).nports = info.nports ∧
    ((port_matched info R p h length d).rips R).nprts d p = (info.rips R).nprts d p + 1 ∧
    ((port_matched info R p h length d).rips R).info_bits = (info.rips R).info_bits ∧
    ((port_matched info R p h length d).ports p h).info_bits =
      ((info.ports p h).info_bits ||| (1 <<< d)) ∧
    ((port_matched info R p h length d).ports p h).timestamp = (info.ports p h).timestamp := by
  simp only [port_matched]
  rw [if_pos hbit]
  simp [upd, upd2]

/-- What `port_matched` does on a slot that has already seen the direction. -/
theorem port_matched_seen_dir (info : utab_info) (R p h length d : Nat)
    (hbit : 0 ≠ ((info.ports p h).info_bits &&& (1 <<< d))) :
    (port_matched info R p h length d).lips = info.lips ∧
    (port_matched info R p h length d).nlips = info.nlips ∧
    (port_matched info R p h length d).nrips = info.nrips ∧
    (port_matched info R p h length d).nports = info.nports ∧
    ((port_matched info R p h length d).rips R).nprts d p = (info.rips R).nprts d p ∧
    ((port_matched info R p h length d).rips R).info_bits = (info.rips R).info_bits ∧
    ((port_matched info R p h length d).ports p h).info_bits = (info.ports p h).info_bits ∧
    ((port_matched info R p h length d).ports p h).timestamp = (info.ports p h).timestamp := by
  simp only [port_matched]
  rw [if_neg hbit]
  simp [upd, upd2]

/-- C14 (amended). Where a bitmap word is no wider than an `int`
(`0 < BITMAP_BITS <= 32`): a packet in direction `d` creates the flow
`(lip, rip, p, lport, rport)`: its three lookups return the slots `L`, `R`,
`Q` and `nports` grows by one. Then a packet of the same flow in another
direction `d2` (a direction index, below `DIRECTIONS`) with length `m` gets
the same three slots; `nlips`, `nrips`, `nports`, `lip.ndsts[d]`, every
`lip.nsess`, the port timestamp and every bit of the RIP and port `info_bits`
other than bit `d2` are unchanged; `rip.npkts[d2][p]` and `port.npkts[d2]`
grow by 1, `rip.nbytes[d2][p]` and `port.nbytes[d2]` by `m`, and the
direction-seen bit of `d2` is set in the port entry afterwards. If the port
slot `Q` did not carry that bit before the flow claimed it, it does not carry
it before the reply either and `rip.nprts[d2][p]` grows by 1; if it did,
`rip.nprts[d2][p]` stays as it is. -/
theorem reply_reuses_entries (P : pna_consts) (info0 t3 : utab_info)
    (local_ip remote_ip p local_port remote_port n d now m d2 now2 L R Q : Nat)
    (hB : bitmap_fits_int P)
    (hfirst : do_flow_entries P info0 local_ip remote_ip p local_port remote_port n d now =
      (some (L, R, Q), t3))
    (hnew : t3.nports = info0.nports + 1)
    (hdir : d2 ≠ d) (hd2 : d2 < P.DIRECTIONS) :
    ∃ u3, do_flow_entries P t3 local_ip remote_ip p local_port remote_port m d2 now2 =
        (some (L, R, Q), u3) ∧
      u3.nlips = t3.nlips ∧ u3.nrips = t3.nrips ∧ u3.nports = t3.nports ∧
      (u3.lips L).ndsts d = (t3.lips L).ndsts d ∧
      (u3.lips L).nsess = (t3.lips L).nsess ∧
      (u3.ports p Q).timestamp = (t3.ports p Q).timestamp ∧
      (∀ k, k ≠ d2 → (u3.rips R).info_bits.testBit k = (t3.rips R).info_bits.testBit k) ∧
      (∀ k, k ≠ d2 →
        (u3.ports p Q).info_bits.testBit k = (t3.ports p Q).info_bits.testBit k) ∧
      (u3.rips R).npkts d2 p = (t3.rips R).npkts d2 p + 1 ∧
      (u3.rips R).nbytes d2 p = (t3.rips R).nbytes d2 p + m ∧
      (u3.ports p Q).npkts d2 = (t3.ports p Q).npkts d2 + 1 ∧
      (u3.ports p Q).nbytes d2 = (t3.ports p Q).nbytes d2 + m ∧
      (u3.ports p Q).info_bits.testBit d2 = true ∧
      ((info0.ports p Q).info_bits.testBit d2 = false →
        (u3.rips R).nprts d2 p = (t3.rips R).nprts d2 p + 1 ∧
        (t3.ports p Q).info_bits.testBit d2 = false) ∧
      ((info0.ports p Q).info_bits.testBit d2 = true →
        (u3.rips R).nprts d2 p = (t3.rips R).nprts d2 p ∧
        (t3.ports p Q).info_bits.testBit d2 = true) := by
  obtain ⟨t1, t2, h1, h2, h3⟩ := do_flow_entries_some P info0 t3 local_ip remote_ip p local_port
    remote_port n d now L R Q hfirst
  -- the LIP step
  have h1' := h1
  unfold do_lip_entry at h1'
  have a_ip := lip_probe_local_ip P info0 local_ip PROBE_LIMIT
    (P.hash_long local_ip P.PNA_LIP_BITS) L (by rw [h1'])
  have a_fr := lip_probe_frame P info0 local_ip PROBE_LIMIT (P.hash_long local_ip P.PNA_LIP_BITS)
  have a_ct := lip_probe_counts P info0 local_ip PROBE_LIMIT (P.hash_long local_ip P.PNA_LIP_BITS)
  rw [h1'] at a_ip a_fr a_ct
  simp only at a_ip a_fr a_ct
  have t1_ipL : (t1.lips L).local_ip = local_ip := by rw [a_ip L, if_pos rfl]
  -- the RIP step
  have h2' := h2
  unfold do_rip_entry at h2'
  rw [t1_ipL] at h2'
  have b_keep := rip_probe_keeps P t1 L remote_ip d PROBE_LIMIT
    (P.hash_long (local_ip ^^^ remote_ip) P.PNA_RIP_BITS)
  have b_fr := rip_probe_frame P t1 L remote_ip d PROBE_LIMIT
    (P.hash_long (local_ip ^^^ remote_ip) P.PNA_RIP_BITS)
  have b_np := rip_probe_nports P t1 L remote_ip d PROBE_LIMIT
    (P.hash_long (local_ip ^^^ remote_ip) P.PNA_RIP_BITS)
  rw [h2'] at b_keep b_fr b_np
  simp only at b_keep b_fr b_np
  obtain ⟨b_match, b_other⟩ := rip_probe_then P hB t1 t2 L remote_ip d PROBE_LIMIT _ R h2'
  have t2_rem : (t2.rips R).remote_ip = remote_ip := b_match.1.symm
  -- the port step: the slot was claimed
  have h3' := h3
  unfold do_port_entry at h3'
  rw [t2_rem] at h3'
  have t2_nports : t2.nports = info0.nports := by rw [b_np, a_ct.2]
  have t2_ports : t2.ports = info0.ports := by rw [b_fr.1, a_fr.2.1]
  have hcl : t3 = port_claimed P t2 L R p local_port remote_port Q n d now := by
    rcases port_probe_cases P t2 L R p local_port remote_port n d now PROBE_LIMIT
      (P.hash_long (remote_ip ^^^ ((remote_port <<< 16) ||| local_port)) P.PNA_PORT_BITS) with
      ⟨j, _, _, hr⟩ | ⟨j, _, _, _, _, hr⟩ | hr
    · rw [hr] at h3'
      obtain ⟨_, e2⟩ := Prod.mk.inj h3'
      have hn : t3.nports = t2.nports := by
        rw [← e2]
        simp only [port_matched]
        split <;> rfl
      omega
    · rw [hr] at h3'
      obtain ⟨e1, e2⟩ := Prod.mk.inj h3'
      have e1' : probe_slot P.PNA_PORT_ENTRIES
          (P.hash_long (remote_ip ^^^ ((remote_port <<< 16) ||| local_port)) P.PNA_PORT_BITS)
          j = Q := by simpa using e1
      rw [e1'] at e2
      exact e2.symm
    · rw [hr] at h3'
      simp at h3'
  have c_fr := port_probe_frame P t2 L R p local_port remote_port n d now PROBE_LIMIT
    (P.hash_long (remote_ip ^^^ ((remote_port <<< 16) ||| local_port)) P.PNA_PORT_BITS)
  have c_lips := port_probe_lips P t2 L R p local_port remote_port n d now PROBE_LIMIT
    (P.hash_long (remote_ip ^^^ ((remote_port <<< 16) ||| local_port)) P.PNA_PORT_BITS)
  rw [h3'] at c_fr c_lips
  simp only at c_fr c_lips
  obtain ⟨c_match, c_other⟩ := port_claimed_then P hB t2 L R p local_port remote_port Q n d now
  rw [← hcl] at c_match c_other
  have t3_ip : ∀ x, (t3.lips x).local_ip = if x = L then local_ip else (info0.lips x).local_ip := by
    intro x
    rw [c_lips.1 x, b_keep.2.1 x, a_ip x]
  have t3_rm : ∀ x, rip_match P t3 L remote_ip x ↔ rip_match P t2 L remote_ip x :=
    fun x => rip_match_congr P t2 t3 L remote_ip x (c_fr.1 x) (c_fr.2 L)
  -- the reply: LIP
  have r1 : do_lip_entry P t3 local_ip d2 = (some L, t3) := by
    unfold do_lip_entry
    refine lip_probe_again P info0 t3 local_ip PROBE_LIMIT _ L (by rw [h1']) ?_ ?_
    · intro x hx
      rw [t3_ip x, if_neg hx]
    · rw [t3_ip L, if_pos rfl]
  -- the reply: RIP
  have r2 : do_rip_entry P t3 L remote_ip d2 = (some R, rip_matched t3 L R d2) := by
    unfold do_rip_entry
    rw [t3_ip L, if_pos rfl]
    refine rip_probe_again P t1 t3 L remote_ip d d2 PROBE_LIMIT _ R (by rw [h2']) ?_ ?_
    · intro x hx
      refine ⟨(t3_rm x).trans (b_other x hx).1, ?_⟩
      rw [c_fr.1 x]
      exact (b_other x hx).2
    · exact (t3_rm R).mpr b_match
  -- the reply: port
  obtain ⟨u_ports, u_nlips, u_nrips, u_nports, u_rips⟩ := rip_matched_frame t3 L R d2
  have u_rem : ((rip_matched t3 L R d2).rips R).remote_ip = remote_ip := by
    rw [rip_matched_remote_ip, c_fr.1 R, t2_rem]
  have u_pm : ∀ x, port_match P (rip_matched t3 L R d2) R p local_port remote_port x ↔
      port_match P t3 R p local_port remote_port x :=
    fun x => port_match_congr P t3 (rip_matched t3 L R d2) R p local_port remote_port x u_ports
      (u_rips R).1
  have r3 : do_port_entry P (rip_matched t3 L R d2) L R p local_port remote_port m d2 now2 =
      (some Q, port_matched (rip_matched t3 L R d2) R p Q m d2) := by
    unfold do_port_entry
    rw [u_rem]
    refine port_probe_again P t2 (rip_matched t3 L R d2) L R p local_port remote_port n d now
      m d2 now2 PROBE_LIMIT _ Q (by rw [h3']) ?_ ?_
    · intro x hx
      refine ⟨(u_pm x).trans (c_other x hx).1, ?_⟩
      rw [u_ports]
      exact (c_other x hx).2
    · exact (u_pm Q).mpr c_match
  -- the direction-seen bit of the port slot is the one it had before the flow
  have hb0 : (t3.ports p Q).info_bits =
      (((t2.ports p Q).info_bits ||| (1 <<< d)) ||| (1 <<< (d + P.DIRECTIONS))) := by
    rw [hcl]
    simp [port_claimed, upd2]
  have hb1 : (t3.ports p Q).info_bits.testBit d2 = (info0.ports p Q).info_bits.testBit d2 := by
    rw [hb0, testBit_or_shift_other _ _ _ (by omega), testBit_or_shift_other _ _ _ hdir,
      t2_ports]
  have hflow := do_flow_entries_of_steps P t3 t3 _ _ local_ip remote_ip p local_port
    remote_port m d2 now2 L R Q r1 r2 r3
  have hnd : ((rip_matched t3 L R d2).lips L).ndsts d = (t3.lips L).ndsts d := by
    rw [rip_matched_ndsts]
    have : ¬ (L = L ∧ d = d2 ∧ (t3.rips R).info_bits.testBit d2 = false) :=
      fun c => hdir c.2.1.symm
    rw [if_neg this]
    rfl
  have hrb : ∀ k, k ≠ d2 → ((rip_matched t3 L R d2).rips R).info_bits.testBit k =
      (t3.rips R).info_bits.testBit k := by
    intro k hk
    rw [rip_matched_info_bits, if_pos rfl]
    exact testBit_or_shift_other _ _ _ hk
  by_cases hclean : (info0.ports p Q).info_bits.testBit d2 = false
  · have hb2 : (t3.ports p Q).info_bits.testBit d2 = false := by rw [hb1]; exact hclean
    have hbit : 0 = (((rip_matched t3 L R d2).ports p Q).info_bits &&& (1 <<< d2)) := by
      rw [u_ports]
      exact and_shift_eq_zero _ _ hb2
    obtain ⟨v_lips, v_nlips, v_nrips, v_nports, v_nprts, v_rbits, v_pbits, v_ts⟩ :=
      port_matched_new_dir (rip_matched t3 L R d2) R p Q m d2 hbit
    refine ⟨port_matched (rip_matched t3 L R d2) R p Q m d2, hflow,
      ?_, ?_, ?_, ?_, ?_, ?_, ?_, ?_, ?_, ?_, ?_, ?_, ?_, ?_, ?_⟩
    · rw [v_nlips, u_nlips]
    · rw [v_nrips, u_nrips]
    · rw [v_nports, u_nports]
    · rw [v_lips]; exact hnd
    · rw [v_lips]
      exact (rip_matched_lip_frame t3 L R d2 L).1
    · rw [v_ts, u_ports]
    · intro k hk
      rw [v_rbits]
      exact hrb k hk
    · intro k hk
      rw [v_pbits, u_ports]
      exact testBit_or_shift_other _ _ _ hk
    · rw [port_matched_rip_npkts, (u_rips R).2.2, if_pos ⟨rfl, rfl, rfl⟩]
    · rw [port_matched_rip_nbytes, (u_rips R).2.1, if_pos ⟨rfl, rfl, rfl⟩]
    · rw [port_matched_npkts, u_ports, if_pos ⟨rfl, rfl, rfl⟩]
    · rw [port_matched_nbytes, u_ports, if_pos ⟨rfl, rfl, rfl⟩]
    · rw [v_pbits]
      exact testBit_shift_self _ _
    · intro _
      refine ⟨?_, hb2⟩
      rw [v_nprts, (rip_matched_lip_frame t3 L R d2 0).2 R]
    · intro hc
      rw [hclean] at hc
      exact absurd hc (by decide)
  · have hset : (info0.ports p Q).info_bits.testBit d2 = true := by
      cases hv : (info0.ports p Q).info_bits.testBit d2
      · exact absurd hv hclean
      · rfl
    have hb2 : (t3.ports p Q).info_bits.testBit d2 = true := by rw [hb1]; exact hset
    have hbit : 0 ≠ (((rip_matched t3 L R d2).ports p Q).info_bits &&& (1 <<< d2)) := by
      rw [u_ports]
      exact (and_shift_ne_zero _ _).mpr hb2
    obtain ⟨v_lips, v_nlips, v_nrips, v_nports, v_nprts, v_rbits, v_pbits, v_ts⟩ :=
      port_matched_seen_dir (rip_matched t3 L R d2) R p Q m d2 hbit
    refine ⟨port_matched (rip_matched t3 L R d2) R p Q m d2, hflow,
      ?_, ?_, ?_, ?_, ?_, ?_, ?_, ?_, ?_, ?_, ?_, ?_, ?_, ?_, ?_⟩
    · rw [v_nlips, u_nlips]
    · rw [v_nrips, u_nrips]
    · rw [v_nports, u_nports]
    · rw [v_lips]; exact hnd
    · rw [v_lips]
      exact (rip_matched_lip_frame t3 L R d2 L).1
    · rw [v_ts, u_ports]
    · intro k hk
      rw [v_rbits]
      exact hrb k hk
    · intro k _
      rw [v_pbits, u_ports]
    · rw [port_matched_rip_npkts, (u_rips R).2.2, if_pos ⟨rfl, rfl, rfl⟩]
    · rw [port_matched_rip_nbytes, (u_rips R).2.1, if_pos ⟨rfl, rfl, rfl⟩]
    · rw [port_matched_npkts, u_ports, if_pos ⟨rfl, rfl, rfl⟩]
    · rw [port_matched_nbytes, u_ports, if_pos ⟨rfl, rfl, rfl⟩]
    · rw [v_pbits, u_ports]
      exact hb2
    · intro hc
      rw [hset] at hc
      exact absurd hc (by decide)
    · intro _
      refine ⟨?_, hb2⟩
      rw [v_nprts, (rip_matched_lip_frame t3 L R d2 0).2 R]

theorem reply_reuses_entries_witness :
    ∃ u3, do_flow_entries example_consts example_flow_table 0x0a000001 0x08080808 6 1000 443
        60 1 2 = (some (10, 4, 13), u3) ∧
      (u3.rips 4).npkts 1 6 = 1 ∧ (u3.rips 4).nbytes 1 6 = 60 ∧ (u3.rips 4).nprts 1 6 = 1 ∧
      (u3.lips 10).ndsts 0 = 1 ∧ (u3.ports 6 13).info_bits.testBit 1 = true := by
  obtain ⟨u3, h, _, _, _, h1, _, _, _, _, h2, h3, _, _, h5, h4, _⟩ :=
    reply_reuses_entries example_consts utab_empty example_flow_table 0x0a000001 0x08080808 6
      1000 443 100 0 1 60 1 2 10 4 13 (by decide) (Prod.ext (by decide) rfl) (by decide)
      (by decide) (by decide)
  refine ⟨u3, h, ?_, ?_, ?_, ?_, h5⟩
  · rw [h2]; decide
  · rw [h3]; decide
  · rw [(h4 (by decide)).1]; decide
  · rw [h1]; decide

/-- C14 (counterexample). On a table where an inbound packet with both ports 0
has left a port entry in slot 13 (it still looks free and keeps its
direction-seen bit), the outbound packet `10.0.0.1:1000` to `8.8.8.8:443`
creates its flow in that slot (`nports` grows by one). The reply of 60 bytes
gets the same three slots, but finds the inbound bit already set, so
`rip.nprts[IN][TCP]` stays 0 instead of growing by 1. -/
theorem reply_on_reused_port_slot :
    (do_flow_entries example_consts example_zero_port_table 0x0a000001 0x08080808 6 1000 443
        100 0 2).1 = some (10, 4, 13) ∧
    example_zero_port_flow.nports = example_zero_port_table.nports + 1 ∧
    (example_zero_port_table.ports 6 13).local_port = 0 ∧
    (example_zero_port_table.ports 6 13).remote_port = 0 ∧
    (example_zero_port_table.ports 6 13).info_bits.testBit 1 = true ∧
    (do_flow_entries example_consts example_zero_port_flow 0x0a000001 0x08080808 6 1000 443
        60 1 3).1 = some (10, 4, 13) ∧
    (example_zero_port_flow.rips 4).nprts 1 6 = 0 ∧
    ((do_flow_entries example_consts example_zero_port_flow 0x0a000001 0x08080808 6 1000 443
        60 1 3).2.rips 4).nprts 1 6 = 0 ∧
    ((do_flow_entries example_consts example_zero_port_flow 0x0a000001 0x08080808 6 1000 443
        60 1 3).2.rips 4).npkts 1 6 = 1 := by
  refine ⟨?_, ?_, ?_, ?_, ?_, ?_, ?_, ?_, ?_⟩ <;> decide

/-! ### The hash map: geometry -/

theorem hashmap_create_entry_geom (n_pairs key_size value_size : Nat) (m : pna_hashmap)
    (h : hashmap_create_entry n_pairs key_size value_size = some m) : hashmap_geom m := by
  unfold hashmap_create_entry at h
  cases hl : n_buckets_loop 64 4 n_pairs with
  | none => simp [hl] at h
  | some nb =>
    simp only [hl, Option.some.injEq] at h
    obtain ⟨b, hb2, hb29, hnb, hn, _⟩ := n_buckets_loop_least 64 2 n_pairs nb
      (fun c h1 h2 => absurd h2 (by omega)) (by simpa using hl)
    have h8 : 8 * nb = 2 ^ (b + 3) := by rw [hnb, pow_add]; ring
    have hlt32 : (2 : Nat) ^ (b + 3) < 2 ^ 32 := Nat.pow_lt_pow_right (by decide) (by omega)
    have hpos : 0 < nb := by rw [hnb]; exact Nat.pow_pos (by decide)
    have hU : U32 = 2 ^ 32 := rfl
    have hk : ((8 * nb) % U32 + U32 - 1) % U32 = 2 ^ (b + 3) - 1 := by
      rw [hU, Nat.mod_eq_of_lt (show 8 * nb < 2 ^ 32 by omega)]
      have : 8 * nb + 2 ^ 32 - 1 = (8 * nb - 1) + 2 ^ 32 := by omega
      rw [this, Nat.add_mod_right, Nat.mod_eq_of_lt (by omega), h8]
    have hbk : (nb + U32 - 1) % U32 = 2 ^ b - 1 := by
      rw [hU]
      have : nb + 2 ^ 32 - 1 = (nb - 1) + 2 ^ 32 := by omega
      rw [this, Nat.add_mod_right, Nat.mod_eq_of_lt (by omega), hnb]
    subst h
    refine ⟨⟨b, hb2, hb29, hnb, hbk, hk, ?_, ?_⟩⟩
    · show (U32 - 1) ^^^ (((8 * nb) % U32 + U32 - 1) % U32) = (U32 - 1) ^^^ (2 ^ (b + 3) - 1)
      rw [hk]
    · show n_pairs < 2 ^ (b + 3)
      rw [← h8, hnb]
      exact hn

/-- The fields `hashmap_put` never writes. -/
theorem hashmap_put_fields (H : HashFn) (map : pna_hashmap) (key value : Bytes) :
    (hashmap_put H map key value).2.n_pairs = map.n_pairs ∧
    (hashmap_put H map key value).2.key_size = map.key_size ∧
    (hashmap_put H map key value).2.value_size = map.value_size ∧
    (hashmap_put H map key value).2.n_buckets = map.n_buckets ∧
    (hashmap_put H map key value).2.bkt_mask = map.bkt_mask ∧
    (hashmap_put H map key value).2.kvx_mask = map.kvx_mask ∧
    (hashmap_put H map key value).2.fp_mask = map.fp_mask := by
  unfold hashmap_put
  split
  · exact ⟨rfl, rfl, rfl, rfl, rfl, rfl, rfl⟩
  · dsimp only
    split
    · exact ⟨rfl, rfl, rfl, rfl, rfl, rfl, rfl⟩
    · split <;> exact ⟨rfl, rfl, rfl, rfl, rfl, rfl, rfl⟩

theorem hashmap_put_geom (H : HashFn) (m : pna_hashmap) (key value : Bytes)
    (h : hashmap_geom m) : hashmap_geom (hashmap_put H m key value).2 := by
  obtain ⟨f1, _, _, f4, f5, f6, f7⟩ := hashmap_put_fields H m key value
  obtain ⟨b, h1, h2, h3, h4, h5, h6, h7⟩ := h.shape
  exact ⟨⟨b, h1, h2, by rw [f4, h3], by rw [f5, h4], by rw [f6, h5], by rw [f7, h6],
    by rw [f1]; exact h7⟩⟩

theorem Reachable.geom {H : HashFn} {m : pna_hashmap} (h : Reachable H m) : hashmap_geom m := by
  induction h with
  | create n k v m hc => exact hashmap_create_entry_geom n k v m hc
  | reset m _ ih => exact ⟨ih.shape⟩
  | put m key value _ ih => exact hashmap_put_geom H m key value ih

theorem and_pow_mask_lt (x b : Nat) : x &&& (2 ^ b - 1) < 2 ^ b := by
  have h1 : x &&& (2 ^ b - 1) ≤ 2 ^ b - 1 := Nat.and_le_right
  have h2 : 0 < 2 ^ b := Nat.pow_pos (by decide)
  omega

/-- The two bucket rows of a key in a map of the shape `hashmap_create` gives:
the left one is below `n_buckets`, the right one from `n_buckets` to below
`2 * n_buckets` (the `uint32_t` sum does not wrap). -/
theorem hashmap_geom_bkts (m : pna_hashmap) (hg : hashmap_geom m) (out0 : Nat) :
    out0 &&& m.bkt_mask < m.n_buckets ∧
    ((out0 &&& m.bkt_mask) + m.n_buckets) % U32 = (out0 &&& m.bkt_mask) + m.n_buckets ∧
    m.n_buckets ≤ (out0 &&& m.bkt_mask) + m.n_buckets ∧
    (out0 &&& m.bkt_mask) + m.n_buckets < 2 * m.n_buckets := by
  obtain ⟨b, h1, h2, h3, h4, _, _, _⟩ := hg.shape
  have hlt : out0 &&& m.bkt_mask < m.n_buckets := by
    rw [h4, h3]
    exact and_pow_mask_lt out0 b
  have hb : (2 : Nat) ^ b ≤ 2 ^ 28 := Nat.pow_le_pow_right (by decide) (by omega)
  have hU : U32 = 2 ^ 32 := rfl
  refine ⟨hlt, ?_, Nat.le_add_left _ _, by omega⟩
  apply Nat.mod_eq_of_lt
  rw [hU]
  omega

/-- C26. In every map reachable from `hashmap_create` (the fields in question
are the ones `hashmap_create` sets), for every hash output `(out0, out1)`: the
left bucket index `out0 & bkt_mask` is below `n_buckets`; the right bucket
index `(out0 & bkt_mask) + n_buckets` lies in `[n_buckets, 2 * n_buckets)`
and its `uint32_t` sum does not wrap; and for the fingerprint
`fp = out1 & fp_mask` and every pair index `idx < n_pairs` the slot word
`w = fp | (idx & kvx_mask)` decodes back: `w & kvx_mask = idx` and
`w & fp_mask = fp`. The pair `hashmap_hashit` returns is
`(out0 & bkt_mask, out1 & fp_mask)` for the output of the hash routine. -/
theorem hashmap_bucket_ranges (H : HashFn) (m : pna_hashmap) (hr : Reachable H m)
    (out0 out1 idx : Nat) (key : Bytes) (func : Nat) :
    out0 &&& m.bkt_mask < m.n_buckets ∧
    m.n_buckets ≤ ((out0 &&& m.bkt_mask) + m.n_buckets) % U32 ∧
    ((out0 &&& m.bkt_mask) + m.n_buckets) % U32 < 2 * m.n_buckets ∧
    (idx < m.n_pairs →
      ((out1 &&& m.fp_mask) ||| (idx &&& m.kvx_mask)) &&& m.kvx_mask = idx ∧
      ((out1 &&& m.fp_mask) ||| (idx &&& m.kvx_mask)) &&& m.fp_mask = out1 &&& m.fp_mask) ∧
    hashmap_hashit H m key func =
      ((H key m.key_size (if func ≠ 0 then C0 else C1)).1 &&& m.bkt_mask,
       (H key m.key_size (if func ≠ 0 then C0 else C1)).2 &&& m.fp_mask) ∧
    (hashmap_hashit H m key 0).1 < m.n_buckets ∧
    m.n_buckets ≤ ((hashmap_hashit H m key 1).1 + m.n_buckets) % U32 ∧
    ((hashmap_hashit H m key 1).1 + m.n_buckets) % U32 < 2 * m.n_buckets := by
  have hg := hr.geom
  obtain ⟨b, h1, h2, h3, h4, h5, h6, h7⟩ := hg.shape
  obtain ⟨g1, g2, g3, g4⟩ := hashmap_geom_bkts m hg out0
  obtain ⟨k1, k2, k3, k4⟩ := hashmap_geom_bkts m hg (H key m.key_size C0).1
  obtain ⟨l1, _, _, _⟩ := hashmap_geom_bkts m hg (H key m.key_size C1).1
  refine ⟨g1, by rw [g2]; exact g3, by rw [g2]; exact g4, ?_, rfl, ?_, ?_, ?_⟩
  · intro hidx
    rw [h5, h6]
    exact ⟨slot_word_kvx out1 idx (b + 3) (by omega) (by omega),
      slot_word_fp out1 idx (b + 3) (by omega)⟩
  · exact l1
  · show m.n_buckets ≤ (((H key m.key_size C0).1 &&& m.bkt_mask) + m.n_buckets) % U32
    rw [k2]; exact k3
  · show (((H key m.key_size C0).1 &&& m.bkt_mask) + m.n_buckets) % U32 < 2 * m.n_buckets
    rw [k2]; exact k4

theorem hashmap_bucket_ranges_witness :
    (0xdeadbeefcafef00d &&& example_map1024.bkt_mask) = 13 ∧
    ((0x123456789abcdef0 &&& example_map1024.fp_mask) ||| (1000 &&& example_map1024.kvx_mask))
      &&& example_map1024.kvx_mask = 1000 ∧
    ((0x123456789abcdef0 &&& example_map1024.fp_mask) ||| (1000 &&& example_map1024.kvx_mask))
      &&& example_map1024.fp_mask = 0x123456789abcdef0 &&& example_map1024.fp_mask :=
  ⟨by decide,
   ((hashmap_bucket_ranges example_hash example_map1024
      (Reachable.create 1024 8 8 example_map1024 rfl)
      0xdeadbeefcafef00d 0x123456789abcdef0 1000 [1] 0).2.2.2.1 (by decide)).1,
   ((hashmap_bucket_ranges example_hash example_map1024
      (Reachable.create 1024 8 8 example_map1024 rfl)
      0xdeadbeefcafef00d 0x123456789abcdef0 1000 [1] 0).2.2.2.1 (by decide)).2⟩

/-! ### The hash map: what `hashmap_get` dereferences -/

theorem hashmap_scan_derefs_mem (map : pna_hashmap) (key : Bytes) (bkt fp : Nat) (l : List Nat)
    (x : Nat) (h : x ∈ hashmap_scan_derefs map key bkt fp l) :
    ∃ i, i ∈ l ∧ x = map.buckets bkt i &&& map.kvx_mask := by
  induction l with
  | nil => simp [hashmap_scan_derefs] at h
  | cons i rest ih =>
    rw [hashmap_scan_derefs] at h
    split at h
    · split at h
      · rw [List.mem_singleton] at h
        exact ⟨i, List.mem_cons_self _ _, h⟩
      · rcases List.mem_cons.mp h with h | h
        · exact ⟨i, List.mem_cons_self _ _, h⟩
        · obtain ⟨j, hj, hx⟩ := ih h
          exact ⟨j, List.mem_cons_of_mem _ hj, hx⟩
    · obtain ⟨j, hj, hx⟩ := ih h
      exact ⟨j, List.mem_cons_of_mem _ hj, hx⟩

/-- The index bits of every slot word are a pair index of the store, in a map
with the invariant whose store is not empty. -/
theorem hashmap_inv_decode (m : pna_hashmap) (hinv : hashmap_inv m) (hn : 0 < m.n_pairs)
    (b i : Nat) : m.buckets b i &&& m.kvx_mask < m.n_pairs := by
  by_cases hz : m.buckets b i = 0
  · rw [hz, Nat.zero_and]
    exact hn
  · exact Nat.lt_of_lt_of_le (hinv.words b i hz) hinv.idx_le

/-- C30. In every map reachable from `hashmap_create` or `hashmap_reset` by
`hashmap_put` calls, every nonzero slot word `w` has
`(w & kvx_mask) < next_idx <= n_pairs` and a zero word decodes to index 0.
Hence, in a map whose pair store is not empty (`n_pairs > 0`), every pair
index `hashmap_get` dereferences for any key, and the one it returns, is
below `n_pairs`; and every bucket row it uses is below `2 * n_buckets`, the
slot within the row below `BKT_SIZE`. -/
theorem hashmap_slot_index_safety (H : HashFn) (m : pna_hashmap) (hr : Reachable H m) :
    (∀ b i, m.buckets b i ≠ 0 → m.buckets b i &&& m.kvx_mask < m.next_idx) ∧
    m.next_idx ≤ m.n_pairs ∧
    (∀ b i, m.buckets b i = 0 → m.buckets b i &&& m.kvx_mask = 0) ∧
    (0 < m.n_pairs → ∀ key x, x ∈ hashmap_get_derefs H m key → x < m.n_pairs) ∧
    (0 < m.n_pairs → ∀ key x, hashmap_get H m key = some x → x < m.n_pairs) ∧
    (∀ key b, b ∈ hashmap_get_bkts H m key → b < 2 * m.n_buckets) ∧
    (∀ i, i ∈ List.range BKT_SIZE → i < BKT_SIZE) := by
  have hinv := hr.inv
  have hg := hr.geom
  refine ⟨hinv.words, hinv.idx_le, ?_, ?_, ?_, ?_, fun i hi => List.mem_range.mp hi⟩
  · intro b i hz
    rw [hz, Nat.zero_and]
  · intro hn key x hx
    unfold hashmap_get_derefs at hx
    rcases List.mem_append.mp hx with h | h
    · obtain ⟨i, _, e⟩ := hashmap_scan_derefs_mem m key _ _ _ x h
      rw [e]
      exact hashmap_inv_decode m hinv hn _ _
    · split at h
      · simp at h
      · obtain ⟨i, _, e⟩ := hashmap_scan_derefs_mem m key _ _ _ x h
        rw [e]
        exact hashmap_inv_decode m hinv hn _ _
  · intro hn key x hx
    unfold hashmap_get at hx
    split at hx
    · rename_i kvx hs
      obtain ⟨_, i, _, e, _⟩ := hashmap_scan_some m key _ _ _ kvx hs
      have : kvx = x := by simpa using hx
      rw [← this, e]
      exact hashmap_inv_decode m hinv hn _ _
    · obtain ⟨_, i, _, e, _⟩ := hashmap_scan_some m key _ _ _ x hx
      rw [e]
      exact hashmap_inv_decode m hinv hn _ _
  · intro key b hb
    obtain ⟨k1, k2, _, k4⟩ := hashmap_geom_bkts m hg (H key m.key_size C0).1
    obtain ⟨l1, _, _, _⟩ := hashmap_geom_bkts m hg (H key m.key_size C1).1
    have h0 : (hashmap_hashit H m key 0).1 < m.n_buckets := l1
    have h1 : ((hashmap_hashit H m key 1).1 + m.n_buckets) % U32 < 2 * m.n_buckets := by
      show (((H key m.key_size C0).1 &&& m.bkt_mask) + m.n_buckets) % U32 < 2 * m.n_buckets
      rw [k2]; exact k4
    unfold hashmap_get_bkts at hb
    rcases List.mem_cons.mp hb with e | hb
    · rw [e]; omega
    · split at hb
      · simp at hb
      · rw [List.mem_singleton] at hb
        rw [hb]; exact h1

theorem hashmap_slot_index_safety_witness :
    hashmap_get_derefs example_hash example_map16_filled [0] = [0] ∧
    hashmap_get_bkts example_hash example_map16_filled [9] = [0, 4] ∧
    (∀ x, x ∈ hashmap_get_derefs example_hash example_map16_filled [0] →
      x < example_map16_filled.n_pairs) ∧
    (∀ b, b ∈ hashmap_get_bkts example_hash example_map16_filled [9] →
      b < 2 * example_map16_filled.n_buckets) := by
  have hr : Reachable example_hash example_map16 := Reachable.create 16 1 1 example_map16 rfl
  have h := hashmap_slot_index_safety example_hash example_map16_filled
    (Reachable.put _ _ _ (Reachable.put _ _ _ (Reachable.put _ _ _ (Reachable.put _ _ _
      (Reachable.put _ _ _ (Reachable.put _ _ _ (Reachable.put _ _ _
        (Reachable.put _ [0] [9] hr))))))))
  exact ⟨by decide, by decide, fun x hx => h.2.2.2.1 (by decide) [0] x hx,
    fun b hb => h.2.2.2.2.2.1 [9] b hb⟩

/-! ### The hash map: which slots count as empty -/

theorem lor_eq_zero_iff (a b : Nat) : a ||| b = 0 ↔ a = 0 ∧ b = 0 := by
  constructor
  · exact lor_eq_zero a b
  · rintro ⟨rfl, rfl⟩
    rfl

/-- C27 (amended). In every map reachable from a created or reset map by
`hashmap_put` calls, for every hash function: `hashmap_put` counts a slot as
empty exactly when its whole word is 0 (`n0` and `n1` are the numbers of zero
words of the two buckets), whatever its fingerprint bits; and every
successful put writes, into a slot whose word was 0, the word
`fp | idx` whose fingerprint bits are the fingerprint `fp` of the key on that
side, which may be 0, and whose index bits are the pair index `idx`. -/
theorem empty_slot_convention (H : HashFn) (m : pna_hashmap) (key value : Bytes)
    (hr : Reachable H m) :
    (∀ b, (count_free m b (List.range BKT_SIZE) (0, 0)).1 =
      (List.range BKT_SIZE).countP (fun s => decide (m.buckets b s = 0))) ∧
    ((hashmap_put H m key value).1 = none ↔
      (m.next_idx ≥ m.n_pairs ∨
        ((∀ s, s < BKT_SIZE → m.buckets (hashmap_hashit H m key 0).1 s ≠ 0) ∧
         (∀ s, s < BKT_SIZE →
           m.buckets (((hashmap_hashit H m key 1).1 + m.n_buckets) % U32) s ≠ 0)))) ∧
    (∀ idx, (hashmap_put H m key value).1 = some idx →
      ∃ b i fp, m.buckets b i = 0 ∧
        (fp = (hashmap_hashit H m key 0).2 ∨ fp = (hashmap_hashit H m key 1).2) ∧
        (hashmap_put H m key value).2.buckets b i = fp ||| idx ∧
        (fp ||| idx) &&& m.fp_mask = fp ∧
        (fp ||| idx) &&& m.kvx_mask = idx ∧
        (fp ||| idx = 0 ↔ fp = 0 ∧ idx = 0) ∧
        (∀ b' s, ¬ (b' = b ∧ s = i) →
          (hashmap_put H m key value).2.buckets b' s = m.buckets b' s)) := by
  have hinv := hr.inv
  have hg := hr.geom
  obtain ⟨b, h1, h2, h3, h4, h5, h6, h7⟩ := hg.shape
  have f0 := count_free_zero_iff m (hashmap_hashit H m key 0).1 (List.range BKT_SIZE)
  have f1 := count_free_zero_iff m (((hashmap_hashit H m key 1).1 + m.n_buckets) % U32)
    (List.range BKT_SIZE)
  simp only [List.mem_range] at f0 f1
  refine ⟨?_, ?_, ?_⟩
  · intro b
    rw [count_free_fst]
    simp
  · constructor
    · intro hnone
      by_cases hfull : m.next_idx ≥ m.n_pairs
      · exact Or.inl hfull
      · right
        unfold hashmap_put at hnone
        rw [if_neg hfull] at hnone
        dsimp only at hnone
        by_cases hz : (count_free m (hashmap_hashit H m key 0).1 (List.range BKT_SIZE)
            (0, 0)).1 + (count_free m (((hashmap_hashit H m key 1).1 + m.n_buckets) % U32)
              (List.range BKT_SIZE) (0, 0)).1 = 0
        · exact ⟨f0.mp (by omega), f1.mp (by omega)⟩
        · rw [if_neg hz] at hnone
          split at hnone <;> simp at hnone
    · intro hcase
      rcases hcase with hfull | ⟨hl, hrt⟩
      · exact hashmap_put_null_of_full H m key value hfull
      · unfold hashmap_put
        split
        · rfl
        · dsimp only
          rw [if_pos (by rw [f0.mpr hl, f1.mpr hrt])]
  · intro idx hput
    have hidxlt : m.next_idx < m.n_pairs := (hashmap_put_some H m key value idx hput).2.1
    have hidx : idx = m.next_idx := (hashmap_put_some H m key value idx hput).1
    have hle : idx ≤ 2 ^ (b + 3) - 1 := by omega
    have hand : idx &&& m.kvx_mask = idx := by
      rw [h5]
      apply Nat.eq_of_testBit_eq
      intro t
      rw [Nat.testBit_and, Nat.testBit_two_pow_sub_one]
      by_cases ht : t < b + 3
      · simp [ht]
      · rw [testBit_of_le_mask idx (b + 3) t hle (by omega)]
        simp
    have hdec : ∀ o, ((o &&& m.fp_mask) ||| idx) &&& m.fp_mask = o &&& m.fp_mask ∧
        ((o &&& m.fp_mask) ||| idx) &&& m.kvx_mask = idx := by
      intro o
      have e1 := slot_word_fp o idx (b + 3) (by omega)
      have e2 := slot_word_kvx o idx (b + 3) (by omega) hle
      have hand2 : idx &&& (2 ^ (b + 3) - 1) = idx := by rw [← h5]; exact hand
      rw [hand2] at e1 e2
      rw [h6, h5]
      exact ⟨e1, e2⟩
    by_cases hfull : m.next_idx ≥ m.n_pairs
    · omega
    by_cases hz : (count_free m (hashmap_hashit H m key 0).1 (List.range BKT_SIZE) (0, 0)).1 +
        (count_free m (((hashmap_hashit H m key 1).1 + m.n_buckets) % U32)
          (List.range BKT_SIZE) (0, 0)).1 = 0
    · unfold hashmap_put at hput
      rw [if_neg hfull] at hput
      dsimp only at hput
      rw [if_pos hz] at hput
      exact absurd hput (by simp)
    have c0 := count_free_snd m (hashmap_hashit H m key 0).1 (List.range BKT_SIZE) (0, 0)
    have c1 := count_free_snd m (((hashmap_hashit H m key 1).1 + m.n_buckets) % U32)
      (List.range BKT_SIZE) (0, 0)
    by_cases hge : (count_free m (hashmap_hashit H m key 0).1 (List.range BKT_SIZE) (0, 0)).1 ≥
        (count_free m (((hashmap_hashit H m key 1).1 + m.n_buckets) % U32)
          (List.range BKT_SIZE) (0, 0)).1
    · have heq : (hashmap_put H m key value).2.buckets = fun b i =>
          if b = (hashmap_hashit H m key 0).1 ∧
              i = (count_free m (hashmap_hashit H m key 0).1
                (List.range BKT_SIZE) (0, 0)).2 then
            (hashmap_hashit H m key 0).2 ||| (m.next_idx &&& m.kvx_mask)
          else m.buckets b i := by
        unfold hashmap_put
        rw [if_neg hfull]
        dsimp only
        rw [if_neg hz, if_pos hge]
      rw [heq, ← hidx, hand]
      have hd := hdec (H key m.key_size C1).2
      refine ⟨_, _, (hashmap_hashit H m key 0).2, (c0 (by omega)).2, Or.inl rfl, ?_, hd.1,
        hd.2, lor_eq_zero_iff _ _, ?_⟩
      · simp
      · intro b' s hne
        dsimp only
        rw [if_neg hne]
    · have heq : (hashmap_put H m key value).2.buckets = fun b i =>
          if b = ((hashmap_hashit H m key 1).1 + m.n_buckets) % U32 ∧
              i = (count_free m (((hashmap_hashit H m key 1).1 + m.n_buckets) % U32)
                (List.range BKT_SIZE) (0, 0)).2 then
            (hashmap_hashit H m key 1).2 ||| (m.next_idx &&& m.kvx_mask)
          else m.buckets b i := by
        unfold hashmap_put
        rw [if_neg hfull]
        dsimp only
        rw [if_neg hz, if_neg hge]
      rw [heq, ← hidx, hand]
      have hd := hdec (H key m.key_size C0).2
      refine ⟨_, _, (hashmap_hashit H m key 1).2, (c1 (by omega)).2, Or.inr rfl, ?_, hd.1,
        hd.2, lor_eq_zero_iff _ _, ?_⟩
      · simp
      · intro b' s hne
        dsimp only
        rw [if_neg hne]

theorem empty_slot_convention_witness :
    (hashmap_put example_hash (hashmap_put example_hash example_map16 [1] [9]).2 [0] [9]).1 =
      some 1 ∧
    ∃ b i fp, (hashmap_put example_hash example_map16 [1] [9]).2.buckets b i = 0 ∧
      (hashmap_put example_hash (hashmap_put example_hash example_map16 [1] [9]).2
        [0] [9]).2.buckets b i = fp ||| 1 ∧
      (fp ||| 1) &&& (hashmap_put example_hash example_map16 [1] [9]).2.fp_mask = fp := by
  obtain ⟨b, i, fp, h1, _, h3, h4, _⟩ :=
    (empty_slot_convention example_hash (hashmap_put example_hash example_map16 [1] [9]).2
      [0] [9] (Reachable.put _ [1] [9] (Reachable.create 16 1 1 example_map16 rfl))).2.2 1
      (by decide)
  exact ⟨by decide, b, i, fp, h1, h3, h4⟩

/-- C27 (counterexample). Into `hashmap_create(16, 1, 1)` key `[1]` is put and
then key `[0]`, whose fingerprint is 0. The second put succeeds with pair 1
and writes the word `0 | 1 = 1` into slot 3 of bucket 4: a stored entry
(`hashmap_get` finds key `[0]` through it) whose fingerprint bits are 0. And
`hashmap_put` counts that slot as occupied although its fingerprint is 0: it
counts 3 empty slots in bucket 4, whose four words all have fingerprint 0. -/
theorem stored_word_with_zero_fingerprint :
    (hashmap_put example_hash (hashmap_put example_hash example_map16 [1] [9]).2 [0] [9]).1 =
      some 1 ∧
    example_map16_two.buckets 4 3 = 1 ∧
    (example_map16_two.buckets 4 3 &&& example_map16_two.fp_mask) = 0 ∧
    hashmap_get example_hash example_map16_two [0] = some 1 ∧
    example_map16_two.pairs 1 = ([0], [9]) ∧
    (List.range BKT_SIZE).countP
      (fun s => decide ((example_map16_two.buckets 4 s &&& example_map16_two.fp_mask) = 0)) = 4 ∧
    (count_free example_map16_two 4 (List.range BKT_SIZE) (0, 0)).1 = 3 := by
  refine ⟨?_, ?_, ?_, ?_, ?_, ?_, ?_⟩ <;> decide

/-! ### The hash map pool -/

theorem hashmap_find_free_spec (pool : Nat → pna_hashmap) (k i : Nat) :
    i ≤ hashmap_find_free pool k i ∧ hashmap_find_free pool k i ≤ i + k ∧
    (∀ j, i ≤ j → j < hashmap_find_free pool k i → (pool j).n_pairs ≠ 0) ∧
    (hashmap_find_free pool k i < i + k → (pool (hashmap_find_free pool k i)).n_pairs = 0) := by
  induction k generalizing i with
  | zero =>
    refine ⟨le_refl _, le_refl _, ?_, ?_⟩
    · intro j h1 h2
      exact absurd h2 (by simp only [hashmap_find_free]; omega)
    · intro h
      exact absurd h (by simp only [hashmap_find_free]; omega)
  | succ k ih =>
    rw [hashmap_find_free]
    by_cases hz : (pool i).n_pairs = 0
    · rw [if_pos hz]
      exact ⟨le_refl _, by omega, fun j h1 h2 => absurd h2 (by omega), fun _ => hz⟩
    · rw [if_neg hz]
      obtain ⟨a1, a2, a3, a4⟩ := ih (i + 1)
      refine ⟨by omega, by omega, ?_, fun h => a4 (by omega)⟩
      intro j h1 h2
      by_cases hj : j = i
      · rw [hj]; exact hz
      · exact a3 j (by omega) h2

/-- With every entry in use the search runs to the end. -/
theorem hashmap_find_free_full (N : Nat) (pool : Nat → pna_hashmap)
    (h : ∀ i, i < N → (pool i).n_pairs ≠ 0) : hashmap_find_free pool N 0 = N := by
  obtain ⟨_, a2, _, a4⟩ := hashmap_find_free_spec pool N 0
  by_contra hne
  have hlt : hashmap_find_free pool N 0 < 0 + N := by omega
  exact h _ (by omega) (a4 hlt)

/-- The search stops at the lowest-numbered free entry. -/
theorem hashmap_find_free_lowest (N : Nat) (pool : Nat → pna_hashmap) (i : Nat) (hi : i < N)
    (hz : (pool i).n_pairs = 0) (hlow : ∀ j, j < i → (pool j).n_pairs ≠ 0) :
    hashmap_find_free pool N 0 = i := by
  obtain ⟨_, a2, a3, a4⟩ := hashmap_find_free_spec pool N 0
  by_contra hne
  rcases Nat.lt_or_gt_of_ne hne with hlt | hgt
  · exact hlow _ hlt (a4 (by omega))
  · exact a3 i (Nat.zero_le _) hgt hz

/-- The sizing loop ends for every `n_pairs` below `2 ^ 31`, given `k + 1`
rounds from `2 ^ a` with `a + k = 28`. -/
theorem n_buckets_loop_some (n_pairs : Nat) (hn : n_pairs < 2 ^ 31) :
    ∀ k a fuel, a + k = 28 → k < fuel → ∃ r, n_buckets_loop fuel (2 ^ a) n_pairs = some r := by
  intro k
  induction k with
  | zero =>
    intro a fuel ha hf
    obtain ⟨f, rfl⟩ : ∃ f, fuel = f + 1 := ⟨fuel - 1, by omega⟩
    have ha' : a = 28 := by omega
    subst ha'
    rw [n_buckets_loop]
    have h8 : (8 * 2 ^ 28) % U32 = 2 ^ 31 := by decide
    rw [h8, if_neg (by omega)]
    exact ⟨_, rfl⟩
  | succ k ih =>
    intro a fuel ha hf
    obtain ⟨f, rfl⟩ : ∃ f, fuel = f + 1 := ⟨fuel - 1, by omega⟩
    rw [n_buckets_loop]
    split
    · have hs : (2 ^ a <<< 1) % U32 = 2 ^ (a + 1) := by
        rw [Nat.shiftLeft_eq, pow_one, ← pow_succ]
        exact Nat.mod_eq_of_lt (show (2 : Nat) ^ (a + 1) < U32 from
          Nat.pow_lt_pow_right (by decide) (by omega))
      rw [hs]
      exact ih (a + 1) f (by omega) (by omega)
    · exact ⟨_, rfl⟩

theorem hashmap_create_entry_some (n_pairs key_size value_size : Nat) (hn : n_pairs < 2 ^ 31) :
    ∃ m, hashmap_create_entry n_pairs key_size value_size = some m ∧ m.n_pairs = n_pairs := by
  obtain ⟨r, hr⟩ := n_buckets_loop_some n_pairs hn 26 2 64 (by decide) (by decide)
  have hr' : n_buckets_loop 64 4 n_pairs = some r := hr
  unfold hashmap_create_entry
  rw [hr']
  exact ⟨_, rfl, rfl⟩

/-- With a free entry, enough room in the sizing and both allocations
succeeding, `hashmap_create` returns the entry the search stops at, set up as
`hashmap_create_entry` describes. -/
theorem hashmap_create_at (N : Nat) (pool : Nat → pna_hashmap)
    (n_pairs key_size value_size : Nat) (m : pna_hashmap)
    (hm : hashmap_create_entry n_pairs key_size value_size = some m)
    (hfree : hashmap_find_free pool N 0 ≠ N) :
    hashmap_create N pool n_pairs key_size value_size true true =
      some (some (hashmap_find_free pool N 0), upd pool (hashmap_find_free pool N 0) m) := by
  unfold hashmap_create_entry at hm
  unfold hashmap_create
  dsimp only
  rw [if_neg hfree]
  cases hl : n_buckets_loop 64 4 n_pairs with
  | none => simp [hl] at hm
  | some nb =>
    rw [hl] at hm
    simp only [Option.some.injEq] at hm
    subst hm
    rfl

theorem hashmap_create_full (N : Nat) (pool : Nat → pna_hashmap)
    (n_pairs key_size value_size : Nat) (b1 b2 : Bool)
    (h : ∀ i, i < N → (pool i).n_pairs ≠ 0) :
    hashmap_create N pool n_pairs key_size value_size b1 b2 = some (none, pool) := by
  unfold hashmap_create
  dsimp only
  rw [if_pos (hashmap_find_free_full N pool h)]

/-- A create that returns an entry takes a free entry of the pool and, for
`n_pairs > 0`, puts it in use; the other entries stay as they are. -/
theorem hashmap_create_used (N : Nat) (pool pool1 : Nat → pna_hashmap)
    (n_pairs key_size value_size i : Nat) (hn : 0 < n_pairs)
    (h : hashmap_create N pool n_pairs key_size value_size true true = some (some i, pool1)) :
    i < N ∧ (pool i).n_pairs = 0 ∧ (pool1 i).n_pairs = n_pairs ∧
    (∀ j, j ≠ i → pool1 j = pool j) ∧
    hashmap_pool_used N pool1 = insert i (hashmap_pool_used N pool) := by
  obtain ⟨_, a2, _, a4⟩ := hashmap_find_free_spec pool N 0
  unfold hashmap_create at h
  dsimp only at h
  by_cases hfull : hashmap_find_free pool N 0 = N
  · rw [if_pos hfull] at h
    simp at h
  · rw [if_neg hfull] at h
    cases hl : n_buckets_loop 64 4 n_pairs with
    | none => rw [hl] at h; simp at h
    | some nb =>
      rw [hl] at h
      simp only [Bool.true_eq_false, if_false, Option.some.injEq, Prod.mk.injEq] at h
      obtain ⟨hi, hp⟩ := h
      subst hi
      subst hp
      have hlt : hashmap_find_free pool N 0 < N := by omega
      have hz : (pool (hashmap_find_free pool N 0)).n_pairs = 0 := a4 (by omega)
      refine ⟨hlt, hz, by simp [upd, hashmap_reset], fun j hj => by simp [upd, hj], ?_⟩
      ext j
      simp only [hashmap_pool_used, Finset.mem_filter, Finset.mem_range, Finset.mem_insert]
      by_cases hj : j = hashmap_find_free pool N 0
      · subst hj
        simp [upd, hashmap_reset, hlt]
        omega
      · simp [upd, hj]

theorem hashmap_creates_used (N : Nat) :
    ∀ (reqs : List (Nat × Nat × Nat)) (pool pool1 : Nat → pna_hashmap)
      (results : List (Option Nat)),
      hashmap_creates N pool reqs = some (results, pool1) →
      (∀ r ∈ reqs, 0 < r.1) → (∀ x ∈ results, x ≠ none) →
      (hashmap_pool_used N pool1).card = (hashmap_pool_used N pool).card + reqs.length := by
  intro reqs
  induction reqs with
  | nil =>
    intro pool pool1 results h _ _
    simp only [hashmap_creates, Option.some.injEq, Prod.mk.injEq] at h
    rw [← h.2]
    rfl
  | cons r rest ih =>
    intro pool pool1 results h hpos hok
    rw [hashmap_creates] at h
    cases hc : hashmap_create N pool r.1 r.2.1 r.2.2 true true with
    | none => rw [hc] at h; simp at h
    | some p =>
      obtain ⟨res, pool2⟩ := p
      rw [hc] at h
      dsimp only at h
      cases hr : hashmap_creates N pool2 rest with
      | none => rw [hr] at h; simp at h
      | some q =>
        obtain ⟨l, pool3⟩ := q
        rw [hr] at h
        simp only [Option.some.injEq, Prod.mk.injEq] at h
        obtain ⟨h1, h2⟩ := h
        subst h1
        subst h2
        have hres : res ≠ none := hok res (List.mem_cons_self _ _)
        obtain ⟨i, rfl⟩ : ∃ i, res = some i := Option.ne_none_iff_exists'.mp hres
        obtain ⟨hi, hz, _, _, hu⟩ := hashmap_create_used N pool pool2 r.1 r.2.1 r.2.2 i
          (hpos r (List.mem_cons_self _ _)) hc
        have hnot : i ∉ hashmap_pool_used N pool := by
          simp only [hashmap_pool_used, Finset.mem_filter, Finset.mem_range, not_and, not_not]
          exact fun _ => hz
        have := ih pool2 pool3 l hr (fun x hx => hpos x (List.mem_cons_of_mem _ hx))
          (fun x hx => hok x (List.mem_cons_of_mem _ hx))
        rw [this, hu, Finset.card_insert_of_not_mem hnot, List.length_cons]
        omega

theorem hashmap_pool_used_all (N : Nat) (pool : Nat → pna_hashmap)
    (h : N ≤ (hashmap_pool_used N pool).card) : ∀ i, i < N → (pool i).n_pairs ≠ 0 := by
  have hsub : hashmap_pool_used N pool ⊆ Finset.range N := Finset.filter_subset _ _
  have heq : hashmap_pool_used N pool = Finset.range N :=
    Finset.eq_of_subset_of_card_le hsub (by rw [Finset.card_range]; exact h)
  intro i hi
  have : i ∈ hashmap_pool_used N pool := by rw [heq]; exact Finset.mem_range.mpr hi
  simp only [hashmap_pool_used, Finset.mem_filter] at this
  exact this.2

/-- C21. `hashmap_create` returns `NULL` and leaves the pool as it is whenever
every one of the `PNA_NHASHMAPS` entries has `n_pairs != 0`. Otherwise, the
sizing loop ending (`n_pairs < 2 ^ 31`) and both allocations succeeding, it
returns the lowest-numbered entry whose `n_pairs` is 0, set up for the
request. So after `PNA_NHASHMAPS` creates with `n_pairs > 0` that all returned
an entry, from any pool and with no destroy, the next create returns `NULL`;
`hashmap_destroy` of an entry `j` zeroes its `n_pairs`, sizes and masks, and
then one further create returns entry `j` again, after which the pool is
exhausted as before. -/
theorem hashmap_pool_spec (N : Nat) (pool : Nat → pna_hashmap)
    (n_pairs key_size value_size : Nat) :
    ((∀ i, i < N → (pool i).n_pairs ≠ 0) →
      ∀ b1 b2, hashmap_create N pool n_pairs key_size value_size b1 b2 = some (none, pool)) ∧
    (∀ i, i < N → (pool i).n_pairs = 0 → (∀ j, j < i → (pool j).n_pairs ≠ 0) →
      n_pairs < 2 ^ 31 →
      ∃ m, hashmap_create_entry n_pairs key_size value_size = some m ∧
        hashmap_create N pool n_pairs key_size value_size true true =
          some (some i, upd pool i m)) ∧
    (∀ reqs results pool1, hashmap_creates N pool reqs = some (results, pool1) →
      reqs.length = N → (∀ r ∈ reqs, 0 < r.1) → (∀ x ∈ results, x ≠ none) →
      (∀ n k v b1 b2, hashmap_create N pool1 n k v b1 b2 = some (none, pool1)) ∧
      (∀ j, j < N →
        (hashmap_destroy pool1 j j).n_pairs = 0 ∧
        (hashmap_destroy pool1 j j).key_size = 0 ∧
        (hashmap_destroy pool1 j j).value_size = 0 ∧
        (hashmap_destroy pool1 j j).n_buckets = 0 ∧
        (hashmap_destroy pool1 j j).bkt_mask = 0 ∧
        (hashmap_destroy pool1 j j).kvx_mask = 0 ∧
        (hashmap_destroy pool1 j j).fp_mask = 0 ∧
        (∀ x, x ≠ j → hashmap_destroy pool1 j x = pool1 x) ∧
        (0 < n_pairs → n_pairs < 2 ^ 31 →
          ∃ m, hashmap_create_entry n_pairs key_size value_size = some m ∧
            hashmap_create N (hashmap_destroy pool1 j) n_pairs key_size value_size true true =
              some (some j, upd (hashmap_destroy pool1 j) j m) ∧
            ∀ n k v b1 b2,
              hashmap_create N (upd (hashmap_destroy pool1 j) j m) n k v b1 b2 =
                some (none, upd (hashmap_destroy pool1 j) j m)))) := by
  refine ⟨?_, ?_, ?_⟩
  · intro h b1 b2
    exact hashmap_create_full N pool n_pairs key_size value_size b1 b2 h
  · intro i hi hz hlow hn
    obtain ⟨m, hm, _⟩ := hashmap_create_entry_some n_pairs key_size value_size hn
    have hf := hashmap_find_free_lowest N pool i hi hz hlow
    have := hashmap_create_at N pool n_pairs key_size value_size m hm (by rw [hf]; omega)
    rw [hf] at this
    exact ⟨m, hm, this⟩
  · intro reqs results pool1 hcs hlen hpos hok
    have hcard := hashmap_creates_used N reqs pool pool1 results hcs hpos hok
    have hall := hashmap_pool_used_all N pool1 (by rw [hcard, hlen]; omega)
    refine ⟨fun n k v b1 b2 => hashmap_create_full N pool1 n k v b1 b2 hall, ?_⟩
    intro j hj
    have hother : ∀ x, x ≠ j → hashmap_destroy pool1 j x = pool1 x := by
      intro x hx
      simp [hashmap_destroy, upd, hx]
    refine ⟨by simp [hashmap_destroy, upd], by simp [hashmap_destroy, upd],
      by simp [hashmap_destroy, upd], by simp [hashmap_destroy, upd],
      by simp [hashmap_destroy, upd], by simp [hashmap_destroy, upd],
      by simp [hashmap_destroy, upd], hother, ?_⟩
    intro hp hn
    obtain ⟨m, hm, hmn⟩ := hashmap_create_entry_some n_pairs key_size value_size hn
    have hz : (hashmap_destroy pool1 j j).n_pairs = 0 := by simp [hashmap_destroy, upd]
    have hlow : ∀ x, x < j → (hashmap_destroy pool1 j x).n_pairs ≠ 0 := by
      intro x hx
      rw [hother x (by omega)]
      exact hall x (by omega)
    have hf := hashmap_find_free_lowest N (hashmap_destroy pool1 j) j hj hz hlow
    have hc := hashmap_create_at N (hashmap_destroy pool1 j) n_pairs key_size value_size m hm
      (by rw [hf]; omega)
    rw [hf] at hc
    refine ⟨m, hm, hc, ?_⟩
    intro n k v b1 b2
    apply hashmap_create_full
    intro x hx
    by_cases hxj : x = j
    · subst hxj
      simp only [upd, if_true]
      omega
    · simp only [upd, if_neg hxj]
      rw [hother x hxj]
      exact hall x hx

/-- A pool of two entries from module load: two creates take entries 0 and 1,
the third create fails, and after `hashmap_destroy` of entry 0 a create
takes entry 0 again. -/
theorem hashmap_pool_example :
    (hashmap_creates 2 hashmap_pool_zero [(4, 1, 1), (16, 1, 1), (4, 1, 1)]).map Prod.fst =
      some [some 0, some 1, none] ∧
    ((hashmap_creates 2 hashmap_pool_zero [(4, 1, 1), (16, 1, 1)]).bind
      (fun r => (hashmap_create 2 (hashmap_destroy r.2 0) 1024 8 8 true true).map Prod.fst)) =
      some (some 0) := by
  constructor <;> decide

/-! ### The performance sampler -/

/-- Away from the deadline `pna_perflog` only counts the packet. -/
theorem pna_perflog_no_sample (P : pna_consts) (K : perf_kernel) (perf : pna_perf)
    (dir L : Nat) (R : perf_reading) (h : time_after_eq64 R.jiffies_test perf.t_jiffies = false) :
    pna_perflog P K perf dir L R = some (perf_count perf dir L, []) := by
  unfold pna_perflog
  rw [h]
  rfl

/-- The counters after `perf_count`. -/
theorem perf_count_counters (perf : pna_perf) (dir L : Nat) :
    (perf_count perf dir L).p_interval dir = (perf.p_interval dir + 1) % U32 ∧
    (perf_count perf dir L).B_interval dir = (perf.B_interval dir + (L + 20)) % U32 ∧
    (∀ d, d ≠ dir → (perf_count perf dir L).p_interval d = perf.p_interval d ∧
      (perf_count perf dir L).B_interval d = perf.B_interval d) ∧
    (perf_count perf dir L).t_jiffies = perf.t_jiffies := by
  refine ⟨by simp [perf_count, upd], by simp [perf_count, upd, ETH_OVERHEAD,
    ETH_INTERFRAME_GAP, ETH_PREAMBLE], fun d hd => by simp [perf_count, upd, hd], rfl⟩

/-- At or past the deadline, with a sampling interval that is not 0 seconds
modulo `2 ^ 32`, `pna_perflog` returns: it reports if and only if
`fps_in + fps_out > 1000`, zeroes the counters, moves the deadline and
counts the packet, so the counters hold the triggering packet alone. -/
theorem pna_perflog_sample (P : pna_consts) (K : perf_kernel) (perf : pna_perf)
    (dir L : Nat) (R : perf_reading)
    (hdir : dir = P.PNA_DIR_INBOUND ∨ dir = P.PNA_DIR_OUTBOUND)
    (h : time_after_eq64 R.jiffies_test perf.t_jiffies = true)
    (ht : ((R.now.tv_sec - perf.prevtime.tv_sec) % (U32 : Int)).toNat ≠ 0) :
    ∃ perf1 lines, pna_perflog P K perf dir L R = some (perf1, lines) ∧
      perf1.p_interval dir = 1 ∧ perf1.B_interval dir = (L + 20) % U32 ∧
      (∀ d, d ≠ dir → d = P.PNA_DIR_INBOUND ∨ d = P.PNA_DIR_OUTBOUND →
        perf1.p_interval d = 0 ∧ perf1.B_interval d = 0) ∧
      perf1.t_jiffies =
        (K.msecs_to_jiffies (PERF_INTERVAL * K.MSEC_PER_SEC) + R.jiffies_set) % U64 ∧
      perf1.prevtime = R.now ∧
      ((perf_line.throughput
          (perf.p_interval P.PNA_DIR_INBOUND /
            ((R.now.tv_sec - perf.prevtime.tv_sec) % (U32 : Int)).toNat)
          (perf.B_interval P.PNA_DIR_INBOUND / 125000 /
            ((R.now.tv_sec - perf.prevtime.tv_sec) % (U32 : Int)).toNat)
          (perf_avg (perf.p_interval P.PNA_DIR_INBOUND) (perf.B_interval P.PNA_DIR_INBOUND))
          (perf.p_interval P.PNA_DIR_OUTBOUND /
            ((R.now.tv_sec - perf.prevtime.tv_sec) % (U32 : Int)).toNat)
          (perf.B_interval P.PNA_DIR_OUTBOUND / 125000 /
            ((R.now.tv_sec - perf.prevtime.tv_sec) % (U32 : Int)).toNat)
          (perf_avg (perf.p_interval P.PNA_DIR_OUTBOUND)
            (perf.B_interval P.PNA_DIR_OUTBOUND))) ∈ lines ↔
        (perf.p_interval P.PNA_DIR_INBOUND /
            ((R.now.tv_sec - perf.prevtime.tv_sec) % (U32 : Int)).toNat +
          perf.p_interval P.PNA_DIR_OUTBOUND /
            ((R.now.tv_sec - perf.prevtime.tv_sec) % (U32 : Int)).toNat) % U32 > 1000) ∧
      (lines = [] ↔
        ¬ (perf.p_interval P.PNA_DIR_INBOUND /
            ((R.now.tv_sec - perf.prevtime.tv_sec) % (U32 : Int)).toNat +
          perf.p_interval P.PNA_DIR_OUTBOUND /
            ((R.now.tv_sec - perf.prevtime.tv_sec) % (U32 : Int)).toNat) % U32 > 1000) := by
  unfold pna_perflog
  rw [h, if_pos rfl]
  unfold perf_sample
  dsimp only
  rw [if_neg ht]
  dsimp only
  refine ⟨_, _, rfl, ?_, ?_, ?_, rfl, rfl, ?_, ?_⟩
  · rcases hdir with hd | hd <;> simp [perf_count, upd, hd] <;> decide
  · rcases hdir with hd | hd <;>
      simp [perf_count, upd, hd, ETH_OVERHEAD, ETH_INTERFRAME_GAP, ETH_PREAMBLE]
  · intro d hd hd2
    rcases hd2 with h2 | h2 <;> subst h2 <;> simp [perf_count, upd, hd]
  · by_cases hr : (perf.p_interval P.PNA_DIR_INBOUND /
            ((R.now.tv_sec - perf.prevtime.tv_sec) % (U32 : Int)).toNat +
          perf.p_interval P.PNA_DIR_OUTBOUND /
            ((R.now.tv_sec - perf.prevtime.tv_sec) % (U32 : Int)).toNat) % U32 > 1000
    · simp [hr]
    · simp [hr]
  · by_cases hr : (perf.p_interval P.PNA_DIR_INBOUND /
            ((R.now.tv_sec - perf.prevtime.tv_sec) % (U32 : Int)).toNat +
          perf.p_interval P.PNA_DIR_OUTBOUND /
            ((R.now.tv_sec - perf.prevtime.tv_sec) % (U32 : Int)).toNat) % U32 > 1000
    · simp [hr]
    · simp [hr]

/-- At or past the deadline, with a sampling interval of 0 seconds modulo
`2 ^ 32`, `pna_perflog` divides by zero. -/
theorem pna_perflog_trap (P : pna_consts) (K : perf_kernel) (perf : pna_perf)
    (dir L : Nat) (R : perf_reading)
    (h : time_after_eq64 R.jiffies_test perf.t_jiffies = true)
    (ht : ((R.now.tv_sec - perf.prevtime.tv_sec) % (U32 : Int)).toNat = 0) :
    pna_perflog P K perf dir L R = none := by
  unfold pna_perflog
  rw [h, if_pos rfl]
  unfold perf_sample
  dsimp only
  rw [if_pos ht]

/-- C22. A sampling call whose wall-clock second equals the second of the
previous sample does not end: with the deadline reached and
`currtime.tv_sec - prevtime.tv_sec = 0`, `pna_perflog` divides
`p_interval[PNA_DIR_INBOUND]` by `t_interval = 0` at line 243, so no counter
is updated and no deadline is set. The same record with the clock ten seconds
on is sampled as described: the report is printed (5000 frames per second),
the deadline moves to jiffy 25000 and the counters hold the triggering
packet. -/
theorem pna_perflog_same_second_traps :
    time_after_eq64 example_reading_clock_set_back.jiffies_test example_perf.t_jiffies = true ∧
    pna_perflog example_consts example_perf_kernel example_perf 1 60
      example_reading_clock_set_back = none ∧
    (pna_perflog example_consts example_perf_kernel example_perf 1 60 example_reading).map
        (fun r => (r.1.p_interval 1, r.1.B_interval 1, r.1.p_interval 0, r.1.B_interval 0,
          r.1.t_jiffies, r.2)) =
      some (1, 80, 0, 0, 25000,
        [perf_line.throughput 3000 2 80 2000 1 80, perf_line.rx_stats 50000 0]) := by
  refine ⟨by decide, ?_, ?_⟩
  · exact pna_perflog_trap _ _ _ _ _ _ (by decide) (by decide)
  · rfl

/-! ### The packet hook -/

theorem pna_decode_some (N : net_consts) (skb : pna_packet) (key : pna_flowkey)
    (h : pna_decode N skb = some key) :
    skb.h_proto = N.ETH_P_IP ∧ (skb.protocol = N.IPPROTO_TCP ∨ skb.protocol = N.IPPROTO_UDP) ∧
    key = { l3_protocol := skb.h_proto, l4_protocol := skb.protocol, local_ip := skb.saddr,
            remote_ip := skb.daddr, local_port := skb.source, remote_port := skb.dest } := by
  unfold pna_decode at h
  dsimp only at h
  by_cases h3 : skb.h_proto = N.ETH_P_IP
  · rw [if_pos h3] at h
    by_cases h4 : skb.protocol = N.IPPROTO_TCP
    · rw [if_pos h4] at h
      exact ⟨h3, Or.inl h4, (Option.some.inj h).symm⟩
    · rw [if_neg h4] at h
      by_cases h5 : skb.protocol = N.IPPROTO_UDP
      · rw [if_pos h5] at h
        exact ⟨h3, Or.inr h5, (Option.some.inj h).symm⟩
      · rw [if_neg h5] at h
        exact absurd h (by simp)
  · rw [if_neg h3] at h
    exact absurd h (by simp)

theorem pna_decode_pkt_type (N : net_consts) (skb : pna_packet) (t : Nat) :
    pna_decode N { skb with pkt_type := t } = pna_decode N skb := rfl

theorem pna_localize_ret (P : pna_consts) ( pna_prefix pna_mask : Nat) (key : pna_flowkey)
    (direction : Nat) :
    (pna_localize P pna_prefix pna_mask key direction).1 = 0 ∨
    (pna_localize P pna_prefix pna_mask key direction).1 = 1 := by
  unfold pna_localize
  split
  · exact Or.inr rfl
  · split
    · exact Or.inr rfl
    · exact Or.inl rfl

/-- A packet that `pna_hook` turns away before the monitors (outgoing, not
decoded, or not localized) leaves the state as it is, and the only call made
is `kfree_skb`. -/
theorem pna_hook_reject {σ : Type} (P : pna_consts) (N : net_consts) (K : perf_kernel)
    ( pna_prefix pna_mask : Nat) (pna_perfmon pna_flowmon pna_rtmon PIPELINE_MODE : Bool)
    (flowmon_hook : σ → pna_flowkey → Nat → pna_packet → Int × σ)
    (rtmon_hook : σ → pna_flowkey → Nat → pna_packet → Nat → Int × σ)
    (st : hook_state σ) (skb : pna_packet) (R : perf_reading)
    (h : skb.pkt_type = N.PACKET_OUTGOING ∨ pna_decode N skb = none ∨
      ∃ key0, pna_decode N skb = some key0 ∧
        (pna_localize P pna_prefix pna_mask key0 0).1 = 0) :
    pna_hook P N K pna_prefix pna_mask pna_perfmon pna_flowmon pna_rtmon PIPELINE_MODE
        flowmon_hook rtmon_hook st skb R = (some N.NET_RX_DROP, st, [.kfree_skb]) ∨
    pna_hook P N K pna_prefix pna_mask pna_perfmon pna_flowmon pna_rtmon PIPELINE_MODE
        flowmon_hook rtmon_hook st skb R = (some N.NET_RX_DROP, st, []) := by
  unfold pna_hook
  by_cases h1 : skb.pkt_type = N.PACKET_OUTGOING
  · rw [if_pos h1]
    exact Or.inl rfl
  · rw [if_neg h1]
    dsimp only
    by_cases h2 : skb.share_check_ok = false
    · rw [if_pos h2]
      exact Or.inr rfl
    · rw [if_neg h2, pna_decode_pkt_type]
      rcases h with h | h | ⟨key0, h, hl⟩
      · exact absurd h h1
      · rw [h]
        exact Or.inl rfl
      · rw [h]
        dsimp only
        rw [if_pos hl]
        exact Or.inl rfl

/-- The result of `pna_hook` on a packet that reaches the monitors: not
outgoing, exclusively owned, decoded to `key0` and localized. -/
theorem pna_hook_accept {σ : Type} (P : pna_consts) (N : net_consts) (K : perf_kernel)
    ( pna_prefix pna_mask : Nat) (pna_perfmon pna_flowmon pna_rtmon PIPELINE_MODE : Bool)
    (flowmon_hook : σ → pna_flowkey → Nat → pna_packet → Int × σ)
    (rtmon_hook : σ → pna_flowkey → Nat → pna_packet → Nat → Int × σ)
    (st : hook_state σ) (skb : pna_packet) (R : perf_reading) (key0 : pna_flowkey)
    (h1 : skb.pkt_type ≠ N.PACKET_OUTGOING) (h2 : skb.share_check_ok = true)
    (h3 : pna_decode N skb = some key0)
    (h4 : (pna_localize P pna_prefix pna_mask key0 0).1 = 1) :
    pna_hook P N K pna_prefix pna_mask pna_perfmon pna_flowmon pna_rtmon PIPELINE_MODE
        flowmon_hook rtmon_hook st skb R =
      match pna_hook_perf P K pna_perfmon st.perf
          (pna_localize P pna_prefix pna_mask key0 0).2.2 skb.frame_len R with
      | none => (none, st, [])
      | some (perf1, calls1) =>
        (some N.NET_RX_DROP,
          { perf := perf1
            tables := (pna_hook_monitors pna_flowmon pna_rtmon PIPELINE_MODE flowmon_hook
              rtmon_hook st.tables (pna_localize P pna_prefix pna_mask key0 0).2.1
              (pna_localize P pna_prefix pna_mask key0 0).2.2
              { skb with pkt_type := N.PACKET_OTHERHOST }).1 },
          calls1 ++ (pna_hook_monitors pna_flowmon pna_rtmon PIPELINE_MODE flowmon_hook
              rtmon_hook st.tables (pna_localize P pna_prefix pna_mask key0 0).2.1
              (pna_localize P pna_prefix pna_mask key0 0).2.2
              { skb with pkt_type := N.PACKET_OTHERHOST }).2) := by
  unfold pna_hook
  rw [if_neg h1]
  dsimp only
  rw [if_neg (by simp [h2]), pna_decode_pkt_type, h3]
  dsimp only
  rw [if_neg (by omega)]

theorem pna_hook_perf_calls (P : pna_consts) (K : perf_kernel) (pna_perfmon : Bool)
    (perf : pna_perf) (direction L : Nat) (R : perf_reading) (perf1 : pna_perf)
    (calls1 : List hook_call)
    (h : pna_hook_perf P K pna_perfmon perf direction L R = some (perf1, calls1)) :
    ∀ c ∈ calls1, ∃ d l, c = hook_call.pna_perflog d l := by
  unfold pna_hook_perf at h
  cases pna_perfmon with
  | false =>
    simp only [Bool.false_eq_true, if_false, Option.some.injEq, Prod.mk.injEq] at h
    rw [← h.2]
    simp
  | true =>
    simp only [if_true] at h
    cases hp : pna_perflog P K perf direction L R with
    | none => rw [hp] at h; simp at h
    | some r =>
      rw [hp] at h
      simp only [Option.some.injEq, Prod.mk.injEq] at h
      rw [← h.2]
      intro c hc
      exact ⟨_, _, List.mem_singleton.mp hc⟩

/-- The `flowmon_hook` calls among the calls of the monitors block. -/
theorem pna_hook_monitors_flowmon {σ : Type} (pna_flowmon pna_rtmon PIPELINE_MODE : Bool)
    (flowmon_hook : σ → pna_flowkey → Nat → pna_packet → Int × σ)
    (rtmon_hook : σ → pna_flowkey → Nat → pna_packet → Nat → Int × σ)
    (tables : σ) (key : pna_flowkey) (direction : Nat) (skb : pna_packet)
    (k : pna_flowkey) (d : Nat) (r : Int) :
    hook_call.flowmon_hook k d r ∈ (pna_hook_monitors pna_flowmon pna_rtmon PIPELINE_MODE
        flowmon_hook rtmon_hook tables key direction skb).2 ↔
      pna_flowmon = true ∧ k = key ∧ d = direction ∧
        r = (flowmon_hook tables key direction skb).1 := by
  unfold pna_hook_monitors
  cases pna_flowmon <;> cases pna_rtmon <;> cases PIPELINE_MODE <;> simp <;> split <;> simp

/-- The `rtmon_hook` calls among the calls of the monitors block. -/
theorem pna_hook_monitors_rtmon {σ : Type} (pna_flowmon pna_rtmon PIPELINE_MODE : Bool)
    (flowmon_hook : σ → pna_flowkey → Nat → pna_packet → Int × σ)
    (rtmon_hook : σ → pna_flowkey → Nat → pna_packet → Nat → Int × σ)
    (tables : σ) (key : pna_flowkey) (direction : Nat) (skb : pna_packet)
    (k : pna_flowkey) (d x : Nat) :
    hook_call.rtmon_hook k d x ∈ (pna_hook_monitors pna_flowmon pna_rtmon PIPELINE_MODE
        flowmon_hook rtmon_hook tables key direction skb).2 ↔
      pna_flowmon = true ∧ 0 ≤ (flowmon_hook tables key direction skb).1 ∧
        pna_rtmon = true ∧ k = key ∧ d = direction ∧
        x = (flowmon_hook tables key direction skb).1.toNat := by
  unfold pna_hook_monitors
  cases pna_flowmon <;> cases pna_rtmon <;> cases PIPELINE_MODE <;> simp <;> split <;>
    simp <;> omega

/-- The two ways `pna_hook` ends: before the monitors, with the state as it
was and at most a `kfree_skb`, or through the monitors block on the localized
key of a packet that is not outgoing and was decoded. -/
theorem pna_hook_cases {σ : Type} (P : pna_consts) (N : net_consts) (K : perf_kernel)
    ( pna_prefix pna_mask : Nat) (pna_perfmon pna_flowmon pna_rtmon PIPELINE_MODE : Bool)
    (flowmon_hook : σ → pna_flowkey → Nat → pna_packet → Int × σ)
    (rtmon_hook : σ → pna_flowkey → Nat → pna_packet → Nat → Int × σ)
    (st : hook_state σ) (skb : pna_packet) (R : perf_reading) :
    ((pna_hook P N K pna_prefix pna_mask pna_perfmon pna_flowmon pna_rtmon PIPELINE_MODE
          flowmon_hook rtmon_hook st skb R).2.1 = st ∧
      ((pna_hook P N K pna_prefix pna_mask pna_perfmon pna_flowmon pna_rtmon PIPELINE_MODE
          flowmon_hook rtmon_hook st skb R).2.2 = [] ∨
       (pna_hook P N K pna_prefix pna_mask pna_perfmon pna_flowmon pna_rtmon PIPELINE_MODE
          flowmon_hook rtmon_hook st skb R).2.2 = [.kfree_skb])) ∨
    (skb.pkt_type ≠ N.PACKET_OUTGOING ∧ skb.share_check_ok = true ∧
      ∃ key0 perf1 calls1, pna_decode N skb = some key0 ∧
        (pna_localize P pna_prefix pna_mask key0 0).1 = 1 ∧
        pna_hook_perf P K pna_perfmon st.perf
          (pna_localize P pna_prefix pna_mask key0 0).2.2 skb.frame_len R =
            some (perf1, calls1) ∧
        pna_hook P N K pna_prefix pna_mask pna_perfmon pna_flowmon pna_rtmon PIPELINE_MODE
          flowmon_hook rtmon_hook st skb R =
        (some N.NET_RX_DROP,
          { perf := perf1
            tables := (pna_hook_monitors pna_flowmon pna_rtmon PIPELINE_MODE flowmon_hook
              rtmon_hook st.tables (pna_localize P pna_prefix pna_mask key0 0).2.1
              (pna_localize P pna_prefix pna_mask key0 0).2.2
              { skb with pkt_type := N.PACKET_OTHERHOST }).1 },
          calls1 ++ (pna_hook_monitors pna_flowmon pna_rtmon PIPELINE_MODE flowmon_hook
              rtmon_hook st.tables (pna_localize P pna_prefix pna_mask key0 0).2.1
              (pna_localize P pna_prefix pna_mask key0 0).2.2
              { skb with pkt_type := N.PACKET_OTHERHOST }).2)) := by
  have hrej := pna_hook_reject P N K pna_prefix pna_mask pna_perfmon pna_flowmon pna_rtmon
    PIPELINE_MODE flowmon_hook rtmon_hook st skb R
  by_cases h1 : skb.pkt_type = N.PACKET_OUTGOING
  · rcases hrej (Or.inl h1) with e | e <;> rw [e] <;> simp
  · by_cases h2 : skb.share_check_ok = true
    · cases h3 : pna_decode N skb with
      | none => rcases hrej (Or.inr (Or.inl h3)) with e | e <;> rw [e] <;> simp
      | some key0 =>
        rcases pna_localize_ret P pna_prefix pna_mask key0 0 with h4 | h4
        · rcases hrej (Or.inr (Or.inr ⟨key0, h3, h4⟩)) with e | e <;> rw [e] <;> simp
        · have hacc := pna_hook_accept P N K pna_prefix pna_mask pna_perfmon pna_flowmon
            pna_rtmon PIPELINE_MODE flowmon_hook rtmon_hook st skb R key0 h1 h2 h3 h4
          cases hp : pna_hook_perf P K pna_perfmon st.perf
              (pna_localize P pna_prefix pna_mask key0 0).2.2 skb.frame_len R with
          | none =>
            rw [hp] at hacc
            left
            rw [hacc]
            simp
          | some r =>
            obtain ⟨perf1, calls1⟩ := r
            rw [hp] at hacc
            right
            exact ⟨h1, h2, key0, perf1, calls1, rfl, h4, hp, hacc⟩
    · left
      have h2f : skb.share_check_ok = false := by simpa using h2
      unfold pna_hook
      rw [if_neg h1]
      dsimp only
      rw [if_pos h2f]
      simp

/-- C23. For every packet and every setting of the switches: `pna_hook` calls
`flowmon_hook` only if the packet is not `PACKET_OUTGOING`, its L3 protocol is
`ETH_P_IP`, its L4 protocol is TCP or UDP, `pna_localize` returned 1 on the
decoded key (the call gets the localized key and direction) and `pna_flowmon`
is set; it calls `rtmon_hook` if and only if it called `flowmon_hook`, that
call returned a non-negative value and `pna_rtmon` is set; a packet that is
outgoing, not decoded or not localized leaves the performance record and the
tables as they were, and nothing but `kfree_skb` is called for it. Conversely
a packet passing those tests with an exclusive buffer, `pna_flowmon` set and
`pna_perflog` returning does reach `flowmon_hook`. -/
theorem pna_hook_gating {σ : Type} (P : pna_consts) (N : net_consts) (K : perf_kernel)
    ( pna_prefix pna_mask : Nat) (pna_perfmon pna_flowmon pna_rtmon PIPELINE_MODE : Bool)
    (flowmon_hook : σ → pna_flowkey → Nat → pna_packet → Int × σ)
    (rtmon_hook : σ → pna_flowkey → Nat → pna_packet → Nat → Int × σ)
    (st : hook_state σ) (skb : pna_packet) (R : perf_reading) :
    (∀ k d r, hook_call.flowmon_hook k d r ∈
        (pna_hook P N K pna_prefix pna_mask pna_perfmon pna_flowmon pna_rtmon PIPELINE_MODE
          flowmon_hook rtmon_hook st skb R).2.2 →
      skb.pkt_type ≠ N.PACKET_OUTGOING ∧ skb.h_proto = N.ETH_P_IP ∧
      (skb.protocol = N.IPPROTO_TCP ∨ skb.protocol = N.IPPROTO_UDP) ∧
      (∃ key0, pna_decode N skb = some key0 ∧
        pna_localize P pna_prefix pna_mask key0 0 = (1, k, d)) ∧
      pna_flowmon = true) ∧
    ((∃ k d x, hook_call.rtmon_hook k d x ∈
        (pna_hook P N K pna_prefix pna_mask pna_perfmon pna_flowmon pna_rtmon PIPELINE_MODE
          flowmon_hook rtmon_hook st skb R).2.2) ↔
      (∃ k d r, hook_call.flowmon_hook k d r ∈
        (pna_hook P N K pna_prefix pna_mask pna_perfmon pna_flowmon pna_rtmon PIPELINE_MODE
          flowmon_hook rtmon_hook st skb R).2.2 ∧ 0 ≤ r) ∧ pna_rtmon = true) ∧
    (skb.pkt_type = N.PACKET_OUTGOING ∨ pna_decode N skb = none ∨
        (∃ key0, pna_decode N skb = some key0 ∧
          (pna_localize P pna_prefix pna_mask key0 0).1 = 0) →
      (pna_hook P N K pna_prefix pna_mask pna_perfmon pna_flowmon pna_rtmon PIPELINE_MODE
          flowmon_hook rtmon_hook st skb R).1 = some N.NET_RX_DROP ∧
      (pna_hook P N K pna_prefix pna_mask pna_perfmon pna_flowmon pna_rtmon PIPELINE_MODE
          flowmon_hook rtmon_hook st skb R).2.1 = st ∧
      ∀ c ∈ (pna_hook P N K pna_prefix pna_mask pna_perfmon pna_flowmon pna_rtmon
          PIPELINE_MODE flowmon_hook rtmon_hook st skb R).2.2, c = hook_call.kfree_skb) ∧
    (∀ key0, skb.pkt_type ≠ N.PACKET_OUTGOING → skb.share_check_ok = true →
      pna_decode N skb = some key0 → (pna_localize P pna_prefix pna_mask key0 0).1 = 1 →
      pna_flowmon = true →
      pna_hook_perf P K pna_perfmon st.perf (pna_localize P pna_prefix pna_mask key0 0).2.2
        skb.frame_len R ≠ none →
      hook_call.flowmon_hook (pna_localize P pna_prefix pna_mask key0 0).2.1
          (pna_localize P pna_prefix pna_mask key0 0).2.2
          (flowmon_hook st.tables (pna_localize P pna_prefix pna_mask key0 0).2.1
            (pna_localize P pna_prefix pna_mask key0 0).2.2
            { skb with pkt_type := N.PACKET_OTHERHOST }).1 ∈
        (pna_hook P N K pna_prefix pna_mask pna_perfmon pna_flowmon pna_rtmon PIPELINE_MODE
          flowmon_hook rtmon_hook st skb R).2.2) := by
  have hcases := pna_hook_cases P N K pna_prefix pna_mask pna_perfmon pna_flowmon pna_rtmon
    PIPELINE_MODE flowmon_hook rtmon_hook st skb R
  refine ⟨?_, ?_, ?_, ?_⟩
  · intro k d r hmem
    rcases hcases with ⟨_, e | e⟩ | ⟨h1, h2, key0, perf1, calls1, h3, h4, hp, e⟩
    · rw [e] at hmem; simp at hmem
    · rw [e] at hmem; simp at hmem
    · rw [e] at hmem
      dsimp only at hmem
      rcases List.mem_append.mp hmem with hm | hm
      · obtain ⟨d1, l1, hc⟩ := pna_hook_perf_calls _ _ _ _ _ _ _ _ _ hp _ hm
        exact absurd hc (by simp)
      · obtain ⟨hf, hk, hd, _⟩ := (pna_hook_monitors_flowmon _ _ _ _ _ _ _ _ _ _ _ _).mp hm
        obtain ⟨a1, a2, _⟩ := pna_decode_some N skb key0 h3
        refine ⟨h1, a1, a2, ⟨key0, h3, ?_⟩, hf⟩
        rw [hk, hd, ← h4]
  · rcases hcases with ⟨_, e | e⟩ | ⟨h1, h2, key0, perf1, calls1, h3, h4, hp, e⟩
    · rw [e]; simp
    · rw [e]; simp
    · rw [e]
      dsimp only
      have hperf := pna_hook_perf_calls _ _ _ _ _ _ _ _ _ hp
      constructor
      · rintro ⟨k, d, x, hmem⟩
        rcases List.mem_append.mp hmem with hm | hm
        · obtain ⟨d1, l1, hc⟩ := hperf _ hm
          exact absurd hc (by simp)
        · obtain ⟨hf, hr, hrt, hk, hd, _⟩ :=
            (pna_hook_monitors_rtmon _ _ _ _ _ _ _ _ _ _ _ _).mp hm
          exact ⟨⟨_, _, _, List.mem_append_right _
            ((pna_hook_monitors_flowmon _ _ _ _ _ _ _ _ _ _ _ _).mpr ⟨hf, rfl, rfl, rfl⟩),
            hr⟩, hrt⟩
      · rintro ⟨⟨k, d, r, hmem, hr⟩, hrt⟩
        rcases List.mem_append.mp hmem with hm | hm
        · obtain ⟨d1, l1, hc⟩ := hperf _ hm
          exact absurd hc (by simp)
        · obtain ⟨hf, hk, hd, hrr⟩ := (pna_hook_monitors_flowmon _ _ _ _ _ _ _ _ _ _ _ _).mp hm
          exact ⟨_, _, _, List.mem_append_right _
            ((pna_hook_monitors_rtmon _ _ _ _ _ _ _ _ _ _ _ _).mpr
              ⟨hf, hrr ▸ hr, hrt, rfl, rfl, rfl⟩)⟩
  · intro h
    rcases pna_hook_reject P N K pna_prefix pna_mask pna_perfmon pna_flowmon pna_rtmon
      PIPELINE_MODE flowmon_hook rtmon_hook st skb R h with e | e <;> rw [e] <;> simp
  · intro key0 h1 h2 h3 h4 hf hp
    have hacc := pna_hook_accept P N K pna_prefix pna_mask pna_perfmon pna_flowmon
      pna_rtmon PIPELINE_MODE flowmon_hook rtmon_hook st skb R key0 h1 h2 h3 h4
    cases hq : pna_hook_perf P K pna_perfmon st.perf
        (pna_localize P pna_prefix pna_mask key0 0).2.2 skb.frame_len R with
    | none => exact absurd hq hp
    | some r =>
      rw [hq] at hacc
      rw [hacc]
      dsimp only
      exact List.mem_append_right _
        ((pna_hook_monitors_flowmon _ _ _ _ _ _ _ _ _ _ _ _).mpr ⟨hf, rfl, rfl, rfl⟩)

/-- An inbound TCP segment of 60 bytes, with the three switches on and a flow
monitor that returns 7: the calls are `pna_perflog`, `flowmon_hook` on the
localized key, `rtmon_hook` with `data = 7`, and `kfree_skb`. The same packet
sent out by this host only sees `kfree_skb`. -/
theorem pna_hook_example :
    (pna_hook example_consts example_net example_perf_kernel 0x0a000000 0xff000000
        true true true false (fun (s : Nat) _ _ _ => ((7 : Int), s + 1))
        (fun s _ _ _ _ => ((0 : Int), s + 10))
        { perf := example_perf, tables := 0 } example_packet example_reading).2.2 =
      [.pna_perflog 1 [perf_line.throughput 3000 2 80 2000 1 80, perf_line.rx_stats 50000 0],
        .flowmon_hook { l3_protocol := 0x0800, l4_protocol := 6, local_ip := 0x0a000001,
                        remote_ip := 0x08080808, local_port := 1000, remote_port := 443 } 1 7,
        .rtmon_hook { l3_protocol := 0x0800, l4_protocol := 6, local_ip := 0x0a000001,
                      remote_ip := 0x08080808, local_port := 1000, remote_port := 443 } 1 7,
        .kfree_skb] ∧
    (pna_hook example_consts example_net example_perf_kernel 0x0a000000 0xff000000
        true true true false (fun (s : Nat) _ _ _ => ((7 : Int), s + 1))
        (fun s _ _ _ _ => ((0 : Int), s + 10))
        { perf := example_perf, tables := 0 } { example_packet with pkt_type := 4 }
        example_reading).2.2 = [.kfree_skb] := by
  constructor <;> rfl

/-! ### The Netfilter hook as written -/

/-- The chain of lines 420 to 483, were it reached, does change the table: on
the empty table the first packet of a flow claims a LIP slot. -/
theorem nf_ses_watch_chain_changes_table :
    (nf_ses_watch_chain example_consts
      { pna_connections := 10, pna_sessions := 10, pna_ports := 10, pna_bytes := 1000,
        pna_packets := 10 } utab_empty [] 0x0a000001 0x08080808 6 1000 443 100 0 1).1.nlips =
      1 := by
  decide

/-- C24. `nf_ses_watch_hook` as written returns `NF_DROP` for every packet
right after its one log statement: whatever its arguments, the table with all
its entries and counters and the alert log come back as they went in, and the
only output is the one printed line. -/
theorem nf_ses_watch_hook_inert {α : Type} (NF_DROP : Nat) (S : pna_settings)
    ( pna_prefix pna_mask : Nat) (info : utab_info) (log : List pna_alert) (args : α) :
    (nf_ses_watch_hook NF_DROP S pna_prefix pna_mask info log args).1 = NF_DROP ∧
    (nf_ses_watch_hook NF_DROP S pna_prefix pna_mask info log args).2.1 = info ∧
    (nf_ses_watch_hook NF_DROP S pna_prefix pna_mask info log args).2.2.1 = log ∧
    (nf_ses_watch_hook NF_DROP S pna_prefix pna_mask info log args).2.2.2 =
      [( pna_prefix, pna_mask, S.pna_connections)] ∧
    (∀ (args2 : α), nf_ses_watch_hook NF_DROP S pna_prefix pna_mask info log args2 =
      nf_ses_watch_hook NF_DROP S pna_prefix pna_mask info log args) :=
  ⟨rfl, rfl, rfl, rfl, fun _ => rfl⟩

/-! ### The probe window -/

theorem range_succ_map_probe_slot (entries hash k : Nat) :
    (List.range (k + 1)).map (probe_slot entries hash) =
      hash :: (List.range k).map (probe_slot entries ((hash + 1) % entries)) := by
  rw [List.range_succ_eq_map, List.map_cons, List.map_map]
  rfl

theorem probe_window_zero (entries hash : Nat) (stop : Nat → Prop) :
    probe_window entries hash 0 stop [] none :=
  ⟨0, le_refl _, rfl, fun j h => absurd h (by omega),
    Or.inl ⟨rfl, fun j h => absurd h (by omega), rfl⟩⟩

theorem probe_window_stop (entries hash n : Nat) (stop : Nat → Prop) (h : stop hash) :
    probe_window entries hash (n + 1) stop [hash] (some hash) :=
  ⟨1, by omega, rfl, fun j hj => absurd hj (by omega), Or.inr ⟨by omega, h, rfl⟩⟩

theorem probe_window_step (entries hash n : Nat) (stop : Nat → Prop) (slots : List Nat)
    (result : Option Nat) (h : ¬ stop hash)
    (hw : probe_window entries ((hash + 1) % entries) n stop slots result) :
    probe_window entries hash (n + 1) stop (hash :: slots) result := by
  obtain ⟨k, hk, hs, hpre, hend⟩ := hw
  refine ⟨k + 1, by omega, ?_, ?_, ?_⟩
  · rw [range_succ_map_probe_slot, hs]
  · intro j hj
    cases j with
    | zero => exact h
    | succ j => exact hpre j (by omega)
  · rcases hend with ⟨e, hall, hr⟩ | ⟨hpos, hst, hr⟩
    · refine Or.inl ⟨by omega, ?_, hr⟩
      intro j hj
      cases j with
      | zero => exact h
      | succ j => exact hall j (by omega)
    · refine Or.inr ⟨by omega, ?_, ?_⟩
      · obtain ⟨k1, rfl⟩ : ∃ k1, k = k1 + 1 := ⟨k - 1, by omega⟩
        exact hst
      · obtain ⟨k1, rfl⟩ : ∃ k1, k = k1 + 1 := ⟨k - 1, by omega⟩
        exact hr

/-- In a probe window the path has at most `limit` slots, each of them one of
the first `limit` slots of the path from `hash`. -/
theorem probe_window_bound (entries hash limit : Nat) (stop : Nat → Prop) (slots : List Nat)
    (result : Option Nat) (hw : probe_window entries hash limit stop slots result) :
    slots.length ≤ limit ∧
    ∀ s ∈ slots, ∃ i, i < limit ∧ s = probe_slot entries hash i := by
  obtain ⟨k, hk, hs, _, _⟩ := hw
  subst hs
  refine ⟨by simp; exact hk, ?_⟩
  intro s hmem
  obtain ⟨i, hi, e⟩ := List.mem_map.mp hmem
  exact ⟨i, by have := List.mem_range.mp hi; omega, e.symm⟩

/-- In a probe window a slot with `stop` behind `i` slots without it is the
result, and the path ends there. -/
theorem probe_window_found (entries hash limit : Nat) (stop : Nat → Prop) (slots : List Nat)
    (result : Option Nat) (hw : probe_window entries hash limit stop slots result)
    (i : Nat) (hi : i < limit) (hpre : ∀ j, j < i → ¬ stop (probe_slot entries hash j))
    (hst : stop (probe_slot entries hash i)) :
    result = some (probe_slot entries hash i) ∧
    slots = (List.range (i + 1)).map (probe_slot entries hash) := by
  obtain ⟨k, hk, hs, hp, hend⟩ := hw
  rcases hend with ⟨_, hall, _⟩ | ⟨hpos, hs2, hr⟩
  · exact absurd hst (hall i hi)
  · have hki : k - 1 = i := by
      by_contra hne
      rcases Nat.lt_or_gt_of_ne hne with hlt | hgt
      · exact hpre (k - 1) hlt hs2
      · exact hp i (by omega) hst
    have hk1 : k = i + 1 := by omega
    rw [hki] at hr
    rw [hk1] at hs
    exact ⟨hr, hs⟩

/-- In a probe window without a slot with `stop` among the first `limit` the
result is `none`, after `limit` slots. -/
theorem probe_window_miss (entries hash limit : Nat) (stop : Nat → Prop) (slots : List Nat)
    (result : Option Nat) (hw : probe_window entries hash limit stop slots result)
    (hall : ∀ j, j < limit → ¬ stop (probe_slot entries hash j)) :
    result = none ∧ slots = (List.range limit).map (probe_slot entries hash) := by
  obtain ⟨k, hk, hs, hp, hend⟩ := hw
  rcases hend with ⟨e, _, hr⟩ | ⟨hpos, hs2, _⟩
  · rw [e] at hs
    exact ⟨hr, hs⟩
  · exact absurd hs2 (hall (k - 1) (by omega))

theorem lip_probe_window (P : pna_consts) (info : utab_info) (local_ip : Nat) :
    ∀ n hash, probe_window P.PNA_LIP_ENTRIES hash n
      (fun s => local_ip = (info.lips s).local_ip ∨ 0 = (info.lips s).local_ip)
      (lip_probe_slots P info local_ip n hash) (lip_probe P info local_ip n hash).1 := by
  intro n
  induction n with
  | zero => intro hash; exact probe_window_zero _ _ _
  | succ n ih =>
    intro hash
    rw [lip_probe_slots, lip_probe]
    by_cases h1 : local_ip = (info.lips hash).local_ip
    · rw [if_pos h1, if_pos h1]
      exact probe_window_stop _ _ _ _ (Or.inl h1)
    · rw [if_neg h1, if_neg h1]
      by_cases h2 : 0 = (info.lips hash).local_ip
      · rw [if_pos h2, if_pos h2]
        exact probe_window_stop _ _ _ _ (Or.inr h2)
      · rw [if_neg h2, if_neg h2]
        exact probe_window_step _ _ _ _ _ _ (fun h => h.elim h1 h2) (ih _)

theorem rip_probe_window (P : pna_consts) (info : utab_info) (lip remote_ip direction : Nat) :
    ∀ n hash, probe_window P.PNA_RIP_ENTRIES hash n
      (fun s => rip_match P info lip remote_ip s ∨ 0 = (info.rips s).remote_ip)
      (rip_probe_slots P info lip remote_ip n hash)
      (rip_probe P info lip remote_ip direction n hash).1 := by
  intro n
  induction n with
  | zero => intro hash; exact probe_window_zero _ _ _
  | succ n ih =>
    intro hash
    rw [rip_probe_slots, rip_probe]
    by_cases h1 : rip_match P info lip remote_ip hash
    · rw [if_pos h1, if_pos h1]
      exact probe_window_stop _ _ _ _ (Or.inl h1)
    · rw [if_neg h1, if_neg h1]
      by_cases h2 : 0 = (info.rips hash).remote_ip
      · rw [if_pos h2, if_pos h2]
        exact probe_window_stop _ _ _ _ (Or.inr h2)
      · rw [if_neg h2, if_neg h2]
        exact probe_window_step _ _ _ _ _ _ (fun h => h.elim h1 h2) (ih _)

theorem port_probe_window (P : pna_consts) (info : utab_info)
    (lip rip proto local_port remote_port length direction now : Nat) :
    ∀ n hash, probe_window P.PNA_PORT_ENTRIES hash n
      (fun s => port_match P info rip proto local_port remote_port s ∨
        0 = ((info.ports proto s).local_port ||| (info.ports proto s).remote_port))
      (port_probe_slots P info rip proto local_port remote_port n hash)
      (port_probe P info lip rip proto local_port remote_port length direction now n hash).1 := by
  intro n
  induction n with
  | zero => intro hash; exact probe_window_zero _ _ _
  | succ n ih =>
    intro hash
    rw [port_probe_slots, port_probe]
    by_cases h1 : port_match P info rip proto local_port remote_port hash
    · rw [if_pos h1, if_pos h1]
      exact probe_window_stop _ _ _ _ (Or.inl h1)
    · rw [if_neg h1, if_neg h1]
      by_cases h2 : 0 = ((info.ports proto hash).local_port |||
          (info.ports proto hash).remote_port)
      · rw [if_pos h2, if_pos h2]
        exact probe_window_stop _ _ _ _ (Or.inr h2)
      · rw [if_neg h2, if_neg h2]
        exact probe_window_step _ _ _ _ _ _ (fun h => h.elim h1 h2) (ih _)

/-- C25. The probe window is `PROBE_LIMIT = 128` slots. Each of
`do_lip_entry`, `do_rip_entry` and `do_port_entry` reads the slots
`probe_slot entries H i` for `i = 0, 1, ..` in this order, where `H` is the
initial hash (`(H + i) % entries` when `H < entries`), up to and including the
first slot that matches or is free, which it returns; it reads at most 128
slots, all among the first 128 of the path. A matching slot at offset 127
behind 127 slots that neither match nor are free is returned; and when none of
the first 128 slots matches or is free the call returns `NULL` after reading
exactly these 128 slots, whatever the rest of the table holds. -/
theorem probe_limit_window (P : pna_consts) (info : utab_info)
    (local_ip direction lip remote_ip rip proto local_port remote_port length now : Nat) :
    PROBE_LIMIT = 128 ∧
    (∀ entries H i, H < entries → probe_slot entries H i = (H + i) % entries) ∧
    (probe_window P.PNA_LIP_ENTRIES (P.hash_long local_ip P.PNA_LIP_BITS) 128
        (fun s => local_ip = (info.lips s).local_ip ∨ 0 = (info.lips s).local_ip)
        (do_lip_entry_slots P info local_ip) (do_lip_entry P info local_ip direction).1 ∧
      (do_lip_entry_slots P info local_ip).length ≤ 128 ∧
      ((∀ j, j < 127 →
          (info.lips (probe_slot P.PNA_LIP_ENTRIES
            (P.hash_long local_ip P.PNA_LIP_BITS) j)).local_ip ≠ local_ip ∧
          (info.lips (probe_slot P.PNA_LIP_ENTRIES
            (P.hash_long local_ip P.PNA_LIP_BITS) j)).local_ip ≠ 0) →
        (info.lips (probe_slot P.PNA_LIP_ENTRIES
          (P.hash_long local_ip P.PNA_LIP_BITS) 127)).local_ip = local_ip →
        (do_lip_entry P info local_ip direction).1 =
          some (probe_slot P.PNA_LIP_ENTRIES (P.hash_long local_ip P.PNA_LIP_BITS) 127)) ∧
      ((∀ j, j < 128 →
          (info.lips (probe_slot P.PNA_LIP_ENTRIES
            (P.hash_long local_ip P.PNA_LIP_BITS) j)).local_ip ≠ local_ip ∧
          (info.lips (probe_slot P.PNA_LIP_ENTRIES
            (P.hash_long local_ip P.PNA_LIP_BITS) j)).local_ip ≠ 0) →
        (do_lip_entry P info local_ip direction).1 = none ∧
        do_lip_entry_slots P info local_ip =
          (List.range 128).map (probe_slot P.PNA_LIP_ENTRIES
            (P.hash_long local_ip P.PNA_LIP_BITS)))) ∧
    (probe_window P.PNA_RIP_ENTRIES
        (P.hash_long ((info.lips lip).local_ip ^^^ remote_ip) P.PNA_RIP_BITS) 128
        (fun s => rip_match P info lip remote_ip s ∨ 0 = (info.rips s).remote_ip)
        (do_rip_entry_slots P info lip remote_ip)
        (do_rip_entry P info lip remote_ip direction).1 ∧
      (do_rip_entry_slots P info lip remote_ip).length ≤ 128 ∧
      ((∀ j, j < 127 →
          ¬ rip_match P info lip remote_ip (probe_slot P.PNA_RIP_ENTRIES
            (P.hash_long ((info.lips lip).local_ip ^^^ remote_ip) P.PNA_RIP_BITS) j) ∧
          (info.rips (probe_slot P.PNA_RIP_ENTRIES
            (P.hash_long ((info.lips lip).local_ip ^^^ remote_ip) P.PNA_RIP_BITS)
              j)).remote_ip ≠ 0) →
        rip_match P info lip remote_ip (probe_slot P.PNA_RIP_ENTRIES
          (P.hash_long ((info.lips lip).local_ip ^^^ remote_ip) P.PNA_RIP_BITS) 127) →
        (do_rip_entry P info lip remote_ip direction).1 =
          some (probe_slot P.PNA_RIP_ENTRIES
            (P.hash_long ((info.lips lip).local_ip ^^^ remote_ip) P.PNA_RIP_BITS) 127)) ∧
      ((∀ j, j < 128 →
          ¬ rip_match P info lip remote_ip (probe_slot P.PNA_RIP_ENTRIES
            (P.hash_long ((info.lips lip).local_ip ^^^ remote_ip) P.PNA_RIP_BITS) j) ∧
          (info.rips (probe_slot P.PNA_RIP_ENTRIES
            (P.hash_long ((info.lips lip).local_ip ^^^ remote_ip) P.PNA_RIP_BITS)
              j)).remote_ip ≠ 0) →
        (do_rip_entry P info lip remote_ip direction).1 = none ∧
        do_rip_entry_slots P info lip remote_ip =
          (List.range 128).map (probe_slot P.PNA_RIP_ENTRIES
            (P.hash_long ((info.lips lip).local_ip ^^^ remote_ip) P.PNA_RIP_BITS)))) ∧
    (probe_window P.PNA_PORT_ENTRIES
        (P.hash_long ((info.rips rip).remote_ip ^^^ ((remote_port <<< 16) ||| local_port))
          P.PNA_PORT_BITS) 128
        (fun s => port_match P info rip proto local_port remote_port s ∨
          0 = ((info.ports proto s).local_port ||| (info.ports proto s).remote_port))
        (do_port_entry_slots P info rip proto local_port remote_port)
        (do_port_entry P info lip rip proto local_port remote_port length direction now).1 ∧
      (do_port_entry_slots P info rip proto local_port remote_port).length ≤ 128 ∧
      ((∀ j, j < 127 →
          ¬ port_match P info rip proto local_port remote_port
            (probe_slot P.PNA_PORT_ENTRIES (P.hash_long ((info.rips rip).remote_ip ^^^
              ((remote_port <<< 16) ||| local_port)) P.PNA_PORT_BITS) j) ∧
          ((info.ports proto (probe_slot P.PNA_PORT_ENTRIES
              (P.hash_long ((info.rips rip).remote_ip ^^^
                ((remote_port <<< 16) ||| local_port)) P.PNA_PORT_BITS) j)).local_port |||
            (info.ports proto (probe_slot P.PNA_PORT_ENTRIES
              (P.hash_long ((info.rips rip).remote_ip ^^^
                ((remote_port <<< 16) ||| local_port)) P.PNA_PORT_BITS) j)).remote_port) ≠ 0) →
        port_match P info rip proto local_port remote_port
          (probe_slot P.PNA_PORT_ENTRIES (P.hash_long ((info.rips rip).remote_ip ^^^
            ((remote_port <<< 16) ||| local_port)) P.PNA_PORT_BITS) 127) →
        (do_port_entry P info lip rip proto local_port remote_port length direction now).1 =
          some (probe_slot P.PNA_PORT_ENTRIES (P.hash_long ((info.rips rip).remote_ip ^^^
            ((remote_port <<< 16) ||| local_port)) P.PNA_PORT_BITS) 127)) ∧
      ((∀ j, j < 128 →
          ¬ port_match P info rip proto local_port remote_port
            (probe_slot P.PNA_PORT_ENTRIES (P.hash_long ((info.rips rip).remote_ip ^^^
              ((remote_port <<< 16) ||| local_port)) P.PNA_PORT_BITS) j) ∧
          ((info.ports proto (probe_slot P.PNA_PORT_ENTRIES
              (P.hash_long ((info.rips rip).remote_ip ^^^
                ((remote_port <<< 16) ||| local_port)) P.PNA_PORT_BITS) j)).local_port |||
            (info.ports proto (probe_slot P.PNA_PORT_ENTRIES
              (P.hash_long ((info.rips rip).remote_ip ^^^
                ((remote_port <<< 16) ||| local_port)) P.PNA_PORT_BITS) j)).remote_port) ≠ 0) →
        (do_port_entry P info lip rip proto local_port remote_port length direction now).1 =
          none ∧
        do_port_entry_slots P info rip proto local_port remote_port =
          (List.range 128).map (probe_slot P.PNA_PORT_ENTRIES
            (P.hash_long ((info.rips rip).remote_ip ^^^
              ((remote_port <<< 16) ||| local_port)) P.PNA_PORT_BITS)))) := by
  have hl := lip_probe_window P info local_ip PROBE_LIMIT (P.hash_long local_ip P.PNA_LIP_BITS)
  have hr := rip_probe_window P info lip remote_ip direction PROBE_LIMIT
    (P.hash_long ((info.lips lip).local_ip ^^^ remote_ip) P.PNA_RIP_BITS)
  have hp := port_probe_window P info lip rip proto local_port remote_port length direction now
    PROBE_LIMIT (P.hash_long ((info.rips rip).remote_ip ^^^
      ((remote_port <<< 16) ||| local_port)) P.PNA_PORT_BITS)
  refine ⟨rfl, fun entries H i h => probe_slot_eq entries H i h,
    ⟨hl, (probe_window_bound _ _ _ _ _ _ hl).1, ?_, ?_⟩,
    ⟨hr, (probe_window_bound _ _ _ _ _ _ hr).1, ?_, ?_⟩,
    ⟨hp, (probe_window_bound _ _ _ _ _ _ hp).1, ?_, ?_⟩⟩
  · intro hpre hm
    exact (probe_window_found _ _ _ _ _ _ hl 127 (by decide)
      (fun j hj h => h.elim (fun e => (hpre j hj).1 e.symm) (fun e => (hpre j hj).2 e.symm))
      (Or.inl hm.symm)).1
  · intro hall
    exact probe_window_miss _ _ _ _ _ _ hl
      (fun j hj h => h.elim (fun e => (hall j hj).1 e.symm) (fun e => (hall j hj).2 e.symm))
  · intro hpre hm
    exact (probe_window_found _ _ _ _ _ _ hr 127 (by decide)
      (fun j hj h => h.elim (fun e => (hpre j hj).1 e) (fun e => (hpre j hj).2 e.symm))
      (Or.inl hm)).1
  · intro hall
    exact probe_window_miss _ _ _ _ _ _ hr
      (fun j hj h => h.elim (fun e => (hall j hj).1 e) (fun e => (hall j hj).2 e.symm))
  · intro hpre hm
    exact (probe_window_found _ _ _ _ _ _ hp 127 (by decide)
      (fun j hj h => h.elim (fun e => (hpre j hj).1 e) (fun e => (hpre j hj).2 e.symm))
      (Or.inl hm)).1
  · intro hall
    exact probe_window_miss _ _ _ _ _ _ hp
      (fun j hj h => h.elim (fun e => (hall j hj).1 e) (fun e => (hall j hj).2 e.symm))

set_option maxRecDepth 100000 in
/-- In a table of 256 slots whose slots 0 to 128 hold the addresses 1 to 129,
all hashed to slot 0: the address 128, at offset 127, is found after reading
the slots 0 to 127; the address 129, at offset 128, is not found, and slot
128 is not among the 128 slots read. -/
theorem probe_window_example :
    (do_lip_entry example_consts_window example_window_table 128 0).1 = some 127 ∧
    do_lip_entry_slots example_consts_window example_window_table 128 = List.range 128 ∧
    (example_window_table.lips 128).local_ip = 129 ∧
    (do_lip_entry example_consts_window example_window_table 129 0).1 = none ∧
    (do_lip_entry example_consts_window example_window_table 129 0).2.nlips_missed = 1 ∧
    do_lip_entry_slots example_consts_window example_window_table 129 = List.range 128 := by
  decide

/-! ### Module initialisation -/

/-- A failure of `flowmon_init` returns its value with nothing torn down, and
with all three steps succeeding the packet hook is registered. -/
theorem pna_init_plain (r_flowmon r_alert r_rtmon : Int) :
    (r_flowmon < 0 → pna_init r_flowmon r_alert r_rtmon = (r_flowmon, [.flowmon_init])) ∧
    (0 ≤ r_flowmon → 0 ≤ r_alert → 0 ≤ r_rtmon →
      pna_init r_flowmon r_alert r_rtmon =
        (r_flowmon,
          [.flowmon_init, .pna_alert_init, .rtmon_init, .dev_get_by_name, .dev_add_pack])) := by
  constructor
  · intro h
    simp [pna_init, h]
  · intro h1 h2 h3
    simp [pna_init, not_lt.mpr h1, not_lt.mpr h2, not_lt.mpr h3]

/-- The calls of `pna_init` when `pna_alert_init` fails, and when `rtmon_init`
fails. -/
theorem pna_init_failure (r_flowmon r_alert r_rtmon : Int) (h1 : 0 ≤ r_flowmon) :
    (r_alert < 0 → pna_init r_flowmon r_alert r_rtmon =
      (-1, [.flowmon_init, .pna_alert_init, .dev_remove_pack, .rtmon_release,
        .pna_alert_cleanup, .flowmon_cleanup])) ∧
    (0 ≤ r_alert → r_rtmon < 0 → pna_init r_flowmon r_alert r_rtmon =
      (-1, [.flowmon_init, .pna_alert_init, .rtmon_init, .pna_alert_cleanup, .dev_remove_pack,
        .rtmon_release, .pna_alert_cleanup, .flowmon_cleanup])) := by
  constructor
  · intro h
    simp [pna_init, not_lt.mpr h1, h, pna_cleanup]
  · intro h2 h3
    simp [pna_init, not_lt.mpr h1, not_lt.mpr h2, h3, pna_cleanup]

/-- C28. With `flowmon_init` succeeding and `pna_alert_init` returning -1,
`pna_init` runs the whole of `pna_cleanup`: it removes the packet hook that
was never registered, releases the real-time monitors that were never
initialised and cleans up the alert system whose initialisation failed,
before `flowmon_cleanup`. With `rtmon_init` returning -1 it calls
`pna_alert_cleanup` twice, and again removes the packet hook that was never
registered. Both return -1. -/
theorem pna_init_unwinds_too_much :
    pna_init 0 (-1) 0 =
      (-1, [.flowmon_init, .pna_alert_init, .dev_remove_pack, .rtmon_release,
        .pna_alert_cleanup, .flowmon_cleanup]) ∧
    init_call.rtmon_init ∉ (pna_init 0 (-1) 0).2 ∧
    init_call.rtmon_release ∈ (pna_init 0 (-1) 0).2 ∧
    init_call.dev_add_pack ∉ (pna_init 0 (-1) 0).2 ∧
    init_call.dev_remove_pack ∈ (pna_init 0 (-1) 0).2 ∧
    pna_init 0 0 (-1) =
      (-1, [.flowmon_init, .pna_alert_init, .rtmon_init, .pna_alert_cleanup, .dev_remove_pack,
        .rtmon_release, .pna_alert_cleanup, .flowmon_cleanup]) ∧
    (pna_init 0 0 (-1)).2.count .pna_alert_cleanup = 2 ∧
    init_call.dev_add_pack ∉ (pna_init 0 0 (-1)).2 ∧
    init_call.dev_remove_pack ∈ (pna_init 0 0 (-1)).2 := by
  decide

/-! ### The inline monitor loop -/

/-- The loop over a registry whose first `NULL` hook comes after the entries
`pre`: every hook of `pre` is called once, in order. -/
theorem rtmon_loop_names {σ κ β : Type} (key : κ) (direction : Nat) (skb : β)
    (stop : pna_rtmon σ κ β) (hstop : stop.hook = none) (post : List (pna_rtmon σ κ β)) :
    ∀ (pre : List (pna_rtmon σ κ β)) (ret : Option Int) (s : σ) (data : Nat)
      (calls : List (rtmon_call κ β)),
      (∀ m ∈ pre, m.hook ≠ none) →
      ∃ r, rtmon_loop key direction skb (pre ++ stop :: post) ret s data calls = some r ∧
        r.2.2.2.map (fun c => c.name) =
          calls.map (fun c => c.name) ++ pre.map (fun m => m.name) ∧
        ∀ c ∈ r.2.2.2, c ∈ calls ∨ (c.key = key ∧ c.direction = direction ∧ c.skb = skb) := by
  intro pre
  induction pre with
  | nil =>
    intro ret s data calls _
    refine ⟨(ret, s, data, calls), ?_, by simp, fun c hc => Or.inl hc⟩
    simp [rtmon_loop, hstop]
  | cons m rest ih =>
    intro ret s data calls hpre
    obtain ⟨hook, hh⟩ : ∃ hook, m.hook = some hook :=
      Option.ne_none_iff_exists'.mp (hpre m (List.mem_cons_self _ _))
    obtain ⟨r, hr, hn, hc⟩ := ih (some (hook s key direction skb data).1)
      (hook s key direction skb data).2.2 (hook s key direction skb data).2.1
      (calls ++ [{ name := m.name, key := key, direction := direction, skb := skb,
                   data := data }])
      (fun x hx => hpre x (List.mem_cons_of_mem _ hx))
    refine ⟨r, ?_, ?_, ?_⟩
    · rw [List.cons_append, rtmon_loop, hh]
      exact hr
    · rw [hn]
      simp
    · intro c hmem
      rcases hc c hmem with h | h
      · rcases List.mem_append.mp h with h1 | h1
        · exact Or.inl h1
        · rw [List.mem_singleton.mp h1]
          exact Or.inr ⟨rfl, rfl, rfl⟩
      · exact Or.inr h

/-- C29. Without `PIPELINE_MODE`, `rtmon_hook` on the registry `monitors`
calls `conmon_hook` and then `lipmon_hook`, once each, and stops at the entry
with the `NULL` hook; both get the same key, direction and buffer, the second
gets the memory and the value of the cell `data` the first left, and
`rtmon_hook` returns 0 whatever the two hooks return. -/
theorem rtmon_hook_inline {σ κ β : Type}
    (conmon_hook lipmon_hook : σ → κ → Nat → β → Nat → Int × Nat × σ)
    (s : σ) (key : κ) (direction : Nat) (skb : β) (data : Nat) :
    rtmon_hook (monitors conmon_hook lipmon_hook) s key direction skb data =
      some (0,
        (lipmon_hook (conmon_hook s key direction skb data).2.2 key direction skb
          (conmon_hook s key direction skb data).2.1).2.2,
        [{ name := "conmon", key := key, direction := direction, skb := skb, data := data },
         { name := "lipmon", key := key, direction := direction, skb := skb,
           data := (conmon_hook s key direction skb data).2.1 }]) :=
  rfl

/-- Two monitors on a counter: the first returns -5 and stores 41 in the
cell, the second returns 9 and sees 41; `rtmon_hook` returns 0. -/
theorem rtmon_hook_example :
    rtmon_hook (monitors (fun (s : Nat) (_ : Nat) _ (_ : Nat) _ => ((-5 : Int), 41, s + 1))
        (fun s _ _ _ data => ((9 : Int), data + 1, s + data))) 0 7 1 3 2 =
      some (0, 42,
        [{ name := "conmon", key := 7, direction := 1, skb := 3, data := 2 },
         { name := "lipmon", key := 7, direction := 1, skb := 3, data := 41 }]) := by
  decide

/-! ### The sizing loop under 32-bit arithmetic -/

/-- The sizing loop from `2 ^ a`: when the exit test fails for the `d` values
`2 ^ a, .., 2 ^ (a + d - 1)` and holds for `2 ^ (a + d) <= 2 ^ 28`, the loop
ends with `2 ^ (a + d)` after `d` doublings, given more than `d` rounds. -/
theorem n_buckets_loop_exit (n_pairs : Nat) :
    ∀ d a fuel, d < fuel → a + d ≤ 28 →
      (∀ c, a ≤ c → c < a + d → 8 * 2 ^ c ≤ n_pairs) → n_pairs < 8 * 2 ^ (a + d) →
      n_buckets_loop fuel (2 ^ a) n_pairs = some (2 ^ (a + d)) := by
  intro d
  induction d with
  | zero =>
    intro a fuel hf ha _ hlt
    obtain ⟨f, rfl⟩ : ∃ f, fuel = f + 1 := ⟨fuel - 1, by omega⟩
    have h8 : (8 * 2 ^ a) % U32 = 8 * 2 ^ a := by
      apply Nat.mod_eq_of_lt
      have : (2 : Nat) ^ a ≤ 2 ^ 28 := Nat.pow_le_pow_right (by decide) (by omega)
      have h28 : (8 : Nat) * 2 ^ 28 < U32 := by decide
      omega
    rw [n_buckets_loop, h8, if_neg (by simpa using hlt)]
    rfl
  | succ d ih =>
    intro a fuel hf ha hpre hlt
    obtain ⟨f, rfl⟩ : ∃ f, fuel = f + 1 := ⟨fuel - 1, by omega⟩
    have h8 : (8 * 2 ^ a) % U32 = 8 * 2 ^ a := by
      apply Nat.mod_eq_of_lt
      have : (2 : Nat) ^ a ≤ 2 ^ 28 := Nat.pow_le_pow_right (by decide) (by omega)
      have h28 : (8 : Nat) * 2 ^ 28 < U32 := by decide
      omega
    have hs : (2 ^ a <<< 1) % U32 = 2 ^ (a + 1) := by
      rw [Nat.shiftLeft_eq, pow_one, ← pow_succ]
      exact Nat.mod_eq_of_lt (show (2 : Nat) ^ (a + 1) < U32 from
        Nat.pow_lt_pow_right (by decide) (by omega))
    rw [n_buckets_loop, h8, if_pos (hpre a (le_refl _) (by omega)), hs]
    have := ih (a + 1) f (by omega) (by omega) (fun c h1 h2 => hpre c (by omega) (by omega))
      (by rw [show a + 1 + d = a + (d + 1) by omega]; exact hlt)
    rw [this, show a + 1 + d = a + (d + 1) by omega]

/-- From `2 ^ 31` pairs on the sizing loop does not end: every test up to
`n_buckets = 2 ^ 28` fails, `8 * 2 ^ 29` wraps to 0, and `n_buckets` itself is
0 after 30 doublings. -/
theorem n_buckets_loop_diverges (n_pairs : Nat) (hn : 2 ^ 31 ≤ n_pairs) :
    ∀ fuel a, a ≤ 29 → n_buckets_loop fuel (2 ^ a) n_pairs = none := by
  intro fuel
  induction fuel with
  | zero => intro a _; rfl
  | succ f ih =>
    intro a ha
    by_cases h29 : a = 29
    · subst h29
      exact n_buckets_loop_high _ _ _ (le_refl _)
    · have h8 : (8 * 2 ^ a) % U32 = 8 * 2 ^ a := by
        apply Nat.mod_eq_of_lt
        have : (2 : Nat) ^ a ≤ 2 ^ 28 := Nat.pow_le_pow_right (by decide) (by omega)
        have h28 : (8 : Nat) * 2 ^ 28 < U32 := by decide
        omega
      have hle : 8 * 2 ^ a ≤ n_pairs := by
        have : (2 : Nat) ^ a ≤ 2 ^ 28 := Nat.pow_le_pow_right (by decide) (by omega)
        have h28 : (8 : Nat) * 2 ^ 28 = 2 ^ 31 := by decide
        omega
      have hs : (2 ^ a <<< 1) % U32 = 2 ^ (a + 1) := by
        rw [Nat.shiftLeft_eq, pow_one, ← pow_succ]
        exact Nat.mod_eq_of_lt (show (2 : Nat) ^ (a + 1) < U32 from
          Nat.pow_lt_pow_right (by decide) (by omega))
      rw [n_buckets_loop, h8, if_pos hle, hs]
      exact ih (a + 1) (by omega)

/-- C32. For every `n_pairs < 2 ^ 31` the doubling loop of `hashmap_create`,
with `n_buckets` and `8 * n_buckets` computed modulo `2 ^ 32`, ends: there is
`b` with `2 <= b <= 28` such that the loop, given more than `b - 2` rounds
(64 in `hashmap_create_entry`), ends with `n_buckets = 2 ^ b <= 2 ^ 28` after
`b - 2` doublings; the product `8 * n_buckets` is below `2 ^ 32` at every
test on the way, the tests before the last fail and the last one succeeds
on the unwrapped product; and `hashmap_create_entry` returns a map with this
`n_buckets`. -/
theorem n_buckets_loop_terminates (n_pairs key_size value_size : Nat)
    (hn : n_pairs < 2 ^ 31) :
    ∃ b, 2 ≤ b ∧ b ≤ 28 ∧
      (∀ fuel, b - 2 < fuel → n_buckets_loop fuel 4 n_pairs = some (2 ^ b)) ∧
      n_buckets_loop 64 4 n_pairs = some (2 ^ b) ∧
      2 ^ b ≤ 2 ^ 28 ∧
      (∀ c, 2 ≤ c → c ≤ b → (8 * 2 ^ c) % U32 = 8 * 2 ^ c) ∧
      (∀ c, 2 ≤ c → c < b → 8 * 2 ^ c ≤ n_pairs) ∧
      n_pairs < 8 * 2 ^ b ∧
      ∃ m, hashmap_create_entry n_pairs key_size value_size = some m ∧ m.n_buckets = 2 ^ b := by
  have hex : ∃ c, 2 ≤ c ∧ n_pairs < 8 * 2 ^ c := ⟨28, by decide, by
    have h28 : (8 : Nat) * 2 ^ 28 = 2 ^ 31 := by decide
    omega⟩
  have hb := Nat.find_spec hex
  have hmin := fun c (hc : c < Nat.find hex) => Nat.find_min hex hc
  have hb28 : Nat.find hex ≤ 28 := Nat.find_min' hex ⟨by decide, by
    have h28 : (8 : Nat) * 2 ^ 28 = 2 ^ 31 := by decide
    omega⟩
  have hpre : ∀ c, 2 ≤ c → c < Nat.find hex → 8 * 2 ^ c ≤ n_pairs := by
    intro c h2 hc
    have := hmin c hc
    by_contra hcon
    exact this ⟨h2, by omega⟩
  have hloop : ∀ fuel, Nat.find hex - 2 < fuel →
      n_buckets_loop fuel 4 n_pairs = some (2 ^ Nat.find hex) := by
    intro fuel hf
    have := n_buckets_loop_exit n_pairs (Nat.find hex - 2) 2 fuel hf (by omega)
      (fun c h1 h2 => hpre c h1 (by omega))
      (by rw [show 2 + (Nat.find hex - 2) = Nat.find hex by omega]; exact hb.2)
    rw [show 2 + (Nat.find hex - 2) = Nat.find hex by omega] at this
    exact this
  refine ⟨Nat.find hex, hb.1, hb28, hloop, hloop 64 (by omega),
    Nat.pow_le_pow_right (by decide) hb28, ?_, hpre, hb.2, ?_⟩
  · intro c _ hc
    apply Nat.mod_eq_of_lt
    have : (2 : Nat) ^ c ≤ 2 ^ 28 := Nat.pow_le_pow_right (by decide) (by omega)
    have h28 : (8 : Nat) * 2 ^ 28 < U32 := by decide
    omega
  · unfold hashmap_create_entry
    rw [hloop 64 (by omega)]
    exact ⟨_, rfl, rfl⟩

theorem n_buckets_loop_terminates_witness :
    (2 ^ 31 - 1 < 2 ^ 31) ∧
    ∃ b, 2 ≤ b ∧ b ≤ 28 ∧
      (∀ fuel, b - 2 < fuel → n_buckets_loop fuel 4 (2 ^ 31 - 1) = some (2 ^ b)) ∧
      n_buckets_loop 64 4 (2 ^ 31 - 1) = some (2 ^ b) ∧
      2 ^ b ≤ 2 ^ 28 ∧
      (∀ c, 2 ≤ c → c ≤ b → (8 * 2 ^ c) % U32 = 8 * 2 ^ c) ∧
      (∀ c, 2 ≤ c → c < b → 8 * 2 ^ c ≤ 2 ^ 31 - 1) ∧
      2 ^ 31 - 1 < 8 * 2 ^ b ∧
      ∃ m, hashmap_create_entry (2 ^ 31 - 1) 8 8 = some m ∧ m.n_buckets = 2 ^ b :=
  ⟨by decide, n_buckets_loop_terminates (2 ^ 31 - 1) 8 8 (by decide)⟩

/-! ### The two localizers -/

/-- Without `prefix & mask == prefix` the two differ: with prefix `10.0.0.1`
and mask `255.0.0.0` the inline classification drops a packet from
`10.0.0.1` that `pna_localize` accepts as outbound. -/
theorem localizers_differ_example :
    nf_ses_watch_localize example_consts 0x0a000001 0xff000000 0x0a000001 0x08080808 1000 443 =
      none ∧
    (pna_localize example_consts 0x0a000001 0xff000000
      { l3_protocol := 0x0800, l4_protocol := 6, local_ip := 0x0a000001,
        remote_ip := 0x08080808, local_port := 1000, remote_port := 443 } 0).1 = 1 := by
  decide

/-- C33. For every prefix and mask with `prefix & mask == prefix` and every
packet: the inline classification of `nf_ses_watch_hook` drops the packet if
and only if `pna_localize` returns 0 on the provisional key (source taken as
local); and when it does not drop, `pna_localize` returns 1 and the two give
the same `local_ip`, `remote_ip`, `local_port`, `remote_port` and
direction. -/
theorem localizers_agree (P : pna_consts) ( pna_prefix pna_mask : Nat)
    (saddr daddr source dest l3 l4 direction : Nat)
    (hp : pna_prefix &&& pna_mask = pna_prefix) :
    (nf_ses_watch_localize P pna_prefix pna_mask saddr daddr source dest = none ↔
      (pna_localize P pna_prefix pna_mask
        { l3_protocol := l3, l4_protocol := l4, local_ip := saddr, remote_ip := daddr,
          local_port := source, remote_port := dest } direction).1 = 0) ∧
    (∀ f, nf_ses_watch_localize P pna_prefix pna_mask saddr daddr source dest = some f →
      pna_localize P pna_prefix pna_mask
        { l3_protocol := l3, l4_protocol := l4, local_ip := saddr, remote_ip := daddr,
          local_port := source, remote_port := dest } direction =
        (1,
          { l3_protocol := l3, l4_protocol := l4, local_ip := f.local_ip,
            remote_ip := f.remote_ip, local_port := f.local_port,
            remote_port := f.remote_port },
          f.direction)) ∧
    ((pna_localize P pna_prefix pna_mask
        { l3_protocol := l3, l4_protocol := l4, local_ip := saddr, remote_ip := daddr,
          local_port := source, remote_port := dest } direction).1 = 1 →
      nf_ses_watch_localize P pna_prefix pna_mask saddr daddr source dest =
        some
          { local_ip := (pna_localize P pna_prefix pna_mask
              { l3_protocol := l3, l4_protocol := l4, local_ip := saddr, remote_ip := daddr,
                local_port := source, remote_port := dest } direction).2.1.local_ip
            remote_ip := (pna_localize P pna_prefix pna_mask
              { l3_protocol := l3, l4_protocol := l4, local_ip := saddr, remote_ip := daddr,
                local_port := source, remote_port := dest } direction).2.1.remote_ip
            local_port := (pna_localize P pna_prefix pna_mask
              { l3_protocol := l3, l4_protocol := l4, local_ip := saddr, remote_ip := daddr,
                local_port := source, remote_port := dest } direction).2.1.local_port
            remote_port := (pna_localize P pna_prefix pna_mask
              { l3_protocol := l3, l4_protocol := l4, local_ip := saddr, remote_ip := daddr,
                local_port := source, remote_port := dest } direction).2.1.remote_port
            direction := (pna_localize P pna_prefix pna_mask
              { l3_protocol := l3, l4_protocol := l4, local_ip := saddr, remote_ip := daddr,
                local_port := source, remote_port := dest } direction).2.2 }) := by
  unfold nf_ses_watch_localize nf_ses_watch_direction pna_localize
  dsimp only
  rw [hp]
  by_cases h1 : saddr &&& pna_mask = pna_prefix
  · simp [h1]
  · by_cases h2 : daddr &&& pna_mask = pna_prefix
    · simp [h1, h2]
    · simp [h1, h2]

theorem localizers_agree_witness :
    (0x0a000000 &&& 0xff000000 = 0x0a000000) ∧
    (nf_ses_watch_localize example_consts 0x0a000000 0xff000000 0x08080808 0x0a000001 443 1000 =
        none ↔
      (pna_localize example_consts 0x0a000000 0xff000000
        { l3_protocol := 0x0800, l4_protocol := 6, local_ip := 0x08080808,
          remote_ip := 0x0a000001, local_port := 443, remote_port := 1000 } 0).1 = 0) ∧
    nf_ses_watch_localize example_consts 0x0a000000 0xff000000 0x08080808 0x0a000001 443 1000 =
      some { local_ip := 0x0a000001, remote_ip := 0x08080808, local_port := 1000,
             remote_port := 443, direction := 1 } ∧
    pna_localize example_consts 0x0a000000 0xff000000
        { l3_protocol := 0x0800, l4_protocol := 6, local_ip := 0x08080808,
          remote_ip := 0x0a000001, local_port := 443, remote_port := 1000 } 0 =
      (1, { l3_protocol := 0x0800, l4_protocol := 6, local_ip := 0x0a000001,
            remote_ip := 0x08080808, local_port := 1000, remote_port := 443 }, 1) :=
  ⟨by decide,
    (localizers_agree example_consts 0x0a000000 0xff000000 0x08080808 0x0a000001 443 1000
      0x0800 6 0 (by decide)).1,
    by decide,
    (localizers_agree example_consts 0x0a000000 0xff000000 0x08080808 0x0a000001 443 1000
      0x0800 6 0 (by decide)).2.1
      { local_ip := 0x0a000001, remote_ip := 0x08080808, local_port := 1000,
        remote_port := 443, direction := 1 } (by decide)⟩

/-! ### The average frame size -/

/-- The counters of direction `d` after a list of counted packets, as long as
neither wraps: the number of packets of that direction is added to
`p_interval[d]` and their frame lengths, with 20 bytes each, to
`B_interval[d]`. -/
theorem perf_counts_exact (d : Nat) :
    ∀ (calls : List (Nat × Nat)) (perf : pna_perf),
      perf.p_interval d + (perf_lengths d calls).length < U32 →
      perf.B_interval d + (perf_lengths d calls).sum + 20 * (perf_lengths d calls).length <
        U32 →
      (perf_counts perf calls).p_interval d =
        perf.p_interval d + (perf_lengths d calls).length ∧
      (perf_counts perf calls).B_interval d =
        perf.B_interval d + (perf_lengths d calls).sum + 20 * (perf_lengths d calls).length := by
  intro calls
  induction calls with
  | nil =>
    intro perf _ _
    simp [perf_counts, perf_lengths]
  | cons c rest ih =>
    intro perf hp hB
    by_cases hc : c.1 = d
    · have hl : perf_lengths d (c :: rest) = c.2 :: perf_lengths d rest := by
        simp [perf_lengths, hc]
      rw [hl] at hp hB ⊢
      simp only [List.length_cons, List.sum_cons] at hp hB ⊢
      have e1 : (perf_count perf c.1 c.2).p_interval d = perf.p_interval d + 1 := by
        simp only [perf_count, upd, hc, if_true]
        exact Nat.mod_eq_of_lt (by omega)
      have e2 : (perf_count perf c.1 c.2).B_interval d = perf.B_interval d + (c.2 + 20) := by
        simp only [perf_count, upd, hc, if_true]
        exact Nat.mod_eq_of_lt (by
          show perf.B_interval d + (c.2 + 20) < U32
          omega)
      obtain ⟨a1, a2⟩ := ih (perf_count perf c.1 c.2) (by rw [e1]; omega) (by rw [e2]; omega)
      rw [perf_counts, a1, a2, e1, e2]
      constructor <;> omega
    · have hl : perf_lengths d (c :: rest) = perf_lengths d rest := by
        simp [perf_lengths, hc]
      rw [hl] at hp hB ⊢
      have hne : ¬ d = c.1 := fun h => hc h.symm
      have e1 : (perf_count perf c.1 c.2).p_interval d = perf.p_interval d := by
        simp only [perf_count, upd, if_neg hne]
      have e2 : (perf_count perf c.1 c.2).B_interval d = perf.B_interval d := by
        simp only [perf_count, upd, if_neg hne]
      obtain ⟨a1, a2⟩ := ih (perf_count perf c.1 c.2) (by rw [e1]; omega) (by rw [e2]; omega)
      rw [perf_counts, a1, a2, e1, e2]
      exact ⟨rfl, rfl⟩

/-- The average of lines 246 to 251 on counters that hold `n` packets and
their lengths `S` with 20 bytes each, below `2 ^ 32`: the subtraction does not
wrap and leaves the floor of `S / n`. -/
theorem perf_avg_mean (n S : Nat) (hn : n ≠ 0) (hS : S + 20 * n < U32) :
    ETH_OVERHEAD ≤ (S + 20 * n) / n ∧
    perf_avg n (S + 20 * n) = (S + 20 * n) / n - ETH_OVERHEAD ∧
    perf_avg n (S + 20 * n) = S / n := by
  have hpos : 0 < n := Nat.pos_of_ne_zero hn
  have hdiv : (S + 20 * n) / n = S / n + 20 := by
    rw [Nat.add_mul_div_right S 20 hpos]
  have hle : S / n ≤ S := Nat.div_le_self S n
  have h20 : ETH_OVERHEAD = 20 := rfl
  have hU : U32 = 4294967296 := rfl
  have havg : perf_avg n (S + 20 * n) = S / n := by
    unfold perf_avg
    rw [if_pos hn, hdiv, h20]
    generalize S / n = q at hle ⊢
    rw [show q + 20 + U32 - 20 = q + U32 by omega, Nat.add_mod_right]
    exact Nat.mod_eq_of_lt (by omega)
  refine ⟨?_, ?_, havg⟩
  · rw [hdiv, h20]
    exact Nat.le_add_left _ _
  · rw [havg, hdiv, h20]
    exact (Nat.add_sub_cancel (S / n) 20).symm

/-- A sampling call leaves the four counters zero before the packet is
counted, and sets the deadline. -/
theorem perf_sample_fields (P : pna_consts) (K : perf_kernel) (perf : pna_perf)
    (R : perf_reading) (perf1 : pna_perf) (lines : List perf_line)
    (h : perf_sample P K perf R = some (perf1, lines)) :
    perf1.p_interval P.PNA_DIR_INBOUND = 0 ∧ perf1.B_interval P.PNA_DIR_INBOUND = 0 ∧
    perf1.p_interval P.PNA_DIR_OUTBOUND = 0 ∧ perf1.B_interval P.PNA_DIR_OUTBOUND = 0 ∧
    perf1.t_jiffies =
      (K.msecs_to_jiffies (PERF_INTERVAL * K.MSEC_PER_SEC) + R.jiffies_set) % U64 := by
  unfold perf_sample at h
  dsimp only at h
  split at h
  · exact absurd h (by simp)
  · simp only [Option.some.injEq, Prod.mk.injEq] at h
    obtain ⟨h1, _⟩ := h
    subst h1
    refine ⟨?_, ?_, ?_, ?_, rfl⟩ <;> simp [upd]

theorem perf_sample_some (P : pna_consts) (K : perf_kernel) (perf : pna_perf)
    (R : perf_reading)
    (ht : ((R.now.tv_sec - perf.prevtime.tv_sec) % (U32 : Int)).toNat ≠ 0) :
    ∃ r, perf_sample P K perf R = some r := by
  unfold perf_sample
  dsimp only
  rw [if_neg ht]
  exact ⟨_, rfl⟩

theorem perf_counts_t_jiffies (calls : List (Nat × Nat)) :
    ∀ perf : pna_perf, (perf_counts perf calls).t_jiffies = perf.t_jiffies := by
  induction calls with
  | nil => intro perf; rfl
  | cons c rest ih =>
    intro perf
    rw [perf_counts, ih]
    rfl

/-- A run of calls none of which reaches the deadline only counts the
packets and prints nothing. -/
theorem pna_perflog_run_quiet (P : pna_consts) (K : perf_kernel) :
    ∀ (rest : List (Nat × Nat × perf_reading)) (perf : pna_perf),
      (∀ c ∈ rest, time_after_eq64 c.2.2.jiffies_test perf.t_jiffies = false) →
      pna_perflog_run P K perf rest =
        some (perf_counts perf (rest.map (fun c => (c.1, c.2.1))), []) := by
  intro rest
  induction rest with
  | nil => intro perf _; rfl
  | cons c rest ih =>
    intro perf hq
    have hc := hq c (List.mem_cons_self _ _)
    have h1 : pna_perflog P K perf c.1 c.2.1 c.2.2 = some (perf_count perf c.1 c.2.1, []) := by
      unfold pna_perflog
      rw [hc]
      rfl
    have h2 := ih (perf_count perf c.1 c.2.1)
      (fun x hx => hq x (List.mem_cons_of_mem _ hx))
    rw [pna_perflog_run, h1]
    dsimp only
    rw [h2]
    rfl

/-- C34. A run of `pna_perflog` calls that starts with a sampling call (the
reset of the counters) and goes on with calls before the next deadline
returns, and leaves in the counters of a direction `d` what it accumulated:
as long as the sum of the frame lengths of direction `d`, with 20 bytes each,
stays below `2 ^ 32`, `p_interval[d]` is the number of these frames and
`B_interval[d]` that sum, so `B_interval[d] >= 20 * p_interval[d]`; for
`p_interval[d] != 0` the quotient `B_interval[d] / p_interval[d]` is at least
`ETH_OVERHEAD = 20`, the `__u32` average `B / p - ETH_OVERHEAD` does not wrap
and is the floor of the mean frame length; for `p_interval[d] == 0` the
average is 0, whatever `B_interval[d]` holds. -/
theorem perf_avg_no_underflow (P : pna_consts) (K : perf_kernel) (perf : pna_perf) (d : Nat)
    (first : Nat × Nat × perf_reading) (rest : List (Nat × Nat × perf_reading))
    (hd : d = P.PNA_DIR_INBOUND ∨ d = P.PNA_DIR_OUTBOUND)
    (hs : time_after_eq64 first.2.2.jiffies_test perf.t_jiffies = true)
    (ht : ((first.2.2.now.tv_sec - perf.prevtime.tv_sec) % (U32 : Int)).toNat ≠ 0)
    (hq : ∀ c ∈ rest, time_after_eq64 c.2.2.jiffies_test
      ((K.msecs_to_jiffies (PERF_INTERVAL * K.MSEC_PER_SEC) + first.2.2.jiffies_set) % U64) =
        false)
    (hw : (perf_lengths d ((first :: rest).map (fun c => (c.1, c.2.1)))).sum +
      20 * (perf_lengths d ((first :: rest).map (fun c => (c.1, c.2.1)))).length < U32) :
    ∃ perf1 lines, pna_perflog_run P K perf (first :: rest) = some (perf1, lines) ∧
      perf1.p_interval d =
        (perf_lengths d ((first :: rest).map (fun c => (c.1, c.2.1)))).length ∧
      perf1.B_interval d =
        (perf_lengths d ((first :: rest).map (fun c => (c.1, c.2.1)))).sum +
          20 * (perf_lengths d ((first :: rest).map (fun c => (c.1, c.2.1)))).length ∧
      ETH_OVERHEAD * perf1.p_interval d ≤ perf1.B_interval d ∧
      (perf1.p_interval d ≠ 0 →
        ETH_OVERHEAD ≤ perf1.B_interval d / perf1.p_interval d ∧
        perf_avg (perf1.p_interval d) (perf1.B_interval d) =
          perf1.B_interval d / perf1.p_interval d - ETH_OVERHEAD ∧
        perf_avg (perf1.p_interval d) (perf1.B_interval d) =
          (perf_lengths d ((first :: rest).map (fun c => (c.1, c.2.1)))).sum /
            (perf_lengths d ((first :: rest).map (fun c => (c.1, c.2.1)))).length) ∧
      (perf1.p_interval d = 0 → ∀ B, perf_avg (perf1.p_interval d) B = 0) := by
  obtain ⟨r, hr⟩ := perf_sample_some P K perf first.2.2 ht
  obtain ⟨perf_r, lines⟩ := r
  obtain ⟨z1, z2, z3, z4, hdl⟩ := perf_sample_fields P K perf first.2.2 perf_r lines hr
  have hzero : perf_r.p_interval d = 0 ∧ perf_r.B_interval d = 0 := by
    rcases hd with hd | hd <;> subst hd
    · exact ⟨z1, z2⟩
    · exact ⟨z3, z4⟩
  have hfirst : pna_perflog P K perf first.1 first.2.1 first.2.2 =
      some (perf_count perf_r first.1 first.2.1, lines) := by
    unfold pna_perflog
    rw [hs, if_pos rfl, hr]
  have hrest := pna_perflog_run_quiet P K rest (perf_count perf_r first.1 first.2.1)
    (by
      intro c hc
      have : (perf_count perf_r first.1 first.2.1).t_jiffies = perf_r.t_jiffies := rfl
      rw [this, hdl]
      exact hq c hc)
  have hrun : pna_perflog_run P K perf (first :: rest) =
      some (perf_counts perf_r ((first :: rest).map (fun c => (c.1, c.2.1))), lines) := by
    rw [pna_perflog_run, hfirst]
    dsimp only
    rw [hrest]
    simp [perf_counts]
  have hlen : (perf_lengths d ((first :: rest).map (fun c => (c.1, c.2.1)))).length < U32 := by
    omega
  obtain ⟨e1, e2⟩ := perf_counts_exact d ((first :: rest).map (fun c => (c.1, c.2.1))) perf_r
    (by rw [hzero.1]; omega) (by rw [hzero.2]; omega)
  rw [hzero.1, Nat.zero_add] at e1
  rw [hzero.2, Nat.zero_add] at e2
  refine ⟨_, lines, hrun, e1, e2, ?_, ?_, ?_⟩
  · rw [e1, e2]
    have h20 : ETH_OVERHEAD = 20 := rfl
    rw [h20]
    omega
  · intro hne
    rw [e1] at hne
    rw [e1, e2]
    exact perf_avg_mean _ _ hne hw
  · intro hz B
    rw [hz]
    rfl

theorem perf_avg_no_underflow_witness :
    ∃ perf1 lines,
      pna_perflog_run example_consts example_perf_kernel example_perf example_perf_calls =
        some (perf1, lines) ∧
      perf1.p_interval 1 = 2 ∧ perf1.B_interval 1 = 201 ∧
      perf_avg (perf1.p_interval 1) (perf1.B_interval 1) = 80 := by
  obtain ⟨perf1, lines, h1, h2, h3, _, h5, _⟩ :=
    perf_avg_no_underflow example_consts example_perf_kernel example_perf 1
      (1, 60, example_reading)
      [(1, 101, example_reading_quiet), (0, 1500, example_reading_quiet)]
      (Or.inl rfl) (by decide) (by decide) (by decide) (by decide)
  have e2 : perf1.p_interval 1 = 2 := h2
  have e3 : perf1.B_interval 1 = 201 := h3
  refine ⟨perf1, lines, h1, e2, e3, ?_⟩
  rw [(h5 (by rw [e2]; decide)).2.2]
  decide

/-! ### Exclusive ownership of RIP slots -/

theorem rip_exclusive_step (P : pna_consts) (hB : bitmap_fits_int P) (info : utab_info)
    (claimer : Nat → Option Nat)
    (c : utab_call) (hnz : ip_nonzero c) (hinv : rip_exclusive P info claimer) :
    rip_exclusive P (utab_step P info c).2 (rip_claim_step P info c claimer) := by
  cases c with
  | lip local_ip direction =>
    obtain ⟨hr, _, hd⟩ := lip_probe_frame P info local_ip PROBE_LIMIT
      (P.hash_long local_ip P.PNA_LIP_BITS)
    constructor
    · intro L h
      simp only [utab_step, do_lip_entry, rip_claim_step]
      rw [hd]
      exact hinv.bits L h
    · intro h
      simp only [utab_step, do_lip_entry, rip_claim_step]
      rw [hr]
      exact hinv.occupied h
  | port lip rip proto local_port remote_port length direction now =>
    obtain ⟨hr, hd⟩ := port_probe_frame P info lip rip proto local_port remote_port length
      direction now PROBE_LIMIT
      (P.hash_long ((info.rips rip).remote_ip ^^^ ((remote_port <<< 16) ||| local_port))
        P.PNA_PORT_BITS)
    constructor
    · intro L h
      simp only [utab_step, do_port_entry, rip_claim_step]
      rw [hd]
      exact hinv.bits L h
    · intro h
      simp only [utab_step, do_port_entry, rip_claim_step]
      rw [hr]
      exact hinv.occupied h
  | rip lip remote_ip direction =>
    have hr0 : remote_ip ≠ 0 := hnz
    simp only [utab_step, rip_claim_step]
    unfold do_rip_entry
    rcases rip_probe_cases P info lip remote_ip direction PROBE_LIMIT
        (P.hash_long ((info.lips lip).local_ip ^^^ remote_ip) P.PNA_RIP_BITS)
      with ⟨j, _, _, hm, hr⟩ | ⟨j, _, _, _, hf, hr⟩ | ⟨_, hr⟩
    · rw [hr]
      dsimp only
      have hcl := (hinv.bits lip _).mp hm.2
      have hocc := (hinv.occupied _).mpr (by rw [hcl]; simp)
      rw [if_neg hocc]
      constructor
      · intro L h
        rw [rip_matched_dsts]
        exact hinv.bits L h
      · intro h
        rw [rip_matched_remote_ip]
        exact hinv.occupied h
    · rw [hr]
      dsimp only
      rw [if_pos hf]
      have hnone : claimer (probe_slot P.PNA_RIP_ENTRIES
          (P.hash_long ((info.lips lip).local_ip ^^^ remote_ip) P.PNA_RIP_BITS) j) = none := by
        by_contra hne
        exact (hinv.occupied _).mpr hne hf
      generalize probe_slot P.PNA_RIP_ENTRIES
          (P.hash_long ((info.lips lip).local_ip ^^^ remote_ip) P.PNA_RIP_BITS) j = s
        at hf hnone ⊢
      constructor
      · intro L h
        rw [rip_claimed_dsts]
        by_cases hs : h = s
        · subst hs
          rw [upd_same]
          by_cases hL : L = lip
          · subst hL
            rw [if_pos ⟨rfl, rfl⟩]
            exact ⟨fun _ => rfl, fun _ => slot_bit_set P _ h⟩
          · rw [if_neg (fun hc => hL hc.1)]
            constructor
            · intro hb
              have := (hinv.bits L h).mp hb
              rw [hnone] at this
              exact absurd this (by simp)
            · intro he
              exact absurd (Option.some.inj he).symm hL
        · rw [upd_other _ _ _ _ hs]
          by_cases hc : L = lip ∧ h / P.BITMAP_BITS = s / P.BITMAP_BITS
          · rw [if_pos hc]
            obtain ⟨hL, hw⟩ := hc
            subst hL
            have hmod : h % P.BITMAP_BITS ≠ s % P.BITMAP_BITS :=
              fun hm => hs (div_mod_inj _ _ _ hw hm)
            rw [slot_bit_other P _ h s hB hmod]
            exact hinv.bits L h
          · rw [if_neg hc]
            exact hinv.bits L h
      · intro h
        rw [rip_claimed_remote_ip]
        by_cases hs : h = s
        · subst hs
          rw [if_pos rfl, upd_same]
          exact ⟨fun _ => by simp, fun _ => hr0⟩
        · rw [if_neg hs, upd_other _ _ _ _ hs]
          exact hinv.occupied h
    · rw [hr]
      dsimp only
      exact ⟨fun L h => hinv.bits L h, fun h => hinv.occupied h⟩

theorem rip_exclusive_run (P : pna_consts) (hB : bitmap_fits_int P) :
    ∀ (calls : List utab_call) (info : utab_info) (claimer : Nat → Option Nat),
      (∀ c ∈ calls, ip_nonzero c) → rip_exclusive P info claimer →
      rip_exclusive P (utab_run P info calls) (rip_claimers P info claimer calls) := by
  intro calls
  induction calls with
  | nil => intro info claimer _ hinv; exact hinv
  | cons c rest ih =>
    intro info claimer hnz hinv
    exact ih _ _ (fun x hx => hnz x (List.mem_cons_of_mem _ hx))
      (rip_exclusive_step P hB info claimer c (hnz c (List.mem_cons_self _ _)) hinv)

theorem rip_exclusive_empty (P : pna_consts) : rip_exclusive P utab_empty (fun _ => none) := by
  constructor
  · intro L h
    simp [utab_empty]
  · intro h
    simp [utab_empty]

/-- One call leaves the `remote_ip` and the claimer of an occupied RIP slot
as they are. -/
theorem rip_occupied_step (P : pna_consts) (info : utab_info) (claimer : Nat → Option Nat)
    (c : utab_call) (h : Nat) (hocc : (info.rips h).remote_ip ≠ 0) :
    ((utab_step P info c).2.rips h).remote_ip = (info.rips h).remote_ip ∧
    rip_claim_step P info c claimer h = claimer h := by
  cases c with
  | lip local_ip direction =>
    obtain ⟨hr, _, _⟩ := lip_probe_frame P info local_ip PROBE_LIMIT
      (P.hash_long local_ip P.PNA_LIP_BITS)
    simp only [utab_step, do_lip_entry, rip_claim_step]
    rw [hr]
    constructor <;> first | rfl | trivial
  | port lip rip proto local_port remote_port length direction now =>
    obtain ⟨hr, _⟩ := port_probe_frame P info lip rip proto local_port remote_port length
      direction now PROBE_LIMIT
      (P.hash_long ((info.rips rip).remote_ip ^^^ ((remote_port <<< 16) ||| local_port))
        P.PNA_PORT_BITS)
    simp only [utab_step, do_port_entry, rip_claim_step]
    rw [hr]
    constructor <;> first | rfl | trivial
  | rip lip remote_ip direction =>
    simp only [utab_step, rip_claim_step]
    unfold do_rip_entry
    rcases rip_probe_cases P info lip remote_ip direction PROBE_LIMIT
        (P.hash_long ((info.lips lip).local_ip ^^^ remote_ip) P.PNA_RIP_BITS)
      with ⟨j, _, _, hm, hr⟩ | ⟨j, _, _, _, hf, hr⟩ | ⟨_, hr⟩
    · rw [hr]
      dsimp only
      rw [rip_matched_remote_ip]
      refine ⟨rfl, ?_⟩
      split
      · rename_i hz
        exact upd_other _ _ _ _ (fun e => hocc (e ▸ hz))
      · rfl
    · rw [hr]
      dsimp only
      rw [rip_claimed_remote_ip, if_pos hf]
      have hs : h ≠ probe_slot P.PNA_RIP_ENTRIES
          (P.hash_long ((info.lips lip).local_ip ^^^ remote_ip) P.PNA_RIP_BITS) j :=
        fun e => hocc (e ▸ hf)
      rw [if_neg hs]
      exact ⟨rfl, upd_other _ _ _ _ hs⟩
    · rw [hr]
      exact ⟨rfl, rfl⟩

theorem rip_occupied_run (P : pna_consts) (h : Nat) :
    ∀ (calls : List utab_call) (info : utab_info) (claimer : Nat → Option Nat),
      (info.rips h).remote_ip ≠ 0 →
      ((utab_run P info calls).rips h).remote_ip = (info.rips h).remote_ip ∧
      rip_claimers P info claimer calls h = claimer h := by
  intro calls
  induction calls with
  | nil => intro info claimer _; exact ⟨rfl, rfl⟩
  | cons c rest ih =>
    intro info claimer hocc
    obtain ⟨e1, e2⟩ := rip_occupied_step P info claimer c h hocc
    obtain ⟨a1, a2⟩ := ih (utab_step P info c).2 (rip_claim_step P info c claimer)
      (by rw [e1]; exact hocc)
    rw [utab_run, rip_claimers, a1, a2, e1, e2]
    exact ⟨rfl, rfl⟩

/-- With a remote address 0 the property fails: the call claims slot 0 for the
address 0, so the slot still counts as free while its bit is set in the
bitmap of LIP entry 10. -/
theorem rip_zero_remote_example :
    (do_rip_entry example_consts utab_empty 10 0 0).1 = some 0 ∧
    ((do_rip_entry example_consts utab_empty 10 0 0).2.rips 0).remote_ip = 0 ∧
    0 ≠ (((do_rip_entry example_consts utab_empty 10 0 0).2.lips 10).dsts
      (0 / example_consts.BITMAP_BITS) &&& slot_bit example_consts 0) := by
  decide

/-- Exclusive ownership where a bitmap word is no wider than an `int`
(`0 < BITMAP_BITS <= 32`). In every table reached from the empty table by
`do_lip_entry`, `do_rip_entry` (and `do_port_entry`) calls whose IP arguments
are nonzero: every occupied RIP slot `h` has a claimer `L`, the LIP entry
whose `do_rip_entry` call claimed it, and the bit of `h` is set in the `dsts`
bitmap of `L` and of no other LIP entry; no free RIP slot has its bit set in
any LIP entry; whatever calls follow, an occupied slot keeps its `remote_ip`
and its claimer; and a slot that `do_rip_entry(L, r, d)` returns for `r != 0`
was either free before the call or was claimed by `L` and holds `r`. -/
theorem rip_exclusive_ownership (P : pna_consts) (calls : List utab_call)
    (hB : bitmap_fits_int P) (hnz : ∀ c ∈ calls, ip_nonzero c) :
    (∀ h, ((utab_run P utab_empty calls).rips h).remote_ip ≠ 0 →
      ∃ L, rip_claimers P utab_empty (fun _ => none) calls h = some L ∧
        ∀ L2, (0 ≠ (((utab_run P utab_empty calls).lips L2).dsts (h / P.BITMAP_BITS) &&&
          slot_bit P h) ↔ L2 = L)) ∧
    (∀ h, ((utab_run P utab_empty calls).rips h).remote_ip = 0 →
      ∀ L, ((utab_run P utab_empty calls).lips L).dsts (h / P.BITMAP_BITS) &&&
        slot_bit P h = 0) ∧
    (∀ (more : List utab_call) (h : Nat),
      ((utab_run P utab_empty calls).rips h).remote_ip ≠ 0 →
      ((utab_run P (utab_run P utab_empty calls) more).rips h).remote_ip =
        ((utab_run P utab_empty calls).rips h).remote_ip ∧
      rip_claimers P (utab_run P utab_empty calls)
        (rip_claimers P utab_empty (fun _ => none) calls) more h =
        rip_claimers P utab_empty (fun _ => none) calls h) ∧
    (∀ lip r d h, r ≠ 0 →
      (do_rip_entry P (utab_run P utab_empty calls) lip r d).1 = some h →
      ((utab_run P utab_empty calls).rips h).remote_ip = 0 ∨
      (((utab_run P utab_empty calls).rips h).remote_ip = r ∧
        rip_claimers P utab_empty (fun _ => none) calls h = some lip)) := by
  have hinv := rip_exclusive_run P hB calls utab_empty (fun _ => none) hnz
    (rip_exclusive_empty P)
  refine ⟨?_, ?_, ?_, ?_⟩
  · intro h hocc
    have hne := (hinv.occupied h).mp hocc
    obtain ⟨L, hL⟩ := Option.ne_none_iff_exists'.mp hne
    refine ⟨L, hL, fun L2 => ?_⟩
    rw [hinv.bits L2 h, hL]
    exact ⟨fun e => (Option.some.inj e).symm, fun e => by rw [e]⟩
  · intro h hfree L
    by_contra hne
    have hb : 0 ≠ (((utab_run P utab_empty calls).lips L).dsts (h / P.BITMAP_BITS) &&&
        slot_bit P h) := fun e => hne e.symm
    have hcl := (hinv.bits L h).mp hb
    exact (hinv.occupied h).mpr (by rw [hcl]; simp) hfree
  · intro more h hocc
    exact rip_occupied_run P h more _ _ hocc
  · intro lip r d h hr0 hret
    unfold do_rip_entry at hret
    rcases rip_probe_cases P (utab_run P utab_empty calls) lip r d PROBE_LIMIT
        (P.hash_long (((utab_run P utab_empty calls).lips lip).local_ip ^^^ r) P.PNA_RIP_BITS)
      with ⟨j, _, _, hm, hr⟩ | ⟨j, _, _, _, hf, hr⟩ | ⟨_, hr⟩
    · rw [hr] at hret
      simp only [Option.some.injEq] at hret
      subst hret
      exact Or.inr ⟨hm.1.symm, (hinv.bits lip _).mp hm.2⟩
    · rw [hr] at hret
      simp only [Option.some.injEq] at hret
      subst hret
      exact Or.inl hf
    · rw [hr] at hret
      simp at hret

theorem rip_exclusive_ownership_witness :
    (∀ c ∈ example_rip_calls, ip_nonzero c) ∧
    ((utab_run example_consts utab_empty example_rip_calls).rips 4).remote_ip = 0x08080808 ∧
    ∃ L, rip_claimers example_consts utab_empty (fun _ => none) example_rip_calls 4 = some L ∧
      ∀ L2, (0 ≠ (((utab_run example_consts utab_empty example_rip_calls).lips L2).dsts
        (4 / example_consts.BITMAP_BITS) &&& slot_bit example_consts 4) ↔ L2 = L) :=
  ⟨by decide, by decide,
    (rip_exclusive_ownership example_consts example_rip_calls (by decide) (by decide)).1 4
      (by decide)⟩

/-- C31 (the code at the failing input). A build whose bitmap word has 64
bits, on the empty table. `10.0.0.201` (LIP slot 57) sends to `8.8.8.8` and
claims RIP slot 8; `10.0.0.57` (LIP slot 58) sends to `8.8.0.38` and claims
RIP slot 40, for which the `int` shift `1 << 40` sets bit 8 of word 0 of its
bitmap. Both occupied slots have a claimer, yet bit 8 of word 0 is now set in
the bitmaps of both LIP entries and bit 40 in none. The first packet of
`10.0.0.57` to `8.8.8.8` hashes to slot 8, finds `8.8.8.8` there and its own
bit 8 set: `do_rip_entry` returns slot 8, which the other LIP entry
claimed, and counts no new destination RIP entry (`nrips` stays 2). -/
theorem rip_slot_shared_wide_word :
    (∀ c ∈ example_wide_calls, ip_nonzero c) ∧
    ((utab_run example_consts64 utab_empty example_wide_calls).lips 57).local_ip = 0x0a0000c9 ∧
    ((utab_run example_consts64 utab_empty example_wide_calls).lips 58).local_ip = 0x0a000039 ∧
    ((utab_run example_consts64 utab_empty example_wide_calls).rips 8).remote_ip = 0x08080808 ∧
    rip_claimers example_consts64 utab_empty (fun _ => none) example_wide_calls 8 = some 57 ∧
    ((utab_run example_consts64 utab_empty example_wide_calls).rips 40).remote_ip = 0x08080026 ∧
    rip_claimers example_consts64 utab_empty (fun _ => none) example_wide_calls 40 = some 58 ∧
    ((utab_run example_consts64 utab_empty example_wide_calls).lips 57).dsts 0 = 0x100 ∧
    ((utab_run example_consts64 utab_empty example_wide_calls).lips 58).dsts 0 = 0x100 ∧
    (do_rip_entry example_consts64 (utab_run example_consts64 utab_empty example_wide_calls)
      58 0x08080808 0).1 = some 8 ∧
    (do_rip_entry example_consts64 (utab_run example_consts64 utab_empty example_wide_calls)
      58 0x08080808 0).2.nrips = 2 := by
  decide

end PNA
